import Mathlib

/-!
# aws-cni-plugins: the imds-ipam reservation store and allocator

A shallow embedding of `imds-ipam/store.go`, `imds-ipam/allocator.go` and
`imds-ipam/checkpoint.go`, with the properties of the address allocator and
of its reservation store proved over it.

Conventions of the embedding:

* a Go slice is a `List`; a Go `string` is a `String`; a byte is a `Nat`;
* a Go `error` value is an `Option Error` (`none` is `nil`);
* a method with a pointer receiver returns the new receiver next to its
  result (explicit state passing);
* functions of Go's standard library and of the metadata client
  (`internal/metadata`) are parameters of the definitions that call them.
-/

namespace IMDSIpam

/-! ## Data model -/

/-- Go's `net.IP`: a slice of bytes. -/
abbrev IP := List Nat

/-- Go's `net.IPMask`: a slice of bytes. -/
abbrev IPMask := List Nat

/-- Go's `net.IPNet`. -/
structure IPNet where
  IP : IP
  Mask : IPMask
deriving DecidableEq, Repr

/-- The error values the allocator and the store deal with:
`ErrAlreadyReserved` is the package variable of `store.go`, `Errorf msg` is a
fresh `fmt.Errorf(msg)` value, `Metadata msg` is an error handed back by the
metadata client, `NotExist path` is the error of opening a file that is not
there (the one for which `os.IsNotExist` holds), `System msg` is another error
of the operating system, and `Decode msg` is an error of the JSON decoder. -/
inductive Error where
  | ErrAlreadyReserved
  | Errorf (msg : String)
  | Metadata (msg : String)
  | NotExist (path : String)
  | System (msg : String)
  | Decode (msg : String)
deriving DecidableEq, Repr

/-- The text of an error, Go's `err.Error()`. -/
def Error.message : Error → String
  | .ErrAlreadyReserved => "IP is already allocated"
  | .Errorf msg => msg
  | .Metadata msg => msg
  | .NotExist path => "open " ++ path ++ ": no such file or directory"
  | .System msg => msg
  | .Decode msg => msg

/-- Go's `os.IsNotExist`. -/
def IsNotExist : Error → Bool
  | .NotExist _ => true
  | _ => false

/-- The `StoreRow` of `store.go`: the IP is kept in its string form. -/
structure StoreRow where
  ID : String
  IfName : String
  IP : String
deriving DecidableEq, Repr

/-- The `JSONFile` checkpointer of `checkpoint.go`. -/
structure JSONFile where
  path : String
deriving DecidableEq, Repr

/-- The `Store` of `store.go`. `lockFile` is the path of the open lock file,
`none` when the Go field is `nil`. -/
structure Store where
  dir : String
  data : List StoreRow
  checkpointer : JSONFile
  lockFile : Option String
deriving DecidableEq, Repr

/-- Go's `filepath.Join` on two non-empty, clean elements. -/
def filepathJoin (dir name : String) : String :=
  dir ++ "/" ++ name

/-- The constant `storefile` of `store.go`. -/
def storefile : String := "data.json"

/-- The constant `lockfile` of `store.go`. -/
def lockfile : String := "lock"

/-- The constructor `NewJSONFile` of `checkpoint.go`. -/
def NewJSONFile (path : String) : JSONFile :=
  { path := path }

/-- The constructor `NewStore` of `store.go`: no rows, no lock held. -/
def NewStore (dir : String) : Store :=
  { dir := dir, data := [], checkpointer := NewJSONFile (filepathJoin dir storefile),
    lockFile := none }

/-! ## The reservation store (`store.go`) -/

/-- The scan of `Store.ReserveIP`: does some row already hold `ipstr`? -/
def Store.holdsIP (s : Store) (ipstr : String) : Bool :=
  s.data.any (fun row => row.IP == ipstr)

/-- `Store.ReserveIP` of `store.go`. `str` is `net.IP.String`. The result is
the returned error and the store after the call. -/
def Store.ReserveIP (str : IP → String) (s : Store) (id ifname : String) (ip : IP) :
    Option Error × Store :=
  let ipstr := str ip
  if s.holdsIP ipstr then
    (some Error.ErrAlreadyReserved, s)
  else
    (none, { s with data := s.data ++ [{ ID := id, IfName := ifname, IP := ipstr }] })

/-- `Store.FindByID` of `store.go`. `parse` is `net.ParseIP`; the Go function
returns a pointer, `none` is the `nil` pointer. -/
def Store.FindByID (parse : String → IP) (s : Store) (id ifname : String) : Option IP :=
  match s.data.find? (fun row => row.ID == id && row.IfName == ifname) with
  | some row => some (parse row.IP)
  | none => none

/-- `Store.ReleaseID` of `store.go`: the first row of `(id, ifname)` is
overwritten with the last row and the slice is shortened by one. -/
def Store.ReleaseID (s : Store) (id ifname : String) : Store :=
  match s.data.findIdx? (fun row => row.ID == id && row.IfName == ifname) with
  | none => s
  | some i =>
    match s.data[s.data.length - 1]? with
    | none => s
    | some last => { s with data := (s.data.set i last).take (s.data.length - 1) }

/-! ## Random shuffling (`math/rand`) -/

/-- The state of Go's random source: the stream of the raw draws to come. -/
abbrev Rand := Nat → Nat

/-- Go's `rand.Intn(n)`: the next draw reduced into `[0, n)`, and the source
after the draw. -/
def Rand.Intn (r : Rand) (n : Nat) : Nat × Rand :=
  (r 0 % n, fun k => r (k + 1))

/-- The swap closure handed to `rand.Shuffle`:
`xs[i], xs[j] = xs[j], xs[i]`. -/
def swap {α : Type} (xs : List α) (i j : Nat) : List α :=
  match xs[i]?, xs[j]? with
  | some a, some b => (xs.set i b).set j a
  | _, _ => xs

/-- The loop of Go's `rand.Shuffle`:
`for ; i > 0; i-- { j := Intn(i + 1); swap(i, j) }`. -/
def Shuffle.loop {α : Type} : Nat → Rand → List α → List α × Rand
  | 0, r, xs => (xs, r)
  | i + 1, r, xs => Shuffle.loop i (r.Intn (i + 2)).2 (swap xs (i + 1) (r.Intn (i + 2)).1)

/-- Go's `rand.Shuffle(len(xs), swap)` on the slice `xs`, starting the loop at
`i = len(xs) - 1`. -/
def Shuffle {α : Type} (r : Rand) (xs : List α) : List α × Rand :=
  Shuffle.loop (xs.length - 1) r xs

/-! ## The allocator (`allocator.go`) -/

/-- The accessors of `metadata.TypedIMDS` that `IMDSAllocator.Get` calls, as
one metadata snapshot. Each accessor returns its value or an error. -/
structure TypedIMDS where
  GetMACs : Except Error (List String)
  GetLocalIPv4s : String → Except Error (List IP)
  GetSubnetIPv4CIDRBlock : String → Except Error IPNet
  GetIPv6s : String → Except Error (List IP)
  GetSubnetIPv6CIDRBlocks : String → Except Error IPNet

/-- The `IPConfig` of the CNI result types (`cniv1.IPConfig`). -/
structure IPConfig where
  Interface : Option Int := none
  Address : IPNet
  Gateway : IP
deriving DecidableEq, Repr

/-- How a Go call that returns `(value, error)` ends: with a value and a `nil`
error, with a non-`nil` error, or in a run-time panic. -/
inductive Outcome (α : Type) where
  | ok (v : α)
  | err (e : Error)
  | panic (msg : String)
deriving DecidableEq, Repr

/-- Go's `net.IPv4(a, b, c, d)`: the 16-byte form of an IPv4 address. -/
def IPv4 (a b c d : Nat) : IP :=
  [0, 0, 0, 0, 0, 0, 0, 0, 0, 0, 0xff, 0xff, a, b, c, d]

/-- The IPv4 gateway of `Get`: `net.IPv4(169, 254, 0, 1)`. -/
def gatewayV4 : IP := IPv4 169 254 0 1

/-- The IPv6 gateway of `Get`: the literal `fe80::1`. -/
def gatewayV6 : IP := [0xfe, 0x80, 0, 0, 0, 0, 0, 0, 0, 0, 0, 0, 0, 0, 0, 1]

/-- The error with which `Get` ends when no address is free. -/
def errExhausted : Error := Error.Errorf "no IP addresses available"

/-- The metadata fetches of one iteration of the loop over the MACs in `Get`:
the ENI's addresses of the requested family, its subnet, and the gateway. The
first failing fetch ends `Get` with its error. -/
def IMDSAllocator.fetch (client : TypedIMDS) (version mac : String) :
    Except Error (List IP × IPNet × IP) :=
  if version == "4" then
    match client.GetLocalIPv4s mac with
    | .error e => .error e
    | .ok ips =>
      match client.GetSubnetIPv4CIDRBlock mac with
      | .error e => .error e
      | .ok subnet => .ok (ips, subnet, gatewayV4)
  else
    match client.GetIPv6s mac with
    | .error e => .error e
    | .ok ips =>
      match client.GetSubnetIPv6CIDRBlocks mac with
      | .error e => .error e
      | .ok subnet => .ok (ips, subnet, gatewayV6)

/-- The inner loop of `Get`, `for _, ip := range ips`, trying to reserve each
address in turn. `none` means the loop ran to its end without returning. -/
def IMDSAllocator.reserveLoop (str : IP → String) (id ifname : String) (subnet : IPNet)
    (gw : IP) : List IP → Store → Option (Outcome IPConfig) × Store
  | [], s => (none, s)
  | ip :: rest, s =>
    match s.ReserveIP str id ifname ip with
    | (none, s') =>
      (some (.ok { Address := { IP := ip, Mask := subnet.Mask }, Gateway := gw }), s')
    | (some Error.ErrAlreadyReserved, s') =>
      IMDSAllocator.reserveLoop str id ifname subnet gw rest s'
    | (some e, s') => (some (.err e), s')

/-- The outer loop of `Get`, `for _, mac := range macs`, over the shuffled
MACs. `ips[1:]` panics on an empty slice. -/
def IMDSAllocator.macLoop (client : TypedIMDS) (str : IP → String)
    (id ifname version : String) : List String → Rand → Store → Outcome IPConfig × Store
  | [], _, s => (.err errExhausted, s)
  | mac :: rest, r, s =>
    match IMDSAllocator.fetch client version mac with
    | .error e => (.err e, s)
    | .ok (ips, subnet, gw) =>
      match ips with
      | [] => (.panic "slice bounds out of range [1:0]", s)
      | _ :: tl =>
        match IMDSAllocator.reserveLoop str id ifname subnet gw (Shuffle r tl).1 s with
        | (some out, s') => (out, s')
        | (none, s') =>
          IMDSAllocator.macLoop client str id ifname version rest (Shuffle r tl).2 s'

/-- `IMDSAllocator.Get` of `allocator.go`, on the store `s` the allocator
points to and with the random source `r`. The result is the outcome of the
call and the store after it. -/
def IMDSAllocator.Get (client : TypedIMDS) (str : IP → String) (r : Rand) (s : Store)
    (id ifname version : String) : Outcome IPConfig × Store :=
  match client.GetMACs with
  | .error e => (.err e, s)
  | .ok macs =>
    IMDSAllocator.macLoop client str id ifname version (Shuffle r macs).1 (Shuffle r macs).2 s

/-- `IMDSAllocator.Put` of `allocator.go`: release, then return `nil`. -/
def IMDSAllocator.Put (s : Store) (id ifname _version : String) : Option Error × Store :=
  (none, s.ReleaseID id ifname)

/-! ## Sequences of allocator calls -/

/-- One serialized allocator call: a `Get`, with the metadata snapshot and the
random source of its invocation, or a `Put`. -/
inductive Op where
  | get (client : TypedIMDS) (r : Rand) (id ifname version : String)
  | put (id ifname version : String)

/-- The store after one allocator call. -/
def Op.apply (str : IP → String) (s : Store) : Op → Store
  | .get client r id ifname version => (IMDSAllocator.Get client str r s id ifname version).2
  | .put id ifname version => (IMDSAllocator.Put s id ifname version).2

/-- The store after a sequence of allocator calls, one after the other. -/
def runOps (str : IP → String) (s : Store) (ops : List Op) : Store :=
  ops.foldl (Op.apply str) s


/-! ## Checkpointing (`checkpoint.go`) and `Store.Open` / `Store.Close`

`encoding/json` is modelled at the level of JSON values: the text that the
encoder writes is identified with the value it denotes. The file system is a
map from paths to contents. A system call fails when the `Faults` of the call
say so, and `os.Open` also fails when the file is not there. -/

/-- A JSON value. -/
inductive JSON where
  | null
  | bool (b : Bool)
  | number (text : String)
  | string (text : String)
  | array (items : List JSON)
  | object (members : List (String × JSON))

/-- The content of a file: the JSON value its bytes denote, `none` when they
denote none (an empty file, a lock file). -/
abbrev Content := Option JSON

/-- The file system: the content of every path that exists. -/
abbrev FS := String → Option Content

/-- The file system after writing `content` to `path`. -/
def FS.write (fs : FS) (path : String) (content : Content) : FS :=
  fun p => if p = path then some content else fs p

/-- The file system after `os.Remove(path)`. -/
def FS.remove (fs : FS) (path : String) : FS :=
  fun p => if p = path then none else fs p

/-- The file system after `os.Rename(old, new)`: the content of `old` replaces
that of `new`, and `old` is gone. -/
def FS.rename (fs : FS) (old new : String) : FS :=
  fun p => if p = new then fs old else if p = old then none else fs p

/-- The system calls of one invocation that fail, each with its error; `none`
means the call succeeds. -/
structure Faults where
  TempFile : Option Error := none
  Write : Option Error := none
  Sync : Option Error := none
  Rename : Option Error := none
  Open : Option Error := none
  MkdirAll : Option Error := none
  OpenFile : Option Error := none
  Flock : Option Error := none
  Close : Option Error := none

/-- No system call fails. -/
def noFaults : Faults := {}

/-- The JSON object that the encoder writes for a `StoreRow`, with the member
names of the struct tags. -/
def encodeRow (row : StoreRow) : JSON :=
  .object [("id", .string row.ID), ("ifname", .string row.IfName), ("ip", .string row.IP)]

/-- The JSON value that the encoder writes for a `[]StoreRow`: `null` for the
nil slice, an array otherwise. The list does not record whether an empty slice
is nil, so `nilSlice` says it. -/
def encodeRows (nilSlice : Bool) (rows : List StoreRow) : JSON :=
  match rows, nilSlice with
  | [], true => .null
  | _, _ => .array (rows.map encodeRow)

/-- The first of two errors; the decoder goes on after a type error and
reports the first one. -/
def firstError : Option Error → Option Error → Option Error
  | some e, _ => some e
  | none, e => e

/-- Decoding a JSON value into a `string` field that holds `cur`: a string is
stored, `null` changes nothing, another value is a type error. -/
def decodeString (cur : String) : JSON → String × Option Error
  | .string text => (text, none)
  | .null => (cur, none)
  | _ => (cur, some (Error.Decode "json: cannot unmarshal value into Go struct field of type string"))

/-- The decoder matches a member name with a field name regardless of case. -/
def foldEq (key name : String) : Bool :=
  key.data.map Char.toLower == name.data

/-- Decoding one member of an object into the row: the members `id`, `ifname`
and `ip` set their field, any other member is skipped. -/
def decodeMember (acc : StoreRow × Option Error) (member : String × JSON) :
    StoreRow × Option Error :=
  if foldEq member.1 "id" then
    ({ acc.1 with ID := (decodeString acc.1.ID member.2).1 },
      firstError acc.2 (decodeString acc.1.ID member.2).2)
  else if foldEq member.1 "ifname" then
    ({ acc.1 with IfName := (decodeString acc.1.IfName member.2).1 },
      firstError acc.2 (decodeString acc.1.IfName member.2).2)
  else if foldEq member.1 "ip" then
    ({ acc.1 with IP := (decodeString acc.1.IP member.2).1 },
      firstError acc.2 (decodeString acc.1.IP member.2).2)
  else acc

/-- Decoding a JSON value into a `StoreRow` that holds `start`: the members of
an object in their order, `null` changes nothing, another value is a type
error. -/
def decodeRow (start : StoreRow) : JSON → StoreRow × Option Error
  | .object members => members.foldl decodeMember (start, none)
  | .null => (start, none)
  | _ => (start, some (Error.Decode "json: cannot unmarshal value into Go value of type main.StoreRow"))

/-- The zero value of `StoreRow`. -/
def zeroRow : StoreRow := { ID := "", IfName := "", IP := "" }

/-- Decoding the items of a JSON array into the slice `into`: item `i` is
decoded into element `i` of `into` when the slice has one, into a zero row
otherwise. (The capacity of the Go slice beyond its length is not modelled.) -/
def decodeItems : List JSON → List StoreRow → List StoreRow × Option Error
  | [], _ => ([], none)
  | item :: items, into =>
    ((decodeRow (into.head?.getD zeroRow) item).1 :: (decodeItems items into.tail).1,
      firstError (decodeRow (into.head?.getD zeroRow) item).2 (decodeItems items into.tail).2)

/-- Decoding a JSON value into the `[]StoreRow` that holds `into`: an array
item by item, `null` gives the nil slice, another value is a type error and
leaves the slice as it was. -/
def decodeRows (into : List StoreRow) : JSON → List StoreRow × Option Error
  | .array items => decodeItems items into
  | .null => ([], none)
  | _ => (into, some (Error.Decode "json: cannot unmarshal value into Go value of type []main.StoreRow"))

/-- `JSONFile.Checkpoint` of `checkpoint.go`, called with the rows of the
store: a temporary file next to `c.path` (its name ends in `suffix`, the random
part that `ioutil.TempFile` puts for the `*`), the encoded rows written to it,
a sync, and a rename onto `c.path`; on a failure after its creation the
temporary file is removed. The result is the returned error and the file
system after the call. -/
def JSONFile.Checkpoint (c : JSONFile) (faults : Faults) (suffix : String) (fs : FS)
    (data : List StoreRow) (nilSlice : Bool) : Option Error × FS :=
  match faults.TempFile with
  | some e => (some e, fs)
  | none =>
    match faults.Write with
    | some e => (some e, (fs.write (c.path ++ ".tmp" ++ suffix) none).remove (c.path ++ ".tmp" ++ suffix))
    | none =>
      match faults.Sync with
      | some e =>
        (some e, (fs.write (c.path ++ ".tmp" ++ suffix)
          (some (encodeRows nilSlice data))).remove (c.path ++ ".tmp" ++ suffix))
      | none =>
        match faults.Rename with
        | some e =>
          (some e, (fs.write (c.path ++ ".tmp" ++ suffix)
            (some (encodeRows nilSlice data))).remove (c.path ++ ".tmp" ++ suffix))
        | none =>
          (none, (fs.write (c.path ++ ".tmp" ++ suffix)
            (some (encodeRows nilSlice data))).rename (c.path ++ ".tmp" ++ suffix) c.path)

/-- `JSONFile.Restore` of `checkpoint.go`, called with a pointer to the rows of
the store, which hold `into`: the file at `c.path` is opened and decoded. The
result is the returned error and the rows after the call. -/
def JSONFile.Restore (c : JSONFile) (faults : Faults) (fs : FS) (into : List StoreRow) :
    Option Error × List StoreRow :=
  match faults.Open with
  | some e => (some e, into)
  | none =>
    match fs c.path with
    | none => (some (Error.NotExist c.path), into)
    | some none => (some (Error.Decode "EOF"), into)
    | some (some doc) => ((decodeRows into doc).2, (decodeRows into doc).1)

/-- `Store.lock` of `store.go`: the directory and the lock file are created
when they are missing and the lock is taken. The calls of one store follow one
another, so the lock is free when it is asked for. -/
def Store.lock (s : Store) (faults : Faults) (fs : FS) : Outcome Unit × Store × FS :=
  match s.lockFile with
  | some _ => (.panic "lock() called when already locked", s, fs)
  | none =>
    match faults.MkdirAll with
    | some e =>
      (.err (Error.Errorf ("failed to create directory " ++ s.dir ++ ": " ++ e.message)), s, fs)
    | none =>
      match faults.OpenFile with
      | some e => (.err e, s, fs)
      | none =>
        match faults.Flock with
        | some e =>
          (.err e, s, if (fs (filepathJoin s.dir lockfile)).isSome then fs
            else fs.write (filepathJoin s.dir lockfile) none)
        | none =>
          (.ok (), { s with lockFile := some (filepathJoin s.dir lockfile) },
            if (fs (filepathJoin s.dir lockfile)).isSome then fs
            else fs.write (filepathJoin s.dir lockfile) none)

/-- `Store.unlock` of `store.go`: closing a nil `*os.File` is an error. -/
def Store.unlock (s : Store) (faults : Faults) : Option Error × Store :=
  match s.lockFile with
  | none => (some (Error.System "invalid argument"), s)
  | some _ =>
    match faults.Close with
    | some e => (some e, s)
    | none => (none, { s with lockFile := none })

/-- `Store.Open` of `store.go`: lock, then restore the rows; the error of a
missing data file is swallowed. -/
def Store.Open (s : Store) (faults : Faults) (fs : FS) : Outcome Unit × Store × FS :=
  match s.lock faults fs with
  | (.panic msg, s1, fs1) => (.panic msg, s1, fs1)
  | (.err e, s1, fs1) => (.err e, s1, fs1)
  | (.ok (), s1, fs1) =>
    match s1.checkpointer.Restore faults fs1 s1.data with
    | (some e, data) =>
      if !IsNotExist e then (.err e, { s1 with data := data }, fs1)
      else (.ok (), { s1 with data := data }, fs1)
    | (none, data) => (.ok (), { s1 with data := data }, fs1)

/-- `Store.Close` of `store.go`: checkpoint the rows, then unlock. -/
def Store.Close (s : Store) (faults : Faults) (suffix : String) (nilSlice : Bool) (fs : FS) :
    Option Error × Store × FS :=
  match s.checkpointer.Checkpoint faults suffix fs s.data nilSlice with
  | (some e, fs1) => (some e, s, fs1)
  | (none, fs1) => ((s.unlock faults).1, (s.unlock faults).2, fs1)

/-- A file system with no files. -/
def emptyFS : FS := fun _ => none

/-! ## A concrete metadata snapshot, for the examples -/

/-- The decimal digits of a byte, as Go prints them. -/
def byteString (n : Nat) : String :=
  if n < 10 then String.singleton (Nat.digitChar n)
  else if n < 100 then String.mk [Nat.digitChar (n / 10), Nat.digitChar (n % 10)]
  else String.mk [Nat.digitChar (n / 100), Nat.digitChar (n / 10 % 10), Nat.digitChar (n % 10)]

/-- The dotted-decimal text that Go's `net.IP.String` gives for an IPv4
address, in its 4-byte and in its 16-byte form. Other addresses are not
needed in the examples and are rendered as `?`. -/
def dottedString : IP → String
  | [a, b, c, d] =>
    byteString a ++ "." ++ byteString b ++ "." ++ byteString c ++ "." ++ byteString d
  | [0, 0, 0, 0, 0, 0, 0, 0, 0, 0, 255, 255, a, b, c, d] =>
    byteString a ++ "." ++ byteString b ++ "." ++ byteString c ++ "." ++ byteString d
  | _ => "?"

/-- The snapshot of scenario 1: one ENI with the addresses 10.0.0.5 (primary),
10.0.0.6 and 10.0.0.7 in the subnet 10.0.0.0/24, and no IPv6 addresses. -/
def scenarioClient : TypedIMDS where
  GetMACs := .ok ["0a:1b:2c:3d:4e:5f"]
  GetLocalIPv4s := fun _ => .ok [IPv4 10 0 0 5, IPv4 10 0 0 6, IPv4 10 0 0 7]
  GetSubnetIPv4CIDRBlock := fun _ => .ok { IP := [10, 0, 0, 0], Mask := [255, 255, 255, 0] }
  GetIPv6s := fun _ => .error (Error.Metadata "not found")
  GetSubnetIPv6CIDRBlocks := fun _ => .error (Error.Metadata "not found")

/-- A random source whose every draw is `k`. -/
def constRand (k : Nat) : Rand := fun _ => k


/-- The numbers between the dots of a dotted-decimal text; `cur` is the number
being read and `acc` the numbers read so far. -/
def parseOctets : List Char → Nat → List Nat → Option (List Nat)
  | [], cur, acc => some (acc ++ [cur])
  | c :: cs, cur, acc =>
    if c = '.' then parseOctets cs 0 (acc ++ [cur])
    else if c.isDigit then parseOctets cs (cur * 10 + (c.toNat - 48)) acc
    else none

/-- The address that Go's `net.ParseIP` gives for the dotted-decimal text of
an IPv4 address, in the 16-byte form; `nil` for another text. -/
def dottedParse (text : String) : IP :=
  match parseOctets text.data 0 [] with
  | some [a, b, c, d] => IPv4 a b c d
  | _ => []

/-- The key of a row: the pod and the interface it belongs to. -/
def StoreRow.key (row : StoreRow) : String × String :=
  (row.ID, row.IfName)

/-- The check that every `Get` of the sequence is issued for a
`(podID, ifname)` for which `Store.FindByID` finds nothing in the store of
that moment. -/
def freshGets (str : IP → String) (parse : String → IP) : Store → List Op → Bool
  | _, [] => true
  | s, .get client r id ifname version :: ops =>
    (s.FindByID parse id ifname).isNone &&
      freshGets str parse (Op.apply str s (.get client r id ifname version)) ops
  | s, .put id ifname version :: ops =>
    freshGets str parse (Op.apply str s (.put id ifname version)) ops

/-- Successive `Get` calls for the IPv4 family, one per request (the random
source of the invocation, the pod and the interface), each on the store the one
before left: the outcomes in order, and the store after the last. -/
def getAll (client : TypedIMDS) (str : IP → String) :
    List (Rand × String × String) → Store → List (Outcome IPConfig) × Store
  | [], s => ([], s)
  | (r, id, ifname) :: reqs, s =>
    ((IMDSAllocator.Get client str r s id ifname "4").1 ::
        (getAll client str reqs (IMDSAllocator.Get client str r s id ifname "4").2).1,
      (getAll client str reqs (IMDSAllocator.Get client str r s id ifname "4").2).2)

end IMDSIpam

namespace IMDSPtp

open IMDSIpam

/-! ## Go's `net` package, as far as imds-ptp uses it -/

/-- The prefix of an IPv4 address in its 16-byte form (`v4InV6Prefix`). -/
def v4InV6Prefix : List Nat := [0, 0, 0, 0, 0, 0, 0, 0, 0, 0, 0xff, 0xff]

/-- Go's `net.IPv4zero`, `net.IPv4(0, 0, 0, 0)`. -/
def IPv4zero : IP := IPv4 0 0 0 0

/-- Go's `net.IPv6zero` and `net.IPv6unspecified`: sixteen zero bytes. -/
def IPv6zero : IP := List.replicate 16 0

/-- Go's `IP.To4`: the 4-byte form of an IPv4 address, `nil` (the empty list)
for any other address. -/
def To4 (ip : IP) : IP :=
  if ip.length = 4 then ip
  else if ip.length = 16 ∧ ip.take 12 = v4InV6Prefix then ip.drop 12
  else []

/-- Go's `IP.Equal`: an IPv4 address and its 16-byte form are equal. -/
def IP.Equal (ip x : IP) : Bool :=
  if ip.length = x.length then ip == x
  else if ip.length = 4 ∧ x.length = 16 then x.take 12 == v4InV6Prefix && ip == x.drop 12
  else if ip.length = 16 ∧ x.length = 4 then ip.take 12 == v4InV6Prefix && ip.drop 12 == x
  else false

/-- Go's `IP.IsUnspecified`: the address is 0.0.0.0 or `::`. -/
def IsUnspecified (ip : IP) : Bool :=
  IP.Equal ip IPv4zero || IP.Equal ip IPv6zero

/-- Go's `IP.Mask`: the bytes of the address and of the mask, brought to the
same length, and-ed into a new slice; `nil` when the lengths do not fit. -/
def IP.Mask (ip : IP) (mask : IPMask) : IP :=
  let mask := if mask.length = 16 ∧ ip.length = 4 ∧ (mask.take 12).all (fun b => b == 0xff)
    then mask.drop 12 else mask
  let ip := if mask.length = 4 ∧ ip.length = 16 ∧ ip.take 12 = v4InV6Prefix
    then ip.drop 12 else ip
  if ip.length ≠ mask.length then [] else List.zipWith (fun a b => a &&& b) ip mask

/-- The loop of Go's `net.CIDRMask` over the bytes of the mask: `l` bytes are
left to fill and `n` one bits are left to place. -/
def CIDRMask.fill : Nat → Nat → List Nat
  | 0, _ => []
  | l + 1, n =>
    if n ≥ 8 then 0xff :: CIDRMask.fill l (n - 8)
    else (0xff ^^^ (0xff >>> n)) :: CIDRMask.fill l 0

/-- Go's `net.CIDRMask(ones, bits)`; `nil` for a length that is neither 32 nor
128 bits and for more ones than bits. -/
def CIDRMask (ones bits : Nat) : IPMask :=
  if bits ≠ 32 ∧ bits ≠ 128 then []
  else if ones > bits then []
  else CIDRMask.fill (bits / 8) ones

/-- The leading one bits of a byte that is not `0xff`, and what is left of the
byte after shifting them out: the inner loop of `simpleMaskLength`,
`for v&0x80 != 0 { n++; v <<= 1 }`. -/
def leadingOnes : Nat → Nat → Nat × Nat
  | 0, v => (0, v)
  | fuel + 1, v =>
    if v &&& 0x80 ≠ 0 then
      ((leadingOnes fuel ((v <<< 1) % 256)).1 + 1, (leadingOnes fuel ((v <<< 1) % 256)).2)
    else (0, v)

/-- Go's `simpleMaskLength`: the number of leading ones of a mask made of ones
followed by zeros, `none` (Go's `-1`) for any other mask. -/
def simpleMaskLength : IPMask → Option Nat
  | [] => some 0
  | v :: rest =>
    if v = 0xff then (simpleMaskLength rest).map (fun n => n + 8)
    else if (leadingOnes 8 v).2 ≠ 0 then none
    else if rest.all (fun b => b == 0) then some (leadingOnes 8 v).1
    else none

/-- Go's `IPMask.Size`: the ones and the bits of a mask, `(0, 0)` for a mask
that is not in the canonical form. -/
def IPMask.Size (m : IPMask) : Nat × Nat :=
  match simpleMaskLength m with
  | none => (0, 0)
  | some ones => (ones, m.length * 8)

/-- `isDefaultRoute` of `imds-ptp.go`: a `nil` destination, or a mask of zero
ones over a positive number of bits. -/
def isDefaultRoute (dst : Option IPNet) : Bool :=
  match dst with
  | none => true
  | some d => (IPMask.Size d.Mask).1 == 0 && (IPMask.Size d.Mask).2 != 0

/-- Go's `IPNet.Contains`, for a network whose address and mask have the same
length (4 or 16 bytes): the address, in its 4-byte form when it has one, agrees
with the network on the bits of the mask. -/
def IPNet.Contains (n : IPNet) (ip : IP) : Bool :=
  let ip := if To4 ip ≠ [] then To4 ip else ip
  let nn := if To4 n.IP ≠ [] then To4 n.IP else n.IP
  if ip.length ≠ nn.length ∨ nn.length ≠ n.Mask.length then false
  else List.zipWith (fun a b => a &&& b) nn n.Mask == List.zipWith (fun a b => a &&& b) ip n.Mask

/-- The number that the bytes of an address spell, most significant first. -/
def ipToNat (ip : IP) : Nat :=
  ip.foldl (fun acc b => acc * 256 + b) 0

/-! ## The constants of `imds-ptp.go` -/

def rulePriorityLocalPods : Int := 30000

def rulePriorityMasq : Int := 30010

def rulePriorityOutgoingENI : Int := 30020

def masqMark : Nat := 0x80

def routeTablePod : Int := 9

def routeTableENIStart : Int := 10

/-- The constant `unix.RT_TABLE_MAIN`. -/
def RT_TABLE_MAIN : Int := 254

/-- The constant `unix.AF_INET`. -/
def AF_INET : Int := 2

/-- The constant `unix.AF_INET6`. -/
def AF_INET6 : Int := 10

/-- The IPv4 gateway of `setupHostEniIface`:
`gwIP = subnet.IP.Mask(subnet.Mask); gwIP[len(gwIP)-1] |= 1`. The index
expression panics when `Mask` gave no bytes. -/
def gatewayIPv4 (subnet : IPNet) : Outcome IP :=
  match (IP.Mask subnet.IP subnet.Mask)[(IP.Mask subnet.IP subnet.Mask).length - 1]? with
  | none => .panic "index out of range [-1]"
  | some last =>
    .ok ((IP.Mask subnet.IP subnet.Mask).set ((IP.Mask subnet.IP subnet.Mask).length - 1)
      (last ||| 1))


/-! ## The kernel, as netlink, iptables and /proc/sys show it

The state of one network namespace: links, addresses, routes, policy rules,
sysctl values and iptables entries. Adding a rule, an address or a route that
is already there is refused with `EEXIST`, replacing a route never is. Two
routes are the same route when table and destination agree. The `log` lists
the calls that changed the state, in their order. -/

/-- The scopes of netlink (`netlink.SCOPE_UNIVERSE` and the others). -/
inductive Scope where
  | UNIVERSE
  | SITE
  | LINK
  | HOST
  | NOWHERE
deriving DecidableEq, Repr

/-- A link of the kernel (`netlink.Link`): its attributes, and whether it is
a veth. -/
structure Link where
  Index : Int
  Name : String
  HardwareAddr : String
  MTU : Int
  Up : Bool
  Veth : Bool
deriving DecidableEq, Repr

/-- Go's `net.Interface`, with the fields that imds-ptp reads; the hardware
address is in its text form. -/
structure NetInterface where
  Index : Int
  Name : String
  HardwareAddr : String
deriving DecidableEq, Repr

/-- An address as `netlink.AddrAdd` takes it (`netlink.Addr`). -/
structure Addr where
  IPNet : IPNet
  Scope : Scope
deriving DecidableEq, Repr

/-- A route (`netlink.Route`); the zero value of each field is its default. -/
structure Route where
  Table : Int := 0
  LinkIndex : Int := 0
  Dst : Option IPNet := none
  Gw : IP := []
  Src : IP := []
  Scope : Scope := Scope.UNIVERSE
deriving DecidableEq, Repr

/-- A policy rule (`netlink.Rule`), with the fields that imds-ptp sets; the
defaults are the values of `netlink.NewRule()`. -/
structure Rule where
  Priority : Int := -1
  Family : Int := 0
  Table : Int := 0
  Mark : Nat := 0
  Mask : Option Nat := none
  Src : Option IPNet := none
deriving DecidableEq, Repr

/-- What identifies a route in the kernel: its table (the main table when none
is given) and its destination, the address in its 4-byte form when it has one
and the length of the prefix. -/
structure RouteKey where
  Table : Int
  Dst : Option (IP × Nat)
deriving DecidableEq, Repr

/-- The key of a route. -/
def Route.key (r : Route) : RouteKey :=
  { Table := if r.Table ≤ 0 then RT_TABLE_MAIN else r.Table,
    Dst := r.Dst.map (fun d =>
      (if To4 d.IP ≠ [] then To4 d.IP else d.IP, (IPMask.Size d.Mask).1)) }

/-- An iptables entry: the protocol (4 or 6), the table, the chain and the
rule specification. -/
structure IptEntry where
  Proto : Nat
  Table : String
  Chain : String
  Spec : List String
deriving DecidableEq, Repr

/-- A call that changed the state of the kernel. -/
inductive Event where
  | RuleAdd (r : Rule)
  | AddrAdd (index : Int) (a : Addr)
  | RouteReplace (r : Route)
  | RouteAdd (r : Route)
  | RouteDel (key : RouteKey)
  | LinkSetMTU (index : Int) (mtu : Int)
  | LinkSetUp (index : Int)
  | Sysctl (key value : String)
  | IptAppend (entry : IptEntry)
deriving DecidableEq, Repr

/-- The state of the kernel in one namespace, and the log of the calls that
changed it. -/
@[ext]
structure Kernel where
  links : List Link
  addrs : List (Int × Addr)
  routes : RouteKey → Option Route
  rules : List Rule
  sysctl : String → Option String
  iptables : List IptEntry
  log : List Event

/-- The errno `EEXIST`. -/
def EEXIST : Error := Error.System "file exists"

/-- The errno `ENODEV`. -/
def ENODEV : Error := Error.System "no such device"

/-- The errno `ESRCH`, with which the kernel answers when it has no such
route. -/
def ESRCH : Error := Error.System "no such process"

/-- The error of netlink for a link that is not there. -/
def LinkNotFound : Error := Error.System "Link not found"

/-- Go's `os.IsExist`. -/
def IsExist (e : Error) : Bool :=
  e == EEXIST

/-- A call that runs on the kernel: its outcome, `none` when it is still
running after the steps it was given, and the kernel after it. -/
def Step (α : Type) : Type :=
  Kernel → Option (Outcome α) × Kernel

/-- A call that returns a value and leaves the kernel alone. -/
def Step.ret {α : Type} (a : α) : Step α :=
  fun k => (some (.ok a), k)

/-- One call after the other: the second runs when the first returned a value,
otherwise the run ends the way the first did. -/
def Step.andThen {α β : Type} (m : Step α) (f : α → Step β) : Step β :=
  fun k =>
    match m k with
    | (some (.ok a), k1) => f a k1
    | (some (.err e), k1) => (some (.err e), k1)
    | (some (.panic msg), k1) => (some (.panic msg), k1)
    | (none, k1) => (none, k1)

instance : Monad Step where
  pure := Step.ret
  bind := Step.andThen

/-- The function returns the error `e`. -/
def Step.fail {α : Type} (e : Error) : Step α :=
  fun k => (some (.err e), k)

/-- The function panics. -/
def Step.panic {α : Type} (msg : String) : Step α :=
  fun k => (some (.panic msg), k)

/-- The function does not return. -/
def Step.running {α : Type} : Step α :=
  fun k => (none, k)

/-- A call that returns `(value, error)` without touching the kernel, the
error being returned at once by the caller. -/
def Step.ofExcept {α : Type} : Except Error α → Step α
  | .ok a => Step.ret a
  | .error e => Step.fail e

/-- The pattern `if err != nil { return wrap(err) }` around a call. -/
def Step.mapErr {α : Type} (m : Step α) (wrap : Error → Error) : Step α :=
  fun k =>
    match m k with
    | (some (.err e), k1) => (some (.err (wrap e)), k1)
    | other => other

/-- The pattern `if err != nil { if !os.IsExist(err) { return wrap(err) } }`. -/
def swallowExist (err : Option Error) (wrap : Error → Error) : Step Unit :=
  match err with
  | none => Step.ret ()
  | some e => if !IsExist e then Step.fail (wrap e) else Step.ret ()

/-- Does the kernel have a link with this index? -/
def Kernel.hasLink (k : Kernel) (index : Int) : Bool :=
  k.links.any (fun l => l.Index == index)

/-- The kernel with one more call in its log. -/
def Kernel.record (k : Kernel) (e : Event) : Kernel :=
  { k with log := k.log ++ [e] }

/-- The kernel with the route `v`, or with no route, under a key. -/
def Kernel.setRoute (k : Kernel) (key : RouteKey) (v : Option Route) : Kernel :=
  { k with routes := fun x => if x = key then v else k.routes x }

/-- The kernel with its links changed by `f`. -/
def Kernel.mapLinks (k : Kernel) (f : Link → Link) : Kernel :=
  { k with links := k.links.map f }

/-- The kernel with one more address on a link. -/
def Kernel.addAddr (k : Kernel) (index : Int) (a : Addr) : Kernel :=
  { k with addrs := k.addrs ++ [(index, a)] }

/-- The kernel with one more rule. -/
def Kernel.addRule (k : Kernel) (r : Rule) : Kernel :=
  { k with rules := k.rules ++ [r] }

/-- The kernel with a value for a parameter. -/
def Kernel.setSysctl (k : Kernel) (key value : String) : Kernel :=
  { k with sysctl := fun x => if x = key then some value else k.sysctl x }

/-- The kernel with one more iptables entry. -/
def Kernel.addIpt (k : Kernel) (e : IptEntry) : Kernel :=
  { k with iptables := k.iptables ++ [e] }

/-- The kernel after `netlink.RuleAdd` and the check of its error: with the
rule, added and logged unless it was there. -/
def Kernel.withRule (k : Kernel) (r : Rule) : Kernel :=
  if r ∈ k.rules then k else (k.addRule r).record (Event.RuleAdd r)

/-- The kernel after `ipt.AppendUnique`: with the entry, appended and logged
unless it was there. -/
def Kernel.withIpt (k : Kernel) (e : IptEntry) : Kernel :=
  if e ∈ k.iptables then k else (k.addIpt e).record (Event.IptAppend e)

/-- The kernel after `netlink.AddrAdd` on an existing link and the check of
its error: with the address on the link, added and logged unless it was
there. -/
def Kernel.withAddr (k : Kernel) (index : Int) (a : Addr) : Kernel :=
  if k.addrs.any (fun x => x.1 == index && x.2.IPNet == a.IPNet) then k
  else (k.addAddr index a).record (Event.AddrAdd index a)

/-- The kernel after a successful `netlink.RouteReplace`. -/
def Kernel.withRoute (k : Kernel) (r : Route) : Kernel :=
  (k.setRoute r.key (some r)).record (Event.RouteReplace r)

/-- The kernel after `procsys.ProcSys.Set`. -/
def Kernel.withSysctl (k : Kernel) (key value : String) : Kernel :=
  (k.setSysctl key value).record (Event.Sysctl key value)

/-- The link with another MTU, when it is the link `index`. -/
def Link.withMTU (index mtu : Int) (l : Link) : Link :=
  if l.Index = index then { l with MTU := mtu } else l

/-- The link set up, when it is the link `index`. -/
def Link.setUp (index : Int) (l : Link) : Link :=
  if l.Index = index then { l with Up := true } else l

/-- Go's `net.Interface` of a link. -/
def Link.toInterface (l : Link) : NetInterface :=
  { Index := l.Index, Name := l.Name, HardwareAddr := l.HardwareAddr }

/-- Go's `net.Interfaces()`. -/
def Interfaces : Step (List NetInterface) :=
  fun k => (some (.ok (k.links.map Link.toInterface)), k)

/-- The lookup in the map `interfaceByMAC`, which the functions fill from the
list of interfaces in its order: the last interface with the address wins. -/
def interfaceByMAC (ifaces : List NetInterface) (mac : String) : Option NetInterface :=
  ifaces.reverse.find? (fun i => i.HardwareAddr == mac)

/-- The call `netlink.LinkByIndex`. -/
def LinkByIndex (index : Int) : Step Link :=
  fun k =>
    match k.links.find? (fun l => l.Index == index) with
    | some l => (some (.ok l), k)
    | none => (some (.err LinkNotFound), k)

/-- The call `netlink.LinkByName`. -/
def LinkByName (name : String) : Step Link :=
  fun k =>
    match k.links.find? (fun l => l.Name == name) with
    | some l => (some (.ok l), k)
    | none => (some (.err LinkNotFound), k)

/-- The call `netlink.LinkSetMTU`, its error returned at once by the caller. -/
def LinkSetMTU (link : Link) (mtu : Int) : Step Unit :=
  fun k =>
    if k.hasLink link.Index then
      (some (.ok ()),
        (k.mapLinks (Link.withMTU link.Index mtu)).record (Event.LinkSetMTU link.Index mtu))
    else (some (.err ENODEV), k)

/-- The call `netlink.LinkSetUp`, its error returned at once by the caller. -/
def LinkSetUp (link : Link) : Step Unit :=
  fun k =>
    if k.hasLink link.Index then
      (some (.ok ()), (k.mapLinks (Link.setUp link.Index)).record (Event.LinkSetUp link.Index))
    else (some (.err ENODEV), k)

/-- The call `netlink.AddrAdd`: the error it returns, and the address on the
link when it was not there. -/
def AddrAdd (link : Link) (addr : Addr) : Step (Option Error) :=
  fun k =>
    if !k.hasLink link.Index then (some (.ok (some ENODEV)), k)
    else if k.addrs.any (fun a => a.1 == link.Index && a.2.IPNet == addr.IPNet) then
      (some (.ok (some EEXIST)), k)
    else
      (some (.ok none), (k.addAddr link.Index addr).record (Event.AddrAdd link.Index addr))

/-- The call `netlink.RuleAdd`: the error it returns, and the rule in the
kernel when it was not there. -/
def RuleAdd (rule : Rule) : Step (Option Error) :=
  fun k =>
    if rule ∈ k.rules then (some (.ok (some EEXIST)), k)
    else (some (.ok none), (k.addRule rule).record (Event.RuleAdd rule))

/-- The call `netlink.RouteReplace`: the route takes the place of the route
with its key, or is added when there is none. -/
def RouteReplace (r : Route) : Step (Option Error) :=
  fun k =>
    if !k.hasLink r.LinkIndex then (some (.ok (some ENODEV)), k)
    else (some (.ok none), k.withRoute r)

/-- The call `netlink.RouteAdd`: refused when a route with the key is there. -/
def RouteAdd (r : Route) : Step (Option Error) :=
  fun k =>
    if !k.hasLink r.LinkIndex then (some (.ok (some ENODEV)), k)
    else if (k.routes r.key).isSome then (some (.ok (some EEXIST)), k)
    else (some (.ok none), (k.setRoute r.key (some r)).record (Event.RouteAdd r))

/-- Does the route `x` of the kernel match the route `r` handed to
`netlink.RouteDel`? The link, the gateway and the source count when `r` names
them, and the scope unless it is `SCOPE_NOWHERE`. -/
def Route.matches (r x : Route) : Bool :=
  (r.LinkIndex == 0 || x.LinkIndex == r.LinkIndex) &&
  (r.Scope == Scope.NOWHERE || x.Scope == r.Scope) &&
  (r.Gw == [] || x.Gw == r.Gw) &&
  (r.Src == [] || x.Src == r.Src)

/-- The call `netlink.RouteDel`: the route with the key of `r` is removed when
it matches, otherwise the kernel answers `ESRCH`. -/
def RouteDel (r : Route) : Step (Option Error) :=
  fun k =>
    match k.routes r.key with
    | none => (some (.ok (some ESRCH)), k)
    | some x =>
      if r.matches x then
        (some (.ok none), (k.setRoute r.key none).record (Event.RouteDel r.key))
      else (some (.ok (some ESRCH)), k)

/-- Modelled from the spec: `procsys.ProcSys.Set` of the package
`internal/procsys`, which is not among the sources. It writes the value of a
kernel parameter under `/proc/sys`; the spec has the engine loosen the
reverse-path filter through it. Its error is returned at once by the caller. -/
def procSysSet (key value : String) : Step Unit :=
  fun k => (some (.ok ()), k.withSysctl key value)

/-- The call `ipt.AppendUnique` of go-iptables: the entry is appended to the
chain unless it exists. -/
def AppendUnique (proto : Nat) (table chain : String) (spec : List String) : Step Unit :=
  fun k =>
    if ({ Proto := proto, Table := table, Chain := chain, Spec := spec } : IptEntry) ∈ k.iptables
    then (some (.ok ()), k)
    else
      (some (.ok ()),
        (k.addIpt { Proto := proto, Table := table, Chain := chain, Spec := spec }).record
          (Event.IptAppend { Proto := proto, Table := table, Chain := chain, Spec := spec }))

/-! ## The policy-routing engine (`imds-ptp.go`) -/

/-- The accessors of `metadata.TypedIMDS` that imds-ptp calls, as one metadata
snapshot: those of the allocator, the MAC of the primary ENI, and the device
number of an ENI. -/
structure EniIMDS extends TypedIMDS where
  GetMAC : Except Error String
  GetDeviceNumber : String → Except Error Int

/-- The texts that `fmt` gives for the values that the error messages show. -/
structure Fmt where
  ipnet : IPNet → String
  route : Route → String
  rule : Rule → String

/-- The IPv6 router discovery of `setupHostEniIface`, the loop `routelist`:
the routes of the ENI link in the main table are listed again and again, one
second apart, until a list has a default route whose gateway is not the
unspecified address. `answers n` is what `netlink.RouteListFiltered` returns to
query `n`, `fuel` is the number of queries the run is followed for, and
`none` means that the loop is still running after them. -/
def pollGateway (linkName : String) (answers : Nat → Except Error (List Route)) :
    Nat → Nat → Option (Except Error IP)
  | 0, _ => none
  | fuel + 1, n =>
    match answers n with
    | .error e =>
      some (.error (Error.Errorf ("failed to list routes on " ++ linkName ++ ": " ++ e.message)))
    | .ok routes =>
      match routes.find? (fun r => isDefaultRoute r.Dst && !IsUnspecified r.Gw) with
      | some r => some (.ok r.Gw)
      | none => pollGateway linkName answers fuel (n + 1)

/-- The gateway of the default route of `setupHostEniIface`, the statement
`switch ipVersion`: computed from the subnet for IPv4, discovered from router
advertisements for IPv6, `nil` for another version. -/
def gatewayFor (ipVersion : Int) (subnet : IPNet) (eniIface : NetInterface) (eniLink : Link)
    (answers : Nat → Except Error (List Route)) (fuel : Nat) : Step IP :=
  if ipVersion = 4 then
    match gatewayIPv4 subnet with
    | .ok gw => Step.ret gw
    | .err e => Step.fail e
    | .panic msg => Step.panic msg
  else if ipVersion = 6 then do
    procSysSet ("net/ipv6/conf/" ++ eniIface.Name ++ "/accept_ra") "2"
    match pollGateway eniLink.Name answers fuel 0 with
    | none => Step.running
    | some (.error e) => Step.fail e
    | some (.ok gw) => Step.ret gw
  else Step.ret []

/-- The two iptables rules of `setupHostEniIface`. -/
def iptRules (primaryName vethName : String) : List (List String) :=
  [["-m", "comment", "--comment", "AWS, primary ENI",
    "-i", primaryName,
    "-m", "addrtype", "--dst-type", "LOCAL", "--limit-iface-in",
    "-j", "CONNMARK", "--set-mark", "0x80/0x80"],
   ["-m", "comment", "--comment", "AWS, container return",
    "-i", vethName, "-j", "CONNMARK", "--restore-mark", "--mask", "0x80"]]

/-- The loop `for _, iptRule := range iptRules` of `setupHostEniIface`. -/
def appendIptRules (proto : Nat) : List (List String) → Step Unit
  | [] => Step.ret ()
  | spec :: rest => do
    AppendUnique proto "mangle" "PREROUTING" spec
    appendIptRules proto rest

/-- The two routes of an ENI table in `setupHostEniIface`: the route to the
subnet and the default route. -/
def eniRoutes (tableIdx : Int) (eniIface : NetInterface) (subnet defaultRoute : IPNet)
    (gwIP : IP) : List Route :=
  [{ Table := tableIdx, LinkIndex := eniIface.Index, Dst := some subnet, Scope := Scope.LINK },
   { Table := tableIdx, LinkIndex := eniIface.Index, Dst := some defaultRoute, Gw := gwIP,
     Scope := Scope.UNIVERSE }]

/-- The loop `for _, r := range routes` of `setupHostEniIface`. -/
def replaceRoutes (fmt : Fmt) : List Route → Step Unit
  | [] => Step.ret ()
  | r :: rest => do
    swallowExist (← RouteReplace r)
      (fun e => Error.Errorf ("failed to add route (" ++ fmt.route r ++ "): " ++ e.message))
    replaceRoutes fmt rest

/-- The default route of a family: `0.0.0.0/0` or `::/0`. -/
def defaultRouteOf (ipVersion : Int) : IPNet :=
  if ipVersion = 6 then { IP := IPv6zero, Mask := CIDRMask 0 128 }
  else { IP := IPv4zero, Mask := CIDRMask 0 32 }

/-- The address family of a version. -/
def familyOf (ipVersion : Int) : Int :=
  if ipVersion = 6 then AF_INET6 else AF_INET

/-- The length of a host mask of a version. -/
def maskLenOf (ipVersion : Int) : Nat :=
  if ipVersion = 6 then 128 else 32

/-- The iptables protocol of a version. -/
def iptProtoOf (ipVersion : Int) : Nat :=
  if ipVersion = 6 then 6 else 4

/-- The pin rule of the primary address of an ENI in `setupHostEniIface`. -/
def eniRule (ipVersion tableIdx : Int) (eniPrimaryIP : IP) : Rule :=
  { Priority := rulePriorityOutgoingENI, Table := tableIdx,
    Src := some { IP := eniPrimaryIP,
                  Mask := CIDRMask (maskLenOf ipVersion) (maskLenOf ipVersion) } }

/-- `setupHostEniIface` of `imds-ptp.go`: the ENI interface and the policy
route of its primary IP. `answers` and `fuel` are those of `pollGateway`. -/
def setupHostEniIface (fmt : Fmt) (imds : EniIMDS) (mtu : Int) (vethName eniMAC : String)
    (ipVersion : Int) (answers : Nat → Except Error (List Route)) (fuel : Nat) : Step Unit := do
  let ifaces ← Interfaces
  let primaryMAC ← Step.ofExcept imds.GetMAC
  match interfaceByMAC ifaces primaryMAC with
  | none => Step.fail (Error.Errorf ("failed to find interface for MAC " ++ primaryMAC))
  | some primaryIface => do
    swallowExist
      (← RuleAdd { Priority := rulePriorityLocalPods, Family := familyOf ipVersion,
                   Table := routeTablePod })
      (fun e => Error.Errorf ("failed to add rule: " ++ e.message))
    appendIptRules (iptProtoOf ipVersion) (iptRules primaryIface.Name vethName)
    swallowExist
      (← RuleAdd { Priority := rulePriorityMasq, Mark := masqMark, Mask := some masqMark,
                   Family := familyOf ipVersion, Table := RT_TABLE_MAIN })
      (fun e => Error.Errorf ("failed to add rule: " ++ e.message))
    match interfaceByMAC ifaces eniMAC with
    | none => Step.fail (Error.Errorf ("failed to find existing interface with MAC " ++ eniMAC))
    | some eniIface => do
      let subnet ← Step.ofExcept
        (if ipVersion = 6 then imds.GetSubnetIPv6CIDRBlocks eniMAC
          else imds.GetSubnetIPv4CIDRBlock eniMAC)
      let deviceNumber ← Step.ofExcept (imds.GetDeviceNumber eniMAC)
      let eniLink ← LinkByIndex eniIface.Index
      LinkSetMTU eniLink mtu
      LinkSetUp eniLink
      let ips ← Step.ofExcept
        (if ipVersion = 6 then imds.GetIPv6s eniMAC else imds.GetLocalIPv4s eniMAC)
      match ips with
      | [] => Step.panic "index out of range [0] with length 0"
      | eniPrimaryIP :: _ => do
        swallowExist
          (← AddrAdd eniLink { IPNet := { IP := eniPrimaryIP, Mask := subnet.Mask },
                               Scope := Scope.UNIVERSE })
          (fun e => Error.Errorf ("failed to add IP addr (" ++
            fmt.ipnet { IP := eniPrimaryIP, Mask := subnet.Mask } ++ ") to ENI: " ++ e.message))
        if ipVersion = 4 then
          procSysSet ("net/ipv4/conf/" ++ primaryIface.Name ++ "/rp_filter") "2"
        let gwIP ← gatewayFor ipVersion subnet eniIface eniLink answers fuel
        replaceRoutes fmt
          (eniRoutes (routeTableENIStart + deviceNumber) eniIface subnet
            (defaultRouteOf ipVersion) gwIP)
        swallowExist
          (← RuleAdd (eniRule ipVersion (routeTableENIStart + deviceNumber) eniPrimaryIP))
          (fun e => Error.Errorf ("failed to add rule (" ++
            fmt.rule (eniRule ipVersion (routeTableENIStart + deviceNumber) eniPrimaryIP)
            ++ "): " ++ e.message))

/-- The pin rule of a pod address in `setupHostEniPodRoute`. -/
def podRule (tableIdx : Int) (ip : IP) : Rule :=
  { Priority := rulePriorityOutgoingENI, Table := tableIdx,
    Src := some { IP := ip, Mask := if To4 ip ≠ [] then CIDRMask 32 32 else CIDRMask 128 128 } }

/-- The route of a pod address in the table of the pods, in
`setupHostEniPodRoute`. -/
def podRoute (veth : Link) (ip : IP) : Route :=
  { Table := routeTablePod, LinkIndex := veth.Index,
    Dst := some { IP := ip, Mask := if To4 ip ≠ [] then CIDRMask 32 32 else CIDRMask 128 128 },
    Scope := Scope.UNIVERSE }

/-- `setupHostEniPodRoute` of `imds-ptp.go`: the policy routes of a pod IP. -/
def setupHostEniPodRoute (fmt : Fmt) (imds : EniIMDS) (vethName eniMAC : String)
    (ipc : IPConfig) : Step Unit := do
  let veth ← Step.mapErr (LinkByName vethName)
    (fun e => Error.Errorf ("failed to lookup \"" ++ vethName ++ "\": " ++ e.message))
  swallowExist (← RouteReplace (podRoute veth ipc.Address.IP))
    (fun e => Error.Errorf ("failed to add route (" ++
      fmt.route (podRoute veth ipc.Address.IP) ++ "): " ++ e.message))
  let deviceNumber ← Step.ofExcept (imds.GetDeviceNumber eniMAC)
  swallowExist (← RuleAdd (podRule (routeTableENIStart + deviceNumber) ipc.Address.IP))
    (fun e => Error.Errorf ("failed to add rule (" ++
      fmt.rule (podRule (routeTableENIStart + deviceNumber) ipc.Address.IP) ++ "): " ++ e.message))


/-- The loop `macloop` of `setupHostEni`: the first MAC, in the order of the
metadata, whose address list has an address equal to the pod IP; the empty
string when there is none. The error of a failed fetch ends `setupHostEni`. -/
def findENI (getIPs : String → Except Error (List IP)) (target : IP) :
    List String → Except Error String
  | [] => .ok ""
  | mac :: macs =>
    match getIPs mac with
    | .error e => .error e
    | .ok ips =>
      if ips.any (fun ip => IP.Equal ip target) then .ok mac
      else findENI getIPs target macs

/-- The loop `for _, ipc := range result.IPs` of `setupHostEni`. `answers c`
holds the answers to the queries of the `c`-th call of `setupHostEniIface`
that the loop can make (two per address), and `n` counts the addresses done. -/
def setupHostEni.loop (fmt : Fmt) (imds : EniIMDS) (mtu : Int) (vethName primaryMAC : String)
    (answers : Nat → Nat → Except Error (List Route)) (fuel : Nat) :
    List IPConfig → Nat → Step Unit
  | [], _ => Step.ret ()
  | ipc :: rest, n => do
    let macs ← Step.ofExcept imds.GetMACs
    let eniMAC ← Step.ofExcept
      (findENI (if To4 ipc.Address.IP ≠ [] then imds.GetLocalIPv4s else imds.GetIPv6s)
        ipc.Address.IP macs)
    if eniMAC = "" then
      Step.fail (Error.Errorf ("failed to find ENI for " ++ fmt.ipnet ipc.Address))
    else do
      setupHostEniIface fmt imds mtu vethName eniMAC (if To4 ipc.Address.IP ≠ [] then 4 else 6)
        (answers (2 * n)) fuel
      setupHostEniPodRoute fmt imds vethName eniMAC ipc
      if eniMAC ≠ primaryMAC then
        setupHostEniIface fmt imds mtu vethName primaryMAC
          (if To4 ipc.Address.IP ≠ [] then 4 else 6) (answers (2 * n + 1)) fuel
      setupHostEni.loop fmt imds mtu vethName primaryMAC answers fuel rest (n + 1)

/-- `setupHostEni` of `imds-ptp.go`, on the addresses of the result. -/
def setupHostEni (fmt : Fmt) (imds : EniIMDS) (mtu : Int) (vethName : String)
    (ips : List IPConfig) (answers : Nat → Nat → Except Error (List Route)) (fuel : Nat) :
    Step Unit := do
  let ifaces ← Interfaces
  let primaryMAC ← Step.ofExcept imds.GetMAC
  match interfaceByMAC ifaces primaryMAC with
  | none => Step.fail (Error.Errorf ("failed to find interface for MAC " ++ primaryMAC))
  | some _ => setupHostEni.loop fmt imds mtu vethName primaryMAC answers fuel ips 0

/-- The policy-routing construction for one pod address on its ENI:
`setupHostEniIface` followed by `setupHostEniPodRoute`, as `setupHostEni`
calls them. -/
def construct (fmt : Fmt) (imds : EniIMDS) (mtu : Int) (vethName eniMAC : String)
    (ipc : IPConfig) (answers : Nat → Except Error (List Route)) (fuel : Nat) : Step Unit := do
  setupHostEniIface fmt imds mtu vethName eniMAC (if To4 ipc.Address.IP ≠ [] then 4 else 6)
    answers fuel
  setupHostEniPodRoute fmt imds vethName eniMAC ipc

/-- The kernel that a run of `setupHostEniIface` leaves when it returns no
error, in terms of the kernel before it and of what the run looked up: the
primary interface, the interface and the link of the ENI, its subnet, its
table, its primary address and the gateway. Each line is one call, in the
order of the function. -/
def ifaceDone (k : Kernel) (mtu : Int) (vethName : String) (ipVersion : Int)
    (primaryIface eniIface : NetInterface) (eniLink : Link) (subnet : IPNet) (tableIdx : Int)
    (eniPrimaryIP gwIP : IP) : Kernel :=
  let k1 := k.withRule { Priority := rulePriorityLocalPods, Family := familyOf ipVersion,
                         Table := routeTablePod }
  let k2 := (iptRules primaryIface.Name vethName).foldl
              (fun x spec => x.withIpt { Proto := iptProtoOf ipVersion, Table := "mangle",
                                         Chain := "PREROUTING", Spec := spec }) k1
  let k3 := k2.withRule { Priority := rulePriorityMasq, Mark := masqMark, Mask := some masqMark,
                          Family := familyOf ipVersion, Table := RT_TABLE_MAIN }
  let k4 := (k3.mapLinks (Link.withMTU eniLink.Index mtu)).record
              (Event.LinkSetMTU eniLink.Index mtu)
  let k5 := (k4.mapLinks (Link.setUp eniLink.Index)).record (Event.LinkSetUp eniLink.Index)
  let k6 := k5.withAddr eniLink.Index
              { IPNet := { IP := eniPrimaryIP, Mask := subnet.Mask }, Scope := Scope.UNIVERSE }
  let k7 := if ipVersion = 4 then
              k6.withSysctl ("net/ipv4/conf/" ++ primaryIface.Name ++ "/rp_filter") "2"
            else if ipVersion = 6 then
              k6.withSysctl ("net/ipv6/conf/" ++ eniIface.Name ++ "/accept_ra") "2"
            else k6
  let k8 := (k7.withRoute
              { Table := tableIdx, LinkIndex := eniIface.Index, Dst := some subnet,
                Scope := Scope.LINK }).withRoute
              { Table := tableIdx, LinkIndex := eniIface.Index,
                Dst := some (defaultRouteOf ipVersion), Gw := gwIP, Scope := Scope.UNIVERSE }
  k8.withRule (eniRule ipVersion tableIdx eniPrimaryIP)

/-- The kernel that a run of `setupHostEniPodRoute` leaves when it returns no
error: with the route of the pod address in the table of the pods and with its
pin rule. -/
def podDone (k : Kernel) (veth : Link) (tableIdx : Int) (ip : IP) : Kernel :=
  (k.withRoute (podRoute veth ip)).withRule (podRule tableIdx ip)

/-! ## The order of the calls in a run

The log of the kernel tells which calls of a run changed it and in what order.
The predicates below speak about the part of the log that a run has added. -/

/-- The rules that the calls of a log have added are of the class of the pods
(priority 30000) or of the masquerade class (priority 30010): no pin rule. -/
def Quiet (evs : List Event) : Prop :=
  ∀ r, Event.RuleAdd r ∈ evs → r.Priority = rulePriorityLocalPods ∨ r.Priority = rulePriorityMasq

/-- The kernel `k1` has the log of `k` and, after it, calls that add no pin
rule. -/
def Kernel.QuietTo (k k1 : Kernel) : Prop :=
  ∃ evs, k1.log = k.log ++ evs ∧ Quiet evs

/-- A call that adds no pin rule, however it ends. -/
def Step.Quiet {α : Type} (m : Step α) : Prop :=
  ∀ k : Kernel, k.QuietTo (m k).2

/-- A call that adds no pin rule unless it returns a value. -/
def Step.QuietUnlessOk {α : Type} (m : Step α) : Prop :=
  ∀ k : Kernel, (∃ a, (m k).1 = some (.ok a)) ∨ k.QuietTo (m k).2

/-- The calls of a log have installed the table `T` of an ENI: `T` is the table
of the device number of an attached MAC, and the log has a `RouteReplace` of a
link-scope route to the subnet of that MAC in `T` and a `RouteReplace` of a
default route in `T`. -/
def TableBuilt (imds : EniIMDS) (evs : List Event) (T : Int) : Prop :=
  ∃ (mac : String) (d : Int) (S : IPNet) (sr dr : Route),
    imds.GetDeviceNumber mac = .ok d ∧ T = routeTableENIStart + d ∧
    (imds.GetSubnetIPv4CIDRBlock mac = .ok S ∨ imds.GetSubnetIPv6CIDRBlocks mac = .ok S) ∧
    Event.RouteReplace sr ∈ evs ∧ sr.Table = T ∧ sr.Dst = some S ∧ sr.Scope = Scope.LINK ∧
    Event.RouteReplace dr ∈ evs ∧ dr.Table = T ∧ isDefaultRoute dr.Dst = true

/-- Every pin rule (priority 30020) that the calls of a log have added comes
after the calls that installed its table. -/
def PinsAfterRoutes (imds : EniIMDS) (evs : List Event) : Prop :=
  ∀ a r b, evs = a ++ Event.RuleAdd r :: b → r.Priority = rulePriorityOutgoingENI →
    TableBuilt imds a r.Table

/-- A call whose every run adds its pin rules after the calls that installed
their tables, however the run ends. -/
def Step.Pinned {α : Type} (imds : EniIMDS) (m : Step α) : Prop :=
  ∀ k : Kernel, ∃ evs, (m k).2.log = k.log ++ evs ∧ PinsAfterRoutes imds evs

/-! ## CHECK and ADD of imds-ptp -/

/-- The `Interface` of the CNI result types (`cniv1.Interface`). -/
structure Interface where
  Name : String := ""
  Mac : String := ""
  Sandbox : String := ""
deriving DecidableEq, Repr

/-- `validateCniContainerInterface` of `imds-ptp.go`, run in the namespace of
the container. -/
def validateCniContainerInterface (intf : Interface) : Step Unit :=
  if intf.Name = "" then
    Step.fail (Error.Errorf ("container interface name missing in prevResult: " ++ intf.Name))
  else do
    let link ← Step.mapErr (LinkByName intf.Name)
      (fun _ => Error.Errorf
        ("ptp: Container Interface name in prevResult: " ++ intf.Name ++ " not found"))
    if intf.Sandbox = "" then
      Step.fail (Error.Errorf ("ptp: Error: Container interface " ++ link.Name ++
        " should not be in host namespace"))
    else if !link.Veth then
      Step.fail (Error.Errorf ("container interface " ++ link.Name ++ " not of type veth/p2p"))
    else if intf.Mac ≠ "" ∧ intf.Mac ≠ link.HardwareAddr then
      Step.fail (Error.Errorf ("ptp: Interface " ++ intf.Name ++ " Mac " ++ intf.Mac ++
        " doesn't match container Mac: " ++ link.HardwareAddr))
    else Step.ret ()

/-- The loop of `cmdCheck` over the interfaces of the previous result: the last
interface with the name and the sandbox of the call, the zero value when there
is none. -/
def findContMap (ifName netns : String) : List Interface → Interface → Interface
  | [], contMap => contMap
  | intf :: rest, contMap =>
    if ifName = intf.Name ∧ netns = intf.Sandbox then findContMap ifName netns rest intf
    else findContMap ifName netns rest contMap

/-- What the calls of `cmdCheck` outside its own code return: the parsing of
the configuration, the opening of the namespace, the CHECK of the IPAM plugin,
the previous result and its conversion, and the two validations of the
plugins library. -/
structure CheckEnv where
  loadConf : Option Error
  GetNS : Option Error
  ExecCheck : Option Error
  RawPrevResultNil : Bool
  ParsePrevResult : Option Error
  NewResultFromResult : Except Error (List Interface)
  ValidateExpectedInterfaceIPs : Option Error
  ValidateExpectedRoute : Option Error

/-- `cmdCheck` of `imds-ptp.go`; `ifName` and `netns` are `args.IfName` and
`args.Netns`, and the kernel is the namespace of the container. -/
def cmdCheck (env : CheckEnv) (ifName netns : String) : Step Unit :=
  match env.loadConf with
  | some e => Step.fail (Error.Errorf ("failed to parse config: " ++ e.message))
  | none =>
    match env.GetNS with
    | some e =>
      Step.fail (Error.Errorf ("failed to open netns \"" ++ netns ++ "\": " ++ e.message))
    | none =>
      match env.ExecCheck with
      | some e => Step.fail e
      | none =>
        if env.RawPrevResultNil then Step.fail (Error.Errorf "ptp: Required prevResult missing")
        else
          match env.ParsePrevResult with
          | some e => Step.fail e
          | none =>
            match env.NewResultFromResult with
            | .error e => Step.fail e
            | .ok interfaces =>
              if netns ≠ (findContMap ifName netns interfaces {}).Sandbox then
                Step.fail (Error.Errorf ("sandbox in prevResult " ++
                  (findContMap ifName netns interfaces {}).Sandbox ++
                  " doesn't match configured netns: " ++ netns))
              else do
                validateCniContainerInterface (findContMap ifName netns interfaces {})
                Step.ofExcept (match env.ValidateExpectedInterfaceIPs with
                  | some e => .error e
                  | none => .ok ())
                Step.ofExcept (match env.ValidateExpectedRoute with
                  | some e => .error e
                  | none => .ok ())

/-- The calls to the IPAM plugin that an ADD makes. -/
inductive IPAMCall where
  | ExecAdd
  | ExecDel
deriving DecidableEq, Repr

/-- What the calls of `cmdAdd` return, in the order of the function: each
error (`none` is `nil`), and the number of addresses in the result of IPAM. -/
structure AddEnv where
  loadConf : Option Error := none
  NewSession : Option Error := none
  ExecAdd : Option Error := none
  NewResultFromResult : Option Error := none
  numIPs : Nat := 1
  EnableForward : Option Error := none
  GetNS : Option Error := none
  setupContainerVeth : Option Error := none
  setupHostVeth : Option Error := none
  setupHostEni : Option Error := none
  PrintResult : Option Error := none

/-- The deferred function of `cmdAdd`,
`if err != nil { _ = ipam.ExecDel(...) }`, run when the function returns:
`err` is the value of the variable `err` of `cmdAdd` at that moment, `ret` the
error that `cmdAdd` returns and `calls` the IPAM calls made so far. -/
def deferredDel (err ret : Option Error) (calls : List IPAMCall) :
    Option Error × List IPAMCall :=
  (ret, if err.isSome then calls ++ [IPAMCall.ExecDel] else calls)

/-- `cmdAdd` of `imds-ptp.go`: the error it returns and the calls to the IPAM
plugin it makes. The first argument of `deferredDel` follows the variable `err`
of the function: the statements `x, err := ...` and `err = ...` at the level of
the function assign it, `if err := ...; err != nil` declares another variable
for its own block, and a `return` of another expression leaves it as it is. -/
def cmdAdd (env : AddEnv) (netns : String) : Option Error × List IPAMCall :=
  match env.loadConf with
  | some e => (some (Error.Errorf ("failed to parse config: " ++ e.message)), [])
  | none =>
    match env.NewSession with
    | some e => (some e, [])
    | none =>
      match env.ExecAdd with
      | some e => (some e, [IPAMCall.ExecAdd])
      | none =>
        match env.NewResultFromResult with
        | some e => deferredDel (some e) (some e) [IPAMCall.ExecAdd]
        | none =>
          if env.numIPs = 0 then
            deferredDel none (some (Error.Errorf "IPAM plugin returned missing IP config"))
              [IPAMCall.ExecAdd]
          else
            match env.EnableForward with
            | some e =>
              deferredDel none
                (some (Error.Errorf ("could not enable IP forwarding: " ++ e.message)))
                [IPAMCall.ExecAdd]
            | none =>
              match env.GetNS with
              | some e =>
                deferredDel (some e)
                  (some (Error.Errorf
                    ("failed to open netns \"" ++ netns ++ "\": " ++ e.message)))
                  [IPAMCall.ExecAdd]
              | none =>
                match env.setupContainerVeth with
                | some e => deferredDel (some e) (some e) [IPAMCall.ExecAdd]
                | none =>
                  match env.setupHostVeth with
                  | some e => deferredDel (some e) (some e) [IPAMCall.ExecAdd]
                  | none =>
                    match env.setupHostEni with
                    | some e => deferredDel (some e) (some e) [IPAMCall.ExecAdd]
                    | none => deferredDel none env.PrintResult [IPAMCall.ExecAdd]

end IMDSPtp

namespace EgressV4

open IMDSIpam IMDSPtp

/-! ## The egress NAT plugin (`egress-v4.go`) -/

/-- A route of the CNI result types (`types.Route`). -/
structure CNIRoute where
  Dst : IPNet
  GW : IP
deriving DecidableEq, Repr

/-- The DNS settings of the CNI result types (`types.DNS`). -/
structure DNS where
  Nameservers : List String := []
  Domain : String := ""
  Search : List String := []
  Options : List String := []
deriving DecidableEq, Repr

/-- The `Result` of the CNI result types (`cniv1.Result`). -/
structure Result where
  CNIVersion : String := ""
  Interfaces : List Interface := []
  IPs : List IPConfig := []
  Routes : List CNIRoute := []
  DNS : DNS := {}
deriving DecidableEq, Repr

/-- The functions of the plugins library that `setupContainerVeth` calls in the
namespace of the container: `ip.SetupVeth`, which returns the host end and the
container end of the new pair, and `ipam.ConfigureIface`. What they do to the
kernel is theirs. -/
structure VethLib where
  SetupVeth : String → Int → Step (NetInterface × NetInterface)
  ConfigureIface : String → Result → Step Unit

/-- Go's `net.InterfaceByName`, with the error wrapped as `setupContainerVeth`
wraps it. -/
def InterfaceByName (ifName : String) : Step NetInterface :=
  fun k =>
    match k.links.find? (fun l => l.Name == ifName) with
    | some l => (some (.ok l.toInterface), k)
    | none =>
      (some (.err (Error.Errorf ("failed to look up \"" ++ ifName ++ "\": " ++
        LinkNotFound.message))), k)

/-- The route that `setupContainerVeth` deletes for an address: the route to
its subnet on the link, of any scope. -/
def autoRoute (contVeth : NetInterface) (ipc : IPConfig) : Route :=
  { LinkIndex := contVeth.Index,
    Dst := some { IP := IP.Mask ipc.Address.IP ipc.Address.Mask, Mask := ipc.Address.Mask },
    Scope := Scope.NOWHERE }

/-- The first route that `setupContainerVeth` adds for an address: the host
route to the gateway, of link scope. -/
def gatewayRoute (contVeth : NetInterface) (ipc : IPConfig) : Route :=
  { LinkIndex := contVeth.Index,
    Dst := some { IP := ipc.Gateway,
                  Mask := if To4 ipc.Address.IP ≠ [] then CIDRMask 32 32 else CIDRMask 128 128 },
    Scope := Scope.LINK,
    Src := ipc.Address.IP }

/-- The second route that `setupContainerVeth` adds for an address: the route
to the subnet of the address through the gateway. -/
def subnetRoute (contVeth : NetInterface) (ipc : IPConfig) : Route :=
  { LinkIndex := contVeth.Index,
    Dst := some { IP := IP.Mask ipc.Address.IP ipc.Address.Mask, Mask := ipc.Address.Mask },
    Scope := Scope.UNIVERSE,
    Gw := ipc.Gateway,
    Src := ipc.Address.IP }

/-- The loop `for _, r := range []netlink.Route{...}` of
`setupContainerVeth`. -/
def addRoutes (fmt : Fmt) : List Route → Step Unit
  | [] => Step.ret ()
  | r :: rest => do
    match (← RouteAdd r) with
    | some e =>
      Step.fail (Error.Errorf ("failed to add route " ++ fmt.route r ++ ": " ++ e.message))
    | none => addRoutes fmt rest

/-- One turn of the loop `for _, ipc := range pr.IPs` of `setupContainerVeth`:
the automatic route of the address is deleted and the two routes through the
gateway are added. -/
def replaceAutoRoute (fmt : Fmt) (contVeth : NetInterface) (ipc : IPConfig) : Step Unit := do
  match (← RouteDel (autoRoute contVeth ipc)) with
  | some e =>
    Step.fail (Error.Errorf ("failed to delete route " ++
      fmt.route (autoRoute contVeth ipc) ++ ": " ++ e.message))
  | none => addRoutes fmt [gatewayRoute contVeth ipc, subnetRoute contVeth ipc]

/-- The loop `for _, ipc := range pr.IPs` of `setupContainerVeth` over the
routes. -/
def replaceAutoRoutes (fmt : Fmt) (contVeth : NetInterface) : List IPConfig → Step Unit
  | [] => Step.ret ()
  | ipc :: rest => do
    replaceAutoRoute fmt contVeth ipc
    replaceAutoRoutes fmt contVeth rest

/-- `setupContainerVeth` of `egress-v4.go`, run in the namespace of the
container (`netns` is its path): the host interface, the container interface
and the result as the function leaves it. The gratuitous ARP at the end, whose
error is dropped, changes nothing in the kernel and is left out. -/
def setupContainerVeth (fmt : Fmt) (lib : VethLib) (netns ifName : String) (mtu : Int)
    (pr : Result) : Step (Interface × Interface × Result) := do
  let veths ← lib.SetupVeth ifName mtu
  lib.ConfigureIface ifName
    { pr with
      IPs := pr.IPs.map (fun ipc => { ipc with Interface := some 1 }),
      Interfaces := [{ Name := veths.1.Name, Mac := veths.1.HardwareAddr },
                     { Name := veths.2.Name, Mac := veths.2.HardwareAddr, Sandbox := netns }] }
  let contVeth ← InterfaceByName ifName
  replaceAutoRoutes fmt contVeth (pr.IPs.map (fun ipc => { ipc with Interface := some 1 }))
  Step.ret
    ({ Name := veths.1.Name, Mac := veths.1.HardwareAddr },
     { Name := veths.2.Name, Mac := veths.2.HardwareAddr, Sandbox := netns },
     { pr with
       IPs := pr.IPs.map (fun ipc => { ipc with Interface := some 1 }),
       Interfaces := [{ Name := veths.1.Name, Mac := veths.1.HardwareAddr },
                      { Name := veths.2.Name, Mac := veths.2.HardwareAddr, Sandbox := netns }] })

/-- The configuration of the plugin (`NetConf` of `egress-v4.go`), parsed:
`PrevResult` and `SnatIP` are `none` when the Go fields are `nil`. -/
structure NetConf where
  CNIVersion : String := ""
  Name : String := ""
  IPAMType : String := ""
  PrevResult : Option Result := none
  IfName : String := "nat0"
  MTU : Int := 0
  SnatIP : Option IP := none
deriving DecidableEq, Repr

/-- The calls that `cmdAdd` makes outside its own code, with their
arguments. -/
inductive Call where
  | ExecAdd (ipamType : String)
  | ExecDel (ipamType : String)
  | EnableForward (ips : List IPConfig)
  | GetNS (path : String)
  | setupContainerVeth (ifName : String) (mtu : Int)
  | setupHostVeth (vethName : String)
  | snat4 (snatIP ip : IP) (chain comment : String)
  | PrintResult (result : Result) (version : String)
deriving DecidableEq, Repr

/-- What the calls of `cmdAdd` return. `GetResult` converts the previous
result, `NewResultFromResult` is the result of IPAM once converted,
`setupContainerVeth` gives the host interface and the result as it leaves it,
and `chain` and `comment` are the two formatting functions of the plugins
library, applied to the name of the network and the container id. -/
structure AddEnv where
  loadConf : Except Error NetConf
  GetResult : Result → Except Error Result
  chain : String → String → String
  comment : String → String → String
  ExecAdd : Option Error
  NewResultFromResult : Except Error Result
  EnableForward : Option Error
  GetNS : Option Error
  setupContainerVeth : Result → Except Error (Interface × Result)
  setupHostVeth : Option Error
  snat4 : IP → IP → String → String → Option Error
  PrintResult : Result → String → Option Error

/-- The deferred function of `cmdAdd`,
`if err != nil { _ = ipam.ExecDel(...) }`, run when the function returns:
`err` is the value of the variable `err` of `cmdAdd` at that moment, `ret` the
error that `cmdAdd` returns and `calls` the calls made so far. -/
def deferredDel (ipamType : String) (err ret : Option Error) (calls : List Call) :
    Option Error × List Call :=
  (ret, if err.isSome then calls ++ [Call.ExecDel ipamType] else calls)

/-- The loop of `cmdAdd` over the addresses of the IPAM result that installs
the SNAT rules: the first error ends it. -/
def snatLoop (env : AddEnv) (snatIP : IP) (chain comment : String) :
    List IPConfig → List Call → Option Error × List Call
  | [], calls => (none, calls)
  | ipc :: rest, calls =>
    if To4 ipc.Address.IP ≠ [] then
      match env.snat4 snatIP ipc.Address.IP chain comment with
      | some e => (some e, calls ++ [Call.snat4 snatIP ipc.Address.IP chain comment])
      | none =>
        snatLoop env snatIP chain comment rest
          (calls ++ [Call.snat4 snatIP ipc.Address.IP chain comment])
    else snatLoop env snatIP chain comment rest calls

/-- The end of `cmdAdd`, after the host veth is set up: the SNAT rules, the
interfaces of the IPAM result appended to the previous result, and the
printing. The variable `err` of the function is `nil` all along. -/
def cmdAdd.finish (env : AddEnv) (conf : NetConf) (containerID : String)
    (result tmpResult : Result) (calls : List Call) : Option Error × List Call :=
  match conf.SnatIP with
  | some snatIP =>
    match snatLoop env snatIP (env.chain conf.Name containerID)
        (env.comment conf.Name containerID) tmpResult.IPs calls with
    | (some e, calls1) => deferredDel conf.IPAMType none (some e) calls1
    | (none, calls1) =>
      deferredDel conf.IPAMType none
        (env.PrintResult { result with Interfaces := result.Interfaces ++ tmpResult.Interfaces }
          conf.CNIVersion)
        (calls1 ++ [Call.PrintResult
          { result with Interfaces := result.Interfaces ++ tmpResult.Interfaces }
          conf.CNIVersion])
  | none =>
    deferredDel conf.IPAMType none
      (env.PrintResult { result with Interfaces := result.Interfaces ++ tmpResult.Interfaces }
        conf.CNIVersion)
      (calls ++ [Call.PrintResult
        { result with Interfaces := result.Interfaces ++ tmpResult.Interfaces }
        conf.CNIVersion])

/-- The part of `cmdAdd` after the call of IPAM has succeeded, with the
deferred function in place. The first argument of `deferredDel` follows the
variable `err` of the function: the statements `x, err := ...` and `err = ...`
at the level of the function assign it, `if err := ...; err != nil` declares
another variable for its own block, and a `return` of another expression
leaves it as it is. -/
def cmdAdd.afterIPAM (env : AddEnv) (conf : NetConf) (containerID netns : String)
    (result : Result) (calls : List Call) : Option Error × List Call :=
  match env.NewResultFromResult with
  | .error e => deferredDel conf.IPAMType (some e) (some e) calls
  | .ok tmpResult =>
    if tmpResult.IPs.length = 0 then
      deferredDel conf.IPAMType none (some (Error.Errorf "IPAM plugin returned zero IPs")) calls
    else
      match env.EnableForward with
      | some e =>
        deferredDel conf.IPAMType none
          (some (Error.Errorf ("could not enable IP forwarding: " ++ e.message)))
          (calls ++ [Call.EnableForward tmpResult.IPs])
      | none =>
        match env.GetNS with
        | some e =>
          deferredDel conf.IPAMType (some e)
            (some (Error.Errorf ("failed to open netns \"" ++ netns ++ "\": " ++ e.message)))
            (calls ++ [Call.EnableForward tmpResult.IPs, Call.GetNS netns])
        | none =>
          match env.setupContainerVeth tmpResult with
          | .error e =>
            deferredDel conf.IPAMType (some e) (some e)
              (calls ++ [Call.EnableForward tmpResult.IPs, Call.GetNS netns,
                Call.setupContainerVeth conf.IfName conf.MTU])
          | .ok (hostInterface, tmpResult1) =>
            match env.setupHostVeth with
            | some e =>
              deferredDel conf.IPAMType (some e) (some e)
                (calls ++ [Call.EnableForward tmpResult.IPs, Call.GetNS netns,
                  Call.setupContainerVeth conf.IfName conf.MTU,
                  Call.setupHostVeth hostInterface.Name])
            | none =>
              cmdAdd.finish env conf containerID result tmpResult1
                (calls ++ [Call.EnableForward tmpResult.IPs, Call.GetNS netns,
                  Call.setupContainerVeth conf.IfName conf.MTU,
                  Call.setupHostVeth hostInterface.Name])

/-- `cmdAdd` of `egress-v4.go`: the error it returns and the calls it makes,
in their order. `containerID` and `netns` are `args.ContainerID` and
`args.Netns`. -/
def cmdAdd (env : AddEnv) (containerID netns : String) : Option Error × List Call :=
  match env.loadConf with
  | .error e => (some (Error.Errorf ("failed to parse config: " ++ e.message)), [])
  | .ok conf =>
    match conf.PrevResult with
    | none => (some (Error.Errorf "must be called as a chained plugin"), [])
    | some prev =>
      match env.GetResult prev with
      | .error e => (some e, [])
      | .ok result =>
        if result.IPs.any (fun ipc => To4 ipc.Address.IP ≠ []) then
          (env.PrintResult result conf.CNIVersion, [Call.PrintResult result conf.CNIVersion])
        else
          match env.ExecAdd with
          | some e =>
            (some (Error.Errorf ("running IPAM plugin failed: " ++ e.message)),
              [Call.ExecAdd conf.IPAMType])
          | none =>
            cmdAdd.afterIPAM env conf containerID netns result [Call.ExecAdd conf.IPAMType]

end EgressV4

namespace IMDSPtp

open IMDSIpam

/-! ## Concrete kernels and snapshots, for the examples -/

/-- A kernel with no links, addresses, routes, rules or iptables entries. -/
def emptyKernel : Kernel :=
  { links := [], addrs := [], routes := fun _ => none, rules := [], sysctl := fun _ => none,
    iptables := [], log := [] }

/-- The texts of the error messages in the examples: the values are not
spelled out. -/
def plainFmt : Fmt :=
  { ipnet := fun _ => "<ipnet>", route := fun _ => "<route>", rule := fun _ => "<rule>" }

/-- The host of the examples: the primary interface `eth0`, a second ENI `eth1`
and the host end of the veth pair of a pod. -/
def exampleHost : Kernel :=
  { emptyKernel with
    links := [{ Index := 2, Name := "eth0", HardwareAddr := "0a:00:00:00:00:01", MTU := 9001,
                Up := true, Veth := false },
              { Index := 3, Name := "eth1", HardwareAddr := "0a:00:00:00:00:02", MTU := 1500,
                Up := false, Veth := false },
              { Index := 7, Name := "veth5e1f3a9c", HardwareAddr := "16:2a:9c:01:3b:07",
                MTU := 9001, Up := true, Veth := true }] }

/-- The metadata of the examples: the primary ENI, device 0, in 10.0.0.0/24,
and a second ENI, device 2, in 10.0.1.0/24 with the addresses 10.0.1.4
(primary) and 10.0.1.9. -/
def exampleIMDS : EniIMDS where
  GetMACs := .ok ["0a:00:00:00:00:01", "0a:00:00:00:00:02"]
  GetLocalIPv4s := fun mac =>
    if mac = "0a:00:00:00:00:02" then .ok [IPv4 10 0 1 4, IPv4 10 0 1 9]
    else .ok [IPv4 10 0 0 4]
  GetSubnetIPv4CIDRBlock := fun mac =>
    if mac = "0a:00:00:00:00:02" then .ok { IP := [10, 0, 1, 0], Mask := [255, 255, 255, 0] }
    else .ok { IP := [10, 0, 0, 0], Mask := [255, 255, 255, 0] }
  GetIPv6s := fun _ => .error (Error.Metadata "not found")
  GetSubnetIPv6CIDRBlocks := fun _ => .error (Error.Metadata "not found")
  GetMAC := .ok "0a:00:00:00:00:01"
  GetDeviceNumber := fun mac => if mac = "0a:00:00:00:00:02" then .ok 2 else .ok 0

/-- The pod address of the examples, 10.0.1.9/24. -/
def examplePod : IPConfig :=
  { Address := { IP := IPv4 10 0 1 9, Mask := [255, 255, 255, 0] }, Gateway := IPv4 10 0 1 1 }

/-- The answers of a kernel that learns its router with the third query: two
empty lists, then a default route through `fe80::1`. -/
def raAnswers : Nat → Except Error (List Route) :=
  fun n =>
    if n < 2 then .ok []
    else .ok [{ LinkIndex := 3, Dst := none,
                Gw := [0xfe, 0x80, 0, 0, 0, 0, 0, 0, 0, 0, 0, 0, 0, 0, 0, 1] }]

/-- A kernel that lists no routes, whatever the query. -/
def noRoutes : Nat → Except Error (List Route) :=
  fun _ => .ok []

end IMDSPtp

namespace EgressV4

open IMDSIpam IMDSPtp

/-- The route that the kernel installs by itself for an address on a link: the
route to the subnet of the address, of link scope, in the main table. -/
def kernelRoute (index : Int) (ipc : IPConfig) : Route :=
  { Table := RT_TABLE_MAIN, LinkIndex := index,
    Dst := some { IP := IP.Mask ipc.Address.IP ipc.Address.Mask, Mask := ipc.Address.Mask },
    Scope := Scope.LINK, Src := ipc.Address.IP }

/-- A stand-in for the plugins library in the examples: `SetupVeth` creates the
container end of the pair as link 2, and `ConfigureIface` sets the link up and
gives it the addresses of the result, for each of which the kernel installs by
itself the route to its subnet, of link scope. -/
def exampleVethLib : VethLib where
  SetupVeth := fun ifName mtu k =>
    (some (.ok ({ Index := 7, Name := "veth5e1f3a9c", HardwareAddr := "16:2a:9c:01:3b:07" },
        { Index := 2, Name := ifName, HardwareAddr := "16:2a:9c:01:3b:02" })),
      { k with
        links := k.links ++
          [{ Index := 2, Name := ifName, HardwareAddr := "16:2a:9c:01:3b:02", MTU := mtu,
             Up := false, Veth := true }] })
  ConfigureIface := fun ifName pr k =>
    (some (.ok ()),
      { k with
        links := k.links.map (fun l => if l.Name = ifName then { l with Up := true } else l),
        addrs := k.addrs ++ pr.IPs.map (fun ipc =>
          (2, { IPNet := ipc.Address, Scope := Scope.UNIVERSE })),
        routes := pr.IPs.foldl (fun routes ipc => fun key =>
          if key = (Route.key (kernelRoute 2 ipc)) then some (kernelRoute 2 ipc)
          else routes key) k.routes })

/-- The IPAM result of scenario 3: the address 192.0.2.10/24 with the gateway
192.0.2.1. -/
def scenarioResult : Result :=
  { IPs := [{ Address := { IP := IPv4 192 0 2 10, Mask := CIDRMask 24 32 },
              Gateway := IPv4 192 0 2 1 }] }

/-- The address of scenario 3: 192.0.2.10/24 with the gateway 192.0.2.1. -/
def firstAddress : IPConfig :=
  { Address := { IP := IPv4 192 0 2 10, Mask := CIDRMask 24 32 }, Gateway := IPv4 192 0 2 1 }

/-- A second address of the same subnet: 192.0.2.11/24 with the gateway
192.0.2.2. -/
def secondAddress : IPConfig :=
  { Address := { IP := IPv4 192 0 2 11, Mask := CIDRMask 24 32 }, Gateway := IPv4 192 0 2 2 }

/-- A result of IPAM with two addresses of one subnet. -/
def twoAddressResult : Result :=
  { IPs := [firstAddress, secondAddress] }

/-- The configuration of the examples: a chained plugin whose previous result
has no address, with a SNAT address. -/
def exampleConf : NetConf :=
  { CNIVersion := "0.4.0", Name := "egress", IPAMType := "host-local",
    PrevResult := some { CNIVersion := "0.4.0" }, SnatIP := some (IPv4 198 51 100 7) }

/-- An ADD of the examples in which every call succeeds and IPAM returns the
address of scenario 3. -/
def exampleAddEnv : AddEnv where
  loadConf := .ok exampleConf
  GetResult := fun r => .ok r
  chain := fun name id => "CNI-E4-" ++ name ++ "-" ++ id
  comment := fun name id => "name: " ++ name ++ " id: " ++ id
  ExecAdd := none
  NewResultFromResult := .ok scenarioResult
  EnableForward := none
  GetNS := none
  setupContainerVeth := fun pr =>
    .ok ({ Name := "veth5e1f3a9c", Mac := "16:2a:9c:01:3b:07" }, pr)
  setupHostVeth := none
  snat4 := fun _ _ _ _ => none
  PrintResult := fun _ _ => none

end EgressV4

namespace EgressV4

open IMDSIpam IMDSPtp

/-! ## CHECK and DEL of the egress NAT plugin (`egress-v4.go`)

`snat4Check` and `snat4Del` are functions of the plugin whose file is not among
the sources: `cmdCheck` and `cmdDel` are modelled with what these calls return
as a parameter, and the theorems speak about the calls that are made. -/

/-- The calls of `snat4Check` that `cmdCheck` makes, with their arguments. -/
inductive CheckCall where
  | snat4Check (snatIP ip : IP) (chain comment : String)
deriving DecidableEq, Repr

/-- What the calls of `cmdCheck` return. -/
structure CheckEnv where
  loadConf : Except Error NetConf
  GetResult : Result → Except Error Result
  chain : String → String → String
  comment : String → String → String
  snat4Check : IP → IP → String → String → Option Error

/-- The loop of `cmdCheck` over the addresses of the previous result: the rule
is checked for each address that has a 4-byte form, and the first error ends
the loop. -/
def checkLoop (env : CheckEnv) (snatIP : IP) (chain comment : String) :
    List IPConfig → List CheckCall → Option Error × List CheckCall
  | [], calls => (none, calls)
  | ipc :: rest, calls =>
    if To4 ipc.Address.IP ≠ [] then
      match env.snat4Check snatIP ipc.Address.IP chain comment with
      | some e => (some e, calls ++ [CheckCall.snat4Check snatIP ipc.Address.IP chain comment])
      | none =>
        checkLoop env snatIP chain comment rest
          (calls ++ [CheckCall.snat4Check snatIP ipc.Address.IP chain comment])
    else checkLoop env snatIP chain comment rest calls

/-- `cmdCheck` of `egress-v4.go`: the error it returns and the calls of
`snat4Check` it makes, in their order. `containerID` is `args.ContainerID`. -/
def cmdCheck (env : CheckEnv) (containerID : String) : Option Error × List CheckCall :=
  match env.loadConf with
  | .error e => (some (Error.Errorf ("failed to parse config: " ++ e.message)), [])
  | .ok conf =>
    match conf.PrevResult with
    | none => (some (Error.Errorf "must be called as a chained plugin"), [])
    | some prev =>
      match env.GetResult prev with
      | .error e => (some e, [])
      | .ok prevResult =>
        match conf.SnatIP with
        | some snatIP =>
          checkLoop env snatIP (env.chain conf.Name containerID)
            (env.comment conf.Name containerID) prevResult.IPs []
        | none => (none, [])

/-- The error `ip.ErrLinkNotFound` of the plugins library. -/
def ErrLinkNotFound : Error := Error.Errorf "link not found"

/-- The calls that `cmdDel` makes outside its own code, with their
arguments. -/
inductive DelCall where
  | ExecDel (ipamType : String)
  | DelLinkByNameAddr (netns ifName : String)
  | snat4Del (ip : IP) (chain comment : String)
deriving DecidableEq, Repr

/-- What the calls of `cmdDel` return and do. `WithNetNSPath` is the error of
opening the namespace (`none` when it opens). `DelLinkByNameAddr` is the
function of the plugins library, run on the kernel of the namespace of the
pod: it returns the addresses of the link it deleted and an error (the library
returns no address together with an error). `snat4Del` runs on the kernel of
the host. -/
structure DelEnv where
  loadConf : Except Error NetConf
  ExecDel : Option Error
  WithNetNSPath : Option Error
  DelLinkByNameAddr : String → Kernel → (List IPNet × Option Error) × Kernel
  chain : String → String → String
  comment : String → String → String
  snat4Del : IP → String → String → Kernel → Option Error × Kernel

/-- The loop `for _, ipn := range ipnets` of `cmdDel`, on the kernel of the
host: the first error ends it. -/
def delLoop (env : DelEnv) (chain comment : String) :
    List IPNet → Kernel → List DelCall → Option Error × Kernel × List DelCall
  | [], host, calls => (none, host, calls)
  | ipn :: rest, host, calls =>
    match env.snat4Del ipn.IP chain comment host with
    | (some e, host1) => (some e, host1, calls ++ [DelCall.snat4Del ipn.IP chain comment])
    | (none, host1) =>
      delLoop env chain comment rest host1 (calls ++ [DelCall.snat4Del ipn.IP chain comment])

/-- The part of `cmdDel` that removes the link, `if args.Netns != "" { ... }`:
the value of `ipnets` after it or the error that `cmdDel` returns, the kernel
of the namespace of the pod, and the calls made. The error
`ip.ErrLinkNotFound` is not returned. -/
def cmdDel.delLink (env : DelEnv) (conf : NetConf) (netns : String) (pod : Kernel)
    (calls : List DelCall) : Except Error (List IPNet) × Kernel × List DelCall :=
  if netns ≠ "" then
    match env.WithNetNSPath with
    | some e => (.error e, pod, calls)
    | none =>
      match env.DelLinkByNameAddr conf.IfName pod with
      | ((ipnets, none), pod1) =>
        (.ok ipnets, pod1, calls ++ [DelCall.DelLinkByNameAddr netns conf.IfName])
      | ((ipnets, some e), pod1) =>
        if e = ErrLinkNotFound then
          (.ok ipnets, pod1, calls ++ [DelCall.DelLinkByNameAddr netns conf.IfName])
        else (.error e, pod1, calls ++ [DelCall.DelLinkByNameAddr netns conf.IfName])
  else (.ok [], pod, calls)

/-- `cmdDel` of `egress-v4.go`, on the kernel of the namespace of the pod and
the kernel of the host: the error it returns, the two kernels after it, and
the calls it makes, in their order. -/
def cmdDel (env : DelEnv) (containerID netns : String) (pod host : Kernel) :
    Option Error × Kernel × Kernel × List DelCall :=
  match env.loadConf with
  | .error e => (some (Error.Errorf ("failed to parse config: " ++ e.message)), pod, host, [])
  | .ok conf =>
    match env.ExecDel with
    | some e =>
      (some (Error.Errorf ("running IPAM plugin failed: " ++ e.message)), pod, host,
        [DelCall.ExecDel conf.IPAMType])
    | none =>
      match cmdDel.delLink env conf netns pod [DelCall.ExecDel conf.IPAMType] with
      | (.error e, pod1, calls) => (some e, pod1, host, calls)
      | (.ok ipnets, pod1, calls) =>
        match conf.SnatIP with
        | some _ =>
          match delLoop env (env.chain conf.Name containerID)
              (env.comment conf.Name containerID) ipnets host calls with
          | (ret, host1, calls1) => (ret, pod1, host1, calls1)
        | none => (none, pod1, host, calls)

end EgressV4

namespace JsonTmpl

open IMDSIpam

/-! ## The template tool (`json-tmpl/jsonnet.go`) -/

/-- The text before the first `sep` of a text and the text after it, `none`
when the text has no `sep`. -/
def cutFirst (sep : Char) : List Char → Option (List Char × List Char)
  | [] => none
  | c :: cs =>
    if c = sep then some ([], cs)
    else
      match cutFirst sep cs with
      | none => none
      | some (before, after) => some (c :: before, after)

/-- Go's `strings.SplitN(s, sep, 2)` for a separator of one character: the
text itself when it has no separator, otherwise the text before the first
separator and the text after it. -/
def SplitN2 (s : String) (sep : Char) : List String :=
  match cutFirst sep s.data with
  | none => [s]
  | some (before, after) => [String.mk before, String.mk after]

/-- Go's `map[string]string`: the value of every key that is in the map. -/
abbrev StringMap := String → Option String

/-- The map after `m[key] = value`. -/
def StringMap.set (m : StringMap) (key value : String) : StringMap :=
  fun k => if k = key then some value else m k

/-- The body of the loop of `EnvironMap`, for the entry `e`:
`kv := strings.SplitN(e, "=", 2); if len(kv) == 2 { result[kv[0]] = kv[1] }`. -/
def EnvironMap.entry (result : StringMap) (e : String) : StringMap :=
  match SplitN2 e '=' with
  | [k, v] => result.set k v
  | _ => result

/-- `EnvironMap` of `jsonnet.go`. -/
def EnvironMap (env : List String) : StringMap :=
  env.foldl EnvironMap.entry (fun _ => none)

/-- The text of `%T` for a value that the jsonnet VM hands to a native
function. -/
def typeName : JSON → String
  | .null => "<nil>"
  | .bool _ => "bool"
  | .number _ => "float64"
  | .string _ => "string"
  | .array _ => "[]interface \x7b\x7d"
  | .object _ => "map[string]interface \x7b\x7d"

/-- The type `iMDS` of `jsonnet.go`, with what its metadata client returns for
a path, a text and an error, and with the test `metadata.IsNotFound` on that
error. -/
structure iMDS where
  GetMetadataWithContext : String → String × Option Error
  IsNotFound : Option Error → Bool

/-- `iMDS.Metadata` of `jsonnet.go`: the value and the error it returns. The
first case is `len(args) == 1`. -/
def iMDS.Metadata (i : iMDS) (args : List JSON) : Option JSON × Option Error :=
  match args with
  | [arg] =>
    match arg with
    | .string path =>
      if i.IsNotFound (i.GetMetadataWithContext path).2 then (some (.string ""), none)
      else (some (.string (i.GetMetadataWithContext path).1), none)
    | other => (none, some (Error.Errorf ("expected string, got " ++ typeName other)))
  | _ =>
    (none, some (Error.Errorf ("expected single argument, got " ++ toString args.length)))

end JsonTmpl

namespace EgressV4

open IMDSIpam IMDSPtp

/-! ## The chained plugin of the examples -/

/-- The address 2001:db8:1::100. -/
def podIPv6 : IP := [0x20, 0x01, 0x0d, 0xb8, 0, 1, 0, 0, 0, 0, 0, 0, 0, 0, 0x01, 0x00]

/-- A previous result with an IPv6 address only, 2001:db8:1::100/64 on the
interface `myeth0` of the pod. -/
def examplePrev : Result :=
  { CNIVersion := "0.4.0",
    Interfaces := [{ Name := "veth9a1b2c3d", Mac := "16:2a:9c:01:3b:11" },
                   { Name := "myeth0", Mac := "16:2a:9c:01:3b:12",
                     Sandbox := "/var/run/netns/pod" }],
    IPs := [{ Interface := some 1, Address := { IP := podIPv6, Mask := CIDRMask 64 128 },
              Gateway := [0x20, 0x01, 0x0d, 0xb8, 0, 1, 0, 0, 0, 0, 0, 0, 0, 0, 0, 1] }],
    Routes := [{ Dst := { IP := IPv6zero, Mask := CIDRMask 0 128 }, GW := [] }] }

/-- A previous result that has an IPv4 address, 192.0.2.27/24. -/
def v4Prev : Result :=
  { CNIVersion := "0.3.1",
    IPs := [{ Address := { IP := IPv4 192 0 2 27, Mask := CIDRMask 24 32 }, Gateway := [] }] }

/-- The configuration of a chained call: the network `mynet`, the interface
`mynat0`, the SNAT address 198.51.100.10. -/
def chainedConf : NetConf :=
  { CNIVersion := "0.4.0", Name := "mynet", IPAMType := "host-local",
    PrevResult := some examplePrev, IfName := "mynat0", MTU := 1600,
    SnatIP := some (IPv4 198 51 100 10) }

/-- An ADD in which every call succeeds, IPAM returns the address of scenario
3, and the outcome of `setupContainerVeth` is the one of the function on an
empty namespace with the stand-in for the plugins library. -/
def chainedAddEnv : AddEnv :=
  { exampleAddEnv with
    loadConf := .ok chainedConf,
    setupContainerVeth := fun pr =>
      match (setupContainerVeth plainFmt exampleVethLib "/var/run/netns/pod" "mynat0" 1600 pr
          emptyKernel).1 with
      | some (.ok res) => .ok (res.1, res.2.2)
      | _ => .error (Error.System "setupContainerVeth failed") }

/-- A CHECK in which every check of a rule fails. -/
def failingCheckEnv : CheckEnv where
  loadConf := .ok chainedConf
  GetResult := fun r => .ok r
  chain := fun name id => "CNI-E4-" ++ name ++ "-" ++ id
  comment := fun name id => "name: " ++ name ++ " id: " ++ id
  snat4Check := fun _ _ _ _ => some (Error.Errorf "rule not found")

/-- A stand-in for `ip.DelLinkByNameAddr` of the plugins library in the
examples: `ErrLinkNotFound` when the namespace has no link of the name,
otherwise the link and its addresses are removed and the addresses are
returned. -/
def exampleDelLink (ifName : String) (pod : Kernel) : (List IPNet × Option Error) × Kernel :=
  match pod.links.find? (fun l => l.Name == ifName) with
  | none => (([], some ErrLinkNotFound), pod)
  | some link =>
    (((pod.addrs.filter (fun a => a.1 == link.Index)).map (fun a => a.2.IPNet), none),
      { pod with
        links := pod.links.filter (fun l => l.Index != link.Index),
        addrs := pod.addrs.filter (fun a => a.1 != link.Index) })

/-- Modelled from the spec: the SNAT rule of a pod is one jump from
`POSTROUTING` to the chain of the pod for the source address, and one rule in
that chain; `snat4Del` removes "the matching rule by chain name". The entries
of the chain and the jumps to it leave the table. -/
def exampleSnat4Del (_ip : IP) (chain _comment : String) (host : Kernel) :
    Option Error × Kernel :=
  (none,
    { host with
      iptables := host.iptables.filter (fun e => !(e.Chain == chain || e.Spec.contains chain)) })

/-- A DEL in which every call succeeds. -/
def exampleDelEnv : DelEnv where
  loadConf := .ok chainedConf
  ExecDel := none
  WithNetNSPath := none
  DelLinkByNameAddr := exampleDelLink
  chain := fun name id => "CNI-E4-" ++ name ++ "-" ++ id
  comment := fun name id => "name: " ++ name ++ " id: " ++ id
  snat4Del := exampleSnat4Del

/-- A host with the SNAT rule of the pod `dummy` of the network `mynet`. -/
def natHost : Kernel :=
  { emptyKernel with
    iptables := [{ Proto := 4, Table := "nat", Chain := "POSTROUTING",
                   Spec := ["-s", "192.0.2.10", "-j", "CNI-E4-mynet-dummy",
                            "-m", "comment", "--comment", "name: mynet id: dummy"] },
                 { Proto := 4, Table := "nat", Chain := "CNI-E4-mynet-dummy",
                   Spec := ["-m", "comment", "--comment", "name: mynet id: dummy",
                            "-j", "SNAT", "--to-source", "198.51.100.10"] }] }

/-- The namespace of the pod with the link `mynat0`, addressed
192.0.2.10/24. -/
def natPod : Kernel :=
  { emptyKernel with
    links := [{ Index := 2, Name := "mynat0", HardwareAddr := "16:2a:9c:01:3b:02", MTU := 1600,
                Up := true, Veth := true }],
    addrs := [(2, { IPNet := { IP := IPv4 192 0 2 10, Mask := CIDRMask 24 32 },
                    Scope := Scope.UNIVERSE })] }

end EgressV4

namespace IMDSIpam

/-- A snapshot with one ENI whose address list is empty. -/
def emptyListClient : TypedIMDS where
  GetMACs := .ok ["0a:1b:2c:3d:4e:5f"]
  GetLocalIPv4s := fun _ => .ok []
  GetSubnetIPv4CIDRBlock := fun _ => .ok { IP := [10, 0, 0, 0], Mask := [255, 255, 255, 0] }
  GetIPv6s := fun _ => .ok []
  GetSubnetIPv6CIDRBlocks := fun _ =>
    .ok { IP := [0x20, 0x01, 0x0d, 0xb8, 0, 1, 0, 0, 0, 0, 0, 0, 0, 0, 0, 0],
          Mask := [255, 255, 255, 255, 255, 255, 255, 255, 0, 0, 0, 0, 0, 0, 0, 0] }

end IMDSIpam

namespace IMDSIpam

/-! ## The shuffle is a permutation -/

theorem cons_set_perm {α : Type} (a b : α) :
    ∀ (xs : List α) (j : Nat), xs[j]? = some b → (b :: xs.set j a).Perm (a :: xs)
  | [], j, h => by simp at h
  | x :: tl, 0, h => by
    simp at h
    subst h
    simpa using List.Perm.swap a x tl
  | x :: tl, j + 1, h => by
    simp at h
    have ih := cons_set_perm a b tl j h
    simp only [List.set_cons_succ]
    exact (List.Perm.swap x b _).trans ((ih.cons x).trans (List.Perm.swap a x tl))

theorem set_set_perm {α : Type} (a b : α) :
    ∀ (xs : List α) (i j : Nat), xs[i]? = some a → xs[j]? = some b →
      ((xs.set i b).set j a).Perm xs
  | [], i, _, h, _ => by simp at h
  | x :: tl, 0, 0, hi, hj => by
    simp at hi hj
    subst hi
    simp
  | x :: tl, 0, j + 1, hi, hj => by
    simp at hi hj
    subst hi
    simpa using cons_set_perm x b tl j hj
  | x :: tl, i + 1, 0, hi, hj => by
    simp at hi hj
    subst hj
    simpa using cons_set_perm x a tl i hi
  | x :: tl, i + 1, j + 1, hi, hj => by
    simp at hi hj
    simpa using set_set_perm a b tl i j hi hj

theorem swap_perm {α : Type} (xs : List α) (i j : Nat) : (swap xs i j).Perm xs := by
  unfold swap
  split
  · next a b hi hj => exact set_set_perm a b xs i j hi hj
  · exact List.Perm.refl xs

theorem Shuffle_loop_perm {α : Type} :
    ∀ (n : Nat) (r : Rand) (xs : List α), (Shuffle.loop n r xs).1.Perm xs
  | 0, r, xs => by simp [Shuffle.loop]
  | n + 1, r, xs => by
    rw [Shuffle.loop]
    exact (Shuffle_loop_perm n _ _).trans (swap_perm xs _ _)

theorem Shuffle_perm {α : Type} (r : Rand) (xs : List α) : (Shuffle r xs).1.Perm xs :=
  Shuffle_loop_perm _ r xs

theorem mem_Shuffle {α : Type} (r : Rand) (xs : List α) (x : α) :
    x ∈ (Shuffle r xs).1 ↔ x ∈ xs :=
  (Shuffle_perm r xs).mem_iff

/-! ## The store operations -/

theorem holdsIP_iff (s : Store) (ipstr : String) :
    s.holdsIP ipstr = true ↔ ∃ row ∈ s.data, row.IP = ipstr := by
  simp [Store.holdsIP]

theorem ReserveIP_eq (str : IP → String) (s : Store) (id ifname : String) (ip : IP) :
    s.ReserveIP str id ifname ip =
      if ∃ row ∈ s.data, row.IP = str ip then (some Error.ErrAlreadyReserved, s)
      else (none, { s with data := s.data ++ [{ ID := id, IfName := ifname, IP := str ip }] }) := by
  by_cases h : ∃ row ∈ s.data, row.IP = str ip
  · have hb := (holdsIP_iff s (str ip)).2 h
    simp [Store.ReserveIP, hb, h]
  · have hb : s.holdsIP (str ip) = false := by
      cases hc : s.holdsIP (str ip)
      · rfl
      · exact absurd ((holdsIP_iff s (str ip)).1 hc) h
    simp only [Store.ReserveIP, hb, if_neg h]
    simp

/-- C1: `Store.ReserveIP` returns `ErrAlreadyReserved` exactly when some row of
the store, of whatever pod and interface, already holds the string of the
address, and then leaves the store as it was; otherwise it returns no error
and the store is the old rows followed by the one new row `(id, ifname, ip)`. -/
theorem ReserveIP_spec (str : IP → String) (s : Store) (id ifname : String) (ip : IP) :
    ((s.ReserveIP str id ifname ip).1 = some Error.ErrAlreadyReserved ↔
        ∃ row ∈ s.data, row.IP = str ip) ∧
    s.ReserveIP str id ifname ip =
      if ∃ row ∈ s.data, row.IP = str ip then (some Error.ErrAlreadyReserved, s)
      else (none, { s with data := s.data ++ [{ ID := id, IfName := ifname, IP := str ip }] }) := by
  refine ⟨?_, ReserveIP_eq str s id ifname ip⟩
  rw [ReserveIP_eq]
  by_cases h : ∃ row ∈ s.data, row.IP = str ip
  · simp [h]
  · simp [h]

/-! ## The loops of `Get` -/

/-- The inner loop either finds every address already held and leaves the store
as it was, or reserves one address that was free and returns it. -/
theorem reserveLoop_cases (str : IP → String) (id ifname : String) (subnet : IPNet) (gw : IP) :
    ∀ (ips : List IP) (s : Store),
      ((∀ ip ∈ ips, ∃ row ∈ s.data, row.IP = str ip) ∧
        IMDSAllocator.reserveLoop str id ifname subnet gw ips s = (none, s)) ∨
      (∃ ip ∈ ips, (¬ ∃ row ∈ s.data, row.IP = str ip) ∧
        IMDSAllocator.reserveLoop str id ifname subnet gw ips s =
          (some (.ok { Address := { IP := ip, Mask := subnet.Mask }, Gateway := gw }),
            { s with data := s.data ++ [{ ID := id, IfName := ifname, IP := str ip }] }))
  | [], s => by simp [IMDSAllocator.reserveLoop]
  | ip :: rest, s => by
    have hspec := ReserveIP_eq str s id ifname ip
    by_cases h : ∃ row ∈ s.data, row.IP = str ip
    · rw [if_pos h] at hspec
      rcases reserveLoop_cases str id ifname subnet gw rest s with ⟨hall, heq⟩ | ⟨ip', hmem, hfree, heq⟩
      · left
        refine ⟨?_, ?_⟩
        · intro x hx
          rcases List.mem_cons.1 hx with rfl | hx
          · exact h
          · exact hall x hx
        · rw [IMDSAllocator.reserveLoop, hspec]
          exact heq
      · right
        refine ⟨ip', List.mem_cons_of_mem _ hmem, hfree, ?_⟩
        rw [IMDSAllocator.reserveLoop, hspec]
        exact heq
    · rw [if_neg h] at hspec
      right
      refine ⟨ip, List.mem_cons_self _ _, h, ?_⟩
      rw [IMDSAllocator.reserveLoop, hspec]


/-- The four ways the outer loop ends: exhaustion, with every non-primary
address of every ENI held; success, with a free non-primary address of one
ENI; the error of a failed metadata fetch; the panic of `ips[1:]` on an ENI
without addresses. The store changes on success only. -/
theorem macLoop_cases (client : TypedIMDS) (str : IP → String) (id ifname version : String) :
    ∀ (macs : List String) (r : Rand) (s : Store),
      ((∀ mac ∈ macs, ∃ primary rest subnet gw,
            IMDSAllocator.fetch client version mac = .ok (primary :: rest, subnet, gw) ∧
            ∀ ip ∈ rest, ∃ row ∈ s.data, row.IP = str ip) ∧
        IMDSAllocator.macLoop client str id ifname version macs r s = (.err errExhausted, s)) ∨
      (∃ mac ∈ macs, ∃ primary rest subnet gw ip,
          IMDSAllocator.fetch client version mac = .ok (primary :: rest, subnet, gw) ∧
          ip ∈ rest ∧ (¬ ∃ row ∈ s.data, row.IP = str ip) ∧
          IMDSAllocator.macLoop client str id ifname version macs r s =
            (.ok { Address := { IP := ip, Mask := subnet.Mask }, Gateway := gw },
              { s with data := s.data ++ [{ ID := id, IfName := ifname, IP := str ip }] })) ∨
      (∃ mac ∈ macs, ∃ e, IMDSAllocator.fetch client version mac = .error e ∧
          IMDSAllocator.macLoop client str id ifname version macs r s = (.err e, s)) ∨
      (∃ mac ∈ macs, ∃ subnet gw msg,
          IMDSAllocator.fetch client version mac = .ok ([], subnet, gw) ∧
          IMDSAllocator.macLoop client str id ifname version macs r s = (.panic msg, s))
  | [], r, s => by simp [IMDSAllocator.macLoop]
  | mac :: more, r, s => by
    cases hf : IMDSAllocator.fetch client version mac with
    | error e =>
      right; right; left
      exact ⟨mac, List.mem_cons_self _ _, e, hf, by rw [IMDSAllocator.macLoop, hf]⟩
    | ok v =>
      obtain ⟨ips, subnet, gw⟩ := v
      cases ips with
      | nil =>
        right; right; right
        exact ⟨mac, List.mem_cons_self _ _, subnet, gw, _, hf,
          by rw [IMDSAllocator.macLoop, hf]⟩
      | cons primary rest =>
        rcases reserveLoop_cases str id ifname subnet gw (Shuffle r rest).1 s with
          ⟨hall, heq⟩ | ⟨ip, hmem, hfree, heq⟩
        · have hstep : IMDSAllocator.macLoop client str id ifname version (mac :: more) r s =
              IMDSAllocator.macLoop client str id ifname version more (Shuffle r rest).2 s := by
            rw [IMDSAllocator.macLoop, hf]
            simp only [heq]
          have hhere : ∀ ip ∈ rest, ∃ row ∈ s.data, row.IP = str ip :=
            fun ip hip => hall ip ((mem_Shuffle r rest ip).2 hip)
          rcases macLoop_cases client str id ifname version more (Shuffle r rest).2 s with
            ⟨hall', heq'⟩ | ⟨m, hm, p, q, sn, g, ip, hfm, hip, hfree, heq'⟩ |
            ⟨m, hm, e, hfm, heq'⟩ | ⟨m, hm, sn, g, msg, hfm, heq'⟩
          · left
            refine ⟨?_, hstep.trans heq'⟩
            intro m hm
            rcases List.mem_cons.1 hm with rfl | hm
            · exact ⟨primary, rest, subnet, gw, hf, hhere⟩
            · exact hall' m hm
          · right; left
            exact ⟨m, List.mem_cons_of_mem _ hm, p, q, sn, g, ip, hfm, hip, hfree,
              hstep.trans heq'⟩
          · right; right; left
            exact ⟨m, List.mem_cons_of_mem _ hm, e, hfm, hstep.trans heq'⟩
          · right; right; right
            exact ⟨m, List.mem_cons_of_mem _ hm, sn, g, msg, hfm, hstep.trans heq'⟩
        · right; left
          refine ⟨mac, List.mem_cons_self _ _, primary, rest, subnet, gw, ip, hf,
            (mem_Shuffle r rest ip).1 hmem, hfree, ?_⟩
          rw [IMDSAllocator.macLoop, hf]
          simp only [heq]

/-- What a successful `fetch` has read: the address list and the subnet of the
requested family, and the gateway that goes with the version. -/
theorem fetch_ok (client : TypedIMDS) (version mac : String) (ips : List IP)
    (subnet : IPNet) (gw : IP)
    (h : IMDSAllocator.fetch client version mac = .ok (ips, subnet, gw)) :
    (if version = "4" then client.GetLocalIPv4s mac else client.GetIPv6s mac) = .ok ips ∧
    (if version = "4" then client.GetSubnetIPv4CIDRBlock mac
      else client.GetSubnetIPv6CIDRBlocks mac) = .ok subnet ∧
    gw = (if version = "4" then gatewayV4 else gatewayV6) := by
  unfold IMDSAllocator.fetch at h
  by_cases hv : version = "4"
  · simp only [hv, beq_self_eq_true, if_true] at h ⊢
    cases h1 : client.GetLocalIPv4s mac <;> rw [h1] at h <;> simp only at h
    · cases h
    · cases h2 : client.GetSubnetIPv4CIDRBlock mac <;> rw [h2] at h <;> simp only at h
      · cases h
      · cases h; exact ⟨rfl, rfl, rfl⟩
  · have hb : (version == "4") = false := by simpa using hv
    simp only [hb, if_neg hv] at h ⊢
    cases h1 : client.GetIPv6s mac <;> rw [h1] at h <;> simp only at h
    · cases h
    · cases h2 : client.GetSubnetIPv6CIDRBlocks mac <;> rw [h2] at h <;> simp only at h
      · cases h
      · cases h; exact ⟨rfl, rfl, rfl⟩

theorem mem_tail_iff_index {α : Type} (x : α) (xs : List α) :
    x ∈ xs.tail ↔ ∃ i, 1 ≤ i ∧ xs[i]? = some x := by
  cases xs with
  | nil => simp
  | cons hd tl =>
    simp only [List.tail_cons, List.mem_iff_getElem?]
    constructor
    · rintro ⟨i, hi⟩
      exact ⟨i + 1, by omega, by simpa using hi⟩
    · rintro ⟨i, hi1, hi⟩
      obtain ⟨j, rfl⟩ : ∃ j, i = j + 1 := ⟨i - 1, by omega⟩
      exact ⟨j, by simpa using hi⟩


/-! ## `IMDSAllocator.Get` -/

/-- The ways `Get` ends, read off the loops: the error of `GetMACs`, or one of
the four ends of the loop over the MACs. -/
theorem Get_cases (client : TypedIMDS) (str : IP → String) (r : Rand) (s : Store)
    (id ifname version : String) :
    (∃ e, client.GetMACs = .error e ∧
        IMDSAllocator.Get client str r s id ifname version = (.err e, s)) ∨
    (∃ macs, client.GetMACs = .ok macs ∧
      (((∀ mac ∈ macs, ∃ primary rest subnet gw,
            IMDSAllocator.fetch client version mac = .ok (primary :: rest, subnet, gw) ∧
            ∀ ip ∈ rest, ∃ row ∈ s.data, row.IP = str ip) ∧
          IMDSAllocator.Get client str r s id ifname version = (.err errExhausted, s)) ∨
        (∃ mac ∈ macs, ∃ primary rest subnet gw ip,
          IMDSAllocator.fetch client version mac = .ok (primary :: rest, subnet, gw) ∧
          ip ∈ rest ∧ (¬ ∃ row ∈ s.data, row.IP = str ip) ∧
          IMDSAllocator.Get client str r s id ifname version =
            (.ok { Address := { IP := ip, Mask := subnet.Mask }, Gateway := gw },
              { s with data := s.data ++ [{ ID := id, IfName := ifname, IP := str ip }] })) ∨
        (∃ mac ∈ macs, ∃ e, IMDSAllocator.fetch client version mac = .error e ∧
          IMDSAllocator.Get client str r s id ifname version = (.err e, s)) ∨
        (∃ mac ∈ macs, ∃ subnet gw msg,
          IMDSAllocator.fetch client version mac = .ok ([], subnet, gw) ∧
          IMDSAllocator.Get client str r s id ifname version = (.panic msg, s)))) := by
  cases hm : client.GetMACs with
  | error e =>
    left
    exact ⟨e, rfl, by simp [IMDSAllocator.Get, hm]⟩
  | ok macs =>
    right
    refine ⟨macs, rfl, ?_⟩
    have hget : IMDSAllocator.Get client str r s id ifname version =
        IMDSAllocator.macLoop client str id ifname version (Shuffle r macs).1
          (Shuffle r macs).2 s := by
      simp [IMDSAllocator.Get, hm]
    have hmem := mem_Shuffle r macs
    rcases macLoop_cases client str id ifname version (Shuffle r macs).1 (Shuffle r macs).2 s with
      ⟨hall, heq⟩ | ⟨m, hmm, p, q, sn, g, ip, hfm, hip, hfree, heq⟩ |
      ⟨m, hmm, e, hfm, heq⟩ | ⟨m, hmm, sn, g, msg, hfm, heq⟩
    · left
      exact ⟨fun m hmm => hall m ((hmem m).2 hmm), hget.trans heq⟩
    · right; left
      exact ⟨m, (hmem m).1 hmm, p, q, sn, g, ip, hfm, hip, hfree, hget.trans heq⟩
    · right; right; left
      exact ⟨m, (hmem m).1 hmm, e, hfm, hget.trans heq⟩
    · right; right; right
      exact ⟨m, (hmem m).1 hmm, sn, g, msg, hfm, hget.trans heq⟩

/-- C3: on a metadata snapshot whose fetches all succeed and in which every
attached ENI reports at least its primary address, and for every random source
of the shuffles, `Get` fails with the exhaustion error exactly when every
non-primary address (index at least 1) of every ENI is already held by a row of
the store; and when it fails this way the store is as it was. -/
theorem Get_exhausted_iff (client : TypedIMDS) (str : IP → String) (r : Rand) (s : Store)
    (id ifname version : String) (macs : List String)
    (hmacs : client.GetMACs = .ok macs)
    (hfetch : ∀ mac ∈ macs, ∃ primary rest subnet gw,
      IMDSAllocator.fetch client version mac = .ok (primary :: rest, subnet, gw)) :
    ((IMDSAllocator.Get client str r s id ifname version).1 = .err errExhausted ↔
      ∀ mac ∈ macs, ∀ ips subnet gw,
        IMDSAllocator.fetch client version mac = .ok (ips, subnet, gw) →
        ∀ i ip, 1 ≤ i → ips[i]? = some ip → ∃ row ∈ s.data, row.IP = str ip) ∧
    ((IMDSAllocator.Get client str r s id ifname version).1 = .err errExhausted →
      (IMDSAllocator.Get client str r s id ifname version).2 = s) := by
  rcases Get_cases client str r s id ifname version with
    ⟨e, hm, _⟩ | ⟨macs', hm, hcase⟩
  · rw [hmacs] at hm; cases hm
  · rw [hmacs] at hm
    cases hm
    rcases hcase with ⟨hall, heq⟩ | ⟨m, hmm, p, q, sn, g, ip, hfm, hip, hfree, heq⟩ |
      ⟨m, hmm, e, hfm, heq⟩ | ⟨m, hmm, sn, g, msg, hfm, heq⟩
    · refine ⟨⟨fun _ => ?_, fun _ => by rw [heq]⟩, fun _ => by rw [heq]⟩
      intro mac hmac ips subnet gw hf i ip hi hget
      obtain ⟨p, q, sn, g, hf', hheld⟩ := hall mac hmac
      rw [hf] at hf'
      cases hf'
      exact hheld ip ((mem_tail_iff_index ip (p :: q)).2 ⟨i, hi, hget⟩)
    · refine ⟨⟨fun h => ?_, fun h => ?_⟩, fun h => ?_⟩
      · rw [heq] at h; cases h
      · exfalso
        obtain ⟨i, hi, hget⟩ := (mem_tail_iff_index ip (p :: q)).1 hip
        exact hfree (h m hmm (p :: q) sn g hfm i ip hi hget)
      · rw [heq] at h; cases h
    · exfalso
      obtain ⟨p, q, sn, g, hf'⟩ := hfetch m hmm
      rw [hfm] at hf'
      cases hf'
    · exfalso
      obtain ⟨p, q, sn', g', hf'⟩ := hfetch m hmm
      rw [hfm] at hf'
      cases hf'

/-- C4: whenever `Get` succeeds, the address it returns stands at an index of
at least 1 (not at index 0, the primary address) in the address list, for the
requested family, of one attached ENI; no row of the store held its string
before the call; its mask is the mask of the subnet of that same ENI; and the
gateway is 169.254.0.1 when the version is "4" and fe80::1 otherwise. -/
theorem Get_ok_spec (client : TypedIMDS) (str : IP → String) (r : Rand) (s : Store)
    (id ifname version : String) (cfg : IPConfig)
    (h : (IMDSAllocator.Get client str r s id ifname version).1 = .ok cfg) :
    (∃ macs mac ips subnet i,
      client.GetMACs = .ok macs ∧ mac ∈ macs ∧
      (if version = "4" then client.GetLocalIPv4s mac else client.GetIPv6s mac) = .ok ips ∧
      (if version = "4" then client.GetSubnetIPv4CIDRBlock mac
        else client.GetSubnetIPv6CIDRBlocks mac) = .ok subnet ∧
      1 ≤ i ∧ ips[i]? = some cfg.Address.IP ∧
      cfg.Address.Mask = subnet.Mask) ∧
    (¬ ∃ row ∈ s.data, row.IP = str cfg.Address.IP) ∧
    cfg.Gateway = (if version = "4" then gatewayV4 else gatewayV6) := by
  rcases Get_cases client str r s id ifname version with
    ⟨e, _, heq⟩ | ⟨macs, hm, hcase⟩
  · rw [heq] at h; cases h
  · rcases hcase with ⟨_, heq⟩ | ⟨m, hmm, p, q, sn, g, ip, hfm, hip, hfree, heq⟩ |
      ⟨m, _, e, _, heq⟩ | ⟨m, _, sn, g, msg, _, heq⟩
    · rw [heq] at h; cases h
    · rw [heq] at h
      cases h
      obtain ⟨i, hi, hget⟩ := (mem_tail_iff_index ip (p :: q)).1 hip
      obtain ⟨hips, hsn, hgw⟩ := fetch_ok client version m (p :: q) sn g hfm
      exact ⟨⟨macs, m, p :: q, sn, i, hm, hmm, hips, hsn, hi, hget, rfl⟩, hfree, hgw⟩
    · rw [heq] at h; cases h
    · rw [heq] at h; cases h

/-- C5: `Get` changes the store in one way only. When it succeeds, the store is
the rows of before, in their order, followed by the one new row
`(id, ifname, returned IP)`; in every other case (a metadata error,
exhaustion, a panic) the store is as it was before the call. -/
theorem Get_frame (client : TypedIMDS) (str : IP → String) (r : Rand) (s : Store)
    (id ifname version : String) :
    (IMDSAllocator.Get client str r s id ifname version).2 =
      match (IMDSAllocator.Get client str r s id ifname version).1 with
      | .ok cfg =>
        { s with data := s.data ++ [{ ID := id, IfName := ifname, IP := str cfg.Address.IP }] }
      | .err _ => s
      | .panic _ => s := by
  rcases Get_cases client str r s id ifname version with
    ⟨e, _, heq⟩ | ⟨macs, hm, hcase⟩
  · rw [heq]
  · rcases hcase with ⟨_, heq⟩ | ⟨m, hmm, p, q, sn, g, ip, hfm, hip, hfree, heq⟩ |
      ⟨m, _, e, _, heq⟩ | ⟨m, _, sn, g, msg, _, heq⟩ <;> rw [heq]


/-! ## `Store.ReleaseID` and `IMDSAllocator.Put` -/

/-- Overwriting slot `i` with the last element and dropping the last slot
removes the element of slot `i` and keeps every other element. -/
theorem set_take_perm {α : Type} :
    ∀ (xs : List α) (i : Nat) (a last : α), xs[i]? = some a →
      xs[xs.length - 1]? = some last → xs.Perm (a :: (xs.set i last).take (xs.length - 1))
  | [], i, a, last, hi, _ => by simp at hi
  | [x], 0, a, last, hi, _ => by
    simp at hi
    simp [hi]
  | [x], i + 1, a, last, hi, _ => by simp at hi
  | x :: y :: tl, 0, a, last, hi, hl => by
    simp at hi
    subst hi
    have hlast : (y :: tl).getLast? = some last := by
      rw [List.getLast?_eq_getElem?]
      simpa using hl
    have hsplit := List.dropLast_append_getLast? last hlast
    have htake : ((x :: y :: tl).set 0 last).take ((x :: y :: tl).length - 1) =
        last :: (y :: tl).dropLast := by
      simp [List.dropLast_eq_take]
    rw [htake]
    refine List.Perm.cons x ?_
    have hperm : ((y :: tl).dropLast ++ [last]).Perm (last :: (y :: tl).dropLast) :=
      List.perm_append_comm
    rw [hsplit] at hperm
    exact hperm
  | x :: y :: tl, i + 1, a, last, hi, hl => by
    have hi' : (y :: tl)[i]? = some a := by simpa using hi
    have hl' : (y :: tl)[(y :: tl).length - 1]? = some last := by simpa using hl
    have ih := set_take_perm (y :: tl) i a last hi' hl'
    have htake : ((x :: y :: tl).set (i + 1) last).take ((x :: y :: tl).length - 1) =
        x :: ((y :: tl).set i last).take ((y :: tl).length - 1) := by
      simp
    rw [htake]
    exact (ih.cons x).trans (List.Perm.swap a x _)

/-- The two ways `Store.ReleaseID` ends: no row of `(id, ifname)`, and the
store is as it was; or one row of `(id, ifname)` leaves the store and every
other row stays, the other fields of the store being untouched. -/
theorem ReleaseID_cases (s : Store) (id ifname : String) :
    ((∀ row ∈ s.data, ¬ (row.ID = id ∧ row.IfName = ifname)) ∧ s.ReleaseID id ifname = s) ∨
    (∃ row ∈ s.data, (row.ID = id ∧ row.IfName = ifname) ∧
      s.data.Perm (row :: (s.ReleaseID id ifname).data)) := by
  unfold Store.ReleaseID
  cases hidx : s.data.findIdx? (fun row => row.ID == id && row.IfName == ifname) with
  | none =>
    left
    refine ⟨?_, rfl⟩
    intro row hrow hkey
    have := List.findIdx?_eq_none_iff.1 hidx row hrow
    simp [hkey.1, hkey.2] at this
  | some i =>
    obtain ⟨hlt, hp, _⟩ := List.findIdx?_eq_some_iff_getElem.1 hidx
    have hkey : s.data[i].ID = id ∧ s.data[i].IfName = ifname := by simpa using hp
    have hpos : s.data.length - 1 < s.data.length := by omega
    have hlast : s.data[s.data.length - 1]? = some (s.data[s.data.length - 1]) :=
      List.getElem?_eq_getElem hpos
    right
    refine ⟨s.data[i], List.getElem_mem _, hkey, ?_⟩
    simp only [hlast]
    exact set_take_perm s.data i _ _ (List.getElem?_eq_getElem hlt) hlast


theorem FindByID_eq_none_iff (parse : String → IP) (s : Store) (id ifname : String) :
    s.FindByID parse id ifname = none ↔
      ∀ row ∈ s.data, ¬ (row.ID = id ∧ row.IfName = ifname) := by
  unfold Store.FindByID
  cases hf : s.data.find? (fun row => row.ID == id && row.IfName == ifname) with
  | none =>
    have := List.find?_eq_none.1 hf
    simp only [true_iff]
    intro row hrow hkey
    exact this row hrow (by simp [hkey.1, hkey.2])
  | some row =>
    have hp := List.find?_some hf
    have hmem := List.mem_of_find?_eq_some hf
    constructor
    · intro h; cases h
    · intro hall
      exact absurd (by simpa using hp) (hall row hmem)

/-- C7, as amended: on every store with at most one row for `(id, ifname)`,
after `IMDSAllocator.Put(id, ifname)` the pod holds no reservation:
`Store.FindByID(id, ifname)` finds nothing. -/
theorem Put_releases_single (parse : String → IP) (s : Store) (id ifname version : String)
    (h : (s.data.filter (fun row => row.ID == id && row.IfName == ifname)).length ≤ 1) :
    (IMDSAllocator.Put s id ifname version).2.FindByID parse id ifname = none := by
  rw [FindByID_eq_none_iff]
  show ∀ row ∈ (s.ReleaseID id ifname).data, ¬ (row.ID = id ∧ row.IfName = ifname)
  rcases ReleaseID_cases s id ifname with ⟨hnone, heq⟩ | ⟨row, _, hkey, hperm⟩
  · rw [heq]
    exact hnone
  · rw [← List.countP_eq_length_filter, hperm.countP_eq] at h
    simp only [List.countP_cons, hkey.1, hkey.2, beq_self_eq_true, Bool.and_self,
      if_true] at h
    have hzero : List.countP (fun row : StoreRow => row.ID == id && row.IfName == ifname)
        (s.ReleaseID id ifname).data = 0 := by omega
    intro row' hmem hkey'
    exact List.countP_eq_zero.1 hzero row' hmem (by simp [hkey'.1, hkey'.2])

/-- C8: on every store that has no row for `(id, ifname)`,
`IMDSAllocator.Put(id, ifname)` returns no error and leaves the store as it
was, the same rows in the same order; and `Put` returns no error on any store
and for any arguments. -/
theorem Put_absent_noop (s : Store) (id ifname version : String)
    (h : ∀ row ∈ s.data, ¬ (row.ID = id ∧ row.IfName = ifname)) :
    IMDSAllocator.Put s id ifname version = (none, s) ∧
    ∀ (s' : Store) (id' ifname' version' : String),
      (IMDSAllocator.Put s' id' ifname' version').1 = none := by
  refine ⟨?_, fun _ _ _ _ => rfl⟩
  rcases ReleaseID_cases s id ifname with ⟨_, heq⟩ | ⟨row, hmem, hkey, _⟩
  · simp [IMDSAllocator.Put, heq]
  · exact absurd hkey (h row hmem)

/-! ## Invariants of the store over sequences of calls -/

theorem Get_store_cases (client : TypedIMDS) (str : IP → String) (r : Rand) (s : Store)
    (id ifname version : String) :
    (IMDSAllocator.Get client str r s id ifname version).2 = s ∨
    ∃ ip, (¬ ∃ row ∈ s.data, row.IP = str ip) ∧
      (IMDSAllocator.Get client str r s id ifname version).2 =
        { s with data := s.data ++ [{ ID := id, IfName := ifname, IP := str ip }] } := by
  rcases Get_cases client str r s id ifname version with
    ⟨e, _, heq⟩ | ⟨macs, hm, hcase⟩
  · left; rw [heq]
  · rcases hcase with ⟨_, heq⟩ | ⟨m, hmm, p, q, sn, g, ip, hfm, hip, hfree, heq⟩ |
      ⟨m, _, e, _, heq⟩ | ⟨m, _, sn, g, msg, _, heq⟩
    · left; rw [heq]
    · right; exact ⟨ip, hfree, by rw [heq]⟩
    · left; rw [heq]
    · left; rw [heq]

theorem Op_apply_ip_nodup (str : IP → String) (s : Store) (op : Op)
    (h : (s.data.map StoreRow.IP).Nodup) :
    ((Op.apply str s op).data.map StoreRow.IP).Nodup := by
  cases op with
  | get client r id ifname version =>
    rcases Get_store_cases client str r s id ifname version with heq | ⟨ip, hfree, heq⟩
    · simp only [Op.apply, heq]; exact h
    · simp only [Op.apply, heq, List.map_append, List.map_cons, List.map_nil]
      refine List.Nodup.append h (List.nodup_singleton _) ?_
      intro x hx hx'
      rw [List.mem_singleton] at hx'
      subst hx'
      obtain ⟨row, hrow, hip⟩ := List.mem_map.1 hx
      exact hfree ⟨row, hrow, hip⟩
  | put id ifname version =>
    rcases ReleaseID_cases s id ifname with ⟨_, heq⟩ | ⟨row, _, _, hperm⟩
    · simp only [Op.apply, IMDSAllocator.Put, heq]; exact h
    · have hn := ((hperm.map StoreRow.IP).nodup_iff).1 h
      exact (List.nodup_cons.1 hn).2

theorem runOps_ip_nodup (str : IP → String) :
    ∀ (ops : List Op) (s : Store), (s.data.map StoreRow.IP).Nodup →
      ((runOps str s ops).data.map StoreRow.IP).Nodup
  | [], _, h => h
  | op :: ops, s, h => runOps_ip_nodup str ops (Op.apply str s op) (Op_apply_ip_nodup str s op h)

/-- C2: starting from a store without rows, after every sequence of serialized
allocator calls (`Get` and `Put`, for any pods, metadata snapshots and random
sources) no two rows of the store carry the same IP; and a `Get` that then
succeeds returns an address that no row of the store holds, so that an address
is never held by two reservations at once. -/
theorem runOps_ip_unique (str : IP → String) (s : Store) (hs : s.data = []) (ops : List Op) :
    ((runOps str s ops).data.map StoreRow.IP).Nodup ∧
    ∀ (client : TypedIMDS) (r : Rand) (id ifname version : String) (cfg : IPConfig),
      (IMDSAllocator.Get client str r (runOps str s ops) id ifname version).1 = .ok cfg →
      ∀ row ∈ (runOps str s ops).data, row.IP ≠ str cfg.Address.IP := by
  refine ⟨runOps_ip_nodup str ops s (by simp [hs]), ?_⟩
  intro client r id ifname version cfg hok row hrow hip
  rcases Get_cases client str r (runOps str s ops) id ifname version with
    ⟨e, _, heq⟩ | ⟨macs, hm, hcase⟩
  · rw [heq] at hok; cases hok
  · rcases hcase with ⟨_, heq⟩ | ⟨m, hmm, p, q, sn, g, ip, hfm, hip', hfree, heq⟩ |
      ⟨m, _, e, _, heq⟩ | ⟨m, _, sn, g, msg, _, heq⟩
    · rw [heq] at hok; cases hok
    · rw [heq] at hok
      cases hok
      exact hfree ⟨row, hrow, hip⟩
    · rw [heq] at hok; cases hok
    · rw [heq] at hok; cases hok

theorem Get_fresh_key_nodup (client : TypedIMDS) (str : IP → String) (parse : String → IP)
    (r : Rand) (s : Store) (id ifname version : String)
    (hfresh : s.FindByID parse id ifname = none)
    (h : (s.data.map StoreRow.key).Nodup) :
    ((IMDSAllocator.Get client str r s id ifname version).2.data.map StoreRow.key).Nodup := by
  rcases Get_store_cases client str r s id ifname version with heq | ⟨ip, _, heq⟩
  · rw [heq]; exact h
  · simp only [heq, List.map_append, List.map_cons, List.map_nil]
    refine List.Nodup.append h (List.nodup_singleton _) ?_
    intro x hx hx'
    rw [List.mem_singleton] at hx'
    subst hx'
    obtain ⟨row, hrow, hkey⟩ := List.mem_map.1 hx
    have hk : row.ID = id ∧ row.IfName = ifname := by
      simpa [StoreRow.key] using hkey
    exact (FindByID_eq_none_iff parse s id ifname).1 hfresh row hrow hk

theorem Put_key_nodup (s : Store) (id ifname version : String)
    (h : (s.data.map StoreRow.key).Nodup) :
    ((IMDSAllocator.Put s id ifname version).2.data.map StoreRow.key).Nodup := by
  rcases ReleaseID_cases s id ifname with ⟨_, heq⟩ | ⟨row, _, _, hperm⟩
  · simp only [IMDSAllocator.Put, heq]; exact h
  · have hn := ((hperm.map StoreRow.key).nodup_iff).1 h
    exact (List.nodup_cons.1 hn).2

theorem runOps_key_nodup (str : IP → String) (parse : String → IP) :
    ∀ (ops : List Op) (s : Store), (s.data.map StoreRow.key).Nodup →
      freshGets str parse s ops = true → ((runOps str s ops).data.map StoreRow.key).Nodup
  | [], _, h, _ => h
  | .get client r id ifname version :: ops, s, h, hf => by
    rw [freshGets, Bool.and_eq_true, Option.isNone_iff_eq_none] at hf
    exact runOps_key_nodup str parse ops _
      (Get_fresh_key_nodup client str parse r s id ifname version hf.1 h) hf.2
  | .put id ifname version :: ops, s, h, hf => by
    rw [freshGets] at hf
    exact runOps_key_nodup str parse ops _ (Put_key_nodup s id ifname version h) hf

/-- C9, as amended: starting from a store without rows, after every sequence of
`Get` and `Put` calls in which each `Get` is issued for a `(podID, ifname)` for
which `Store.FindByID` finds nothing at that moment, there is at most one row
per `(podID, ifname)` key. -/
theorem runOps_key_unique (str : IP → String) (parse : String → IP) (s : Store)
    (hs : s.data = []) (ops : List Op) (hfresh : freshGets str parse s ops = true) :
    ((runOps str s ops).data.map StoreRow.key).Nodup :=
  runOps_key_nodup str parse ops s (by simp [hs]) hfresh


/-! ## Scenario 1: one ENI, an empty store -/

theorem fetch_v4 (client : TypedIMDS) (mac : String) (ips : List IP) (subnet : IPNet)
    (hi : client.GetLocalIPv4s mac = .ok ips)
    (hsub : client.GetSubnetIPv4CIDRBlock mac = .ok subnet) :
    IMDSAllocator.fetch client "4" mac = .ok (ips, subnet, gatewayV4) := by
  simp [IMDSAllocator.fetch, hi, hsub]

/-- On a snapshot with one ENI, an IPv4 `Get` either finds every non-primary
address held and fails with the exhaustion error, or reserves and returns one
of them that was free. -/
theorem single_Get (client : TypedIMDS) (str : IP → String) (mac : String) (primary : IP)
    (addrs : List IP) (subnet : IPNet)
    (hm : client.GetMACs = .ok [mac])
    (hi : client.GetLocalIPv4s mac = .ok (primary :: addrs))
    (hsub : client.GetSubnetIPv4CIDRBlock mac = .ok subnet)
    (r : Rand) (s : Store) (id ifname : String) :
    ((∀ ip ∈ addrs, ∃ row ∈ s.data, row.IP = str ip) ∧
      IMDSAllocator.Get client str r s id ifname "4" = (.err errExhausted, s)) ∨
    (∃ ip ∈ addrs, (¬ ∃ row ∈ s.data, row.IP = str ip) ∧
      IMDSAllocator.Get client str r s id ifname "4" =
        (.ok { Address := { IP := ip, Mask := subnet.Mask }, Gateway := gatewayV4 },
          { s with data := s.data ++ [{ ID := id, IfName := ifname, IP := str ip }] })) := by
  have hf := fetch_v4 client mac (primary :: addrs) subnet hi hsub
  rcases Get_cases client str r s id ifname "4" with ⟨e, hm', _⟩ | ⟨macs, hm', hcase⟩
  · rw [hm] at hm'; cases hm'
  · rw [hm] at hm'
    cases hm'
    rcases hcase with ⟨hall, heq⟩ | ⟨m, hmm, p, q, sn, g, ip, hfm, hip, hfree, heq⟩ |
      ⟨m, hmm, e, hfm, _⟩ | ⟨m, hmm, sn, g, msg, hfm, _⟩
    · left
      obtain ⟨p, q, sn, g, hf', hheld⟩ := hall mac (List.mem_singleton_self mac)
      rw [hf] at hf'
      cases hf'
      exact ⟨hheld, heq⟩
    · right
      rw [List.mem_singleton] at hmm
      subst hmm
      rw [hf] at hfm
      cases hfm
      exact ⟨ip, hip, hfree, heq⟩
    · rw [List.mem_singleton] at hmm
      subst hmm
      rw [hf] at hfm
      cases hfm
    · rw [List.mem_singleton] at hmm
      subst hmm
      rw [hf] at hfm
      cases hfm

/-- The successive `Get` calls on one ENI, started on a store that holds the
addresses `done`: as long as requests and held addresses together do not
exceed the ENI's non-primary addresses, every call succeeds with an address not
handed out before. -/
theorem getAll_single (client : TypedIMDS) (str : IP → String) (mac : String) (primary : IP)
    (addrs : List IP) (subnet : IPNet)
    (hm : client.GetMACs = .ok [mac])
    (hi : client.GetLocalIPv4s mac = .ok (primary :: addrs))
    (hsub : client.GetSubnetIPv4CIDRBlock mac = .ok subnet)
    (hd : (addrs.map str).Nodup) :
    ∀ (reqs : List (Rand × String × String)) (s : Store) (done : List IP),
      s.data.map StoreRow.IP = done.map str → (∀ ip ∈ done, ip ∈ addrs) →
      (done.map str).Nodup → done.length + reqs.length ≤ addrs.length →
      ∃ got : List IP,
        (getAll client str reqs s).1 = got.map (fun ip =>
          Outcome.ok { Address := { IP := ip, Mask := subnet.Mask }, Gateway := gatewayV4 }) ∧
        (getAll client str reqs s).2.data.map StoreRow.IP = (done ++ got).map str ∧
        (∀ ip ∈ got, ip ∈ addrs) ∧ ((done ++ got).map str).Nodup ∧
        got.length = reqs.length
  | [], s, done, hdata, _, hnd, _ => ⟨[], by simp [getAll], by simpa [getAll] using hdata,
      by simp, by simpa using hnd, rfl⟩
  | (r, id, ifname) :: reqs, s, done, hdata, hsub', hnd, hlen => by
    have hlen' : done.length + reqs.length + 1 ≤ addrs.length := by
      simpa [Nat.add_assoc] using hlen
    rcases single_Get client str mac primary addrs subnet hm hi hsub r s id ifname with
      ⟨hheld, _⟩ | ⟨ip, hip, hfree, heq⟩
    · exfalso
      have hsubset : addrs.map str ⊆ done.map str := by
        intro x hx
        obtain ⟨ip, hip, rfl⟩ := List.mem_map.1 hx
        obtain ⟨row, hrow, hrip⟩ := hheld ip hip
        rw [← hdata, ← hrip]
        exact List.mem_map_of_mem _ hrow
      have hle := (hd.subperm hsubset).length_le
      simp only [List.length_map] at hle
      omega
    · have hnew : str ip ∉ done.map str := by
        intro hmem
        rw [← hdata] at hmem
        obtain ⟨row, hrow, hrip⟩ := List.mem_map.1 hmem
        exact hfree ⟨row, hrow, hrip⟩
      have hdata' : ({ s with data := s.data ++
            [{ ID := id, IfName := ifname, IP := str ip }] } : Store).data.map StoreRow.IP =
          (done ++ [ip]).map str := by
        simp [hdata]
      have hsub'' : ∀ x ∈ done ++ [ip], x ∈ addrs := by
        intro x hx
        rcases List.mem_append.1 hx with hx | hx
        · exact hsub' x hx
        · rw [List.mem_singleton] at hx
          subst hx
          exact hip
      have hnd' : ((done ++ [ip]).map str).Nodup := by
        rw [List.map_append]
        refine List.Nodup.append hnd (List.nodup_singleton _) ?_
        intro x hx hx'
        rw [List.map_cons, List.map_nil, List.mem_singleton] at hx'
        subst hx'
        exact hnew hx
      have hlen'' : (done ++ [ip]).length + reqs.length ≤ addrs.length := by
        simp only [List.length_append, List.length_singleton]
        omega
      obtain ⟨got, hout, hst, hin, hnd2, hl⟩ :=
        getAll_single client str mac primary addrs subnet hm hi hsub hd reqs _
          (done ++ [ip]) hdata' hsub'' hnd' hlen''
      refine ⟨ip :: got, ?_, ?_, ?_, ?_, ?_⟩
      · rw [getAll, heq]
        simp only [List.map_cons, hout]
      · rw [getAll, heq]
        simpa using hst
      · intro x hx
        rcases List.mem_cons.1 hx with rfl | hx
        · exact hip
        · exact hin x hx
      · simpa using hnd2
      · simp [hl]

/-- C6: on a snapshot with a single ENI whose IPv4 address list is the primary
address followed by `addrs`, of pairwise distinct text, and from a store
without rows, as many successive `Get` calls as `addrs` has addresses all
succeed; the addresses they return are pairwise distinct and are, together,
exactly `addrs`; each comes with the gateway 169.254.0.1 and the mask of the
ENI's subnet; and one more `Get` fails with the exhaustion error. This holds
for every random source of the shuffles and for any pods. -/
theorem single_eni_scenario (client : TypedIMDS) (str : IP → String) (mac : String)
    (primary : IP) (addrs : List IP) (subnet : IPNet)
    (hm : client.GetMACs = .ok [mac])
    (hi : client.GetLocalIPv4s mac = .ok (primary :: addrs))
    (hsub : client.GetSubnetIPv4CIDRBlock mac = .ok subnet)
    (hd : (addrs.map str).Nodup)
    (s : Store) (hs : s.data = [])
    (reqs : List (Rand × String × String)) (hn : reqs.length = addrs.length) :
    ∃ got : List IP,
      (getAll client str reqs s).1 = got.map (fun ip =>
        Outcome.ok { Address := { IP := ip, Mask := subnet.Mask }, Gateway := gatewayV4 }) ∧
      got.Nodup ∧ got.Perm addrs ∧
      ∀ (r : Rand) (id ifname : String),
        (IMDSAllocator.Get client str r (getAll client str reqs s).2 id ifname "4").1 =
          .err errExhausted := by
  obtain ⟨got, hout, hst, hin, hnd, hl⟩ :=
    getAll_single client str mac primary addrs subnet hm hi hsub hd reqs s []
      (by simp [hs]) (by simp) (by simp) (by simp [hn])
  simp only [List.nil_append] at hst hnd
  have hgot : got.Nodup := List.Nodup.of_map str hnd
  have hperm : got.Perm addrs :=
    (hgot.subperm (fun x hx => hin x hx)).perm_of_length_le (by omega)
  refine ⟨got, hout, hgot, hperm, ?_⟩
  intro r id ifname
  rcases single_Get client str mac primary addrs subnet hm hi hsub r
      (getAll client str reqs s).2 id ifname with ⟨_, heq⟩ | ⟨ip, hip, hfree, _⟩
  · rw [heq]
  · exfalso
    have hmem : str ip ∈ (getAll client str reqs s).2.data.map StoreRow.IP := by
      rw [hst]
      exact List.mem_map_of_mem _ (hperm.mem_iff.2 hip)
    obtain ⟨row, hrow, hrip⟩ := List.mem_map.1 hmem
    exact hfree ⟨row, hrow, hrip⟩


/-! ## Persist, then reload -/

theorem decodeRow_encodeRow (start row : StoreRow) :
    decodeRow start (encodeRow row) = (row, none) := by
  have h1 : foldEq "id" "id" = true := by decide
  have h2 : foldEq "ifname" "id" = false := by decide
  have h3 : foldEq "ifname" "ifname" = true := by decide
  have h4 : foldEq "ip" "id" = false := by decide
  have h5 : foldEq "ip" "ifname" = false := by decide
  have h6 : foldEq "ip" "ip" = true := by decide
  simp [decodeRow, encodeRow, decodeMember, decodeString, firstError, h1, h2, h3, h4, h5, h6]

theorem decodeItems_encode :
    ∀ (rows into : List StoreRow), decodeItems (rows.map encodeRow) into = (rows, none)
  | [], _ => rfl
  | row :: rows, into => by
    simp [decodeItems, decodeRow_encodeRow, decodeItems_encode rows into.tail, firstError]

theorem decodeRows_encodeRows (nilSlice : Bool) (rows into : List StoreRow) :
    decodeRows into (encodeRows nilSlice rows) = (rows, none) := by
  cases rows with
  | nil => cases nilSlice <;> simp [encodeRows, decodeRows, decodeItems]
  | cons row rows =>
    simp only [encodeRows, decodeRows]
    exact decodeItems_encode (row :: rows) into

/-- A checkpoint that returns no error leaves the encoded rows at `c.path`. -/
theorem Checkpoint_ok (c : JSONFile) (faults : Faults) (suffix : String) (fs : FS)
    (data : List StoreRow) (nilSlice : Bool)
    (h : (c.Checkpoint faults suffix fs data nilSlice).1 = none) :
    (c.Checkpoint faults suffix fs data nilSlice).2 c.path =
      some (some (encodeRows nilSlice data)) := by
  unfold JSONFile.Checkpoint at h ⊢
  cases h1 : faults.TempFile with
  | some e => rw [h1] at h; cases h
  | none =>
    cases h2 : faults.Write with
    | some e => rw [h1, h2] at h; cases h
    | none =>
      cases h3 : faults.Sync with
      | some e => rw [h1, h2, h3] at h; cases h
      | none =>
        cases h4 : faults.Rename with
        | some e => rw [h1, h2, h3, h4] at h; cases h
        | none => simp [FS.rename, FS.write]

theorem Restore_of_content (c : JSONFile) (faults : Faults) (fs : FS)
    (nilSlice : Bool) (rows into : List StoreRow)
    (hopen : faults.Open = none)
    (hfile : fs c.path = some (some (encodeRows nilSlice rows))) :
    c.Restore faults fs into = (none, rows) := by
  simp [JSONFile.Restore, hopen, hfile, decodeRows_encodeRows]

theorem lockfile_ne_storefile (dir : String) :
    filepathJoin dir lockfile ≠ filepathJoin dir storefile := by
  intro h
  have hlen := congrArg String.length h
  simp only [filepathJoin, lockfile, storefile, String.length_append] at hlen
  have h4 : "lock".length = 4 := by decide
  have h9 : "data.json".length = 9 := by decide
  omega

/-- Taking the lock of a new store leaves the data file as it is. -/
theorem lock_NewStore (dir : String) (faults : Faults) (fs : FS)
    (hm : faults.MkdirAll = none) (ho : faults.OpenFile = none) (hf : faults.Flock = none) :
    ∃ fs', (NewStore dir).lock faults fs =
        (.ok (), { NewStore dir with lockFile := some (filepathJoin dir lockfile) }, fs') ∧
      fs' (filepathJoin dir storefile) = fs (filepathJoin dir storefile) := by
  refine ⟨_, by simp only [Store.lock, NewStore, hm, ho, hf]; rfl, ?_⟩
  by_cases hex : (fs (filepathJoin dir lockfile)).isSome = true
  · simp [NewStore, hex]
  · simp [NewStore, hex, FS.write, (lockfile_ne_storefile dir).symm]


/-- A `Close` that returns no error has checkpointed without error, and the
file system after it is the one the checkpoint left. -/
theorem Close_ok (s : Store) (faults : Faults) (suffix : String) (nilSlice : Bool) (fs : FS)
    (h : (s.Close faults suffix nilSlice fs).1 = none) :
    (s.checkpointer.Checkpoint faults suffix fs s.data nilSlice).1 = none ∧
    (s.Close faults suffix nilSlice fs).2.2 =
      (s.checkpointer.Checkpoint faults suffix fs s.data nilSlice).2 := by
  unfold Store.Close at h ⊢
  cases hc : s.checkpointer.Checkpoint faults suffix fs s.data nilSlice with
  | mk err fs1 =>
    rw [hc] at h
    cases err with
    | some e => simp at h
    | none => simp

/-- Opening a new store over a data file that holds the encoded `rows` loads
exactly `rows`. -/
theorem Open_of_content (dir : String) (faults : Faults) (fs : FS) (nilSlice : Bool)
    (rows : List StoreRow)
    (hm : faults.MkdirAll = none) (ho : faults.OpenFile = none) (hf : faults.Flock = none)
    (hopen : faults.Open = none)
    (hfile : fs (filepathJoin dir storefile) = some (some (encodeRows nilSlice rows))) :
    ∃ fs', (NewStore dir).Open faults fs =
      (.ok (), { NewStore dir with data := rows,
                                   lockFile := some (filepathJoin dir lockfile) }, fs') := by
  obtain ⟨fs', hlock, hsame⟩ := lock_NewStore dir faults fs hm ho hf
  refine ⟨fs', ?_⟩
  have hres : (NewJSONFile (filepathJoin dir storefile)).Restore faults fs' [] = (none, rows) :=
    Restore_of_content _ faults fs' nilSlice rows [] hopen (by
      show fs' (filepathJoin dir storefile) = _
      rw [hsame, hfile])
  unfold Store.Open
  rw [hlock]
  simp only [NewStore] at hres ⊢
  rw [hres]

/-- Opening a new store in a directory without data file gives a store
without rows. -/
theorem Open_missing (dir : String) (faults : Faults) (fs : FS)
    (hm : faults.MkdirAll = none) (ho : faults.OpenFile = none) (hf : faults.Flock = none)
    (hopen : faults.Open = none)
    (hfile : fs (filepathJoin dir storefile) = none) :
    ∃ fs', (NewStore dir).Open faults fs =
      (.ok (), { NewStore dir with lockFile := some (filepathJoin dir lockfile) }, fs') := by
  obtain ⟨fs', hlock, hsame⟩ := lock_NewStore dir faults fs hm ho hf
  refine ⟨fs', ?_⟩
  have hres : (NewJSONFile (filepathJoin dir storefile)).Restore faults fs' [] =
      (some (Error.NotExist (filepathJoin dir storefile)), []) := by
    have hnone : fs' (filepathJoin dir storefile) = none := by
      rw [hsame, hfile]
    simp [JSONFile.Restore, hopen, hnone, NewJSONFile]
  unfold Store.Open
  rw [hlock]
  simp only [NewStore] at hres ⊢
  rw [hres]
  simp [IsNotExist]

/-- C10: persist-then-reload is the identity on the rows. For every store built
by `NewStore` and holding any list of rows (the empty one included), once
`Store.Close` has returned without error, `JSONFile.Restore` of the file that
`JSONFile.Checkpoint` wrote gives back the same rows, and `Store.Open` of a new
store on the same directory succeeds with exactly these rows, in their order;
`Close` does return without error when no system call fails and the lock is
held; and a new store opened on a directory whose data file is missing has no
rows. The system calls of the reload are taken not to fail. -/
theorem persist_reload_identity (s : Store) (faults faults' : Faults) (suffix : String)
    (nilSlice : Bool) (fs : FS)
    (hpath : s.checkpointer = NewJSONFile (filepathJoin s.dir storefile))
    (hclose : (s.Close faults suffix nilSlice fs).1 = none)
    (hopen : faults'.MkdirAll = none ∧ faults'.OpenFile = none ∧ faults'.Flock = none ∧
      faults'.Open = none) :
    (∀ into : List StoreRow,
      s.checkpointer.Restore faults'
        (s.checkpointer.Checkpoint faults suffix fs s.data nilSlice).2 into = (none, s.data)) ∧
    (∃ fs', (NewStore s.dir).Open faults' (s.Close faults suffix nilSlice fs).2.2 =
      (.ok (), { NewStore s.dir with data := s.data,
                                     lockFile := some (filepathJoin s.dir lockfile) }, fs')) ∧
    (∀ s0 : Store, s0.lockFile.isSome = true →
      (s0.Close noFaults suffix nilSlice fs).1 = none) ∧
    (∀ (dir : String) (fs0 : FS), fs0 (filepathJoin dir storefile) = none →
      ∃ fs', (NewStore dir).Open faults' fs0 =
        (.ok (), { NewStore dir with data := [],
                                     lockFile := some (filepathJoin dir lockfile) }, fs')) := by
  obtain ⟨hm, ho, hf, hop⟩ := hopen
  obtain ⟨hck, hfs⟩ := Close_ok s faults suffix nilSlice fs hclose
  have hfile := Checkpoint_ok s.checkpointer faults suffix fs s.data nilSlice hck
  refine ⟨?_, ?_, ?_, ?_⟩
  · intro into
    exact Restore_of_content _ faults' _ nilSlice s.data into hop hfile
  · rw [hfs]
    refine Open_of_content s.dir faults' _ nilSlice s.data hm ho hf hop ?_
    have hp : s.checkpointer.path = filepathJoin s.dir storefile := by
      rw [hpath]
      rfl
    rw [hp] at hfile
    exact hfile
  · intro s0 h0
    obtain ⟨path, hpath0⟩ := Option.isSome_iff_exists.1 h0
    simp [Store.Close, JSONFile.Checkpoint, Store.unlock, noFaults, hpath0]
  · intro dir fs0 hmiss
    exact Open_missing dir faults' fs0 hm ho hf hop hmiss


/-! ## The theorems at concrete inputs -/

theorem runOps_ip_unique_witness :
    ((runOps dottedString (NewStore "/var/lib/cni/net")
        [.get scenarioClient (constRand 0) "p1" "eth0" "4",
          .put "p1" "eth0" "4",
          .get scenarioClient (constRand 1) "p2" "eth0" "4"]).data.map StoreRow.IP).Nodup ∧
    ∀ (client : TypedIMDS) (r : Rand) (id ifname version : String) (cfg : IPConfig),
      (IMDSAllocator.Get client dottedString r
        (runOps dottedString (NewStore "/var/lib/cni/net")
          [.get scenarioClient (constRand 0) "p1" "eth0" "4",
            .put "p1" "eth0" "4",
            .get scenarioClient (constRand 1) "p2" "eth0" "4"]) id ifname version).1 = .ok cfg →
      ∀ row ∈ (runOps dottedString (NewStore "/var/lib/cni/net")
          [.get scenarioClient (constRand 0) "p1" "eth0" "4",
            .put "p1" "eth0" "4",
            .get scenarioClient (constRand 1) "p2" "eth0" "4"]).data,
        row.IP ≠ dottedString cfg.Address.IP :=
  runOps_ip_unique dottedString (NewStore "/var/lib/cni/net") rfl _

/-- The store of scenario 1 after both non-primary addresses were handed out. -/
theorem Get_exhausted_iff_witness :
    (IMDSAllocator.Get scenarioClient dottedString (constRand 0)
      { NewStore "/var/lib/cni/net" with
        data := [⟨"p1", "eth0", "10.0.0.7"⟩, ⟨"p2", "eth0", "10.0.0.6"⟩] }
      "p3" "eth0" "4").1 = .err errExhausted :=
  (Get_exhausted_iff scenarioClient dottedString (constRand 0)
      { NewStore "/var/lib/cni/net" with
        data := [⟨"p1", "eth0", "10.0.0.7"⟩, ⟨"p2", "eth0", "10.0.0.6"⟩] }
      "p3" "eth0" "4" ["0a:1b:2c:3d:4e:5f"] rfl
      (fun _ _ => ⟨_, _, _, _, rfl⟩)).1.2
    (by
      intro mac _ ips subnet gw hf i ip hi hget
      have hips : ips = [IPv4 10 0 0 5, IPv4 10 0 0 6, IPv4 10 0 0 7] := by
        have h : IMDSAllocator.fetch scenarioClient "4" mac =
            .ok ([IPv4 10 0 0 5, IPv4 10 0 0 6, IPv4 10 0 0 7],
              { IP := [10, 0, 0, 0], Mask := [255, 255, 255, 0] }, gatewayV4) := rfl
        rw [h] at hf
        cases hf
        rfl
      subst hips
      match i, hi, hget with
      | 1, _, hget =>
        cases hget
        exact ⟨⟨"p2", "eth0", "10.0.0.6"⟩, by simp, by decide⟩
      | 2, _, hget =>
        cases hget
        exact ⟨⟨"p1", "eth0", "10.0.0.7"⟩, by simp, by decide⟩
      | n + 3, _, hget => simp at hget)

theorem Get_ok_spec_witness :
    (∃ macs mac ips subnet i,
      scenarioClient.GetMACs = .ok macs ∧ mac ∈ macs ∧
      (if "4" = "4" then scenarioClient.GetLocalIPv4s mac
        else scenarioClient.GetIPv6s mac) = .ok ips ∧
      (if "4" = "4" then scenarioClient.GetSubnetIPv4CIDRBlock mac
        else scenarioClient.GetSubnetIPv6CIDRBlocks mac) = .ok subnet ∧
      1 ≤ i ∧ ips[i]? = some (IPv4 10 0 0 7) ∧
      [255, 255, 255, 0] = subnet.Mask) ∧
    (¬ ∃ row ∈ (NewStore "/var/lib/cni/net").data, row.IP = dottedString (IPv4 10 0 0 7)) ∧
    gatewayV4 = (if "4" = "4" then gatewayV4 else gatewayV6) :=
  Get_ok_spec scenarioClient dottedString (constRand 0) (NewStore "/var/lib/cni/net")
    "p1" "eth0" "4"
    { Address := { IP := IPv4 10 0 0 7, Mask := [255, 255, 255, 0] }, Gateway := gatewayV4 }
    (by decide)

/-- Scenario 1 of the specification: the addresses 10.0.0.5 (primary), 10.0.0.6
and 10.0.0.7 in a /24 subnet; two `Get` calls return 10.0.0.6 and 10.0.0.7 in
some order, and a third fails with the exhaustion error. -/
theorem single_eni_scenario_witness :
    ∃ got : List IP,
      (getAll scenarioClient dottedString
          [(constRand 0, "p1", "eth0"), (constRand 1, "p2", "eth0")]
          (NewStore "/var/lib/cni/net")).1 = got.map (fun ip =>
        Outcome.ok
          { Address := { IP := ip, Mask := [255, 255, 255, 0] }, Gateway := gatewayV4 }) ∧
      got.Nodup ∧ got.Perm [IPv4 10 0 0 6, IPv4 10 0 0 7] ∧
      ∀ (r : Rand) (id ifname : String),
        (IMDSAllocator.Get scenarioClient dottedString r
          (getAll scenarioClient dottedString
            [(constRand 0, "p1", "eth0"), (constRand 1, "p2", "eth0")]
            (NewStore "/var/lib/cni/net")).2 id ifname "4").1 = .err errExhausted :=
  single_eni_scenario scenarioClient dottedString "0a:1b:2c:3d:4e:5f" (IPv4 10 0 0 5)
    [IPv4 10 0 0 6, IPv4 10 0 0 7] { IP := [10, 0, 0, 0], Mask := [255, 255, 255, 0] }
    rfl rfl rfl (by decide) (NewStore "/var/lib/cni/net") rfl
    [(constRand 0, "p1", "eth0"), (constRand 1, "p2", "eth0")] rfl

/-- C7 fails on a store with two rows for one `(podID, ifname)`, which two
`Get` calls for the same pod and interface produce: `Put` removes the first of
the two rows and `Store.FindByID` still finds the second. -/
theorem Put_keeps_second_row :
    (runOps dottedString (NewStore "/var/lib/cni/net")
        [.get scenarioClient (constRand 0) "p1" "eth0" "4",
          .get scenarioClient (constRand 0) "p1" "eth0" "4"]).data =
      [⟨"p1", "eth0", "10.0.0.7"⟩, ⟨"p1", "eth0", "10.0.0.6"⟩] ∧
    (IMDSAllocator.Put
        (runOps dottedString (NewStore "/var/lib/cni/net")
          [.get scenarioClient (constRand 0) "p1" "eth0" "4",
            .get scenarioClient (constRand 0) "p1" "eth0" "4"])
        "p1" "eth0" "4").2.FindByID dottedParse "p1" "eth0" = some (IPv4 10 0 0 6) := by
  decide

theorem Put_releases_single_witness :
    (IMDSAllocator.Put
        { NewStore "/var/lib/cni/net" with
          data := [⟨"p1", "eth0", "10.0.0.7"⟩, ⟨"p2", "eth0", "10.0.0.6"⟩] }
        "p1" "eth0" "4").2.FindByID dottedParse "p1" "eth0" = none :=
  Put_releases_single dottedParse
    { NewStore "/var/lib/cni/net" with
      data := [⟨"p1", "eth0", "10.0.0.7"⟩, ⟨"p2", "eth0", "10.0.0.6"⟩] }
    "p1" "eth0" "4" (by decide)

theorem Put_absent_noop_witness :
    IMDSAllocator.Put
        { NewStore "/var/lib/cni/net" with data := [⟨"p2", "eth0", "10.0.0.6"⟩] }
        "p1" "eth0" "4" =
      (none, { NewStore "/var/lib/cni/net" with data := [⟨"p2", "eth0", "10.0.0.6"⟩] }) ∧
    ∀ (s' : Store) (id' ifname' version' : String),
      (IMDSAllocator.Put s' id' ifname' version').1 = none :=
  Put_absent_noop
    { NewStore "/var/lib/cni/net" with data := [⟨"p2", "eth0", "10.0.0.6"⟩] }
    "p1" "eth0" "4" (by decide)

/-- C9 fails after two `Get` calls for the same pod and interface: the store
then has two rows with the key `(p1, eth0)`. -/
theorem double_Get_two_rows :
    (runOps dottedString (NewStore "/var/lib/cni/net")
        [.get scenarioClient (constRand 0) "p1" "eth0" "4",
          .get scenarioClient (constRand 0) "p1" "eth0" "4"]).data.map StoreRow.key =
      [("p1", "eth0"), ("p1", "eth0")] ∧
    ¬ ((runOps dottedString (NewStore "/var/lib/cni/net")
        [.get scenarioClient (constRand 0) "p1" "eth0" "4",
          .get scenarioClient (constRand 0) "p1" "eth0" "4"]).data.map StoreRow.key).Nodup := by
  decide

theorem runOps_key_unique_witness :
    ((runOps dottedString (NewStore "/var/lib/cni/net")
        [.get scenarioClient (constRand 0) "p1" "eth0" "4",
          .get scenarioClient (constRand 0) "p2" "eth0" "4",
          .put "p1" "eth0" "4",
          .get scenarioClient (constRand 0) "p1" "eth0" "4"]).data.map StoreRow.key).Nodup :=
  runOps_key_unique dottedString dottedParse (NewStore "/var/lib/cni/net") rfl
    [.get scenarioClient (constRand 0) "p1" "eth0" "4",
      .get scenarioClient (constRand 0) "p2" "eth0" "4",
      .put "p1" "eth0" "4",
      .get scenarioClient (constRand 0) "p1" "eth0" "4"] (by decide)


theorem persist_reload_identity_witness :
    (∀ into : List StoreRow,
      (NewJSONFile "/var/lib/cni/net/data.json").Restore noFaults
        ((NewJSONFile "/var/lib/cni/net/data.json").Checkpoint noFaults "071395" emptyFS
          [⟨"p1", "eth0", "10.0.0.7"⟩, ⟨"p2", "eth0", "10.0.0.6"⟩] false).2 into =
        (none, [⟨"p1", "eth0", "10.0.0.7"⟩, ⟨"p2", "eth0", "10.0.0.6"⟩])) ∧
    (∃ fs', (NewStore "/var/lib/cni/net").Open noFaults
        (Store.Close
          { NewStore "/var/lib/cni/net" with
            data := [⟨"p1", "eth0", "10.0.0.7"⟩, ⟨"p2", "eth0", "10.0.0.6"⟩],
            lockFile := some "/var/lib/cni/net/lock" }
          noFaults "071395" false emptyFS).2.2 =
      (.ok (), { NewStore "/var/lib/cni/net" with
                 data := [⟨"p1", "eth0", "10.0.0.7"⟩, ⟨"p2", "eth0", "10.0.0.6"⟩],
                 lockFile := some (filepathJoin "/var/lib/cni/net" lockfile) }, fs')) ∧
    (∀ s0 : Store, s0.lockFile.isSome = true →
      (s0.Close noFaults "071395" false emptyFS).1 = none) ∧
    (∀ (dir : String) (fs0 : FS), fs0 (filepathJoin dir storefile) = none →
      ∃ fs', (NewStore dir).Open noFaults fs0 =
        (.ok (), { NewStore dir with data := [],
                                     lockFile := some (filepathJoin dir lockfile) }, fs')) :=
  persist_reload_identity
    { NewStore "/var/lib/cni/net" with
      data := [⟨"p1", "eth0", "10.0.0.7"⟩, ⟨"p2", "eth0", "10.0.0.6"⟩],
      lockFile := some "/var/lib/cni/net/lock" }
    noFaults noFaults "071395" false emptyFS rfl (by decide) ⟨rfl, rfl, rfl, rfl⟩


end IMDSIpam

namespace IMDSPtp

open IMDSIpam

/-! ## Calls on the kernel, one after the other -/

theorem Step.bind_apply {α β : Type} (m : Step α) (f : α → Step β) (k : Kernel) :
    (m >>= f) k =
      match m k with
      | (some (.ok a), k1) => f a k1
      | (some (.err e), k1) => (some (.err e), k1)
      | (some (.panic msg), k1) => (some (.panic msg), k1)
      | (none, k1) => (none, k1) :=
  rfl

theorem Step.pure_apply {α : Type} (a : α) (k : Kernel) :
    (pure a : Step α) k = (some (.ok a), k) :=
  rfl

/-- When two calls in a row return a value, the first returned a value and the
second ran on it. -/
theorem Step.bind_ok {α β : Type} {m : Step α} {f : α → Step β} {k k2 : Kernel} {b : β}
    (h : (m >>= f) k = (some (.ok b), k2)) :
    ∃ a k1, m k = (some (.ok a), k1) ∧ f a k1 = (some (.ok b), k2) := by
  rw [Step.bind_apply] at h
  rcases hm : m k with ⟨r, k1⟩
  rw [hm] at h
  rcases r with _ | a | e | msg
  · cases h
  · exact ⟨a, k1, rfl, h⟩
  · cases h
  · cases h

/-- Two calls in a row, the first of which returns a value. -/
theorem Step.bind_of_ok {α β : Type} {m : Step α} {f : α → Step β} {k k1 : Kernel} {a : α}
    (h : m k = (some (.ok a), k1)) : (m >>= f) k = f a k1 := by
  rw [Step.bind_apply, h]

/-! ## The fields of the kernel after a change -/

@[simp]
theorem Kernel.record_links (k : Kernel) (e : Event) :
    (k.record e).links = k.links :=
  rfl

@[simp]
theorem Kernel.record_addrs (k : Kernel) (e : Event) :
    (k.record e).addrs = k.addrs :=
  rfl

@[simp]
theorem Kernel.record_routes (k : Kernel) (e : Event) :
    (k.record e).routes = k.routes :=
  rfl

@[simp]
theorem Kernel.record_rules (k : Kernel) (e : Event) :
    (k.record e).rules = k.rules :=
  rfl

@[simp]
theorem Kernel.record_sysctl (k : Kernel) (e : Event) :
    (k.record e).sysctl = k.sysctl :=
  rfl

@[simp]
theorem Kernel.record_iptables (k : Kernel) (e : Event) :
    (k.record e).iptables = k.iptables :=
  rfl

@[simp]
theorem Kernel.record_log (k : Kernel) (e : Event) :
    (k.record e).log = k.log ++ [e] :=
  rfl

@[simp]
theorem Kernel.setRoute_links (k : Kernel) (key : RouteKey) (v : Option Route) :
    (k.setRoute key v).links = k.links :=
  rfl

@[simp]
theorem Kernel.setRoute_addrs (k : Kernel) (key : RouteKey) (v : Option Route) :
    (k.setRoute key v).addrs = k.addrs :=
  rfl

@[simp]
theorem Kernel.setRoute_routes (k : Kernel) (key : RouteKey) (v : Option Route) :
    (k.setRoute key v).routes = fun x => if x = key then v else k.routes x :=
  rfl

@[simp]
theorem Kernel.setRoute_rules (k : Kernel) (key : RouteKey) (v : Option Route) :
    (k.setRoute key v).rules = k.rules :=
  rfl

@[simp]
theorem Kernel.setRoute_sysctl (k : Kernel) (key : RouteKey) (v : Option Route) :
    (k.setRoute key v).sysctl = k.sysctl :=
  rfl

@[simp]
theorem Kernel.setRoute_iptables (k : Kernel) (key : RouteKey) (v : Option Route) :
    (k.setRoute key v).iptables = k.iptables :=
  rfl

@[simp]
theorem Kernel.setRoute_log (k : Kernel) (key : RouteKey) (v : Option Route) :
    (k.setRoute key v).log = k.log :=
  rfl

@[simp]
theorem Kernel.mapLinks_links (k : Kernel) (f : Link → Link) :
    (k.mapLinks f).links = k.links.map f :=
  rfl

@[simp]
theorem Kernel.mapLinks_addrs (k : Kernel) (f : Link → Link) :
    (k.mapLinks f).addrs = k.addrs :=
  rfl

@[simp]
theorem Kernel.mapLinks_routes (k : Kernel) (f : Link → Link) :
    (k.mapLinks f).routes = k.routes :=
  rfl

@[simp]
theorem Kernel.mapLinks_rules (k : Kernel) (f : Link → Link) :
    (k.mapLinks f).rules = k.rules :=
  rfl

@[simp]
theorem Kernel.mapLinks_sysctl (k : Kernel) (f : Link → Link) :
    (k.mapLinks f).sysctl = k.sysctl :=
  rfl

@[simp]
theorem Kernel.mapLinks_iptables (k : Kernel) (f : Link → Link) :
    (k.mapLinks f).iptables = k.iptables :=
  rfl

@[simp]
theorem Kernel.mapLinks_log (k : Kernel) (f : Link → Link) :
    (k.mapLinks f).log = k.log :=
  rfl

@[simp]
theorem Kernel.addAddr_links (k : Kernel) (index : Int) (a : Addr) :
    (k.addAddr index a).links = k.links :=
  rfl

@[simp]
theorem Kernel.addAddr_addrs (k : Kernel) (index : Int) (a : Addr) :
    (k.addAddr index a).addrs = k.addrs ++ [(index, a)] :=
  rfl

@[simp]
theorem Kernel.addAddr_routes (k : Kernel) (index : Int) (a : Addr) :
    (k.addAddr index a).routes = k.routes :=
  rfl

@[simp]
theorem Kernel.addAddr_rules (k : Kernel) (index : Int) (a : Addr) :
    (k.addAddr index a).rules = k.rules :=
  rfl

@[simp]
theorem Kernel.addAddr_sysctl (k : Kernel) (index : Int) (a : Addr) :
    (k.addAddr index a).sysctl = k.sysctl :=
  rfl

@[simp]
theorem Kernel.addAddr_iptables (k : Kernel) (index : Int) (a : Addr) :
    (k.addAddr index a).iptables = k.iptables :=
  rfl

@[simp]
theorem Kernel.addAddr_log (k : Kernel) (index : Int) (a : Addr) :
    (k.addAddr index a).log = k.log :=
  rfl

@[simp]
theorem Kernel.addRule_links (k : Kernel) (r : Rule) :
    (k.addRule r).links = k.links :=
  rfl

@[simp]
theorem Kernel.addRule_addrs (k : Kernel) (r : Rule) :
    (k.addRule r).addrs = k.addrs :=
  rfl

@[simp]
theorem Kernel.addRule_routes (k : Kernel) (r : Rule) :
    (k.addRule r).routes = k.routes :=
  rfl

@[simp]
theorem Kernel.addRule_rules (k : Kernel) (r : Rule) :
    (k.addRule r).rules = k.rules ++ [r] :=
  rfl

@[simp]
theorem Kernel.addRule_sysctl (k : Kernel) (r : Rule) :
    (k.addRule r).sysctl = k.sysctl :=
  rfl

@[simp]
theorem Kernel.addRule_iptables (k : Kernel) (r : Rule) :
    (k.addRule r).iptables = k.iptables :=
  rfl

@[simp]
theorem Kernel.addRule_log (k : Kernel) (r : Rule) :
    (k.addRule r).log = k.log :=
  rfl

@[simp]
theorem Kernel.setSysctl_links (k : Kernel) (key value : String) :
    (k.setSysctl key value).links = k.links :=
  rfl

@[simp]
theorem Kernel.setSysctl_addrs (k : Kernel) (key value : String) :
    (k.setSysctl key value).addrs = k.addrs :=
  rfl

@[simp]
theorem Kernel.setSysctl_routes (k : Kernel) (key value : String) :
    (k.setSysctl key value).routes = k.routes :=
  rfl

@[simp]
theorem Kernel.setSysctl_rules (k : Kernel) (key value : String) :
    (k.setSysctl key value).rules = k.rules :=
  rfl

@[simp]
theorem Kernel.setSysctl_sysctl (k : Kernel) (key value : String) :
    (k.setSysctl key value).sysctl = fun x => if x = key then some value else k.sysctl x :=
  rfl

@[simp]
theorem Kernel.setSysctl_iptables (k : Kernel) (key value : String) :
    (k.setSysctl key value).iptables = k.iptables :=
  rfl

@[simp]
theorem Kernel.setSysctl_log (k : Kernel) (key value : String) :
    (k.setSysctl key value).log = k.log :=
  rfl

@[simp]
theorem Kernel.addIpt_links (k : Kernel) (e : IptEntry) :
    (k.addIpt e).links = k.links :=
  rfl

@[simp]
theorem Kernel.addIpt_addrs (k : Kernel) (e : IptEntry) :
    (k.addIpt e).addrs = k.addrs :=
  rfl

@[simp]
theorem Kernel.addIpt_routes (k : Kernel) (e : IptEntry) :
    (k.addIpt e).routes = k.routes :=
  rfl

@[simp]
theorem Kernel.addIpt_rules (k : Kernel) (e : IptEntry) :
    (k.addIpt e).rules = k.rules :=
  rfl

@[simp]
theorem Kernel.addIpt_sysctl (k : Kernel) (e : IptEntry) :
    (k.addIpt e).sysctl = k.sysctl :=
  rfl

@[simp]
theorem Kernel.addIpt_iptables (k : Kernel) (e : IptEntry) :
    (k.addIpt e).iptables = k.iptables ++ [e] :=
  rfl

@[simp]
theorem Kernel.addIpt_log (k : Kernel) (e : IptEntry) :
    (k.addIpt e).log = k.log :=
  rfl

end IMDSPtp

namespace IMDSPtp

open IMDSIpam

/-! ## The kernel after the calls of the engine -/

theorem IsExist_EEXIST : IsExist EEXIST = true := by decide

theorem IsExist_ENODEV : IsExist ENODEV = false := by decide

theorem Kernel.withRule_of_mem {k : Kernel} {r : Rule} (h : r ∈ k.rules) : k.withRule r = k := by
  simp only [Kernel.withRule, h, if_true]

theorem Kernel.withIpt_of_mem {k : Kernel} {e : IptEntry} (h : e ∈ k.iptables) :
    k.withIpt e = k := by
  simp only [Kernel.withIpt, h, if_true]

@[simp]
theorem Kernel.withRule_links (k : Kernel) (r : Rule) : (k.withRule r).links = k.links := by
  unfold Kernel.withRule; split <;> rfl

@[simp]
theorem Kernel.withRule_addrs (k : Kernel) (r : Rule) : (k.withRule r).addrs = k.addrs := by
  unfold Kernel.withRule; split <;> rfl

@[simp]
theorem Kernel.withRule_routes (k : Kernel) (r : Rule) : (k.withRule r).routes = k.routes := by
  unfold Kernel.withRule; split <;> rfl

@[simp]
theorem Kernel.withRule_sysctl (k : Kernel) (r : Rule) : (k.withRule r).sysctl = k.sysctl := by
  unfold Kernel.withRule; split <;> rfl

@[simp]
theorem Kernel.withRule_iptables (k : Kernel) (r : Rule) :
    (k.withRule r).iptables = k.iptables := by
  unfold Kernel.withRule; split <;> rfl

theorem Kernel.withRule_rules (k : Kernel) (r : Rule) :
    (k.withRule r).rules = if r ∈ k.rules then k.rules else k.rules ++ [r] := by
  unfold Kernel.withRule; split <;> rfl

theorem Kernel.withRule_log (k : Kernel) (r : Rule) :
    (k.withRule r).log = k.log ++ if r ∈ k.rules then [] else [Event.RuleAdd r] := by
  unfold Kernel.withRule; split <;> simp

theorem Kernel.mem_withRule (k : Kernel) (r x : Rule) :
    x ∈ (k.withRule r).rules ↔ x ∈ k.rules ∨ x = r := by
  rw [Kernel.withRule_rules]
  split
  · constructor
    · exact Or.inl
    · rintro (h | rfl)
      · exact h
      · assumption
  · simp

@[simp]
theorem Kernel.withIpt_links (k : Kernel) (e : IptEntry) : (k.withIpt e).links = k.links := by
  unfold Kernel.withIpt; split <;> rfl

@[simp]
theorem Kernel.withIpt_addrs (k : Kernel) (e : IptEntry) : (k.withIpt e).addrs = k.addrs := by
  unfold Kernel.withIpt; split <;> rfl

@[simp]
theorem Kernel.withIpt_routes (k : Kernel) (e : IptEntry) : (k.withIpt e).routes = k.routes := by
  unfold Kernel.withIpt; split <;> rfl

@[simp]
theorem Kernel.withIpt_sysctl (k : Kernel) (e : IptEntry) : (k.withIpt e).sysctl = k.sysctl := by
  unfold Kernel.withIpt; split <;> rfl

@[simp]
theorem Kernel.withIpt_rules (k : Kernel) (e : IptEntry) : (k.withIpt e).rules = k.rules := by
  unfold Kernel.withIpt; split <;> rfl

theorem Kernel.withIpt_iptables (k : Kernel) (e : IptEntry) :
    (k.withIpt e).iptables = if e ∈ k.iptables then k.iptables else k.iptables ++ [e] := by
  unfold Kernel.withIpt; split <;> rfl

theorem Kernel.withIpt_log (k : Kernel) (e : IptEntry) :
    (k.withIpt e).log = k.log ++ if e ∈ k.iptables then [] else [Event.IptAppend e] := by
  unfold Kernel.withIpt; split <;> simp

theorem Kernel.mem_withIpt (k : Kernel) (e x : IptEntry) :
    x ∈ (k.withIpt e).iptables ↔ x ∈ k.iptables ∨ x = e := by
  rw [Kernel.withIpt_iptables]
  split
  · constructor
    · exact Or.inl
    · rintro (h | rfl)
      · exact h
      · assumption
  · simp

@[simp]
theorem Kernel.withAddr_links (k : Kernel) (i : Int) (a : Addr) :
    (k.withAddr i a).links = k.links := by
  unfold Kernel.withAddr; split <;> rfl

@[simp]
theorem Kernel.withAddr_routes (k : Kernel) (i : Int) (a : Addr) :
    (k.withAddr i a).routes = k.routes := by
  unfold Kernel.withAddr; split <;> rfl

@[simp]
theorem Kernel.withAddr_rules (k : Kernel) (i : Int) (a : Addr) :
    (k.withAddr i a).rules = k.rules := by
  unfold Kernel.withAddr; split <;> rfl

@[simp]
theorem Kernel.withAddr_sysctl (k : Kernel) (i : Int) (a : Addr) :
    (k.withAddr i a).sysctl = k.sysctl := by
  unfold Kernel.withAddr; split <;> rfl

@[simp]
theorem Kernel.withAddr_iptables (k : Kernel) (i : Int) (a : Addr) :
    (k.withAddr i a).iptables = k.iptables := by
  unfold Kernel.withAddr; split <;> rfl

theorem Kernel.withAddr_addrs (k : Kernel) (i : Int) (a : Addr) :
    (k.withAddr i a).addrs =
      if k.addrs.any (fun x => x.1 == i && x.2.IPNet == a.IPNet) then k.addrs
      else k.addrs ++ [(i, a)] := by
  unfold Kernel.withAddr; split <;> rfl

theorem Kernel.withAddr_log (k : Kernel) (i : Int) (a : Addr) :
    (k.withAddr i a).log =
      k.log ++ if k.addrs.any (fun x => x.1 == i && x.2.IPNet == a.IPNet) then []
        else [Event.AddrAdd i a] := by
  unfold Kernel.withAddr; split <;> simp

@[simp]
theorem Kernel.withRoute_links (k : Kernel) (r : Route) : (k.withRoute r).links = k.links :=
  rfl

@[simp]
theorem Kernel.withRoute_addrs (k : Kernel) (r : Route) : (k.withRoute r).addrs = k.addrs :=
  rfl

@[simp]
theorem Kernel.withRoute_rules (k : Kernel) (r : Route) : (k.withRoute r).rules = k.rules :=
  rfl

@[simp]
theorem Kernel.withRoute_sysctl (k : Kernel) (r : Route) : (k.withRoute r).sysctl = k.sysctl :=
  rfl

@[simp]
theorem Kernel.withRoute_iptables (k : Kernel) (r : Route) :
    (k.withRoute r).iptables = k.iptables :=
  rfl

@[simp]
theorem Kernel.withRoute_routes (k : Kernel) (r : Route) :
    (k.withRoute r).routes = fun x => if x = r.key then some r else k.routes x :=
  rfl

@[simp]
theorem Kernel.withRoute_log (k : Kernel) (r : Route) :
    (k.withRoute r).log = k.log ++ [Event.RouteReplace r] :=
  rfl

@[simp]
theorem Kernel.withSysctl_links (k : Kernel) (key v : String) :
    (k.withSysctl key v).links = k.links :=
  rfl

@[simp]
theorem Kernel.withSysctl_addrs (k : Kernel) (key v : String) :
    (k.withSysctl key v).addrs = k.addrs :=
  rfl

@[simp]
theorem Kernel.withSysctl_rules (k : Kernel) (key v : String) :
    (k.withSysctl key v).rules = k.rules :=
  rfl

@[simp]
theorem Kernel.withSysctl_routes (k : Kernel) (key v : String) :
    (k.withSysctl key v).routes = k.routes :=
  rfl

@[simp]
theorem Kernel.withSysctl_iptables (k : Kernel) (key v : String) :
    (k.withSysctl key v).iptables = k.iptables :=
  rfl

@[simp]
theorem Kernel.withSysctl_sysctl (k : Kernel) (key v : String) :
    (k.withSysctl key v).sysctl = fun x => if x = key then some v else k.sysctl x :=
  rfl

@[simp]
theorem Kernel.withSysctl_log (k : Kernel) (key v : String) :
    (k.withSysctl key v).log = k.log ++ [Event.Sysctl key v] :=
  rfl

/-- The entries of a version that `appendIptRules` leaves in the kernel. -/
theorem foldl_withIpt_fields (p : Nat) (specs : List (List String)) (k : Kernel) :
    (specs.foldl (fun x spec => x.withIpt
        { Proto := p, Table := "mangle", Chain := "PREROUTING", Spec := spec }) k).links
      = k.links ∧
    (specs.foldl (fun x spec => x.withIpt
        { Proto := p, Table := "mangle", Chain := "PREROUTING", Spec := spec }) k).addrs
      = k.addrs ∧
    (specs.foldl (fun x spec => x.withIpt
        { Proto := p, Table := "mangle", Chain := "PREROUTING", Spec := spec }) k).routes
      = k.routes ∧
    (specs.foldl (fun x spec => x.withIpt
        { Proto := p, Table := "mangle", Chain := "PREROUTING", Spec := spec }) k).rules
      = k.rules ∧
    (specs.foldl (fun x spec => x.withIpt
        { Proto := p, Table := "mangle", Chain := "PREROUTING", Spec := spec }) k).sysctl
      = k.sysctl := by
  induction specs generalizing k with
  | nil => exact ⟨rfl, rfl, rfl, rfl, rfl⟩
  | cons s rest ih =>
    simp only [List.foldl_cons]
    obtain ⟨h1, h2, h3, h4, h5⟩ := ih (k.withIpt
      { Proto := p, Table := "mangle", Chain := "PREROUTING", Spec := s })
    rw [h1, h2, h3, h4, h5]
    simp

/-! ## One call after the other, call by call -/

theorem Interfaces_bind {β : Type} (f : List NetInterface → Step β) (k : Kernel) :
    (Interfaces >>= f) k = f (k.links.map Link.toInterface) k :=
  rfl

theorem ofExcept_ok_bind {α β : Type} (a : α) (f : α → Step β) (k : Kernel) :
    (Step.ofExcept (.ok a) >>= f) k = f a k :=
  rfl

theorem ofExcept_error_bind {α β : Type} (e : Error) (f : α → Step β) (k : Kernel) :
    (Step.ofExcept (.error e : Except Error α) >>= f) k = (some (.err e), k) :=
  rfl

theorem procSysSet_bind {β : Type} (key v : String) (f : Unit → Step β) (k : Kernel) :
    (procSysSet key v >>= f) k = f () (k.withSysctl key v) :=
  rfl

theorem pure_bind_apply {α β : Type} (a : α) (f : α → Step β) (k : Kernel) :
    ((pure a : Step α) >>= f) k = f a k :=
  rfl

theorem RuleAdd_swallow (r : Rule) (wrap : Error → Error) (k : Kernel) :
    (RuleAdd r >>= fun e => swallowExist e wrap) k = (some (.ok ()), k.withRule r) := by
  by_cases h : r ∈ k.rules
  · simp only [Step.bind_apply, RuleAdd, h, if_true, swallowExist, IsExist_EEXIST,
      Kernel.withRule]
    rfl
  · simp only [Step.bind_apply, RuleAdd, h, if_false, swallowExist, Kernel.withRule]
    rfl

theorem RuleAdd_swallow_bind {β : Type} (r : Rule) (wrap : Error → Error) (f : Unit → Step β)
    (k : Kernel) :
    (RuleAdd r >>= fun e => swallowExist e wrap >>= f) k = f () (k.withRule r) := by
  by_cases h : r ∈ k.rules
  · simp only [Step.bind_apply, RuleAdd, h, if_true, swallowExist, IsExist_EEXIST,
      Kernel.withRule]
    rfl
  · simp only [Step.bind_apply, RuleAdd, h, if_false, swallowExist, Kernel.withRule]
    rfl

theorem AppendUnique_apply (p : Nat) (spec : List String) (k : Kernel) :
    AppendUnique p "mangle" "PREROUTING" spec k =
      (some (.ok ()),
        k.withIpt { Proto := p, Table := "mangle", Chain := "PREROUTING", Spec := spec }) := by
  unfold AppendUnique Kernel.withIpt
  split <;> rfl

theorem appendIptRules_apply (p : Nat) (specs : List (List String)) (k : Kernel) :
    appendIptRules p specs k =
      (some (.ok ()), specs.foldl (fun x spec => x.withIpt
        { Proto := p, Table := "mangle", Chain := "PREROUTING", Spec := spec }) k) := by
  induction specs generalizing k with
  | nil => rfl
  | cons s rest ih =>
    simp only [appendIptRules, Step.bind_apply, AppendUnique_apply, ih, List.foldl_cons]

theorem appendIptRules_bind {β : Type} (p : Nat) (specs : List (List String))
    (f : Unit → Step β) (k : Kernel) :
    (appendIptRules p specs >>= f) k =
      f () (specs.foldl (fun x spec => x.withIpt
        { Proto := p, Table := "mangle", Chain := "PREROUTING", Spec := spec }) k) := by
  rw [Step.bind_apply, appendIptRules_apply]

/-! ## The links -/

@[simp]
theorem Link.withMTU_Index (i m : Int) (l : Link) : (Link.withMTU i m l).Index = l.Index := by
  unfold Link.withMTU; split <;> rfl

@[simp]
theorem Link.withMTU_Name (i m : Int) (l : Link) : (Link.withMTU i m l).Name = l.Name := by
  unfold Link.withMTU; split <;> rfl

@[simp]
theorem Link.setUp_Index (i : Int) (l : Link) : (Link.setUp i l).Index = l.Index := by
  unfold Link.setUp; split <;> rfl

@[simp]
theorem Link.setUp_Name (i : Int) (l : Link) : (Link.setUp i l).Name = l.Name := by
  unfold Link.setUp; split <;> rfl

@[simp]
theorem Link.toInterface_withMTU (i m : Int) (l : Link) :
    (Link.withMTU i m l).toInterface = l.toInterface := by
  unfold Link.withMTU; split <;> rfl

@[simp]
theorem Link.toInterface_setUp (i : Int) (l : Link) :
    (Link.setUp i l).toInterface = l.toInterface := by
  unfold Link.setUp; split <;> rfl

theorem Kernel.hasLink_congr {k1 k : Kernel} (h : k1.links = k.links) (i : Int) :
    k1.hasLink i = k.hasLink i := by
  unfold Kernel.hasLink; rw [h]

theorem Kernel.hasLink_map (k1 k : Kernel) (f : Link → Link) (hf : ∀ l, (f l).Index = l.Index)
    (h : k1.links = k.links.map f) (i : Int) : k1.hasLink i = k.hasLink i := by
  unfold Kernel.hasLink
  rw [h, List.any_map]
  congr 1
  funext l
  simp only [Function.comp_apply, hf]

@[simp]
theorem Kernel.hasLink_record (k : Kernel) (e : Event) (i : Int) :
    (k.record e).hasLink i = k.hasLink i :=
  rfl

@[simp]
theorem Kernel.hasLink_withMTU (k : Kernel) (j m i : Int) :
    (k.mapLinks (Link.withMTU j m)).hasLink i = k.hasLink i :=
  Kernel.hasLink_map _ k _ (Link.withMTU_Index j m) rfl i

@[simp]
theorem Kernel.hasLink_setUp (k : Kernel) (j i : Int) :
    (k.mapLinks (Link.setUp j)).hasLink i = k.hasLink i :=
  Kernel.hasLink_map _ k _ (Link.setUp_Index j) rfl i

@[simp]
theorem Kernel.hasLink_withRule (k : Kernel) (r : Rule) (i : Int) :
    (k.withRule r).hasLink i = k.hasLink i :=
  Kernel.hasLink_congr (Kernel.withRule_links k r) i

@[simp]
theorem Kernel.hasLink_withIpt (k : Kernel) (e : IptEntry) (i : Int) :
    (k.withIpt e).hasLink i = k.hasLink i :=
  Kernel.hasLink_congr (Kernel.withIpt_links k e) i

@[simp]
theorem Kernel.hasLink_withAddr (k : Kernel) (j : Int) (a : Addr) (i : Int) :
    (k.withAddr j a).hasLink i = k.hasLink i :=
  Kernel.hasLink_congr (Kernel.withAddr_links k j a) i

@[simp]
theorem Kernel.hasLink_withRoute (k : Kernel) (r : Route) (i : Int) :
    (k.withRoute r).hasLink i = k.hasLink i :=
  rfl

@[simp]
theorem Kernel.hasLink_withSysctl (k : Kernel) (key v : String) (i : Int) :
    (k.withSysctl key v).hasLink i = k.hasLink i :=
  rfl

@[simp]
theorem Kernel.hasLink_foldl_withIpt (p : Nat) (specs : List (List String)) (k : Kernel)
    (i : Int) :
    (specs.foldl (fun x spec => x.withIpt
        { Proto := p, Table := "mangle", Chain := "PREROUTING", Spec := spec }) k).hasLink i
      = k.hasLink i :=
  Kernel.hasLink_congr (foldl_withIpt_fields p specs k).1 i

/-- A link found by its index has that index, and the kernel has it. -/
theorem find_index {k : Kernel} {i : Int} {l : Link}
    (h : k.links.find? (fun l => l.Index == i) = some l) :
    l.Index = i ∧ k.hasLink l.Index = true := by
  have h1 := List.find?_some h
  have h2 := List.mem_of_find?_eq_some h
  have hi : l.Index = i := by simpa using h1
  refine ⟨hi, ?_⟩
  unfold Kernel.hasLink
  rw [List.any_eq_true]
  exact ⟨l, h2, by simp⟩

/-- A link found by its name is a link of the kernel. -/
theorem find_name {k : Kernel} {n : String} {l : Link}
    (h : k.links.find? (fun l => l.Name == n) = some l) : k.hasLink l.Index = true := by
  have h2 := List.mem_of_find?_eq_some h
  unfold Kernel.hasLink
  rw [List.any_eq_true]
  exact ⟨l, h2, by simp⟩

theorem LinkByIndex_bind {β : Type} {k : Kernel} {i : Int} {l : Link}
    (h : k.links.find? (fun l => l.Index == i) = some l) (f : Link → Step β) :
    (LinkByIndex i >>= f) k = f l k := by
  simp only [Step.bind_apply, LinkByIndex, h]

theorem LinkSetMTU_bind {β : Type} {k : Kernel} {l : Link} (h : k.hasLink l.Index = true)
    (mtu : Int) (f : Unit → Step β) :
    (LinkSetMTU l mtu >>= f) k =
      f () ((k.mapLinks (Link.withMTU l.Index mtu)).record (Event.LinkSetMTU l.Index mtu)) := by
  simp only [Step.bind_apply, LinkSetMTU, h, if_true]

theorem LinkSetUp_bind {β : Type} {k : Kernel} {l : Link} (h : k.hasLink l.Index = true)
    (f : Unit → Step β) :
    (LinkSetUp l >>= f) k =
      f () ((k.mapLinks (Link.setUp l.Index)).record (Event.LinkSetUp l.Index)) := by
  simp only [Step.bind_apply, LinkSetUp, h, if_true]

theorem AddrAdd_swallow_bind {β : Type} {k : Kernel} {l : Link} (h : k.hasLink l.Index = true)
    (a : Addr) (wrap : Error → Error) (f : Unit → Step β) :
    (AddrAdd l a >>= fun e => swallowExist e wrap >>= f) k = f () (k.withAddr l.Index a) := by
  by_cases hx : k.addrs.any (fun x => x.1 == l.Index && x.2.IPNet == a.IPNet) = true
  · simp only [Step.bind_apply, AddrAdd, h, hx, if_true, swallowExist, IsExist_EEXIST,
      Kernel.withAddr, Bool.not_true, Bool.false_eq_true, if_false]
    rfl
  · simp only [Step.bind_apply, AddrAdd, h, hx, if_false, swallowExist, Kernel.withAddr,
      Bool.not_true, Bool.false_eq_true]
    rfl

theorem RouteReplace_swallow {k : Kernel} {r : Route} (h : k.hasLink r.LinkIndex = true)
    (wrap : Error → Error) :
    (RouteReplace r >>= fun e => swallowExist e wrap) k = (some (.ok ()), k.withRoute r) := by
  simp only [Step.bind_apply, RouteReplace, h, swallowExist, Bool.not_true, Bool.false_eq_true,
    if_false]
  rfl

theorem RouteReplace_swallow_bind {β : Type} {k : Kernel} {r : Route}
    (h : k.hasLink r.LinkIndex = true) (wrap : Error → Error) (f : Unit → Step β) :
    (RouteReplace r >>= fun e => swallowExist e wrap >>= f) k = f () (k.withRoute r) := by
  simp only [Step.bind_apply, RouteReplace, h, swallowExist, Bool.not_true, Bool.false_eq_true,
    if_false]
  rfl

theorem replaceRoutes_two {β : Type} (fmt : Fmt) {k : Kernel} {r1 r2 : Route}
    (h1 : k.hasLink r1.LinkIndex = true) (h2 : k.hasLink r2.LinkIndex = true)
    (f : Unit → Step β) :
    (replaceRoutes fmt [r1, r2] >>= f) k = f () ((k.withRoute r1).withRoute r2) := by
  have e : replaceRoutes fmt [r1, r2] k = (some (.ok ()), (k.withRoute r1).withRoute r2) := by
    have h2x : (k.withRoute r1).hasLink r2.LinkIndex = true := by simpa using h2
    simp only [replaceRoutes]
    rw [RouteReplace_swallow_bind h1, RouteReplace_swallow_bind h2x]
    rfl
  rw [Step.bind_apply, e]

end IMDSPtp

namespace IMDSPtp

open IMDSIpam

@[simp]
theorem foldl_withIpt_links (p : Nat) (specs : List (List String)) (k : Kernel) :
    (specs.foldl (fun x spec => x.withIpt
        { Proto := p, Table := "mangle", Chain := "PREROUTING", Spec := spec }) k).links
      = k.links :=
  (foldl_withIpt_fields p specs k).1

@[simp]
theorem foldl_withIpt_addrs (p : Nat) (specs : List (List String)) (k : Kernel) :
    (specs.foldl (fun x spec => x.withIpt
        { Proto := p, Table := "mangle", Chain := "PREROUTING", Spec := spec }) k).addrs
      = k.addrs :=
  (foldl_withIpt_fields p specs k).2.1

@[simp]
theorem foldl_withIpt_routes (p : Nat) (specs : List (List String)) (k : Kernel) :
    (specs.foldl (fun x spec => x.withIpt
        { Proto := p, Table := "mangle", Chain := "PREROUTING", Spec := spec }) k).routes
      = k.routes :=
  (foldl_withIpt_fields p specs k).2.2.1

@[simp]
theorem foldl_withIpt_rules (p : Nat) (specs : List (List String)) (k : Kernel) :
    (specs.foldl (fun x spec => x.withIpt
        { Proto := p, Table := "mangle", Chain := "PREROUTING", Spec := spec }) k).rules
      = k.rules :=
  (foldl_withIpt_fields p specs k).2.2.2.1

@[simp]
theorem foldl_withIpt_sysctl (p : Nat) (specs : List (List String)) (k : Kernel) :
    (specs.foldl (fun x spec => x.withIpt
        { Proto := p, Table := "mangle", Chain := "PREROUTING", Spec := spec }) k).sysctl
      = k.sysctl :=
  (foldl_withIpt_fields p specs k).2.2.2.2

theorem LinkByIndex_bind_eq {β : Type} (i : Int) (f : Link → Step β) (k : Kernel) :
    (LinkByIndex i >>= f) k =
      match k.links.find? (fun l => l.Index == i) with
      | some l => f l k
      | none => (some (.err LinkNotFound), k) := by
  rw [Step.bind_apply]
  unfold LinkByIndex
  cases k.links.find? (fun l => l.Index == i) <;> rfl

theorem LinkByName_mapErr_bind_eq {β : Type} (n : String) (wrap : Error → Error)
    (f : Link → Step β) (k : Kernel) :
    (Step.mapErr (LinkByName n) wrap >>= f) k =
      match k.links.find? (fun l => l.Name == n) with
      | some l => f l k
      | none => (some (.err (wrap LinkNotFound)), k) := by
  rw [Step.bind_apply]
  unfold Step.mapErr LinkByName
  cases k.links.find? (fun l => l.Name == n) <;> rfl

theorem LinkSetMTU_bind_eq {β : Type} (l : Link) (mtu : Int) (f : Unit → Step β) (k : Kernel) :
    (LinkSetMTU l mtu >>= f) k =
      if k.hasLink l.Index = true then
        f () ((k.mapLinks (Link.withMTU l.Index mtu)).record (Event.LinkSetMTU l.Index mtu))
      else (some (.err ENODEV), k) := by
  rw [Step.bind_apply]
  unfold LinkSetMTU
  by_cases h : k.hasLink l.Index = true
  · rw [if_pos h, if_pos h]
  · rw [if_neg h, if_neg h]

theorem LinkSetUp_bind_eq {β : Type} (l : Link) (f : Unit → Step β) (k : Kernel) :
    (LinkSetUp l >>= f) k =
      if k.hasLink l.Index = true then
        f () ((k.mapLinks (Link.setUp l.Index)).record (Event.LinkSetUp l.Index))
      else (some (.err ENODEV), k) := by
  rw [Step.bind_apply]
  unfold LinkSetUp
  by_cases h : k.hasLink l.Index = true
  · rw [if_pos h, if_pos h]
  · rw [if_neg h, if_neg h]

theorem AddrAdd_swallow_bind_eq {β : Type} (l : Link) (a : Addr) (wrap : Error → Error)
    (f : Unit → Step β) (k : Kernel) :
    (AddrAdd l a >>= fun e => swallowExist e wrap >>= f) k =
      if k.hasLink l.Index = true then f () (k.withAddr l.Index a)
      else (some (.err (wrap ENODEV)), k) := by
  by_cases h : k.hasLink l.Index = true
  · rw [AddrAdd_swallow_bind h, if_pos h]
  · rw [if_neg h]
    simp only [Bool.not_eq_true] at h
    simp only [Step.bind_apply, AddrAdd, h, swallowExist, IsExist_ENODEV, Bool.not_false,
      if_true]
    rfl

theorem RouteReplace_swallow_bind_eq {β : Type} (r : Route) (wrap : Error → Error)
    (f : Unit → Step β) (k : Kernel) :
    (RouteReplace r >>= fun e => swallowExist e wrap >>= f) k =
      if k.hasLink r.LinkIndex = true then f () (k.withRoute r)
      else (some (.err (wrap ENODEV)), k) := by
  by_cases h : k.hasLink r.LinkIndex = true
  · rw [RouteReplace_swallow_bind h, if_pos h]
  · rw [if_neg h]
    simp only [Bool.not_eq_true] at h
    simp only [Step.bind_apply, RouteReplace, h, swallowExist, IsExist_ENODEV, Bool.not_false,
      if_true]
    rfl

theorem replaceRoutes_nil_bind {β : Type} (fmt : Fmt) (f : Unit → Step β) (k : Kernel) :
    (replaceRoutes fmt [] >>= f) k = f () k :=
  rfl

theorem replaceRoutes_cons_bind {β : Type} (fmt : Fmt) (r : Route) (rest : List Route)
    (f : Unit → Step β) (k : Kernel) :
    (replaceRoutes fmt (r :: rest) >>= f) k =
      if k.hasLink r.LinkIndex = true then (replaceRoutes fmt rest >>= f) (k.withRoute r)
      else (some (.err (Error.Errorf
        ("failed to add route (" ++ fmt.route r ++ "): " ++ ENODEV.message))), k) := by
  by_cases h : k.hasLink r.LinkIndex = true
  · rw [if_pos h]
    simp only [replaceRoutes]
    rw [Step.bind_apply, RouteReplace_swallow_bind h]
    rfl
  · rw [if_neg h]
    simp only [replaceRoutes]
    rw [Step.bind_apply, RouteReplace_swallow_bind_eq, if_neg h]

theorem gatewayFor_four_bind {β : Type} (subnet : IPNet) (eniIface : NetInterface)
    (eniLink : Link) (answers : Nat → Except Error (List Route)) (fuel : Nat)
    (g : IP → Step β) (k : Kernel) :
    (gatewayFor 4 subnet eniIface eniLink answers fuel >>= g) k =
      match gatewayIPv4 subnet with
      | .ok gw => g gw k
      | .err e => (some (.err e), k)
      | .panic msg => (some (.panic msg), k) := by
  rw [Step.bind_apply]
  unfold gatewayFor
  rw [if_pos rfl]
  cases gatewayIPv4 subnet <;> rfl

theorem gatewayFor_six_bind {β : Type} (subnet : IPNet) (eniIface : NetInterface)
    (eniLink : Link) (answers : Nat → Except Error (List Route)) (fuel : Nat)
    (g : IP → Step β) (k : Kernel) :
    (gatewayFor 6 subnet eniIface eniLink answers fuel >>= g) k =
      match pollGateway eniLink.Name answers fuel 0 with
      | none => (none, k.withSysctl ("net/ipv6/conf/" ++ eniIface.Name ++ "/accept_ra") "2")
      | some (.error e) =>
        (some (.err e), k.withSysctl ("net/ipv6/conf/" ++ eniIface.Name ++ "/accept_ra") "2")
      | some (.ok gw) =>
        g gw (k.withSysctl ("net/ipv6/conf/" ++ eniIface.Name ++ "/accept_ra") "2") := by
  rw [Step.bind_apply]
  unfold gatewayFor
  rw [if_neg (by decide), if_pos rfl, Step.bind_apply]
  rcases pollGateway eniLink.Name answers fuel 0 with _ | (e | gw) <;> rfl

/-- The end of `setupHostEniIface`: the two routes of the table, then the pin
rule. -/
theorem routes_then_rule (fmt : Fmt) (tableIdx : Int) (eniIface : NetInterface)
    (subnet dflt : IPNet) (gw : IP) (r : Rule) (wrap : Error → Error) (k : Kernel)
    (h : k.hasLink eniIface.Index = true) :
    (replaceRoutes fmt (eniRoutes tableIdx eniIface subnet dflt gw) >>= fun _ =>
      RuleAdd r >>= fun e => swallowExist e wrap) k =
    (some (.ok ()),
      ((k.withRoute { Table := tableIdx, LinkIndex := eniIface.Index, Dst := some subnet,
                      Scope := Scope.LINK }).withRoute
        { Table := tableIdx, LinkIndex := eniIface.Index, Dst := some dflt, Gw := gw,
          Scope := Scope.UNIVERSE }).withRule r) := by
  unfold eniRoutes
  have h2 : ∀ r : Route, (k.withRoute r).hasLink eniIface.Index = true := fun _ => h
  rw [replaceRoutes_cons_bind, if_pos h, replaceRoutes_cons_bind, if_pos (h2 _),
    replaceRoutes_nil_bind, RuleAdd_swallow]

/-- The run of `setupHostEniIface` that returns no error, from what it looks
up. -/
theorem setupHostEniIface_run (fmt : Fmt) (imds : EniIMDS) (mtu : Int)
    (vethName eniMAC : String) (ipVersion : Int) (answers : Nat → Except Error (List Route))
    (fuel : Nat) (k : Kernel) (primaryMAC : String) (primaryIface eniIface : NetInterface)
    (subnet : IPNet) (d : Int) (eniLink : Link) (p : IP) (rest : List IP) (gw : IP)
    (hv : ipVersion = 4 ∨ ipVersion = 6)
    (hmac : imds.GetMAC = .ok primaryMAC)
    (hprim : interfaceByMAC (k.links.map Link.toInterface) primaryMAC = some primaryIface)
    (heni : interfaceByMAC (k.links.map Link.toInterface) eniMAC = some eniIface)
    (hsub : (if ipVersion = 6 then imds.GetSubnetIPv6CIDRBlocks eniMAC
              else imds.GetSubnetIPv4CIDRBlock eniMAC) = .ok subnet)
    (hdev : imds.GetDeviceNumber eniMAC = .ok d)
    (hlink : k.links.find? (fun l => l.Index == eniIface.Index) = some eniLink)
    (hips : (if ipVersion = 6 then imds.GetIPv6s eniMAC else imds.GetLocalIPv4s eniMAC)
              = .ok (p :: rest))
    (hgw4 : ipVersion = 4 → gatewayIPv4 subnet = .ok gw)
    (hgw6 : ipVersion = 6 → pollGateway eniLink.Name answers fuel 0 = some (.ok gw)) :
    setupHostEniIface fmt imds mtu vethName eniMAC ipVersion answers fuel k =
      (some (.ok ()), ifaceDone k mtu vethName ipVersion primaryIface eniIface eniLink subnet
        (routeTableENIStart + d) p gw) := by
  obtain ⟨hidx, hhas⟩ := find_index hlink
  have hhas2 : k.hasLink eniIface.Index = true := hidx ▸ hhas
  rcases hv with rfl | rfl
  · have hg := hgw4 rfl
    simp only [show ¬ ((4 : Int) = 6) by decide, if_false] at hsub hips
    simp only [setupHostEniIface, Interfaces_bind, hmac, ofExcept_ok_bind, hprim,
      RuleAdd_swallow_bind, appendIptRules_bind, heni, hsub, hdev, hips, LinkByIndex_bind_eq,
      LinkSetMTU_bind_eq, LinkSetUp_bind_eq, AddrAdd_swallow_bind_eq, procSysSet_bind,
      Kernel.withRule_links, foldl_withIpt_links, hlink, Kernel.hasLink_withRule,
      Kernel.hasLink_foldl_withIpt, hhas, if_true, Kernel.hasLink_record, Kernel.hasLink_withMTU,
      Kernel.hasLink_setUp, show ¬ ((4 : Int) = 6) by decide, if_false]
    rw [gatewayFor_four_bind, hg]
    simp only []
    rw [routes_then_rule]
    · rfl
    · simpa using hhas2
  · have hg := hgw6 rfl
    simp only [if_true] at hsub hips
    simp only [setupHostEniIface, Interfaces_bind, hmac, ofExcept_ok_bind, hprim,
      RuleAdd_swallow_bind, appendIptRules_bind, heni, hsub, hdev, hips, LinkByIndex_bind_eq,
      LinkSetMTU_bind_eq, LinkSetUp_bind_eq, AddrAdd_swallow_bind_eq, procSysSet_bind,
      Kernel.withRule_links, foldl_withIpt_links, hlink, Kernel.hasLink_withRule,
      Kernel.hasLink_foldl_withIpt, hhas, if_true, Kernel.hasLink_record, Kernel.hasLink_withMTU,
      Kernel.hasLink_setUp, show ¬ ((6 : Int) = 4) by decide, if_false, pure_bind_apply]
    rw [gatewayFor_six_bind, hg]
    simp only []
    rw [routes_then_rule]
    · rfl
    · simpa using hhas2

set_option maxHeartbeats 4000000 in
/-- What a run of `setupHostEniIface` that returns no error has looked up. -/
theorem setupHostEniIface_ok (fmt : Fmt) (imds : EniIMDS) (mtu : Int)
    (vethName eniMAC : String) (ipVersion : Int) (answers : Nat → Except Error (List Route))
    (fuel : Nat) (k : Kernel) (hv : ipVersion = 4 ∨ ipVersion = 6)
    (h : (setupHostEniIface fmt imds mtu vethName eniMAC ipVersion answers fuel k).1
      = some (.ok ())) :
    ∃ (primaryMAC : String) (primaryIface eniIface : NetInterface) (subnet : IPNet) (d : Int)
      (eniLink : Link) (p : IP) (rest : List IP) (gw : IP),
      imds.GetMAC = .ok primaryMAC ∧
      interfaceByMAC (k.links.map Link.toInterface) primaryMAC = some primaryIface ∧
      interfaceByMAC (k.links.map Link.toInterface) eniMAC = some eniIface ∧
      (if ipVersion = 6 then imds.GetSubnetIPv6CIDRBlocks eniMAC
        else imds.GetSubnetIPv4CIDRBlock eniMAC) = .ok subnet ∧
      imds.GetDeviceNumber eniMAC = .ok d ∧
      k.links.find? (fun l => l.Index == eniIface.Index) = some eniLink ∧
      (if ipVersion = 6 then imds.GetIPv6s eniMAC else imds.GetLocalIPv4s eniMAC)
        = .ok (p :: rest) ∧
      (ipVersion = 4 → gatewayIPv4 subnet = .ok gw) ∧
      (ipVersion = 6 → pollGateway eniLink.Name answers fuel 0 = some (.ok gw)) := by
  rcases hv with rfl | rfl
  · cases hmac : imds.GetMAC with
    | error e =>
      simp only [setupHostEniIface, Interfaces_bind, ofExcept_ok_bind, ofExcept_error_bind,
      RuleAdd_swallow_bind, appendIptRules_bind, LinkByIndex_bind_eq,
      LinkSetMTU_bind_eq, LinkSetUp_bind_eq, AddrAdd_swallow_bind_eq, procSysSet_bind,
      Kernel.withRule_links, foldl_withIpt_links, Kernel.hasLink_withRule,
      Kernel.hasLink_foldl_withIpt, if_true, Kernel.hasLink_record, Kernel.hasLink_withMTU,
      Kernel.hasLink_setUp, if_false, pure_bind_apply, Step.fail, Step.panic, show ¬ ((4 : Int) = 6) by decide, hmac] at h
      cases h
    | ok primaryMAC =>
    cases hprim : interfaceByMAC (k.links.map Link.toInterface) primaryMAC with
    | none =>
      simp only [setupHostEniIface, Interfaces_bind, ofExcept_ok_bind, ofExcept_error_bind,
      RuleAdd_swallow_bind, appendIptRules_bind, LinkByIndex_bind_eq,
      LinkSetMTU_bind_eq, LinkSetUp_bind_eq, AddrAdd_swallow_bind_eq, procSysSet_bind,
      Kernel.withRule_links, foldl_withIpt_links, Kernel.hasLink_withRule,
      Kernel.hasLink_foldl_withIpt, if_true, Kernel.hasLink_record, Kernel.hasLink_withMTU,
      Kernel.hasLink_setUp, if_false, pure_bind_apply, Step.fail, Step.panic, show ¬ ((4 : Int) = 6) by decide, hmac, hprim] at h
      cases h
    | some primaryIface =>
    cases heni : interfaceByMAC (k.links.map Link.toInterface) eniMAC with
    | none =>
      simp only [setupHostEniIface, Interfaces_bind, ofExcept_ok_bind, ofExcept_error_bind,
      RuleAdd_swallow_bind, appendIptRules_bind, LinkByIndex_bind_eq,
      LinkSetMTU_bind_eq, LinkSetUp_bind_eq, AddrAdd_swallow_bind_eq, procSysSet_bind,
      Kernel.withRule_links, foldl_withIpt_links, Kernel.hasLink_withRule,
      Kernel.hasLink_foldl_withIpt, if_true, Kernel.hasLink_record, Kernel.hasLink_withMTU,
      Kernel.hasLink_setUp, if_false, pure_bind_apply, Step.fail, Step.panic, show ¬ ((4 : Int) = 6) by decide, hmac, hprim, heni] at h
      cases h
    | some eniIface =>
    cases hsub : imds.GetSubnetIPv4CIDRBlock eniMAC with
    | error e =>
      simp only [setupHostEniIface, Interfaces_bind, ofExcept_ok_bind, ofExcept_error_bind,
      RuleAdd_swallow_bind, appendIptRules_bind, LinkByIndex_bind_eq,
      LinkSetMTU_bind_eq, LinkSetUp_bind_eq, AddrAdd_swallow_bind_eq, procSysSet_bind,
      Kernel.withRule_links, foldl_withIpt_links, Kernel.hasLink_withRule,
      Kernel.hasLink_foldl_withIpt, if_true, Kernel.hasLink_record, Kernel.hasLink_withMTU,
      Kernel.hasLink_setUp, if_false, pure_bind_apply, Step.fail, Step.panic, show ¬ ((4 : Int) = 6) by decide, hmac, hprim, heni, hsub] at h
      cases h
    | ok subnet =>
    cases hdev : imds.GetDeviceNumber eniMAC with
    | error e =>
      simp only [setupHostEniIface, Interfaces_bind, ofExcept_ok_bind, ofExcept_error_bind,
      RuleAdd_swallow_bind, appendIptRules_bind, LinkByIndex_bind_eq,
      LinkSetMTU_bind_eq, LinkSetUp_bind_eq, AddrAdd_swallow_bind_eq, procSysSet_bind,
      Kernel.withRule_links, foldl_withIpt_links, Kernel.hasLink_withRule,
      Kernel.hasLink_foldl_withIpt, if_true, Kernel.hasLink_record, Kernel.hasLink_withMTU,
      Kernel.hasLink_setUp, if_false, pure_bind_apply, Step.fail, Step.panic, show ¬ ((4 : Int) = 6) by decide, hmac, hprim, heni, hsub, hdev] at h
      cases h
    | ok d =>
    cases hlink : k.links.find? (fun l => l.Index == eniIface.Index) with
    | none =>
      simp only [setupHostEniIface, Interfaces_bind, ofExcept_ok_bind, ofExcept_error_bind,
      RuleAdd_swallow_bind, appendIptRules_bind, LinkByIndex_bind_eq,
      LinkSetMTU_bind_eq, LinkSetUp_bind_eq, AddrAdd_swallow_bind_eq, procSysSet_bind,
      Kernel.withRule_links, foldl_withIpt_links, Kernel.hasLink_withRule,
      Kernel.hasLink_foldl_withIpt, if_true, Kernel.hasLink_record, Kernel.hasLink_withMTU,
      Kernel.hasLink_setUp, if_false, pure_bind_apply, Step.fail, Step.panic, show ¬ ((4 : Int) = 6) by decide, hmac, hprim, heni, hsub, hdev, hlink] at h
      cases h
    | some eniLink =>
    obtain ⟨hidx, hhas⟩ := find_index hlink
    cases hips : imds.GetLocalIPv4s eniMAC with
    | error e =>
      simp only [setupHostEniIface, Interfaces_bind, ofExcept_ok_bind, ofExcept_error_bind,
      RuleAdd_swallow_bind, appendIptRules_bind, LinkByIndex_bind_eq,
      LinkSetMTU_bind_eq, LinkSetUp_bind_eq, AddrAdd_swallow_bind_eq, procSysSet_bind,
      Kernel.withRule_links, foldl_withIpt_links, Kernel.hasLink_withRule,
      Kernel.hasLink_foldl_withIpt, if_true, Kernel.hasLink_record, Kernel.hasLink_withMTU,
      Kernel.hasLink_setUp, if_false, pure_bind_apply, Step.fail, Step.panic, show ¬ ((4 : Int) = 6) by decide, hmac, hprim, heni, hsub, hdev, hlink, hhas, hips] at h
      cases h
    | ok ips =>
    cases ips with
    | nil =>
      simp only [setupHostEniIface, Interfaces_bind, ofExcept_ok_bind, ofExcept_error_bind,
      RuleAdd_swallow_bind, appendIptRules_bind, LinkByIndex_bind_eq,
      LinkSetMTU_bind_eq, LinkSetUp_bind_eq, AddrAdd_swallow_bind_eq, procSysSet_bind,
      Kernel.withRule_links, foldl_withIpt_links, Kernel.hasLink_withRule,
      Kernel.hasLink_foldl_withIpt, if_true, Kernel.hasLink_record, Kernel.hasLink_withMTU,
      Kernel.hasLink_setUp, if_false, pure_bind_apply, Step.fail, Step.panic, show ¬ ((4 : Int) = 6) by decide, hmac, hprim, heni, hsub, hdev, hlink, hhas, hips] at h
      cases h
    | cons p rest =>
    cases hg : gatewayIPv4 subnet with
    | err e =>
      simp only [setupHostEniIface, Interfaces_bind, ofExcept_ok_bind, ofExcept_error_bind,
      RuleAdd_swallow_bind, appendIptRules_bind, LinkByIndex_bind_eq,
      LinkSetMTU_bind_eq, LinkSetUp_bind_eq, AddrAdd_swallow_bind_eq, procSysSet_bind,
      Kernel.withRule_links, foldl_withIpt_links, Kernel.hasLink_withRule,
      Kernel.hasLink_foldl_withIpt, if_true, Kernel.hasLink_record, Kernel.hasLink_withMTU,
      Kernel.hasLink_setUp, if_false, pure_bind_apply, Step.fail, Step.panic, show ¬ ((4 : Int) = 6) by decide, hmac, hprim, heni, hsub, hdev, hlink, hhas, hips] at h
      rw [gatewayFor_four_bind, hg] at h
      cases h
    | panic msg =>
      simp only [setupHostEniIface, Interfaces_bind, ofExcept_ok_bind, ofExcept_error_bind,
      RuleAdd_swallow_bind, appendIptRules_bind, LinkByIndex_bind_eq,
      LinkSetMTU_bind_eq, LinkSetUp_bind_eq, AddrAdd_swallow_bind_eq, procSysSet_bind,
      Kernel.withRule_links, foldl_withIpt_links, Kernel.hasLink_withRule,
      Kernel.hasLink_foldl_withIpt, if_true, Kernel.hasLink_record, Kernel.hasLink_withMTU,
      Kernel.hasLink_setUp, if_false, pure_bind_apply, Step.fail, Step.panic, show ¬ ((4 : Int) = 6) by decide, hmac, hprim, heni, hsub, hdev, hlink, hhas, hips] at h
      rw [gatewayFor_four_bind, hg] at h
      cases h
    | ok gw =>
      exact ⟨primaryMAC, primaryIface, eniIface, subnet, d, eniLink, p, rest, gw, rfl, hprim,
        rfl, by simp, rfl, hlink, by simp, fun _ => hg, fun h6 => absurd h6 (by decide)⟩
  · cases hmac : imds.GetMAC with
    | error e =>
      simp only [setupHostEniIface, Interfaces_bind, ofExcept_ok_bind, ofExcept_error_bind,
      RuleAdd_swallow_bind, appendIptRules_bind, LinkByIndex_bind_eq,
      LinkSetMTU_bind_eq, LinkSetUp_bind_eq, AddrAdd_swallow_bind_eq, procSysSet_bind,
      Kernel.withRule_links, foldl_withIpt_links, Kernel.hasLink_withRule,
      Kernel.hasLink_foldl_withIpt, if_true, Kernel.hasLink_record, Kernel.hasLink_withMTU,
      Kernel.hasLink_setUp, if_false, pure_bind_apply, Step.fail, Step.panic, show ¬ ((6 : Int) = 4) by decide, hmac] at h
      cases h
    | ok primaryMAC =>
    cases hprim : interfaceByMAC (k.links.map Link.toInterface) primaryMAC with
    | none =>
      simp only [setupHostEniIface, Interfaces_bind, ofExcept_ok_bind, ofExcept_error_bind,
      RuleAdd_swallow_bind, appendIptRules_bind, LinkByIndex_bind_eq,
      LinkSetMTU_bind_eq, LinkSetUp_bind_eq, AddrAdd_swallow_bind_eq, procSysSet_bind,
      Kernel.withRule_links, foldl_withIpt_links, Kernel.hasLink_withRule,
      Kernel.hasLink_foldl_withIpt, if_true, Kernel.hasLink_record, Kernel.hasLink_withMTU,
      Kernel.hasLink_setUp, if_false, pure_bind_apply, Step.fail, Step.panic, show ¬ ((6 : Int) = 4) by decide, hmac, hprim] at h
      cases h
    | some primaryIface =>
    cases heni : interfaceByMAC (k.links.map Link.toInterface) eniMAC with
    | none =>
      simp only [setupHostEniIface, Interfaces_bind, ofExcept_ok_bind, ofExcept_error_bind,
      RuleAdd_swallow_bind, appendIptRules_bind, LinkByIndex_bind_eq,
      LinkSetMTU_bind_eq, LinkSetUp_bind_eq, AddrAdd_swallow_bind_eq, procSysSet_bind,
      Kernel.withRule_links, foldl_withIpt_links, Kernel.hasLink_withRule,
      Kernel.hasLink_foldl_withIpt, if_true, Kernel.hasLink_record, Kernel.hasLink_withMTU,
      Kernel.hasLink_setUp, if_false, pure_bind_apply, Step.fail, Step.panic, show ¬ ((6 : Int) = 4) by decide, hmac, hprim, heni] at h
      cases h
    | some eniIface =>
    cases hsub : imds.GetSubnetIPv6CIDRBlocks eniMAC with
    | error e =>
      simp only [setupHostEniIface, Interfaces_bind, ofExcept_ok_bind, ofExcept_error_bind,
      RuleAdd_swallow_bind, appendIptRules_bind, LinkByIndex_bind_eq,
      LinkSetMTU_bind_eq, LinkSetUp_bind_eq, AddrAdd_swallow_bind_eq, procSysSet_bind,
      Kernel.withRule_links, foldl_withIpt_links, Kernel.hasLink_withRule,
      Kernel.hasLink_foldl_withIpt, if_true, Kernel.hasLink_record, Kernel.hasLink_withMTU,
      Kernel.hasLink_setUp, if_false, pure_bind_apply, Step.fail, Step.panic, show ¬ ((6 : Int) = 4) by decide, hmac, hprim, heni, hsub] at h
      cases h
    | ok subnet =>
    cases hdev : imds.GetDeviceNumber eniMAC with
    | error e =>
      simp only [setupHostEniIface, Interfaces_bind, ofExcept_ok_bind, ofExcept_error_bind,
      RuleAdd_swallow_bind, appendIptRules_bind, LinkByIndex_bind_eq,
      LinkSetMTU_bind_eq, LinkSetUp_bind_eq, AddrAdd_swallow_bind_eq, procSysSet_bind,
      Kernel.withRule_links, foldl_withIpt_links, Kernel.hasLink_withRule,
      Kernel.hasLink_foldl_withIpt, if_true, Kernel.hasLink_record, Kernel.hasLink_withMTU,
      Kernel.hasLink_setUp, if_false, pure_bind_apply, Step.fail, Step.panic, show ¬ ((6 : Int) = 4) by decide, hmac, hprim, heni, hsub, hdev] at h
      cases h
    | ok d =>
    cases hlink : k.links.find? (fun l => l.Index == eniIface.Index) with
    | none =>
      simp only [setupHostEniIface, Interfaces_bind, ofExcept_ok_bind, ofExcept_error_bind,
      RuleAdd_swallow_bind, appendIptRules_bind, LinkByIndex_bind_eq,
      LinkSetMTU_bind_eq, LinkSetUp_bind_eq, AddrAdd_swallow_bind_eq, procSysSet_bind,
      Kernel.withRule_links, foldl_withIpt_links, Kernel.hasLink_withRule,
      Kernel.hasLink_foldl_withIpt, if_true, Kernel.hasLink_record, Kernel.hasLink_withMTU,
      Kernel.hasLink_setUp, if_false, pure_bind_apply, Step.fail, Step.panic, show ¬ ((6 : Int) = 4) by decide, hmac, hprim, heni, hsub, hdev, hlink] at h
      cases h
    | some eniLink =>
    obtain ⟨hidx, hhas⟩ := find_index hlink
    cases hips : imds.GetIPv6s eniMAC with
    | error e =>
      simp only [setupHostEniIface, Interfaces_bind, ofExcept_ok_bind, ofExcept_error_bind,
      RuleAdd_swallow_bind, appendIptRules_bind, LinkByIndex_bind_eq,
      LinkSetMTU_bind_eq, LinkSetUp_bind_eq, AddrAdd_swallow_bind_eq, procSysSet_bind,
      Kernel.withRule_links, foldl_withIpt_links, Kernel.hasLink_withRule,
      Kernel.hasLink_foldl_withIpt, if_true, Kernel.hasLink_record, Kernel.hasLink_withMTU,
      Kernel.hasLink_setUp, if_false, pure_bind_apply, Step.fail, Step.panic, show ¬ ((6 : Int) = 4) by decide, hmac, hprim, heni, hsub, hdev, hlink, hhas, hips] at h
      cases h
    | ok ips =>
    cases ips with
    | nil =>
      simp only [setupHostEniIface, Interfaces_bind, ofExcept_ok_bind, ofExcept_error_bind,
      RuleAdd_swallow_bind, appendIptRules_bind, LinkByIndex_bind_eq,
      LinkSetMTU_bind_eq, LinkSetUp_bind_eq, AddrAdd_swallow_bind_eq, procSysSet_bind,
      Kernel.withRule_links, foldl_withIpt_links, Kernel.hasLink_withRule,
      Kernel.hasLink_foldl_withIpt, if_true, Kernel.hasLink_record, Kernel.hasLink_withMTU,
      Kernel.hasLink_setUp, if_false, pure_bind_apply, Step.fail, Step.panic, show ¬ ((6 : Int) = 4) by decide, hmac, hprim, heni, hsub, hdev, hlink, hhas, hips] at h
      cases h
    | cons p rest =>
    rcases hg : pollGateway eniLink.Name answers fuel 0 with _ | (e | gw)
    · simp only [setupHostEniIface, Interfaces_bind, ofExcept_ok_bind, ofExcept_error_bind,
      RuleAdd_swallow_bind, appendIptRules_bind, LinkByIndex_bind_eq,
      LinkSetMTU_bind_eq, LinkSetUp_bind_eq, AddrAdd_swallow_bind_eq, procSysSet_bind,
      Kernel.withRule_links, foldl_withIpt_links, Kernel.hasLink_withRule,
      Kernel.hasLink_foldl_withIpt, if_true, Kernel.hasLink_record, Kernel.hasLink_withMTU,
      Kernel.hasLink_setUp, if_false, pure_bind_apply, Step.fail, Step.panic, show ¬ ((6 : Int) = 4) by decide, hmac, hprim, heni, hsub, hdev, hlink, hhas, hips] at h
      rw [gatewayFor_six_bind, hg] at h
      cases h
    · simp only [setupHostEniIface, Interfaces_bind, ofExcept_ok_bind, ofExcept_error_bind,
      RuleAdd_swallow_bind, appendIptRules_bind, LinkByIndex_bind_eq,
      LinkSetMTU_bind_eq, LinkSetUp_bind_eq, AddrAdd_swallow_bind_eq, procSysSet_bind,
      Kernel.withRule_links, foldl_withIpt_links, Kernel.hasLink_withRule,
      Kernel.hasLink_foldl_withIpt, if_true, Kernel.hasLink_record, Kernel.hasLink_withMTU,
      Kernel.hasLink_setUp, if_false, pure_bind_apply, Step.fail, Step.panic, show ¬ ((6 : Int) = 4) by decide, hmac, hprim, heni, hsub, hdev, hlink, hhas, hips] at h
      rw [gatewayFor_six_bind, hg] at h
      cases h
    · exact ⟨primaryMAC, primaryIface, eniIface, subnet, d, eniLink, p, rest, gw, rfl, hprim,
        rfl, by simp, rfl, hlink, by simp, fun h4 => absurd h4 (by decide), fun _ => hg⟩

end IMDSPtp

namespace IMDSPtp

open IMDSIpam

/-- The run of `setupHostEniPodRoute` that returns no error, from what it
looks up. -/
theorem setupHostEniPodRoute_run (fmt : Fmt) (imds : EniIMDS) (vethName eniMAC : String)
    (ipc : IPConfig) (k : Kernel) (veth : Link) (d : Int)
    (hveth : k.links.find? (fun l => l.Name == vethName) = some veth)
    (hdev : imds.GetDeviceNumber eniMAC = .ok d) :
    setupHostEniPodRoute fmt imds vethName eniMAC ipc k =
      (some (.ok ()), podDone k veth (routeTableENIStart + d) ipc.Address.IP) := by
  have hhas : k.hasLink (podRoute veth ipc.Address.IP).LinkIndex = true := find_name hveth
  simp only [setupHostEniPodRoute, LinkByName_mapErr_bind_eq, hveth,
    RouteReplace_swallow_bind_eq, hhas, if_true, hdev, ofExcept_ok_bind, RuleAdd_swallow]
  rfl

/-- What a run of `setupHostEniPodRoute` that returns no error has looked up. -/
theorem setupHostEniPodRoute_ok (fmt : Fmt) (imds : EniIMDS) (vethName eniMAC : String)
    (ipc : IPConfig) (k : Kernel)
    (h : (setupHostEniPodRoute fmt imds vethName eniMAC ipc k).1 = some (.ok ())) :
    ∃ (veth : Link) (d : Int),
      k.links.find? (fun l => l.Name == vethName) = some veth ∧
      imds.GetDeviceNumber eniMAC = .ok d := by
  cases hveth : k.links.find? (fun l => l.Name == vethName) with
  | none =>
    simp only [setupHostEniPodRoute, LinkByName_mapErr_bind_eq, hveth] at h
    cases h
  | some veth =>
    have hhas : k.hasLink (podRoute veth ipc.Address.IP).LinkIndex = true := find_name hveth
    cases hdev : imds.GetDeviceNumber eniMAC with
    | error e =>
      simp only [setupHostEniPodRoute, LinkByName_mapErr_bind_eq, hveth,
        RouteReplace_swallow_bind_eq, hhas, if_true, hdev, ofExcept_error_bind] at h
      cases h
    | ok d => exact ⟨veth, d, rfl, rfl⟩

/-! ## The fields of the kernel after the construction -/

theorem Kernel.withRule_rules_congr {k1 k2 : Kernel} (r : Rule) (h : k1.rules = k2.rules) :
    (k1.withRule r).rules = (k2.withRule r).rules := by
  rw [Kernel.withRule_rules, Kernel.withRule_rules, h]

theorem Kernel.withIpt_iptables_congr {k1 k2 : Kernel} (e : IptEntry)
    (h : k1.iptables = k2.iptables) : (k1.withIpt e).iptables = (k2.withIpt e).iptables := by
  rw [Kernel.withIpt_iptables, Kernel.withIpt_iptables, h]

theorem Kernel.withAddr_addrs_congr {k1 k2 : Kernel} (i : Int) (a : Addr)
    (h : k1.addrs = k2.addrs) : (k1.withAddr i a).addrs = (k2.withAddr i a).addrs := by
  rw [Kernel.withAddr_addrs, Kernel.withAddr_addrs, h]

theorem ifaceDone_links (k : Kernel) (mtu : Int) (vethName : String) (ipVersion : Int)
    (primaryIface eniIface : NetInterface) (eniLink : Link) (subnet : IPNet) (tableIdx : Int)
    (p gw : IP) :
    (ifaceDone k mtu vethName ipVersion primaryIface eniIface eniLink subnet tableIdx p gw).links
      = (k.links.map (Link.withMTU eniLink.Index mtu)).map (Link.setUp eniLink.Index) := by
  unfold ifaceDone
  simp only []
  split_ifs <;> simp only [Kernel.record_links, Kernel.mapLinks_links, Kernel.withRule_links, Kernel.withIpt_links, Kernel.withAddr_links, Kernel.withRoute_links, Kernel.withSysctl_links, foldl_withIpt_links]

theorem ifaceDone_addrs (k : Kernel) (mtu : Int) (vethName : String) (ipVersion : Int)
    (primaryIface eniIface : NetInterface) (eniLink : Link) (subnet : IPNet) (tableIdx : Int)
    (p gw : IP) :
    (ifaceDone k mtu vethName ipVersion primaryIface eniIface eniLink subnet tableIdx p gw).addrs
      = (k.withAddr eniLink.Index
          { IPNet := { IP := p, Mask := subnet.Mask }, Scope := Scope.UNIVERSE }).addrs := by
  unfold ifaceDone
  simp only []
  split_ifs <;>
    simp only [Kernel.withRule_addrs, Kernel.withRoute_addrs, Kernel.withSysctl_addrs] <;>
    apply Kernel.withAddr_addrs_congr <;>
    simp only [Kernel.record_addrs, Kernel.mapLinks_addrs, Kernel.withRule_addrs,
      foldl_withIpt_addrs]

theorem ifaceDone_rules (k : Kernel) (mtu : Int) (vethName : String) (ipVersion : Int)
    (primaryIface eniIface : NetInterface) (eniLink : Link) (subnet : IPNet) (tableIdx : Int)
    (p gw : IP) :
    (ifaceDone k mtu vethName ipVersion primaryIface eniIface eniLink subnet tableIdx p gw).rules
      = (((k.withRule { Priority := rulePriorityLocalPods, Family := familyOf ipVersion,
                        Table := routeTablePod }).withRule
            { Priority := rulePriorityMasq, Mark := masqMark, Mask := some masqMark,
              Family := familyOf ipVersion, Table := RT_TABLE_MAIN }).withRule
          (eniRule ipVersion tableIdx p)).rules := by
  unfold ifaceDone
  simp only []
  apply Kernel.withRule_rules_congr
  split_ifs <;>
    simp only [Kernel.withRoute_rules, Kernel.withSysctl_rules, Kernel.withAddr_rules,
      Kernel.record_rules, Kernel.mapLinks_rules] <;>
    apply Kernel.withRule_rules_congr <;>
    simp only [foldl_withIpt_rules]

theorem ifaceDone_iptables (k : Kernel) (mtu : Int) (vethName : String) (ipVersion : Int)
    (primaryIface eniIface : NetInterface) (eniLink : Link) (subnet : IPNet) (tableIdx : Int)
    (p gw : IP) :
    (ifaceDone k mtu vethName ipVersion primaryIface eniIface eniLink subnet tableIdx p
        gw).iptables
      = ((k.withIpt { Proto := iptProtoOf ipVersion, Table := "mangle", Chain := "PREROUTING",
                      Spec := ["-m", "comment", "--comment", "AWS, primary ENI",
                        "-i", primaryIface.Name,
                        "-m", "addrtype", "--dst-type", "LOCAL", "--limit-iface-in",
                        "-j", "CONNMARK", "--set-mark", "0x80/0x80"] }).withIpt
          { Proto := iptProtoOf ipVersion, Table := "mangle", Chain := "PREROUTING",
            Spec := ["-m", "comment", "--comment", "AWS, container return",
                      "-i", vethName, "-j", "CONNMARK", "--restore-mark", "--mask",
                      "0x80"] }).iptables := by
  unfold ifaceDone
  simp only [iptRules, List.foldl_cons, List.foldl_nil]
  split_ifs <;>
    simp only [Kernel.record_iptables, Kernel.mapLinks_iptables, Kernel.withRule_iptables,
      Kernel.withAddr_iptables, Kernel.withRoute_iptables, Kernel.withSysctl_iptables] <;>
    apply Kernel.withIpt_iptables_congr <;>
    apply Kernel.withIpt_iptables_congr <;>
    simp only [Kernel.withRule_iptables]

theorem ifaceDone_sysctl (k : Kernel) (mtu : Int) (vethName : String) (ipVersion : Int)
    (primaryIface eniIface : NetInterface) (eniLink : Link) (subnet : IPNet) (tableIdx : Int)
    (p gw : IP) :
    (ifaceDone k mtu vethName ipVersion primaryIface eniIface eniLink subnet tableIdx p gw).sysctl
      = fun x =>
          if x = (if ipVersion = 4 then "net/ipv4/conf/" ++ primaryIface.Name ++ "/rp_filter"
                  else "net/ipv6/conf/" ++ eniIface.Name ++ "/accept_ra") ∧
              (ipVersion = 4 ∨ ipVersion = 6)
          then some "2" else k.sysctl x := by
  unfold ifaceDone
  simp only []
  split_ifs <;> simp only [Kernel.record_sysctl, Kernel.mapLinks_sysctl, Kernel.withRule_sysctl, Kernel.withIpt_sysctl, Kernel.withAddr_sysctl, Kernel.withRoute_sysctl, Kernel.withSysctl_sysctl, foldl_withIpt_sysctl] <;> simp [*]

theorem ifaceDone_routes (k : Kernel) (mtu : Int) (vethName : String) (ipVersion : Int)
    (primaryIface eniIface : NetInterface) (eniLink : Link) (subnet : IPNet) (tableIdx : Int)
    (p gw : IP) :
    (ifaceDone k mtu vethName ipVersion primaryIface eniIface eniLink subnet tableIdx p gw).routes
      = fun x =>
          if x = Route.key { Table := tableIdx, LinkIndex := eniIface.Index,
                             Dst := some (defaultRouteOf ipVersion), Gw := gw,
                             Scope := Scope.UNIVERSE }
          then some { Table := tableIdx, LinkIndex := eniIface.Index,
                      Dst := some (defaultRouteOf ipVersion), Gw := gw, Scope := Scope.UNIVERSE }
          else if x = Route.key { Table := tableIdx, LinkIndex := eniIface.Index,
                                  Dst := some subnet, Scope := Scope.LINK }
          then some { Table := tableIdx, LinkIndex := eniIface.Index, Dst := some subnet,
                      Scope := Scope.LINK }
          else k.routes x := by
  unfold ifaceDone
  simp only []
  split_ifs <;> simp only [Kernel.record_routes, Kernel.mapLinks_routes, Kernel.withRule_routes, Kernel.withIpt_routes, Kernel.withAddr_routes, Kernel.withRoute_routes, Kernel.withSysctl_routes, foldl_withIpt_routes]

end IMDSPtp

namespace IMDSPtp

open IMDSIpam

/-! ## Calls that add no pin rule -/

theorem Quiet_nil : Quiet [] := by
  intro r h
  cases h

theorem Quiet_append {a b : List Event} (ha : Quiet a) (hb : Quiet b) : Quiet (a ++ b) := by
  intro r h
  rcases List.mem_append.mp h with h | h
  · exact ha r h
  · exact hb r h

theorem Quiet_single {e : Event} (h : ∀ r, e = Event.RuleAdd r →
    r.Priority = rulePriorityLocalPods ∨ r.Priority = rulePriorityMasq) : Quiet [e] := by
  intro r hr
  rw [List.mem_singleton] at hr
  exact h r hr.symm

theorem Kernel.QuietTo.refl (k : Kernel) : k.QuietTo k :=
  ⟨[], by simp, Quiet_nil⟩

theorem Kernel.QuietTo.of_log {k k1 : Kernel} (h : k1.log = k.log) : k.QuietTo k1 :=
  ⟨[], by simp [h], Quiet_nil⟩

theorem Kernel.QuietTo.trans {k k1 k2 : Kernel} (h1 : k.QuietTo k1) (h2 : k1.QuietTo k2) :
    k.QuietTo k2 := by
  obtain ⟨a, ha, qa⟩ := h1
  obtain ⟨b, hb, qb⟩ := h2
  exact ⟨a ++ b, by rw [hb, ha, List.append_assoc], Quiet_append qa qb⟩

theorem Kernel.QuietTo.step {k k1 : Kernel} {e : Event} (h : k1.log = k.log ++ [e])
    (he : ∀ r, e = Event.RuleAdd r →
      r.Priority = rulePriorityLocalPods ∨ r.Priority = rulePriorityMasq) : k.QuietTo k1 :=
  ⟨[e], h, Quiet_single he⟩

theorem Kernel.quietTo_withRule (k : Kernel) (r : Rule)
    (h : r.Priority = rulePriorityLocalPods ∨ r.Priority = rulePriorityMasq) :
    k.QuietTo (k.withRule r) := by
  by_cases hm : r ∈ k.rules
  · rw [Kernel.withRule_of_mem hm]
    exact Kernel.QuietTo.refl k
  · refine Kernel.QuietTo.step (e := Event.RuleAdd r) ?_ ?_
    · rw [Kernel.withRule_log, if_neg hm]
    · intro r2 h2
      cases h2
      exact h

theorem Kernel.quietTo_withIpt (k : Kernel) (e : IptEntry) : k.QuietTo (k.withIpt e) := by
  by_cases hm : e ∈ k.iptables
  · rw [Kernel.withIpt_of_mem hm]
    exact Kernel.QuietTo.refl k
  · refine Kernel.QuietTo.step (e := Event.IptAppend e) ?_ ?_
    · rw [Kernel.withIpt_log, if_neg hm]
    · intro r2 h2
      cases h2

theorem Kernel.quietTo_withAddr (k : Kernel) (i : Int) (a : Addr) :
    k.QuietTo (k.withAddr i a) := by
  by_cases hm : k.addrs.any (fun x => x.1 == i && x.2.IPNet == a.IPNet) = true
  · refine Kernel.QuietTo.of_log ?_
    rw [Kernel.withAddr_log, if_pos hm, List.append_nil]
  · refine Kernel.QuietTo.step (e := Event.AddrAdd i a) ?_ ?_
    · rw [Kernel.withAddr_log, if_neg hm]
    · intro r2 h2
      cases h2

theorem Kernel.quietTo_withRoute (k : Kernel) (r : Route) : k.QuietTo (k.withRoute r) :=
  Kernel.QuietTo.step (e := Event.RouteReplace r) rfl (fun _ h => by cases h)

theorem Kernel.quietTo_withSysctl (k : Kernel) (key v : String) :
    k.QuietTo (k.withSysctl key v) :=
  Kernel.QuietTo.step (e := Event.Sysctl key v) rfl (fun _ h => by cases h)

/-! ### The calls -/

theorem Step.Quiet.toUnlessOk {α : Type} {m : Step α} (h : m.Quiet) : m.QuietUnlessOk :=
  fun k => Or.inr (h k)

theorem Step.Quiet.of_state {α : Type} {m : Step α} (h : ∀ k, (m k).2 = k) : m.Quiet := by
  intro k
  rw [h k]
  exact Kernel.QuietTo.refl k

theorem Step.quiet_bind {α β : Type} {m : Step α} {f : α → Step β} (hm : m.Quiet)
    (hf : ∀ a, (f a).Quiet) : (m >>= f).Quiet := by
  intro k
  have h1 := hm k
  rw [Step.bind_apply]
  rcases hmk : m k with ⟨o, k1⟩
  rw [hmk] at h1
  rcases o with _ | a | e | msg
  · exact h1
  · exact h1.trans (hf a k1)
  · exact h1
  · exact h1

theorem Step.quietUnlessOk_bind {α β : Type} {m : Step α} {f : α → Step β} (hm : m.Quiet)
    (hf : ∀ a, (f a).QuietUnlessOk) : (m >>= f).QuietUnlessOk := by
  intro k
  have h1 := hm k
  rw [Step.bind_apply]
  rcases hmk : m k with ⟨o, k1⟩
  rw [hmk] at h1
  rcases o with _ | a | e | msg
  · exact Or.inr h1
  · rcases hf a k1 with h | h
    · exact Or.inl h
    · exact Or.inr (h1.trans h)
  · exact Or.inr h1
  · exact Or.inr h1

theorem Interfaces_quiet : Interfaces.Quiet :=
  Step.Quiet.of_state (fun _ => rfl)

theorem ofExcept_quiet {α : Type} (x : Except Error α) : (Step.ofExcept x).Quiet := by
  cases x <;> exact Step.Quiet.of_state (fun _ => rfl)

theorem fail_quiet {α : Type} (e : Error) : (Step.fail e : Step α).Quiet :=
  Step.Quiet.of_state (fun _ => rfl)

theorem panic_quiet {α : Type} (msg : String) : (Step.panic msg : Step α).Quiet :=
  Step.Quiet.of_state (fun _ => rfl)

theorem running_quiet {α : Type} : (Step.running : Step α).Quiet :=
  Step.Quiet.of_state (fun _ => rfl)

theorem ret_quiet {α : Type} (a : α) : (Step.ret a).Quiet :=
  Step.Quiet.of_state (fun _ => rfl)

theorem pure_quiet {α : Type} (a : α) : (pure a : Step α).Quiet :=
  Step.Quiet.of_state (fun _ => rfl)

theorem swallowExist_quiet (err : Option Error) (wrap : Error → Error) :
    (swallowExist err wrap).Quiet := by
  unfold swallowExist
  cases err with
  | none => exact ret_quiet ()
  | some e =>
    simp only []
    split
    · exact fail_quiet _
    · exact ret_quiet ()

theorem RuleAdd_quiet (r : Rule)
    (h : r.Priority = rulePriorityLocalPods ∨ r.Priority = rulePriorityMasq) :
    (RuleAdd r).Quiet := by
  intro k
  unfold RuleAdd
  by_cases hm : r ∈ k.rules
  · rw [if_pos hm]
    exact Kernel.QuietTo.refl k
  · rw [if_neg hm]
    have := Kernel.quietTo_withRule k r h
    rwa [Kernel.withRule, if_neg hm] at this

theorem AppendUnique_quiet (p : Nat) (spec : List String) :
    (AppendUnique p "mangle" "PREROUTING" spec).Quiet := by
  intro k
  rw [AppendUnique_apply]
  exact Kernel.quietTo_withIpt k _

theorem appendIptRules_quiet (p : Nat) (specs : List (List String)) :
    (appendIptRules p specs).Quiet := by
  induction specs with
  | nil => exact ret_quiet ()
  | cons s rest ih =>
    unfold appendIptRules
    exact Step.quiet_bind (AppendUnique_quiet p s) (fun _ => ih)

theorem LinkByIndex_quiet (i : Int) : (LinkByIndex i).Quiet := by
  refine Step.Quiet.of_state (fun k => ?_)
  unfold LinkByIndex
  cases k.links.find? (fun l => l.Index == i) <;> rfl

theorem LinkByName_quiet (n : String) (wrap : Error → Error) :
    (Step.mapErr (LinkByName n) wrap).Quiet := by
  refine Step.Quiet.of_state (fun k => ?_)
  unfold Step.mapErr LinkByName
  cases k.links.find? (fun l => l.Name == n) <;> rfl

theorem LinkSetMTU_quiet (l : Link) (mtu : Int) : (LinkSetMTU l mtu).Quiet := by
  intro k
  unfold LinkSetMTU
  split
  · exact Kernel.QuietTo.step (e := Event.LinkSetMTU l.Index mtu) rfl (fun _ h => by cases h)
  · exact Kernel.QuietTo.refl k

theorem LinkSetUp_quiet (l : Link) : (LinkSetUp l).Quiet := by
  intro k
  unfold LinkSetUp
  split
  · exact Kernel.QuietTo.step (e := Event.LinkSetUp l.Index) rfl (fun _ h => by cases h)
  · exact Kernel.QuietTo.refl k

theorem AddrAdd_quiet (l : Link) (a : Addr) : (AddrAdd l a).Quiet := by
  intro k
  unfold AddrAdd
  split
  · exact Kernel.QuietTo.refl k
  · split
    · exact Kernel.QuietTo.refl k
    · exact Kernel.QuietTo.step (e := Event.AddrAdd l.Index a) rfl (fun _ h => by cases h)

theorem RouteReplace_quiet (r : Route) : (RouteReplace r).Quiet := by
  intro k
  unfold RouteReplace
  split
  · exact Kernel.QuietTo.refl k
  · exact Kernel.quietTo_withRoute k r

theorem procSysSet_quiet (key v : String) : (procSysSet key v).Quiet :=
  fun k => Kernel.quietTo_withSysctl k key v

theorem replaceRoutes_quiet (fmt : Fmt) (rs : List Route) : (replaceRoutes fmt rs).Quiet := by
  induction rs with
  | nil => exact ret_quiet ()
  | cons r rest ih =>
    unfold replaceRoutes
    exact Step.quiet_bind (RouteReplace_quiet r)
      (fun e => Step.quiet_bind (swallowExist_quiet e _) (fun _ => ih))

theorem gatewayFor_quiet (ipVersion : Int) (subnet : IPNet) (eniIface : NetInterface)
    (eniLink : Link) (answers : Nat → Except Error (List Route)) (fuel : Nat) :
    (gatewayFor ipVersion subnet eniIface eniLink answers fuel).Quiet := by
  unfold gatewayFor
  split
  · split
    · exact ret_quiet _
    · exact fail_quiet _
    · exact panic_quiet _
  · split
    · refine Step.quiet_bind (procSysSet_quiet _ _) (fun _ => ?_)
      split
      · exact running_quiet
      · exact fail_quiet _
      · exact ret_quiet _
    · exact ret_quiet _

/-- The pin rule is the last call of the function: a run that ends with it
returns no error. -/
theorem pin_last (r : Rule) (wrap : Error → Error) :
    (RuleAdd r >>= fun e => swallowExist e wrap).QuietUnlessOk := by
  intro k
  left
  rw [RuleAdd_swallow]
  exact ⟨(), rfl⟩

theorem tail_quiet (fmt : Fmt) (ipVersion : Int) (subnet : IPNet) (eniIface : NetInterface)
    (eniLink : Link) (answers : Nat → Except Error (List Route)) (fuel : Nat) (tableIdx : Int)
    (dflt : IPNet) (r : Rule) (wrap : Error → Error) :
    (gatewayFor ipVersion subnet eniIface eniLink answers fuel >>= fun gw =>
      replaceRoutes fmt (eniRoutes tableIdx eniIface subnet dflt gw) >>= fun _ =>
      RuleAdd r >>= fun e => swallowExist e wrap).QuietUnlessOk := by
  refine Step.quietUnlessOk_bind (gatewayFor_quiet _ _ _ _ _ _) (fun gw => ?_)
  refine Step.quietUnlessOk_bind (replaceRoutes_quiet _ _) (fun _ => ?_)
  exact pin_last _ _

/-- A run of `setupHostEniIface` that returns an error, panics or does not
return has added no pin rule. -/
theorem setupHostEniIface_quiet (fmt : Fmt) (imds : EniIMDS) (mtu : Int)
    (vethName eniMAC : String) (ipVersion : Int) (answers : Nat → Except Error (List Route))
    (fuel : Nat) :
    (setupHostEniIface fmt imds mtu vethName eniMAC ipVersion answers fuel).QuietUnlessOk := by
  unfold setupHostEniIface
  refine Step.quietUnlessOk_bind Interfaces_quiet (fun ifaces => ?_)
  refine Step.quietUnlessOk_bind (ofExcept_quiet _) (fun primaryMAC => ?_)
  split
  · exact (fail_quiet _).toUnlessOk
  refine Step.quietUnlessOk_bind (RuleAdd_quiet _ (Or.inl rfl)) (fun e => ?_)
  refine Step.quietUnlessOk_bind (swallowExist_quiet _ _) (fun _ => ?_)
  refine Step.quietUnlessOk_bind (appendIptRules_quiet _ _) (fun _ => ?_)
  refine Step.quietUnlessOk_bind (RuleAdd_quiet _ (Or.inr rfl)) (fun e => ?_)
  refine Step.quietUnlessOk_bind (swallowExist_quiet _ _) (fun _ => ?_)
  split
  · exact (fail_quiet _).toUnlessOk
  refine Step.quietUnlessOk_bind (ofExcept_quiet _) (fun subnet => ?_)
  refine Step.quietUnlessOk_bind (ofExcept_quiet _) (fun d => ?_)
  refine Step.quietUnlessOk_bind (LinkByIndex_quiet _) (fun eniLink => ?_)
  refine Step.quietUnlessOk_bind (LinkSetMTU_quiet _ _) (fun _ => ?_)
  refine Step.quietUnlessOk_bind (LinkSetUp_quiet _) (fun _ => ?_)
  refine Step.quietUnlessOk_bind (ofExcept_quiet _) (fun ips => ?_)
  split
  · exact (panic_quiet _).toUnlessOk
  refine Step.quietUnlessOk_bind (AddrAdd_quiet _ _) (fun e => ?_)
  refine Step.quietUnlessOk_bind (swallowExist_quiet _ _) (fun _ => ?_)
  simp only []
  split
  · exact Step.quietUnlessOk_bind (procSysSet_quiet _ _) (fun _ => tail_quiet _ _ _ _ _ _ _ _ _ _ _)
  · exact Step.quietUnlessOk_bind (pure_quiet _) (fun _ => tail_quiet _ _ _ _ _ _ _ _ _ _ _)

/-- A run of `setupHostEniPodRoute` that returns an error has added no pin
rule. -/
theorem setupHostEniPodRoute_quiet (fmt : Fmt) (imds : EniIMDS) (vethName eniMAC : String)
    (ipc : IPConfig) :
    (setupHostEniPodRoute fmt imds vethName eniMAC ipc).QuietUnlessOk := by
  unfold setupHostEniPodRoute
  refine Step.quietUnlessOk_bind (LinkByName_quiet _ _) (fun veth => ?_)
  refine Step.quietUnlessOk_bind (RouteReplace_quiet _) (fun e => ?_)
  refine Step.quietUnlessOk_bind (swallowExist_quiet _ _) (fun _ => ?_)
  refine Step.quietUnlessOk_bind (ofExcept_quiet _) (fun d => ?_)
  exact pin_last _ _

end IMDSPtp

namespace IMDSPtp

open IMDSIpam

/-! ## Pin rules come after the routes of their table -/

theorem TableBuilt.of_subset {imds : EniIMDS} {a b : List Event} {T : Int}
    (h : TableBuilt imds a T) (hsub : ∀ e ∈ a, e ∈ b) : TableBuilt imds b T := by
  obtain ⟨mac, d, S, sr, dr, h1, h2, h3, h4, h5, h6, h7, h8, h9, h10⟩ := h
  exact ⟨mac, d, S, sr, dr, h1, h2, h3, hsub _ h4, h5, h6, h7, hsub _ h8, h9, h10⟩

theorem PinsAfterRoutes.of_quiet {imds : EniIMDS} {evs : List Event} (h : Quiet evs) :
    PinsAfterRoutes imds evs := by
  intro a r b he hp
  exfalso
  have hm : Event.RuleAdd r ∈ evs := by
    rw [he]
    exact List.mem_append_right _ (List.mem_cons_self _ _)
  rcases h r hm with h1 | h1 <;> rw [hp] at h1 <;> revert h1 <;> decide

theorem PinsAfterRoutes.extend {imds : EniIMDS} {x y : List Event}
    (hx : PinsAfterRoutes imds x)
    (hy : ∀ a r b, y = a ++ Event.RuleAdd r :: b → r.Priority = rulePriorityOutgoingENI →
      TableBuilt imds (x ++ a) r.Table) :
    PinsAfterRoutes imds (x ++ y) := by
  intro a r b he hp
  rcases List.append_eq_append_iff.mp he with ⟨a', ha, hy'⟩ | ⟨c', hx', hc⟩
  · rw [ha]
    exact hy a' r b hy' hp
  · cases c' with
    | nil =>
      rw [List.append_nil] at hx'
      rw [List.nil_append] at hc
      have := hy [] r b hc.symm hp
      rw [List.append_nil] at this
      rw [← hx']
      exact this
    | cons c cs =>
      rw [List.cons_append] at hc
      injection hc with hc1 hc2
      subst hc1
      exact hx a r cs hx' hp

theorem PinsAfterRoutes.append {imds : EniIMDS} {x y : List Event}
    (hx : PinsAfterRoutes imds x) (hy : PinsAfterRoutes imds y) :
    PinsAfterRoutes imds (x ++ y) :=
  hx.extend (fun a r b he hp =>
    (hy a r b he hp).of_subset (fun _ h => List.mem_append_right _ h))

/-- Calls that add no pin rule, and then at most one pin rule whose table the
calls so far have installed. -/
theorem PinsAfterRoutes.snoc_pin {imds : EniIMDS} {x q e2 : List Event} {pin : Rule}
    (hx : PinsAfterRoutes imds x) (hq : Quiet q) (hT : TableBuilt imds (x ++ q) pin.Table)
    (he2 : e2 = [] ∨ e2 = [Event.RuleAdd pin]) : PinsAfterRoutes imds (x ++ q ++ e2) := by
  refine (hx.append (PinsAfterRoutes.of_quiet hq)).extend ?_
  intro a r b he hp
  rcases he2 with rfl | rfl
  · cases a <;> cases he
  · cases a with
    | nil =>
      rw [List.nil_append] at he
      injection he with h1 h2
      injection h1 with h1
      subst h1
      rw [List.append_nil]
      exact hT
    | cons c cs =>
      rw [List.cons_append] at he
      injection he with h1 h2
      cases cs <;> cases h2

theorem isDefaultRoute_defaultRouteOf (v : Int) :
    isDefaultRoute (some (defaultRouteOf v)) = true := by
  unfold defaultRouteOf
  split <;> decide

theorem Kernel.quietTo_foldl_withIpt (p : Nat) (specs : List (List String)) (k : Kernel) :
    k.QuietTo (specs.foldl (fun x spec => x.withIpt
      { Proto := p, Table := "mangle", Chain := "PREROUTING", Spec := spec }) k) := by
  induction specs generalizing k with
  | nil => exact Kernel.QuietTo.refl k
  | cons s rest ih =>
    rw [List.foldl_cons]
    exact (Kernel.quietTo_withIpt k _).trans (ih _)

theorem Kernel.quietTo_setMTU (k : Kernel) (i mtu : Int) :
    k.QuietTo ((k.mapLinks (Link.withMTU i mtu)).record (Event.LinkSetMTU i mtu)) :=
  Kernel.QuietTo.step (e := Event.LinkSetMTU i mtu) rfl (fun _ h => by cases h)

theorem Kernel.quietTo_setUp (k : Kernel) (i : Int) :
    k.QuietTo ((k.mapLinks (Link.setUp i)).record (Event.LinkSetUp i)) :=
  Kernel.QuietTo.step (e := Event.LinkSetUp i) rfl (fun _ h => by cases h)

theorem Kernel.QuietTo.withRule {k k1 : Kernel} {r : Rule} (h : k.QuietTo k1)
    (hr : r.Priority = rulePriorityLocalPods ∨ r.Priority = rulePriorityMasq) :
    k.QuietTo (k1.withRule r) :=
  h.trans (Kernel.quietTo_withRule k1 r hr)

theorem Kernel.QuietTo.foldl_withIpt {k k1 : Kernel} {p : Nat} {specs : List (List String)}
    (h : k.QuietTo k1) :
    k.QuietTo (specs.foldl (fun x spec => x.withIpt
      { Proto := p, Table := "mangle", Chain := "PREROUTING", Spec := spec }) k1) :=
  h.trans (Kernel.quietTo_foldl_withIpt p specs k1)

theorem Kernel.QuietTo.setMTU {k k1 : Kernel} {i mtu : Int} (h : k.QuietTo k1) :
    k.QuietTo ((k1.mapLinks (Link.withMTU i mtu)).record (Event.LinkSetMTU i mtu)) :=
  h.trans (Kernel.quietTo_setMTU k1 i mtu)

theorem Kernel.QuietTo.setUp {k k1 : Kernel} {i : Int} (h : k.QuietTo k1) :
    k.QuietTo ((k1.mapLinks (Link.setUp i)).record (Event.LinkSetUp i)) :=
  h.trans (Kernel.quietTo_setUp k1 i)

theorem Kernel.QuietTo.withAddr {k k1 : Kernel} {i : Int} {a : Addr} (h : k.QuietTo k1) :
    k.QuietTo (k1.withAddr i a) :=
  h.trans (Kernel.quietTo_withAddr k1 i a)

theorem Kernel.QuietTo.withSysctl {k k1 : Kernel} {key v : String} (h : k.QuietTo k1) :
    k.QuietTo (k1.withSysctl key v) :=
  h.trans (Kernel.quietTo_withSysctl k1 key v)

theorem Kernel.QuietTo.sysctl_of_version {k k1 : Kernel} {v : Int} {a b c d : String}
    (h : k.QuietTo k1) :
    k.QuietTo (if v = 4 then k1.withSysctl a b else if v = 6 then k1.withSysctl c d else k1) := by
  split_ifs
  · exact h.withSysctl
  · exact h.withSysctl
  · exact h

/-- The log after the two routes of a table and its pin rule. -/
theorem log_routes_rule {k k7 : Kernel} (h : k.QuietTo k7) (sr dr : Route) (pin : Rule) :
    ∃ e1 e2, (((k7.withRoute sr).withRoute dr).withRule pin).log
        = k.log ++ (e1 ++ [sr, dr].map Event.RouteReplace ++ e2) ∧
      Quiet e1 ∧ (e2 = [] ∨ e2 = [Event.RuleAdd pin]) := by
  obtain ⟨e1, he, q1⟩ := h
  by_cases hm : pin ∈ ((k7.withRoute sr).withRoute dr).rules
  · refine ⟨e1, [], ?_, q1, Or.inl rfl⟩
    rw [Kernel.withRule_of_mem hm, Kernel.withRoute_log, Kernel.withRoute_log, he]
    simp only [List.append_assoc, List.cons_append, List.nil_append, List.map_cons,
      List.map_nil, List.append_nil]
  · refine ⟨e1, [Event.RuleAdd pin], ?_, q1, Or.inr rfl⟩
    rw [Kernel.withRule_log, if_neg hm, Kernel.withRoute_log, Kernel.withRoute_log, he]
    simp only [List.append_assoc, List.cons_append, List.nil_append, List.map_cons,
      List.map_nil]

/-- The log of a run of `setupHostEniIface` that returns no error: calls that
add no pin rule, the two routes of the table, and the pin rule when it was not
there. -/
theorem ifaceDone_log (k : Kernel) (mtu : Int) (vethName : String) (ipVersion : Int)
    (primaryIface eniIface : NetInterface) (eniLink : Link) (subnet : IPNet) (tableIdx : Int)
    (p gw : IP) :
    ∃ e1 e2,
      (ifaceDone k mtu vethName ipVersion primaryIface eniIface eniLink subnet tableIdx p gw).log
        = k.log ++ (e1 ++ (eniRoutes tableIdx eniIface subnet (defaultRouteOf ipVersion)
            gw).map Event.RouteReplace ++ e2) ∧
      Quiet e1 ∧ (e2 = [] ∨ e2 = [Event.RuleAdd (eniRule ipVersion tableIdx p)]) := by
  unfold ifaceDone eniRoutes
  simp only []
  apply log_routes_rule
  apply Kernel.QuietTo.sysctl_of_version
  apply Kernel.QuietTo.withAddr
  apply Kernel.QuietTo.setUp
  apply Kernel.QuietTo.setMTU
  refine Kernel.QuietTo.withRule ?_ ?_
  · apply Kernel.QuietTo.foldl_withIpt
    refine Kernel.QuietTo.withRule (Kernel.QuietTo.refl k) ?_
    exact Or.inl rfl
  · exact Or.inr rfl

/-- The log of a run of `setupHostEniPodRoute` that returns no error. -/
theorem podDone_log (k : Kernel) (veth : Link) (tableIdx : Int) (ip : IP) :
    ∃ e2, (podDone k veth tableIdx ip).log
        = k.log ++ ([Event.RouteReplace (podRoute veth ip)] ++ e2) ∧
      (e2 = [] ∨ e2 = [Event.RuleAdd (podRule tableIdx ip)]) := by
  unfold podDone
  by_cases hm : podRule tableIdx ip ∈ (k.withRoute (podRoute veth ip)).rules
  · refine ⟨[], ?_, Or.inl rfl⟩
    rw [Kernel.withRule_of_mem hm, Kernel.withRoute_log, List.append_nil]
  · refine ⟨[Event.RuleAdd (podRule tableIdx ip)], ?_, Or.inr rfl⟩
    rw [Kernel.withRule_log, if_neg hm, Kernel.withRoute_log, List.append_assoc]

/-! ### Runs -/

theorem Step.bind_of_fst_ok {α β : Type} {m : Step α} {f : α → Step β} {k : Kernel} {a : α}
    (h : (m k).1 = some (.ok a)) : (m >>= f) k = f a (m k).2 := by
  rw [Step.bind_apply]
  rcases hm : m k with ⟨o, k1⟩
  rw [hm] at h
  simp only [] at h
  subst h
  rfl

theorem Step.bind_state_of_not_ok {α β : Type} {m : Step α} {f : α → Step β} {k : Kernel}
    (h : ∀ a, (m k).1 ≠ some (.ok a)) : ((m >>= f) k).2 = (m k).2 := by
  rw [Step.bind_apply]
  rcases hm : m k with ⟨o, k1⟩
  rw [hm] at h
  rcases o with _ | a | e | msg
  · rfl
  · exact absurd rfl (h a)
  · rfl
  · rfl

theorem Step.pinned_of_quiet {α : Type} (imds : EniIMDS) {m : Step α} (h : m.Quiet) :
    m.Pinned imds := by
  intro k
  obtain ⟨evs, he, q⟩ := h k
  exact ⟨evs, he, PinsAfterRoutes.of_quiet q⟩

theorem Step.pinned_bind {α β : Type} {imds : EniIMDS} {m : Step α} {f : α → Step β}
    (hm : m.Pinned imds) (hf : ∀ a, (f a).Pinned imds) : (m >>= f).Pinned imds := by
  intro k
  obtain ⟨e1, h1, p1⟩ := hm k
  by_cases hok : ∃ a, (m k).1 = some (.ok a)
  · obtain ⟨a, ha⟩ := hok
    obtain ⟨e2, h2, p2⟩ := hf a (m k).2
    rw [Step.bind_of_fst_ok ha]
    exact ⟨e1 ++ e2, by rw [h2, h1, List.append_assoc], p1.append p2⟩
  · rw [Step.bind_state_of_not_ok (fun a ha => hok ⟨a, ha⟩)]
    exact ⟨e1, h1, p1⟩

/-- A run of `setupHostEniIface`: either it returns no error, and then it has
installed the table of the ENI before it added the pin rule, or it has added no
pin rule. -/
theorem setupHostEniIface_result (fmt : Fmt) (imds : EniIMDS) (mtu : Int)
    (vethName eniMAC : String) (ipVersion : Int) (answers : Nat → Except Error (List Route))
    (fuel : Nat) (hv : ipVersion = 4 ∨ ipVersion = 6) (k : Kernel) :
    ((setupHostEniIface fmt imds mtu vethName eniMAC ipVersion answers fuel k).1
        = some (.ok ()) ∧
      ∃ d evs, imds.GetDeviceNumber eniMAC = .ok d ∧
        (setupHostEniIface fmt imds mtu vethName eniMAC ipVersion answers fuel k).2.log
          = k.log ++ evs ∧
        PinsAfterRoutes imds evs ∧ TableBuilt imds evs (routeTableENIStart + d)) ∨
    ((∀ a, (setupHostEniIface fmt imds mtu vethName eniMAC ipVersion answers fuel k).1
        ≠ some (.ok a)) ∧
      k.QuietTo (setupHostEniIface fmt imds mtu vethName eniMAC ipVersion answers fuel k).2) := by
  by_cases hok : (setupHostEniIface fmt imds mtu vethName eniMAC ipVersion answers fuel k).1
      = some (.ok ())
  · left
    refine ⟨hok, ?_⟩
    obtain ⟨primaryMAC, primaryIface, eniIface, subnet, d, eniLink, p, rest, gw, hmac, hprim,
      heni, hsub, hdev, hlink, hips, hgw4, hgw6⟩ :=
      setupHostEniIface_ok fmt imds mtu vethName eniMAC ipVersion answers fuel k hv hok
    rw [setupHostEniIface_run fmt imds mtu vethName eniMAC ipVersion answers fuel k primaryMAC
      primaryIface eniIface subnet d eniLink p rest gw hv hmac hprim heni hsub hdev hlink hips
      hgw4 hgw6]
    obtain ⟨e1, e2, hlog, q1, he2⟩ := ifaceDone_log k mtu vethName ipVersion primaryIface
      eniIface eniLink subnet (routeTableENIStart + d) p gw
    have hq : Quiet (e1 ++ (eniRoutes (routeTableENIStart + d) eniIface subnet
        (defaultRouteOf ipVersion) gw).map Event.RouteReplace) := by
      refine Quiet_append q1 ?_
      intro r hr
      simp only [eniRoutes, List.map_cons, List.map_nil, List.mem_cons, List.mem_singleton,
        List.not_mem_nil, or_false] at hr
      rcases hr with hr | hr <;> cases hr
    have hT : ∀ t, TableBuilt imds (e1 ++ (eniRoutes (routeTableENIStart + d) eniIface subnet
        (defaultRouteOf ipVersion) gw).map Event.RouteReplace ++ t)
        (routeTableENIStart + d) := by
      intro t
      refine ⟨eniMAC, d, subnet,
        { Table := routeTableENIStart + d, LinkIndex := eniIface.Index, Dst := some subnet,
          Scope := Scope.LINK },
        { Table := routeTableENIStart + d, LinkIndex := eniIface.Index,
          Dst := some (defaultRouteOf ipVersion), Gw := gw, Scope := Scope.UNIVERSE },
        hdev, rfl, ?_, ?_, rfl, rfl, rfl, ?_, rfl, isDefaultRoute_defaultRouteOf ipVersion⟩
      · by_cases h6 : ipVersion = 6
        · rw [if_pos h6] at hsub
          exact Or.inr hsub
        · rw [if_neg h6] at hsub
          exact Or.inl hsub
      · simp [eniRoutes]
      · simp [eniRoutes]
    refine ⟨d, _, hdev, hlog, ?_, hT e2⟩
    have hnil : PinsAfterRoutes imds [] := fun a r b he _ => by cases a <;> cases he
    have := @PinsAfterRoutes.snoc_pin imds [] _ e2
      (eniRule ipVersion (routeTableENIStart + d) p) hnil hq (by simpa using hT []) he2
    simpa using this
  · right
    have hno : ∀ a, (setupHostEniIface fmt imds mtu vethName eniMAC ipVersion answers fuel
        k).1 ≠ some (.ok a) := fun a ha => hok ha
    refine ⟨hno, ?_⟩
    rcases setupHostEniIface_quiet fmt imds mtu vethName eniMAC ipVersion answers fuel k
      with ⟨a, ha⟩ | h
    · exact absurd ha (hno a)
    · exact h

end IMDSPtp

namespace IMDSPtp

open IMDSIpam

/-- A run of `setupHostEniPodRoute` after calls that installed the table of the
ENI: its pin rule comes after them. -/
theorem setupHostEniPodRoute_after (fmt : Fmt) (imds : EniIMDS) (vethName eniMAC : String)
    (ipc : IPConfig) (k : Kernel) (x : List Event) (d : Int)
    (hdev : imds.GetDeviceNumber eniMAC = .ok d) (px : PinsAfterRoutes imds x)
    (tx : TableBuilt imds x (routeTableENIStart + d)) :
    ∃ evs, (setupHostEniPodRoute fmt imds vethName eniMAC ipc k).2.log = k.log ++ evs ∧
      PinsAfterRoutes imds (x ++ evs) := by
  by_cases hok : (setupHostEniPodRoute fmt imds vethName eniMAC ipc k).1 = some (.ok ())
  · obtain ⟨veth, d2, hveth, hdev2⟩ := setupHostEniPodRoute_ok fmt imds vethName eniMAC ipc k hok
    rw [hdev] at hdev2
    injection hdev2 with hd
    subst hd
    rw [setupHostEniPodRoute_run fmt imds vethName eniMAC ipc k veth d hveth hdev]
    obtain ⟨e2, hlog, he2⟩ := podDone_log k veth (routeTableENIStart + d) ipc.Address.IP
    refine ⟨_, hlog, ?_⟩
    rw [← List.append_assoc]
    refine PinsAfterRoutes.snoc_pin px ?_ (tx.of_subset (fun _ h => List.mem_append_left _ h))
      he2
    intro r hr
    rw [List.mem_singleton] at hr
    cases hr
  · rcases setupHostEniPodRoute_quiet fmt imds vethName eniMAC ipc k with ⟨a, ha⟩ | h
    · exact absurd ha hok
    · obtain ⟨evs, he, q⟩ := h
      exact ⟨evs, he, px.append (PinsAfterRoutes.of_quiet q)⟩

theorem setupHostEniIface_pinned (fmt : Fmt) (imds : EniIMDS) (mtu : Int)
    (vethName eniMAC : String) (ipVersion : Int) (answers : Nat → Except Error (List Route))
    (fuel : Nat) (hv : ipVersion = 4 ∨ ipVersion = 6) :
    (setupHostEniIface fmt imds mtu vethName eniMAC ipVersion answers fuel).Pinned imds := by
  intro k
  rcases setupHostEniIface_result fmt imds mtu vethName eniMAC ipVersion answers fuel hv k with
    ⟨_, d, evs, _, hlog, p, _⟩ | ⟨_, evs, hlog, q⟩
  · exact ⟨evs, hlog, p⟩
  · exact ⟨evs, hlog, PinsAfterRoutes.of_quiet q⟩

/-- The construction for one pod address, and what follows it. -/
theorem construct_then_pinned {β : Type} (fmt : Fmt) (imds : EniIMDS) (mtu : Int)
    (vethName eniMAC : String) (ipc : IPConfig) (ipVersion : Int)
    (answers : Nat → Except Error (List Route)) (fuel : Nat)
    (hv : ipVersion = 4 ∨ ipVersion = 6) (g : Unit → Step β) (hg : ∀ u, (g u).Pinned imds) :
    (setupHostEniIface fmt imds mtu vethName eniMAC ipVersion answers fuel >>= fun _ =>
      setupHostEniPodRoute fmt imds vethName eniMAC ipc >>= g).Pinned imds := by
  intro k
  rcases setupHostEniIface_result fmt imds mtu vethName eniMAC ipVersion answers fuel hv k with
    ⟨hok, d, evsA, hdev, hlogA, pA, tA⟩ | ⟨hno, evs, hlog, q⟩
  · rw [Step.bind_of_fst_ok hok]
    obtain ⟨evsB, hlogB, pAB⟩ := setupHostEniPodRoute_after fmt imds vethName eniMAC ipc
      (setupHostEniIface fmt imds mtu vethName eniMAC ipVersion answers fuel k).2 evsA d hdev
      pA tA
    by_cases hokB : ∃ a, (setupHostEniPodRoute fmt imds vethName eniMAC ipc
        (setupHostEniIface fmt imds mtu vethName eniMAC ipVersion answers fuel k).2).1
        = some (.ok a)
    · obtain ⟨a, ha⟩ := hokB
      rw [Step.bind_of_fst_ok ha]
      obtain ⟨evsG, hlogG, pG⟩ := hg a (setupHostEniPodRoute fmt imds vethName eniMAC ipc
        (setupHostEniIface fmt imds mtu vethName eniMAC ipVersion answers fuel k).2).2
      exact ⟨evsA ++ evsB ++ evsG, by rw [hlogG, hlogB, hlogA]; simp only [List.append_assoc],
        pAB.append pG⟩
    · rw [Step.bind_state_of_not_ok (fun a ha => hokB ⟨a, ha⟩)]
      exact ⟨evsA ++ evsB, by rw [hlogB, hlogA, List.append_assoc], pAB⟩
  · rw [Step.bind_state_of_not_ok hno]
    exact ⟨evs, hlog, PinsAfterRoutes.of_quiet q⟩

theorem version_cases (ip : IP) :
    (if To4 ip ≠ [] then (4 : Int) else 6) = 4 ∨ (if To4 ip ≠ [] then (4 : Int) else 6) = 6 := by
  split
  · exact Or.inl rfl
  · exact Or.inr rfl

theorem loop_pinned (fmt : Fmt) (imds : EniIMDS) (mtu : Int) (vethName primaryMAC : String)
    (answers : Nat → Nat → Except Error (List Route)) (fuel : Nat) (ips : List IPConfig) :
    ∀ n, (setupHostEni.loop fmt imds mtu vethName primaryMAC answers fuel ips n).Pinned imds := by
  induction ips with
  | nil =>
    intro n
    exact Step.pinned_of_quiet imds (ret_quiet ())
  | cons ipc rest ih =>
    intro n
    rw [setupHostEni.loop]
    refine Step.pinned_bind (Step.pinned_of_quiet imds (ofExcept_quiet _)) (fun macs => ?_)
    refine Step.pinned_bind (Step.pinned_of_quiet imds (ofExcept_quiet _)) (fun eniMAC => ?_)
    split
    · exact Step.pinned_of_quiet imds (fail_quiet _)
    · refine construct_then_pinned fmt imds mtu vethName eniMAC ipc _ _ fuel
        (version_cases _) _ (fun _ => ?_)
      simp only []
      split
      · exact Step.pinned_bind
          (setupHostEniIface_pinned fmt imds mtu vethName primaryMAC _ _ fuel (version_cases _))
          (fun _ => ih (n + 1))
      · exact Step.pinned_bind (Step.pinned_of_quiet imds (pure_quiet _)) (fun _ => ih (n + 1))

theorem setupHostEni_pinned (fmt : Fmt) (imds : EniIMDS) (mtu : Int) (vethName : String)
    (ips : List IPConfig) (answers : Nat → Nat → Except Error (List Route)) (fuel : Nat) :
    (setupHostEni fmt imds mtu vethName ips answers fuel).Pinned imds := by
  unfold setupHostEni
  refine Step.pinned_bind (Step.pinned_of_quiet imds Interfaces_quiet) (fun ifaces => ?_)
  refine Step.pinned_bind (Step.pinned_of_quiet imds (ofExcept_quiet _)) (fun primaryMAC => ?_)
  split
  · exact Step.pinned_of_quiet imds (fail_quiet _)
  · exact loop_pinned fmt imds mtu vethName primaryMAC answers fuel ips 0

/-- C13: in every run of `setupHostEni`, however it ends, each pin rule
(priority 30020, of the primary address of an ENI or of the pod address) that
the run adds with table `T` comes, in the log of the run, after a
`RouteReplace` of the route to the subnet in `T` and a `RouteReplace` of a
default route in `T`, `T` being the table of the device number of an attached
MAC; and the priorities of the three classes are 30000 < 30010 < 30020, the
pin rules of both kinds having the last one. -/
theorem pin_rules_after_routes (fmt : Fmt) (imds : EniIMDS) (mtu : Int) (vethName : String)
    (ips : List IPConfig) (answers : Nat → Nat → Except Error (List Route)) (fuel : Nat)
    (k : Kernel) :
    (∃ evs, (setupHostEni fmt imds mtu vethName ips answers fuel k).2.log = k.log ++ evs ∧
      ∀ a r b, evs = a ++ Event.RuleAdd r :: b → r.Priority = rulePriorityOutgoingENI →
        TableBuilt imds a r.Table) ∧
    rulePriorityLocalPods < rulePriorityMasq ∧ rulePriorityMasq < rulePriorityOutgoingENI ∧
    (∀ v T p, (eniRule v T p).Priority = rulePriorityOutgoingENI ∧ (eniRule v T p).Table = T) ∧
    (∀ T p, (podRule T p).Priority = rulePriorityOutgoingENI ∧ (podRule T p).Table = T) := by
  refine ⟨?_, by decide, by decide, fun _ _ _ => ⟨rfl, rfl⟩, fun _ _ => ⟨rfl, rfl⟩⟩
  obtain ⟨evs, hlog, p⟩ := setupHostEni_pinned fmt imds mtu vethName ips answers fuel k
  exact ⟨evs, hlog, p⟩

end IMDSPtp

namespace IMDSPtp

open IMDSIpam

/-! ## The construction for one pod address -/

theorem Step.bind_fst_ok_left {α β : Type} {m : Step α} {f : α → Step β} {k : Kernel} {b : β}
    (h : ((m >>= f) k).1 = some (.ok b)) : ∃ a, (m k).1 = some (.ok a) := by
  rw [Step.bind_apply] at h
  rcases hm : m k with ⟨o, k1⟩
  rw [hm] at h
  rcases o with _ | a | e | msg
  · cases h
  · exact ⟨a, rfl⟩
  · cases h
  · cases h

/-- A run of the construction that returns no error: what it has looked up, and
the kernel it leaves. -/
theorem construct_ok (fmt : Fmt) (imds : EniIMDS) (mtu : Int) (vethName eniMAC : String)
    (ipc : IPConfig) (answers : Nat → Except Error (List Route)) (fuel : Nat) (k : Kernel)
    (ipVersion : Int) (hver : ipVersion = if To4 ipc.Address.IP ≠ [] then 4 else 6)
    (h : (construct fmt imds mtu vethName eniMAC ipc answers fuel k).1 = some (.ok ())) :
    ∃ (primaryMAC : String) (primaryIface eniIface : NetInterface) (subnet : IPNet) (d : Int)
      (eniLink : Link) (p : IP) (rest : List IP) (gw : IP) (veth : Link),
      imds.GetMAC = .ok primaryMAC ∧
      interfaceByMAC (k.links.map Link.toInterface) primaryMAC = some primaryIface ∧
      interfaceByMAC (k.links.map Link.toInterface) eniMAC = some eniIface ∧
      (if ipVersion = 6 then imds.GetSubnetIPv6CIDRBlocks eniMAC
        else imds.GetSubnetIPv4CIDRBlock eniMAC) = .ok subnet ∧
      imds.GetDeviceNumber eniMAC = .ok d ∧
      k.links.find? (fun l => l.Index == eniIface.Index) = some eniLink ∧
      (if ipVersion = 6 then imds.GetIPv6s eniMAC else imds.GetLocalIPv4s eniMAC)
        = .ok (p :: rest) ∧
      (ipVersion = 4 → gatewayIPv4 subnet = .ok gw) ∧
      (ipVersion = 6 → pollGateway eniLink.Name answers fuel 0 = some (.ok gw)) ∧
      (ifaceDone k mtu vethName ipVersion primaryIface eniIface eniLink subnet
        (routeTableENIStart + d) p gw).links.find? (fun l => l.Name == vethName) = some veth ∧
      construct fmt imds mtu vethName eniMAC ipc answers fuel k =
        (some (.ok ()),
          podDone (ifaceDone k mtu vethName ipVersion primaryIface eniIface eniLink subnet
            (routeTableENIStart + d) p gw) veth (routeTableENIStart + d) ipc.Address.IP) := by
  have hv : ipVersion = 4 ∨ ipVersion = 6 := hver ▸ version_cases _
  unfold construct at h ⊢
  rw [← hver] at h ⊢
  obtain ⟨u, hu⟩ := Step.bind_fst_ok_left h
  obtain ⟨primaryMAC, primaryIface, eniIface, subnet, d, eniLink, p, rest, gw, hmac, hprim,
    heni, hsub, hdev, hlink, hips, hgw4, hgw6⟩ :=
    setupHostEniIface_ok fmt imds mtu vethName eniMAC ipVersion answers fuel k hv hu
  have hrun := setupHostEniIface_run fmt imds mtu vethName eniMAC ipVersion answers fuel k
    primaryMAC primaryIface eniIface subnet d eniLink p rest gw hv hmac hprim heni hsub hdev
    hlink hips hgw4 hgw6
  rw [Step.bind_of_ok hrun] at h ⊢
  obtain ⟨veth, d2, hveth, hdev2⟩ := setupHostEniPodRoute_ok fmt imds vethName eniMAC ipc _ h
  rw [setupHostEniPodRoute_run fmt imds vethName eniMAC ipc _ veth d hveth hdev]
  exact ⟨primaryMAC, primaryIface, eniIface, subnet, d, eniLink, p, rest, gw, veth, hmac, hprim,
    heni, hsub, hdev, hlink, hips, hgw4, hgw6, hveth, rfl⟩

theorem Size_CIDRMask_zero : (IPMask.Size (CIDRMask 0 32)).1 = 0 := by decide

theorem To4_IPv4zero : To4 IPv4zero = [0, 0, 0, 0] := by decide

/-- C11: when the construction (`setupHostEniIface`, then
`setupHostEniPodRoute`) for an IPv4 pod address `p` on the ENI `eniMAC`, whose
device number is `d` and whose subnet is `S`, returns no error, the run has
replaced in table `10 + d` the link-scope route to `S` and the default route
via the gateway of `S`, both on the link of the ENI, and the kernel has the
rule of priority 30020 from `p/32` to table `10 + d`. For a device number that
is not negative and a subnet with a prefix of at least one bit, the kernel ends
with these two routes under their keys in table `10 + d`. -/
theorem eni_table_routes (fmt : Fmt) (imds : EniIMDS) (mtu : Int) (vethName eniMAC : String)
    (ipc : IPConfig) (answers : Nat → Except Error (List Route)) (fuel : Nat) (k : Kernel)
    (S : IPNet) (d : Int)
    (hv4 : To4 ipc.Address.IP ≠ [])
    (hS : imds.GetSubnetIPv4CIDRBlock eniMAC = .ok S)
    (hd : imds.GetDeviceNumber eniMAC = .ok d)
    (hrun : (construct fmt imds mtu vethName eniMAC ipc answers fuel k).1 = some (.ok ())) :
    ∃ (eniIface : NetInterface) (gw : IP),
      interfaceByMAC (k.links.map Link.toInterface) eniMAC = some eniIface ∧
      gatewayIPv4 S = .ok gw ∧
      (∃ evs, (construct fmt imds mtu vethName eniMAC ipc answers fuel k).2.log = k.log ++ evs ∧
        Event.RouteReplace { Table := routeTableENIStart + d, LinkIndex := eniIface.Index,
                             Dst := some S, Scope := Scope.LINK } ∈ evs ∧
        Event.RouteReplace { Table := routeTableENIStart + d, LinkIndex := eniIface.Index,
                             Dst := some { IP := IPv4zero, Mask := CIDRMask 0 32 }, Gw := gw,
                             Scope := Scope.UNIVERSE } ∈ evs) ∧
      ({ Priority := rulePriorityOutgoingENI, Table := routeTableENIStart + d,
         Src := some { IP := ipc.Address.IP, Mask := CIDRMask 32 32 } } : Rule) ∈
        (construct fmt imds mtu vethName eniMAC ipc answers fuel k).2.rules ∧
      (0 ≤ d → (IPMask.Size S.Mask).1 ≠ 0 →
        (construct fmt imds mtu vethName eniMAC ipc answers fuel k).2.routes
            { Table := routeTableENIStart + d,
              Dst := some (if To4 S.IP ≠ [] then To4 S.IP else S.IP, (IPMask.Size S.Mask).1) }
          = some { Table := routeTableENIStart + d, LinkIndex := eniIface.Index,
                   Dst := some S, Scope := Scope.LINK } ∧
        (construct fmt imds mtu vethName eniMAC ipc answers fuel k).2.routes
            { Table := routeTableENIStart + d, Dst := some ([0, 0, 0, 0], 0) }
          = some { Table := routeTableENIStart + d, LinkIndex := eniIface.Index,
                   Dst := some { IP := IPv4zero, Mask := CIDRMask 0 32 }, Gw := gw,
                   Scope := Scope.UNIVERSE }) := by
  have hver : (4 : Int) = if To4 ipc.Address.IP ≠ [] then 4 else 6 := by rw [if_pos hv4]
  obtain ⟨primaryMAC, primaryIface, eniIface, subnet, d2, eniLink, p, rest, gw, veth, hmac,
    hprim, heni, hsub, hdev, hlink, hips, hgw4, hgw6, hveth, heq⟩ :=
    construct_ok fmt imds mtu vethName eniMAC ipc answers fuel k 4 hver hrun
  rw [if_neg (by decide)] at hsub
  rw [hS] at hsub
  injection hsub with hsub
  subst hsub
  rw [hd] at hdev
  injection hdev with hdev
  subst hdev
  rw [heq]
  refine ⟨eniIface, gw, heni, hgw4 rfl, ?_, ?_, ?_⟩
  · obtain ⟨e1, e2, hlogA, _, _⟩ := ifaceDone_log k mtu vethName 4 primaryIface eniIface eniLink
      S (routeTableENIStart + d) p gw
    obtain ⟨e3, hlogB, _⟩ := podDone_log (ifaceDone k mtu vethName 4 primaryIface eniIface
      eniLink S (routeTableENIStart + d) p gw) veth (routeTableENIStart + d) ipc.Address.IP
    refine ⟨_, by rw [hlogB, hlogA, List.append_assoc], ?_, ?_⟩
    · simp [eniRoutes]
    · simp [eniRoutes, defaultRouteOf]
  · unfold podDone
    rw [Kernel.mem_withRule]
    right
    unfold podRule
    rw [if_pos hv4]
  · intro hd0 hS0
    have htab : ¬ routeTableENIStart + d ≤ 0 := by
      unfold routeTableENIStart
      omega
    have hpod : ∀ x : RouteKey, x.Table = routeTableENIStart + d →
        x ≠ (podRoute veth ipc.Address.IP).key := by
      intro x hx he
      rw [he] at hx
      simp only [Route.key, podRoute, routeTablePod, routeTableENIStart] at hx
      rw [if_neg (by decide)] at hx
      omega
    have hksr : Route.key { Table := routeTableENIStart + d, LinkIndex := eniIface.Index,
                            Dst := some S, Scope := Scope.LINK }
        = { Table := routeTableENIStart + d,
            Dst := some (if To4 S.IP ≠ [] then To4 S.IP else S.IP, (IPMask.Size S.Mask).1) } := by
      simp only [Route.key, if_neg htab, Option.map_some']
    have hkdr : Route.key { Table := routeTableENIStart + d, LinkIndex := eniIface.Index,
                            Dst := some (defaultRouteOf 4), Gw := gw, Scope := Scope.UNIVERSE }
        = { Table := routeTableENIStart + d, Dst := some ([0, 0, 0, 0], 0) } := by
      simp only [Route.key, if_neg htab, Option.map_some', defaultRouteOf,
        if_neg (show ¬ ((4 : Int) = 6) by decide), Size_CIDRMask_zero, To4_IPv4zero]
      rfl
    have hdflt : defaultRouteOf 4 = { IP := IPv4zero, Mask := CIDRMask 0 32 } := by
      unfold defaultRouteOf
      rw [if_neg (by decide)]
    unfold podDone
    rw [Kernel.withRule_routes, Kernel.withRoute_routes, ifaceDone_routes, hksr, hkdr, hdflt]
    constructor
    · show (if _ then _ else if _ then _ else if _ then _ else _) = _
      rw [if_neg (hpod _ rfl), if_neg, if_pos rfl]
      intro he
      injection he with _ he
      injection he with he
      injection he with _ he
      exact hS0 he
    · show (if _ then _ else if _ then _ else _) = _
      rw [if_neg (hpod _ rfl), if_pos rfl]

/-- The witness of C11: device 2, subnet 10.0.1.0/24, pod address 10.0.1.9. -/
theorem eni_table_routes_witness :
    To4 examplePod.Address.IP ≠ [] ∧
    exampleIMDS.GetSubnetIPv4CIDRBlock "0a:00:00:00:00:02"
      = .ok { IP := [10, 0, 1, 0], Mask := [255, 255, 255, 0] } ∧
    exampleIMDS.GetDeviceNumber "0a:00:00:00:00:02" = .ok 2 ∧
    (construct plainFmt exampleIMDS 9001 "veth5e1f3a9c" "0a:00:00:00:00:02" examplePod
      noRoutes 0 exampleHost).1 = some (.ok ()) ∧
    gatewayIPv4 { IP := [10, 0, 1, 0], Mask := [255, 255, 255, 0] } = .ok [10, 0, 1, 1] ∧
    routeTableENIStart + 2 = 12 ∧
    ∃ (eniIface : NetInterface) (gw : IP),
      interfaceByMAC (exampleHost.links.map Link.toInterface) "0a:00:00:00:00:02"
        = some eniIface ∧
      gatewayIPv4 { IP := [10, 0, 1, 0], Mask := [255, 255, 255, 0] } = .ok gw ∧
      (∃ evs, (construct plainFmt exampleIMDS 9001 "veth5e1f3a9c" "0a:00:00:00:00:02"
          examplePod noRoutes 0 exampleHost).2.log = exampleHost.log ++ evs ∧
        Event.RouteReplace { Table := routeTableENIStart + 2, LinkIndex := eniIface.Index,
                             Dst := some { IP := [10, 0, 1, 0], Mask := [255, 255, 255, 0] },
                             Scope := Scope.LINK } ∈ evs ∧
        Event.RouteReplace { Table := routeTableENIStart + 2, LinkIndex := eniIface.Index,
                             Dst := some { IP := IPv4zero, Mask := CIDRMask 0 32 }, Gw := gw,
                             Scope := Scope.UNIVERSE } ∈ evs) ∧
      ({ Priority := rulePriorityOutgoingENI, Table := routeTableENIStart + 2,
         Src := some { IP := examplePod.Address.IP, Mask := CIDRMask 32 32 } } : Rule) ∈
        (construct plainFmt exampleIMDS 9001 "veth5e1f3a9c" "0a:00:00:00:00:02" examplePod
          noRoutes 0 exampleHost).2.rules ∧
      ((0 : Int) ≤ 2 →
        (IPMask.Size ({ IP := [10, 0, 1, 0], Mask := [255, 255, 255, 0] } : IPNet).Mask).1 ≠ 0 →
        (construct plainFmt exampleIMDS 9001 "veth5e1f3a9c" "0a:00:00:00:00:02" examplePod
            noRoutes 0 exampleHost).2.routes
            { Table := routeTableENIStart + 2,
              Dst := some (if To4 ({ IP := [10, 0, 1, 0], Mask := [255, 255, 255, 0] } : IPNet).IP
                  ≠ [] then To4 ({ IP := [10, 0, 1, 0], Mask := [255, 255, 255, 0] } : IPNet).IP
                else ({ IP := [10, 0, 1, 0], Mask := [255, 255, 255, 0] } : IPNet).IP,
                (IPMask.Size ({ IP := [10, 0, 1, 0], Mask := [255, 255, 255, 0] } : IPNet).Mask).1) }
          = some { Table := routeTableENIStart + 2, LinkIndex := eniIface.Index,
                   Dst := some { IP := [10, 0, 1, 0], Mask := [255, 255, 255, 0] },
                   Scope := Scope.LINK } ∧
        (construct plainFmt exampleIMDS 9001 "veth5e1f3a9c" "0a:00:00:00:00:02" examplePod
            noRoutes 0 exampleHost).2.routes
            { Table := routeTableENIStart + 2, Dst := some ([0, 0, 0, 0], 0) }
          = some { Table := routeTableENIStart + 2, LinkIndex := eniIface.Index,
                   Dst := some { IP := IPv4zero, Mask := CIDRMask 0 32 }, Gw := gw,
                   Scope := Scope.UNIVERSE }) :=
  ⟨by decide, rfl, rfl, by decide, by decide, by decide,
    eni_table_routes plainFmt exampleIMDS 9001 "veth5e1f3a9c" "0a:00:00:00:00:02" examplePod
      noRoutes 0 exampleHost { IP := [10, 0, 1, 0], Mask := [255, 255, 255, 0] } 2
      (by decide) rfl rfl (by decide)⟩

end IMDSPtp

namespace IMDSPtp

open IMDSIpam

/-! ## The construction, a second time -/

theorem Kernel.withRule_rules_of_mem {k : Kernel} {r : Rule} (h : r ∈ k.rules) :
    (k.withRule r).rules = k.rules := by
  rw [Kernel.withRule_of_mem h]

theorem Kernel.withIpt_iptables_of_mem {k : Kernel} {e : IptEntry} (h : e ∈ k.iptables) :
    (k.withIpt e).iptables = k.iptables := by
  rw [Kernel.withIpt_of_mem h]

theorem Kernel.withAddr_present (k : Kernel) (i : Int) (a : Addr) :
    (k.withAddr i a).addrs.any (fun x => x.1 == i && x.2.IPNet == a.IPNet) = true := by
  rw [Kernel.withAddr_addrs]
  split
  · assumption
  · rw [List.any_append]
    simp

theorem Kernel.withAddr_addrs_of_present {k : Kernel} {i : Int} {a : Addr}
    (h : k.addrs.any (fun x => x.1 == i && x.2.IPNet == a.IPNet) = true) :
    (k.withAddr i a).addrs = k.addrs := by
  rw [Kernel.withAddr_addrs, if_pos h]

theorem Link.setUp_withMTU_twice (i mtu : Int) (l : Link) :
    Link.setUp i (Link.withMTU i mtu (Link.setUp i (Link.withMTU i mtu l)))
      = Link.setUp i (Link.withMTU i mtu l) := by
  unfold Link.setUp Link.withMTU
  by_cases h : l.Index = i
  · simp [h]
  · simp [h]

theorem find_map_index (ls : List Link) (f : Link → Link) (hf : ∀ l, (f l).Index = l.Index)
    (i : Int) :
    (ls.map f).find? (fun l => l.Index == i) = (ls.find? (fun l => l.Index == i)).map f := by
  induction ls with
  | nil => rfl
  | cons l rest ih =>
    simp only [List.map_cons, List.find?_cons, hf]
    split
    · rfl
    · exact ih

theorem find_map_name (ls : List Link) (f : Link → Link) (hf : ∀ l, (f l).Name = l.Name)
    (n : String) :
    (ls.map f).find? (fun l => l.Name == n) = (ls.find? (fun l => l.Name == n)).map f := by
  induction ls with
  | nil => rfl
  | cons l rest ih =>
    simp only [List.map_cons, List.find?_cons, hf]
    split
    · rfl
    · exact ih

theorem map_toInterface (ls : List Link) (i mtu : Int) :
    ((ls.map (Link.withMTU i mtu)).map (Link.setUp i)).map Link.toInterface
      = ls.map Link.toInterface := by
  simp only [List.map_map]
  congr 1
  funext l
  simp only [Function.comp_apply, Link.toInterface_setUp, Link.toInterface_withMTU]

theorem podRoute_congr {v1 v2 : Link} (h : v1.Index = v2.Index) (ip : IP) :
    podRoute v1 ip = podRoute v2 ip := by
  unfold podRoute
  rw [h]

theorem podDone_links (k : Kernel) (veth : Link) (T : Int) (ip : IP) :
    (podDone k veth T ip).links = k.links := by
  unfold podDone
  rw [Kernel.withRule_links, Kernel.withRoute_links]

theorem podDone_addrs (k : Kernel) (veth : Link) (T : Int) (ip : IP) :
    (podDone k veth T ip).addrs = k.addrs := by
  unfold podDone
  rw [Kernel.withRule_addrs, Kernel.withRoute_addrs]

theorem podDone_sysctl (k : Kernel) (veth : Link) (T : Int) (ip : IP) :
    (podDone k veth T ip).sysctl = k.sysctl := by
  unfold podDone
  rw [Kernel.withRule_sysctl, Kernel.withRoute_sysctl]

theorem podDone_iptables (k : Kernel) (veth : Link) (T : Int) (ip : IP) :
    (podDone k veth T ip).iptables = k.iptables := by
  unfold podDone
  rw [Kernel.withRule_iptables, Kernel.withRoute_iptables]

theorem podDone_rules (k : Kernel) (veth : Link) (T : Int) (ip : IP) :
    (podDone k veth T ip).rules = (k.withRule (podRule T ip)).rules := by
  unfold podDone
  exact Kernel.withRule_rules_congr _ (Kernel.withRoute_rules k _)

theorem podDone_routes (k : Kernel) (veth : Link) (T : Int) (ip : IP) :
    (podDone k veth T ip).routes =
      fun x => if x = (podRoute veth ip).key then some (podRoute veth ip) else k.routes x := by
  unfold podDone
  rw [Kernel.withRule_routes, Kernel.withRoute_routes]

/-- The rules after the construction, on a kernel that has its four rules:
the rules of the kernel. -/
theorem rules_absorbed (k0 kA : Kernel) (r1 r2 r3 : Rule) (veth : Link) (T : Int) (ip : IP)
    (h1 : r1 ∈ k0.rules) (h2 : r2 ∈ k0.rules) (h3 : r3 ∈ k0.rules)
    (h4 : podRule T ip ∈ k0.rules)
    (hA : kA.rules = (((k0.withRule r1).withRule r2).withRule r3).rules) :
    (podDone kA veth T ip).rules = k0.rules := by
  have e1 : (k0.withRule r1).rules = k0.rules := Kernel.withRule_rules_of_mem h1
  have e2 : ((k0.withRule r1).withRule r2).rules = k0.rules := by
    rw [Kernel.withRule_rules_congr r2 e1, Kernel.withRule_rules_of_mem h2]
  have e3 : (((k0.withRule r1).withRule r2).withRule r3).rules = k0.rules := by
    rw [Kernel.withRule_rules_congr r3 e2, Kernel.withRule_rules_of_mem h3]
  rw [podDone_rules, Kernel.withRule_rules_congr _ (hA.trans e3),
    Kernel.withRule_rules_of_mem h4]

theorem iptables_absorbed (k0 kA : Kernel) (e1 e2 : IptEntry)
    (h1 : e1 ∈ k0.iptables) (h2 : e2 ∈ k0.iptables)
    (hA : kA.iptables = ((k0.withIpt e1).withIpt e2).iptables) :
    kA.iptables = k0.iptables := by
  rw [hA, Kernel.withIpt_iptables_congr e2 (Kernel.withIpt_iptables_of_mem h1),
    Kernel.withIpt_iptables_of_mem h2]

theorem ifaceDone_congr_link (k : Kernel) (mtu : Int) (vethName : String) (ipVersion : Int)
    (primaryIface eniIface : NetInterface) (l1 l2 : Link) (subnet : IPNet) (tableIdx : Int)
    (p gw : IP) (h : l1.Index = l2.Index) :
    ifaceDone k mtu vethName ipVersion primaryIface eniIface l1 subnet tableIdx p gw
      = ifaceDone k mtu vethName ipVersion primaryIface eniIface l2 subnet tableIdx p gw := by
  unfold ifaceDone
  rw [h]

/-- C15: when the construction (`setupHostEniIface`, then
`setupHostEniPodRoute`) has returned no error, the same construction on the
kernel it left, with the same metadata, veth, ENI, pod address and answers to
the route queries, returns no error and leaves the same rules, routes,
addresses, sysctl values, iptables entries and links. The kernel of the model
answers `EEXIST` to the addition of a rule or an address that it has. -/
theorem construct_twice (fmt : Fmt) (imds : EniIMDS) (mtu : Int) (vethName eniMAC : String)
    (ipc : IPConfig) (answers : Nat → Except Error (List Route)) (fuel : Nat) (k : Kernel)
    (h1 : (construct fmt imds mtu vethName eniMAC ipc answers fuel k).1 = some (.ok ())) :
    (construct fmt imds mtu vethName eniMAC ipc answers fuel
      (construct fmt imds mtu vethName eniMAC ipc answers fuel k).2).1 = some (.ok ()) ∧
    (construct fmt imds mtu vethName eniMAC ipc answers fuel
      (construct fmt imds mtu vethName eniMAC ipc answers fuel k).2).2.rules
      = (construct fmt imds mtu vethName eniMAC ipc answers fuel k).2.rules ∧
    (construct fmt imds mtu vethName eniMAC ipc answers fuel
      (construct fmt imds mtu vethName eniMAC ipc answers fuel k).2).2.routes
      = (construct fmt imds mtu vethName eniMAC ipc answers fuel k).2.routes ∧
    (construct fmt imds mtu vethName eniMAC ipc answers fuel
      (construct fmt imds mtu vethName eniMAC ipc answers fuel k).2).2.addrs
      = (construct fmt imds mtu vethName eniMAC ipc answers fuel k).2.addrs ∧
    (construct fmt imds mtu vethName eniMAC ipc answers fuel
      (construct fmt imds mtu vethName eniMAC ipc answers fuel k).2).2.sysctl
      = (construct fmt imds mtu vethName eniMAC ipc answers fuel k).2.sysctl ∧
    (construct fmt imds mtu vethName eniMAC ipc answers fuel
      (construct fmt imds mtu vethName eniMAC ipc answers fuel k).2).2.iptables
      = (construct fmt imds mtu vethName eniMAC ipc answers fuel k).2.iptables ∧
    (construct fmt imds mtu vethName eniMAC ipc answers fuel
      (construct fmt imds mtu vethName eniMAC ipc answers fuel k).2).2.links
      = (construct fmt imds mtu vethName eniMAC ipc answers fuel k).2.links := by
  obtain ⟨v, hver⟩ : ∃ v : Int, v = if To4 ipc.Address.IP ≠ [] then 4 else 6 := ⟨_, rfl⟩
  have hv : v = 4 ∨ v = 6 := hver ▸ version_cases _
  obtain ⟨primaryMAC, primaryIface, eniIface, subnet, d, eniLink, p, rest, gw, veth, hmac,
    hprim, heni, hsub, hdev, hlink, hips, hgw4, hgw6, hveth, heq⟩ :=
    construct_ok fmt imds mtu vethName eniMAC ipc answers fuel k v hver h1
  obtain ⟨hidx, -⟩ := find_index hlink
  rw [heq]
  simp only []
  -- the kernel after the first run
  have hAl := ifaceDone_links k mtu vethName v primaryIface eniIface eniLink subnet
    (routeTableENIStart + d) p gw
  have hAa := ifaceDone_addrs k mtu vethName v primaryIface eniIface eniLink subnet
    (routeTableENIStart + d) p gw
  have hAr := ifaceDone_rules k mtu vethName v primaryIface eniIface eniLink subnet
    (routeTableENIStart + d) p gw
  have hAi := ifaceDone_iptables k mtu vethName v primaryIface eniIface eniLink subnet
    (routeTableENIStart + d) p gw
  have hAs := ifaceDone_sysctl k mtu vethName v primaryIface eniIface eniLink subnet
    (routeTableENIStart + d) p gw
  have hAo := ifaceDone_routes k mtu vethName v primaryIface eniIface eniLink subnet
    (routeTableENIStart + d) p gw
  generalize ifaceDone k mtu vethName v primaryIface eniIface eniLink subnet
    (routeTableENIStart + d) p gw = KA at hAl hAa hAr hAi hAs hAo hveth heq ⊢
  have h1l := (podDone_links KA veth (routeTableENIStart + d) ipc.Address.IP).trans hAl
  have h1a := (podDone_addrs KA veth (routeTableENIStart + d) ipc.Address.IP).trans hAa
  have h1r := podDone_rules KA veth (routeTableENIStart + d) ipc.Address.IP
  have h1i := (podDone_iptables KA veth (routeTableENIStart + d) ipc.Address.IP).trans hAi
  have h1s := (podDone_sysctl KA veth (routeTableENIStart + d) ipc.Address.IP).trans hAs
  have h1o := podDone_routes KA veth (routeTableENIStart + d) ipc.Address.IP
  rw [hAo] at h1o
  generalize podDone KA veth (routeTableENIStart + d) ipc.Address.IP = K1
    at h1l h1a h1r h1i h1s h1o heq ⊢
  -- the second run looks up what the first run did
  have hprim2 : interfaceByMAC (K1.links.map Link.toInterface) primaryMAC = some primaryIface := by
    rw [h1l, map_toInterface]
    exact hprim
  have heni2 : interfaceByMAC (K1.links.map Link.toInterface) eniMAC = some eniIface := by
    rw [h1l, map_toInterface]
    exact heni
  have hlink2 : K1.links.find? (fun l => l.Index == eniIface.Index)
      = some (Link.setUp eniLink.Index (Link.withMTU eniLink.Index mtu eniLink)) := by
    rw [h1l, find_map_index _ _ (Link.setUp_Index _), find_map_index _ _ (Link.withMTU_Index _ _),
      hlink]
    rfl
  have hrunA := setupHostEniIface_run fmt imds mtu vethName eniMAC v answers fuel K1
    primaryMAC primaryIface eniIface subnet d
    (Link.setUp eniLink.Index (Link.withMTU eniLink.Index mtu eniLink)) p rest gw hv hmac hprim2
    heni2 hsub hdev hlink2 hips hgw4
    (by rw [Link.setUp_Name, Link.withMTU_Name]; exact hgw6)
  rw [ifaceDone_congr_link K1 mtu vethName v primaryIface eniIface _ eniLink subnet
    (routeTableENIStart + d) p gw (by rw [Link.setUp_Index, Link.withMTU_Index])] at hrunA
  have hBl := ifaceDone_links K1 mtu vethName v primaryIface eniIface eniLink subnet
    (routeTableENIStart + d) p gw
  have hBa := ifaceDone_addrs K1 mtu vethName v primaryIface eniIface eniLink subnet
    (routeTableENIStart + d) p gw
  have hBr := ifaceDone_rules K1 mtu vethName v primaryIface eniIface eniLink subnet
    (routeTableENIStart + d) p gw
  have hBi := ifaceDone_iptables K1 mtu vethName v primaryIface eniIface eniLink subnet
    (routeTableENIStart + d) p gw
  have hBs := ifaceDone_sysctl K1 mtu vethName v primaryIface eniIface eniLink subnet
    (routeTableENIStart + d) p gw
  have hBo := ifaceDone_routes K1 mtu vethName v primaryIface eniIface eniLink subnet
    (routeTableENIStart + d) p gw
  generalize ifaceDone K1 mtu vethName v primaryIface eniIface eniLink subnet
    (routeTableENIStart + d) p gw = KB at hBl hBa hBr hBi hBs hBo hrunA
  have hveth2 : KB.links.find? (fun l => l.Name == vethName)
      = some (Link.setUp eniLink.Index (Link.withMTU eniLink.Index mtu veth)) := by
    rw [hBl, h1l, ← hAl, find_map_name _ _ (Link.setUp_Name _),
      find_map_name _ _ (Link.withMTU_Name _ _), hveth]
    rfl
  have hrunB := setupHostEniPodRoute_run fmt imds vethName eniMAC ipc KB _ d hveth2 hdev
  have hrun2 : construct fmt imds mtu vethName eniMAC ipc answers fuel K1 =
      (some (.ok ()), podDone KB (Link.setUp eniLink.Index (Link.withMTU eniLink.Index mtu veth))
        (routeTableENIStart + d) ipc.Address.IP) := by
    unfold construct
    rw [← hver, Step.bind_of_ok hrunA, hrunB]
  rw [hrun2]
  simp only []
  refine ⟨trivial, ?_, ?_, ?_, ?_, ?_, ?_⟩
  · refine rules_absorbed K1 KB _ _ _ _ _ _ ?_ ?_ ?_ ?_ hBr
    · rw [h1r, Kernel.mem_withRule, hAr, Kernel.mem_withRule, Kernel.mem_withRule,
        Kernel.mem_withRule]
      exact Or.inl (Or.inl (Or.inl (Or.inr rfl)))
    · rw [h1r, Kernel.mem_withRule, hAr, Kernel.mem_withRule, Kernel.mem_withRule]
      exact Or.inl (Or.inl (Or.inr rfl))
    · rw [h1r, Kernel.mem_withRule, hAr, Kernel.mem_withRule]
      exact Or.inl (Or.inr rfl)
    · rw [h1r, Kernel.mem_withRule]
      exact Or.inr rfl
  · rw [podDone_routes, hBo, h1o,
      podRoute_congr (show (Link.setUp eniLink.Index (Link.withMTU eniLink.Index mtu veth)).Index
        = veth.Index by rw [Link.setUp_Index, Link.withMTU_Index])]
    funext x
    simp only []
    split_ifs <;> rfl
  · rw [podDone_addrs, hBa]
    apply Kernel.withAddr_addrs_of_present
    rw [h1a]
    exact Kernel.withAddr_present _ _ _
  · rw [podDone_sysctl, hBs, h1s]
    funext x
    simp only []
    split_ifs <;> rfl
  · rw [podDone_iptables]
    refine iptables_absorbed K1 KB _ _ ?_ ?_ hBi
    · rw [h1i, Kernel.mem_withIpt, Kernel.mem_withIpt]
      exact Or.inl (Or.inr rfl)
    · rw [h1i, Kernel.mem_withIpt]
      exact Or.inr rfl
  · rw [podDone_links, hBl, h1l]
    simp only [List.map_map]
    congr 1
    funext l
    simp only [Function.comp_apply]
    exact Link.setUp_withMTU_twice _ _ _

/-- The witness of C15: the construction of the example, twice. -/
theorem construct_twice_witness :
    (construct plainFmt exampleIMDS 9001 "veth5e1f3a9c" "0a:00:00:00:00:02" examplePod
      noRoutes 0 exampleHost).1 = some (.ok ()) ∧
    (construct plainFmt exampleIMDS 9001 "veth5e1f3a9c" "0a:00:00:00:00:02" examplePod noRoutes 0
      (construct plainFmt exampleIMDS 9001 "veth5e1f3a9c" "0a:00:00:00:00:02" examplePod
        noRoutes 0 exampleHost).2).1 = some (.ok ()) ∧
    (construct plainFmt exampleIMDS 9001 "veth5e1f3a9c" "0a:00:00:00:00:02" examplePod noRoutes 0
      (construct plainFmt exampleIMDS 9001 "veth5e1f3a9c" "0a:00:00:00:00:02" examplePod
        noRoutes 0 exampleHost).2).2.rules
      = (construct plainFmt exampleIMDS 9001 "veth5e1f3a9c" "0a:00:00:00:00:02" examplePod
          noRoutes 0 exampleHost).2.rules :=
  ⟨by decide,
    (construct_twice plainFmt exampleIMDS 9001 "veth5e1f3a9c" "0a:00:00:00:00:02" examplePod
      noRoutes 0 exampleHost (by decide)).1,
    (construct_twice plainFmt exampleIMDS 9001 "veth5e1f3a9c" "0a:00:00:00:00:02" examplePod
      noRoutes 0 exampleHost (by decide)).2.1⟩

end IMDSPtp

namespace IMDSPtp

open IMDSIpam

/-! ## The ENI that owns a pod address -/

/-- The scan `macloop`, when every fetch succeeds and no MAC is the empty
string: it returns the first MAC whose list has the address, and the empty
string exactly when no list has it. -/
theorem findENI_spec (getIPs : String → Except Error (List IP)) (target : IP)
    (macs : List String) (hfetch : ∀ mac ∈ macs, ∃ ips, getIPs mac = .ok ips)
    (hne : "" ∉ macs) :
    ∃ eniMAC, findENI getIPs target macs = .ok eniMAC ∧
      (eniMAC = "" ↔ ∀ mac ∈ macs, ∀ ips, getIPs mac = .ok ips →
        ips.any (fun ip => IP.Equal ip target) = false) ∧
      (eniMAC ≠ "" → ∃ pre post ips, macs = pre ++ eniMAC :: post ∧
        (∀ m ∈ pre, ∀ ips2, getIPs m = .ok ips2 →
          ips2.any (fun ip => IP.Equal ip target) = false) ∧
        getIPs eniMAC = .ok ips ∧ ips.any (fun ip => IP.Equal ip target) = true) := by
  induction macs with
  | nil =>
    refine ⟨"", rfl, ?_, ?_⟩
    · constructor
      · intro _ mac hm
        cases hm
      · intro _
        rfl
    · intro h
      exact absurd rfl h
  | cons mac rest ih =>
    obtain ⟨ips, hips⟩ := hfetch mac (List.mem_cons_self _ _)
    have hmac : mac ≠ "" := fun h => hne (h ▸ List.mem_cons_self _ _)
    by_cases hany : ips.any (fun ip => IP.Equal ip target) = true
    · refine ⟨mac, ?_, ?_, ?_⟩
      · simp only [findENI, hips, hany, if_true]
      · constructor
        · intro h
          exact absurd h hmac
        · intro h
          have := h mac (List.mem_cons_self _ _) ips hips
          rw [hany] at this
          cases this
      · intro _
        exact ⟨[], rest, ips, rfl, fun m hm => absurd hm (List.not_mem_nil m), hips, hany⟩
    · obtain ⟨eniMAC, hfind, hiff, hfirst⟩ :=
        ih (fun m hm => hfetch m (List.mem_cons_of_mem _ hm))
          (fun h => hne (List.mem_cons_of_mem _ h))
      have hany2 : ips.any (fun ip => IP.Equal ip target) = false := by
        simpa using hany
      refine ⟨eniMAC, ?_, ?_, ?_⟩
      · simp only [findENI, hips, hany2, Bool.false_eq_true, if_false]
        exact hfind
      · constructor
        · intro h m hm ips2 hips2
          rcases List.mem_cons.mp hm with rfl | hm
          · rw [hips] at hips2
            injection hips2 with hips2
            rw [← hips2]
            exact hany2
          · exact hiff.mp h m hm ips2 hips2
        · intro h
          exact hiff.mpr (fun m hm => h m (List.mem_cons_of_mem _ hm))
      · intro h
        obtain ⟨pre, post, ips3, hsplit, hpre, hget, hhas⟩ := hfirst h
        refine ⟨mac :: pre, post, ips3, by rw [hsplit]; rfl, ?_, hget, hhas⟩
        intro m hm ips2 hips2
        rcases List.mem_cons.mp hm with rfl | hm
        · rw [hips] at hips2
          injection hips2 with hips2
          rw [← hips2]
          exact hany2
        · exact hpre m hm ips2 hips2

/-- C14: for a pod address of the result, when the fetches of the metadata
succeed (and no MAC is the empty string, which the code takes for "not
found"), the step of `setupHostEni` for the address selects the first MAC, in
the order of the metadata, whose address list of the family of the pod address
has an address equal to it; the selection is empty exactly when no list has the
address; with an empty selection the step returns the error
`failed to find ENI for <address>` and leaves the kernel as it was; otherwise
the step goes on with the setup for the selected MAC. -/
theorem owning_eni (fmt : Fmt) (imds : EniIMDS) (mtu : Int) (vethName primaryMAC : String)
    (answers : Nat → Nat → Except Error (List Route)) (fuel : Nat) (ipc : IPConfig)
    (rest : List IPConfig) (n : Nat) (k : Kernel) (macs : List String)
    (hmacs : imds.GetMACs = .ok macs)
    (hfetch : ∀ mac ∈ macs, ∃ ips,
      (if To4 ipc.Address.IP ≠ [] then imds.GetLocalIPv4s else imds.GetIPv6s) mac = .ok ips)
    (hne : "" ∉ macs) :
    ∃ eniMAC,
      findENI (if To4 ipc.Address.IP ≠ [] then imds.GetLocalIPv4s else imds.GetIPv6s)
        ipc.Address.IP macs = .ok eniMAC ∧
      (eniMAC = "" ↔ ∀ mac ∈ macs, ∀ ips,
        (if To4 ipc.Address.IP ≠ [] then imds.GetLocalIPv4s else imds.GetIPv6s) mac = .ok ips →
        ips.any (fun ip => IP.Equal ip ipc.Address.IP) = false) ∧
      (eniMAC ≠ "" → ∃ pre post ips, macs = pre ++ eniMAC :: post ∧
        (∀ m ∈ pre, ∀ ips2,
          (if To4 ipc.Address.IP ≠ [] then imds.GetLocalIPv4s else imds.GetIPv6s) m = .ok ips2 →
          ips2.any (fun ip => IP.Equal ip ipc.Address.IP) = false) ∧
        (if To4 ipc.Address.IP ≠ [] then imds.GetLocalIPv4s else imds.GetIPv6s) eniMAC
          = .ok ips ∧
        ips.any (fun ip => IP.Equal ip ipc.Address.IP) = true) ∧
      (eniMAC = "" →
        setupHostEni.loop fmt imds mtu vethName primaryMAC answers fuel (ipc :: rest) n k
          = (some (.err (Error.Errorf ("failed to find ENI for " ++ fmt.ipnet ipc.Address))),
              k)) ∧
      (eniMAC ≠ "" →
        setupHostEni.loop fmt imds mtu vethName primaryMAC answers fuel (ipc :: rest) n k
          = (do
              setupHostEniIface fmt imds mtu vethName eniMAC
                (if To4 ipc.Address.IP ≠ [] then 4 else 6) (answers (2 * n)) fuel
              setupHostEniPodRoute fmt imds vethName eniMAC ipc
              if eniMAC ≠ primaryMAC then
                setupHostEniIface fmt imds mtu vethName primaryMAC
                  (if To4 ipc.Address.IP ≠ [] then 4 else 6) (answers (2 * n + 1)) fuel
              setupHostEni.loop fmt imds mtu vethName primaryMAC answers fuel rest (n + 1)) k) := by
  obtain ⟨eniMAC, hfind, hiff, hfirst⟩ := findENI_spec _ ipc.Address.IP macs hfetch hne
  refine ⟨eniMAC, hfind, hiff, hfirst, ?_, ?_⟩
  · intro he
    rw [setupHostEni.loop, hmacs, ofExcept_ok_bind, hfind, ofExcept_ok_bind, if_pos he]
    rfl
  · intro he
    rw [setupHostEni.loop, hmacs, ofExcept_ok_bind, hfind, ofExcept_ok_bind, if_neg he]

/-- The witness of C14: the pod address 10.0.1.9 is on the second ENI of the
example. -/
theorem owning_eni_witness :
    ∃ eniMAC,
      findENI (if To4 examplePod.Address.IP ≠ [] then exampleIMDS.GetLocalIPv4s
          else exampleIMDS.GetIPv6s)
        examplePod.Address.IP ["0a:00:00:00:00:01", "0a:00:00:00:00:02"] = .ok eniMAC ∧
      eniMAC = "0a:00:00:00:00:02" := by
  obtain ⟨eniMAC, hfind, -⟩ := owning_eni plainFmt exampleIMDS 9001 "veth5e1f3a9c"
    "0a:00:00:00:00:01" (fun _ => noRoutes) 0 examplePod [] 0 exampleHost
    ["0a:00:00:00:00:01", "0a:00:00:00:00:02"] rfl
    (by
      intro mac hm
      rw [if_pos (by decide)]
      simp only [exampleIMDS]
      split
      · exact ⟨_, rfl⟩
      · exact ⟨_, rfl⟩)
    (by decide)
  refine ⟨eniMAC, hfind, ?_⟩
  have h2 : findENI (if To4 examplePod.Address.IP ≠ [] then exampleIMDS.GetLocalIPv4s
      else exampleIMDS.GetIPv6s)
      examplePod.Address.IP ["0a:00:00:00:00:01", "0a:00:00:00:00:02"]
      = .ok "0a:00:00:00:00:02" := by rfl
  rw [h2] at hfind
  injection hfind with hfind
  exact hfind.symm

end IMDSPtp

namespace IMDSPtp

open IMDSIpam

/-! ## The IPv4 gateway of an ENI -/

theorem even_or_one (x : Nat) (h : x % 2 = 0) : x ||| 1 = x + 1 := by
  apply Nat.eq_of_testBit_eq
  intro i
  cases i with
  | zero =>
    simp only [Nat.testBit_or, Nat.testBit_zero]
    have : (x + 1) % 2 = 1 := by omega
    simp [this]
  | succ i =>
    rw [Nat.testBit_or, Nat.testBit_succ, Nat.testBit_succ, Nat.testBit_succ]
    have h1 : (x + 1) / 2 = x / 2 := by omega
    have h2 : (1 / 2 : Nat) = 0 := by decide
    rw [h1, h2]
    simp

theorem and_even_mod (d m : Nat) (hm : m % 2 = 0) : (d &&& m) % 2 = 0 := by
  have h : (d &&& m) &&& 1 = 0 := by
    rw [Nat.and_assoc, Nat.and_one_is_mod, hm]
    simp
  simpa using h

theorem and_or_one (d m : Nat) (hm : m % 2 = 0) :
    (d &&& m) ||| 1 = (d &&& m) + 1 :=
  even_or_one _ (and_even_mod d m hm)

theorem and_or_one_and (d m : Nat) (hm : m % 2 = 0) :
    ((d &&& m) ||| 1) &&& m = d &&& m := by
  apply Nat.eq_of_testBit_eq
  intro i
  simp only [Nat.testBit_and, Nat.testBit_or]
  cases i with
  | zero =>
    have : m.testBit 0 = false := by
      simp [Nat.testBit_zero, hm]
    simp [this]
  | succ i =>
    have : Nat.testBit 1 (i + 1) = false := by
      simp [Nat.testBit_succ]
    simp [this]

/-- The masks of IPv4 prefixes: four bytes, the last of them even unless the
prefix has all 32 bits. -/
theorem CIDRMask_32 (ones : Nat) (h : ones ≤ 32) :
    ∃ m0 m1 m2 m3, CIDRMask ones 32 = [m0, m1, m2, m3] ∧ m3 < 256 ∧
      (ones ≤ 31 → m3 % 2 = 0) := by
  interval_cases ones <;> refine ⟨_, _, _, _, rfl, ?_, ?_⟩ <;> decide


theorem Mask_four (a b c d m0 m1 m2 m3 : Nat) :
    IP.Mask [a, b, c, d] [m0, m1, m2, m3] = [a &&& m0, b &&& m1, c &&& m2, d &&& m3] := by
  simp [IP.Mask]

theorem gatewayIPv4_four (a b c d m0 m1 m2 m3 : Nat) :
    gatewayIPv4 { IP := [a, b, c, d], Mask := [m0, m1, m2, m3] } =
      .ok [a &&& m0, b &&& m1, c &&& m2, (d &&& m3) ||| 1] := by
  simp [gatewayIPv4, Mask_four]

/-- C12: for every IPv4 subnet CIDR, the gateway of the ENI's default route is
the base address of the subnet with the lowest bit of its last byte set; for a
prefix of at most 31 bits it is the base address plus one and lies inside the
subnet; and the subnet route that `setupHostEniIface` builds next to it has
the subnet itself, as the metadata gave it, as its destination. -/
theorem gateway_ipv4 (a b c d ones : Nat) (hones : ones ≤ 32) :
    (∃ x y z w, IP.Mask [a, b, c, d] (CIDRMask ones 32) = [x, y, z, w] ∧
      gatewayIPv4 { IP := [a, b, c, d], Mask := CIDRMask ones 32 } =
        .ok [x, y, z, w ||| 1]) ∧
    (ones ≤ 31 →
      ∃ gw, gatewayIPv4 { IP := [a, b, c, d], Mask := CIDRMask ones 32 } = .ok gw ∧
        ipToNat gw = ipToNat (IP.Mask [a, b, c, d] (CIDRMask ones 32)) + 1 ∧
        IPNet.Contains { IP := [a, b, c, d], Mask := CIDRMask ones 32 } gw = true) ∧
    (∀ (gw : IP) (tableIdx : Int) (eniIface : NetInterface) (defaultRoute : IPNet),
      gatewayIPv4 { IP := [a, b, c, d], Mask := CIDRMask ones 32 } = .ok gw →
      (eniRoutes tableIdx eniIface { IP := [a, b, c, d], Mask := CIDRMask ones 32 }
          defaultRoute gw).map (fun r => (r.Dst, r.Gw)) =
        [(some { IP := [a, b, c, d], Mask := CIDRMask ones 32 }, []),
         (some defaultRoute, gw)]) := by
  obtain ⟨m0, m1, m2, m3, hm, _, heven⟩ := CIDRMask_32 ones hones
  rw [hm]
  refine ⟨⟨_, _, _, _, Mask_four a b c d m0 m1 m2 m3, gatewayIPv4_four a b c d m0 m1 m2 m3⟩,
    ?_, ?_⟩
  · intro h31
    have he := heven h31
    refine ⟨_, gatewayIPv4_four a b c d m0 m1 m2 m3, ?_, ?_⟩
    · rw [Mask_four, and_or_one d m3 he]
      simp only [ipToNat, List.foldl_cons, List.foldl_nil]
      omega
    · simp [IPNet.Contains, To4, Nat.and_assoc, and_or_one_and d m3 he]
  · intro gw tableIdx eniIface defaultRoute _
    simp [eniRoutes]

end IMDSPtp

namespace IMDSPtp

open IMDSIpam

/-! ## The IPv6 router discovery -/

/-- Queries whose lists have no usable default route are passed over. -/
theorem pollGateway_skip (linkName : String) (answers : Nat → Except Error (List Route)) :
    ∀ (k s fuel : Nat),
      (∀ m, s ≤ m → m < s + k → ∃ routes, answers m = .ok routes ∧
        routes.find? (fun r => isDefaultRoute r.Dst && !IsUnspecified r.Gw) = none) →
      pollGateway linkName answers (fuel + k) s = pollGateway linkName answers fuel (s + k)
  | 0, s, fuel, _ => by simp
  | k + 1, s, fuel, h => by
    obtain ⟨routes, hans, hnone⟩ := h s (Nat.le_refl s) (by omega)
    have hstep : pollGateway linkName answers (fuel + (k + 1)) s =
        pollGateway linkName answers (fuel + k) (s + 1) := by
      rw [show fuel + (k + 1) = (fuel + k) + 1 by omega, pollGateway, hans]
      simp only [hnone]
    rw [hstep, pollGateway_skip linkName answers k (s + 1) fuel
      (fun m h1 h2 => h m (by omega) (by omega))]
    congr 1
    omega

/-- C18, the claim as stated, fails: for every number of queries there are
answers of the kernel, the empty list every time, after which the poll is
still running. -/
theorem pollGateway_unbounded :
    ¬ ∃ N : Nat, ∀ answers : Nat → Except Error (List Route),
      pollGateway "eth1" answers N 0 ≠ none := by
  rintro ⟨N, h⟩
  apply h (fun _ => .ok [])
  have := pollGateway_skip "eth1" (fun _ => .ok []) N 0 0
    (fun m _ _ => ⟨[], rfl, rfl⟩)
  simp only [Nat.zero_add] at this
  rw [this]
  rfl

/-- C18, as amended: the poll has no bound on its queries. When query `n` is
the first that fails or whose list has a default route with a gateway other
than the unspecified address, the poll is still running after `n` queries or
fewer, and ends with query `n`: with the error of the listing, or with the
gateway of the first such route of the list. -/
theorem pollGateway_first (linkName : String) (answers : Nat → Except Error (List Route))
    (n : Nat)
    (hpre : ∀ m, m < n → ∃ routes, answers m = .ok routes ∧
      routes.find? (fun r => isDefaultRoute r.Dst && !IsUnspecified r.Gw) = none) :
    (∀ fuel, fuel ≤ n → pollGateway linkName answers fuel 0 = none) ∧
    (∀ fuel, n < fuel →
      (∀ e, answers n = .error e →
        pollGateway linkName answers fuel 0 = some (.error (Error.Errorf
          ("failed to list routes on " ++ linkName ++ ": " ++ e.message)))) ∧
      (∀ before r after, answers n = .ok (before ++ r :: after) →
        (∀ x ∈ before, (isDefaultRoute x.Dst && !IsUnspecified x.Gw) = false) →
        (isDefaultRoute r.Dst && !IsUnspecified r.Gw) = true →
        pollGateway linkName answers fuel 0 = some (.ok r.Gw))) := by
  constructor
  · intro fuel hle
    have := pollGateway_skip linkName answers fuel 0 0
      (fun m _ h2 => hpre m (by omega))
    simp only [Nat.zero_add] at this
    rw [this]
    rfl
  · intro fuel hlt
    obtain ⟨f, rfl⟩ : ∃ f, fuel = (f + 1) + n := ⟨fuel - n - 1, by omega⟩
    have hskip := pollGateway_skip linkName answers n 0 (f + 1)
      (fun m _ h2 => hpre m (by omega))
    simp only [Nat.zero_add] at hskip
    rw [hskip]
    constructor
    · intro e he
      rw [pollGateway, he]
    · intro before r after hans hbefore hr
      rw [pollGateway, hans]
      have hfind : (before ++ r :: after).find?
          (fun r => isDefaultRoute r.Dst && !IsUnspecified r.Gw) = some r := by
        rw [List.find?_append]
        have hnone : before.find? (fun r => isDefaultRoute r.Dst && !IsUnspecified r.Gw) =
            none := by
          rw [List.find?_eq_none]
          intro x hx
          simp [hbefore x hx]
        rw [hnone]
        simp [hr]
      simp only [hfind]

end IMDSPtp

namespace IMDSPtp

open IMDSIpam

/-! ## CHECK of imds-ptp -/

theorem validate_cases (intf : Interface) (k : Kernel) :
    validateCniContainerInterface intf k =
      if intf.Name = "" then
        (some (.err (Error.Errorf
          ("container interface name missing in prevResult: " ++ intf.Name))), k)
      else
        match k.links.find? (fun l => l.Name == intf.Name) with
        | none =>
          (some (.err (Error.Errorf
            ("ptp: Container Interface name in prevResult: " ++ intf.Name ++ " not found"))), k)
        | some link =>
          if intf.Sandbox = "" then
            (some (.err (Error.Errorf ("ptp: Error: Container interface " ++ link.Name ++
              " should not be in host namespace"))), k)
          else if link.Veth = false then
            (some (.err (Error.Errorf
              ("container interface " ++ link.Name ++ " not of type veth/p2p"))), k)
          else if intf.Mac ≠ "" ∧ intf.Mac ≠ link.HardwareAddr then
            (some (.err (Error.Errorf ("ptp: Interface " ++ intf.Name ++ " Mac " ++ intf.Mac ++
              " doesn't match container Mac: " ++ link.HardwareAddr))), k)
          else (some (.ok ()), k) := by
  unfold validateCniContainerInterface
  by_cases hn : intf.Name = ""
  · simp only [hn, if_true]
    rfl
  · simp only [hn, if_false, Step.bind_apply, Step.mapErr, LinkByName]
    cases hf : k.links.find? (fun l => l.Name == intf.Name) with
    | none => rfl
    | some link =>
      simp only
      by_cases hs : intf.Sandbox = ""
      · simp only [hs, if_true]; rfl
      · by_cases hv : link.Veth = false
        · simp only [hs, hv, if_false, if_true]
          rfl
        · have hv' : link.Veth = true := by simpa using hv
          by_cases hm : intf.Mac ≠ "" ∧ intf.Mac ≠ link.HardwareAddr
          · simp only [hs, hv', if_false, if_pos hm]
            simp
            rfl
          · simp only [hs, hv', if_false, if_neg hm]
            simp
            rfl


theorem findContMap_cases (ifName netns : String) :
    ∀ (interfaces : List Interface) (contMap : Interface),
      findContMap ifName netns interfaces contMap = contMap ∨
      ((findContMap ifName netns interfaces contMap).Name = ifName ∧
        (findContMap ifName netns interfaces contMap).Sandbox = netns)
  | [], contMap => Or.inl rfl
  | intf :: rest, contMap => by
    by_cases h : ifName = intf.Name ∧ netns = intf.Sandbox
    · rw [findContMap, if_pos h]
      rcases findContMap_cases ifName netns rest intf with heq | hfound
      · right
        rw [heq]
        exact ⟨h.1.symm, h.2.symm⟩
      · exact Or.inr hfound
    · rw [findContMap, if_neg h]
      exact findContMap_cases ifName netns rest contMap

/-- Without a name, or without a link of its name, the validation of an
interface fails. -/
theorem validate_absent (intf : Interface) (k : Kernel)
    (habs : intf.Name = "" ∨ k.links.find? (fun l => l.Name == intf.Name) = none) :
    ∃ e, validateCniContainerInterface intf k = (some (.err e), k) := by
  rw [validate_cases]
  by_cases hn : intf.Name = ""
  · exact ⟨_, by rw [if_pos hn]⟩
  · rcases habs with h | h
    · exact absurd h hn
    · exact ⟨_, by rw [if_neg hn, h]⟩

/-- The error of `cmdCheck` when the namespace has no link named `ifName`. -/
theorem cmdCheck_absent (env : CheckEnv) (ifName netns : String) (k : Kernel)
    (habs : k.links.find? (fun l => l.Name == ifName) = none) :
    ∃ e, cmdCheck env ifName netns k = (some (.err e), k) := by
  unfold cmdCheck
  cases h1 : env.loadConf with
  | some e => exact ⟨_, rfl⟩
  | none =>
    cases h2 : env.GetNS with
    | some e => exact ⟨_, rfl⟩
    | none =>
      cases h3 : env.ExecCheck with
      | some e => exact ⟨_, rfl⟩
      | none =>
        cases h4 : env.RawPrevResultNil with
        | true => exact ⟨_, rfl⟩
        | false =>
          cases h5 : env.ParsePrevResult with
          | some e => exact ⟨_, rfl⟩
          | none =>
            cases h6 : env.NewResultFromResult with
            | error e => exact ⟨_, rfl⟩
            | ok interfaces =>
              simp only [Bool.false_eq_true, if_false]
              by_cases hs : netns ≠ (findContMap ifName netns interfaces {}).Sandbox
              · rw [if_pos hs]
                exact ⟨_, rfl⟩
              · rw [if_neg hs]
                have habs' : (findContMap ifName netns interfaces {}).Name = "" ∨
                    k.links.find?
                      (fun l => l.Name == (findContMap ifName netns interfaces {}).Name) =
                        none := by
                  rcases findContMap_cases ifName netns interfaces {} with heq | ⟨hname, _⟩
                  · left
                    rw [heq]
                  · right
                    rw [hname]
                    exact habs
                obtain ⟨e, he⟩ := validate_absent _ k habs'
                exact ⟨e, by rw [Step.bind_apply, he]⟩


/-- C19: `validateCniContainerInterface` returns an error exactly when the
recorded name is empty, or no link of that name exists, or the recorded
sandbox is empty, or the link is not a veth, or a recorded MAC that is not
empty differs from the MAC of the link; it returns no error otherwise, and it
leaves the kernel as it was. And the CHECK of imds-ptp fails whenever the
namespace has no link with the name of the call; when the previous result
records the interface, the error is the one that names it. -/
theorem validate_spec (intf : Interface) (k : Kernel) :
    (validateCniContainerInterface intf k).2 = k ∧
    ((validateCniContainerInterface intf k).1 = some (.ok ()) ∨
      ∃ e, (validateCniContainerInterface intf k).1 = some (.err e)) ∧
    ((∃ e, (validateCniContainerInterface intf k).1 = some (.err e)) ↔
      (intf.Name = "" ∨
        k.links.find? (fun l => l.Name == intf.Name) = none ∨
        intf.Sandbox = "" ∨
        (∃ link, k.links.find? (fun l => l.Name == intf.Name) = some link ∧
          link.Veth = false) ∨
        (∃ link, k.links.find? (fun l => l.Name == intf.Name) = some link ∧
          intf.Mac ≠ "" ∧ intf.Mac ≠ link.HardwareAddr))) ∧
    (∀ (env : CheckEnv) (ifName netns : String),
      k.links.find? (fun l => l.Name == ifName) = none →
      (∃ e, cmdCheck env ifName netns k = (some (.err e), k)) ∧
      (∀ interfaces, env.loadConf = none → env.GetNS = none → env.ExecCheck = none →
        env.RawPrevResultNil = false → env.ParsePrevResult = none →
        env.NewResultFromResult = .ok interfaces → ifName ≠ "" →
        (∃ mac, { Name := ifName, Mac := mac, Sandbox := netns } ∈ interfaces) →
        cmdCheck env ifName netns k =
          (some (.err (Error.Errorf
            ("ptp: Container Interface name in prevResult: " ++ ifName ++ " not found"))),
            k))) := by
  rw [validate_cases]
  refine ⟨?_, ?_, ?_, ?_⟩
  · split
    · rfl
    · split
      · rfl
      · split
        · rfl
        · split
          · rfl
          · split <;> rfl
  · split
    · exact Or.inr ⟨_, rfl⟩
    · split
      · exact Or.inr ⟨_, rfl⟩
      · split
        · exact Or.inr ⟨_, rfl⟩
        · split
          · exact Or.inr ⟨_, rfl⟩
          · split
            · exact Or.inr ⟨_, rfl⟩
            · exact Or.inl rfl
  · by_cases hn : intf.Name = ""
    · simp [hn]
    · rw [if_neg hn]
      cases hf : k.links.find? (fun l => l.Name == intf.Name) with
      | none => simp
      | some link =>
        simp only
        by_cases hs : intf.Sandbox = ""
        · simp [hs]
        · rw [if_neg hs]
          by_cases hv : link.Veth = false
          · simp [hv]
          · rw [if_neg hv]
            by_cases hm : intf.Mac ≠ "" ∧ intf.Mac ≠ link.HardwareAddr
            · rw [if_pos hm]
              simp [hn, hs, hm]
            · rw [if_neg hm]
              simp only [hn, hs, false_or, Option.some.injEq, exists_eq_left']
              constructor
              · rintro ⟨e, he⟩
                cases he
              · rintro (h | h | h)
                · cases h
                · exact absurd h hv
                · exact absurd h hm
  · intro env ifName netns habs
    refine ⟨cmdCheck_absent env ifName netns k habs, ?_⟩
    intro interfaces h1 h2 h3 h4 h5 h6 hne ⟨mac, hmem⟩
    have hfound : (findContMap ifName netns interfaces {}).Name = ifName ∧
        (findContMap ifName netns interfaces {}).Sandbox = netns := by
      have hgen : ∀ (l : List Interface) (c : Interface),
          ({ Name := ifName, Mac := mac, Sandbox := netns } : Interface) ∈ l →
          (findContMap ifName netns l c).Name = ifName ∧
            (findContMap ifName netns l c).Sandbox = netns := by
        intro l
        induction l with
        | nil => intro c hc; simp at hc
        | cons x rest ih =>
          intro c hc
          by_cases hx : ifName = x.Name ∧ netns = x.Sandbox
          · rw [findContMap, if_pos hx]
            rcases findContMap_cases ifName netns rest x with heq | hf
            · rw [heq]; exact ⟨hx.1.symm, hx.2.symm⟩
            · exact hf
          · rw [findContMap, if_neg hx]
            rcases List.mem_cons.1 hc with heq | hrest
            · exfalso
              apply hx
              rw [← heq]
              exact ⟨rfl, rfl⟩
            · exact ih c hrest
      exact hgen interfaces {} hmem
    unfold cmdCheck
    simp only [h1, h2, h3, h4, h5, h6, Bool.false_eq_true, if_false]
    rw [if_neg (by rw [hfound.2]; exact fun h => h rfl)]
    rw [Step.bind_apply, validate_cases, if_neg (by rw [hfound.1]; exact hne), hfound.1, habs]

end IMDSPtp

namespace EgressV4

open IMDSIpam IMDSPtp

/-! ## The routes of the NAT link -/

theorem RouteAdd_cases (r : Route) (k : Kernel) :
    (∃ e, RouteAdd r k = (some (.ok (some e)), k)) ∨
    (k.routes r.key = none ∧
      RouteAdd r k =
        (some (.ok none), (k.setRoute r.key (some r)).record (Event.RouteAdd r))) := by
  unfold RouteAdd
  split
  · exact Or.inl ⟨_, rfl⟩
  · split
    · exact Or.inl ⟨_, rfl⟩
    · rename_i h
      exact Or.inr ⟨by simpa using h, rfl⟩

theorem RouteDel_cases (r : Route) (k : Kernel) :
    (∃ e, RouteDel r k = (some (.ok (some e)), k)) ∨
    ((∃ x, k.routes r.key = some x ∧ r.matches x = true) ∧
      RouteDel r k =
        (some (.ok none), (k.setRoute r.key none).record (Event.RouteDel r.key))) := by
  unfold RouteDel
  split
  · exact Or.inl ⟨_, rfl⟩
  · rename_i x hx
    split
    · rename_i hm
      exact Or.inr ⟨⟨x, hx, hm⟩, rfl⟩
    · exact Or.inl ⟨_, rfl⟩

/-- One turn of the loop of `setupContainerVeth`, when it succeeds: a route
with the key of the subnet was there and matched, no route had the key of the
gateway, and the kernel after the turn is the kernel before it with the first
route removed and the two routes added. -/
theorem replaceAutoRoute_ok (fmt : Fmt) (contVeth : NetInterface) (ipc : IPConfig)
    (k k1 : Kernel)
    (h : replaceAutoRoute fmt contVeth ipc k = (some (.ok ()), k1)) :
    (∃ x, k.routes (autoRoute contVeth ipc).key = some x ∧
      (autoRoute contVeth ipc).matches x = true) ∧
    (gatewayRoute contVeth ipc).key ≠ (subnetRoute contVeth ipc).key ∧
    k.routes (gatewayRoute contVeth ipc).key = none ∧
    k1 = (((((k.setRoute (autoRoute contVeth ipc).key none).record
        (Event.RouteDel (autoRoute contVeth ipc).key)).setRoute
          (gatewayRoute contVeth ipc).key (some (gatewayRoute contVeth ipc))).record
        (Event.RouteAdd (gatewayRoute contVeth ipc))).setRoute
          (subnetRoute contVeth ipc).key (some (subnetRoute contVeth ipc))).record
        (Event.RouteAdd (subnetRoute contVeth ipc)) := by
  have hkey : (autoRoute contVeth ipc).key = (subnetRoute contVeth ipc).key := rfl
  unfold replaceAutoRoute at h
  rw [Step.bind_apply] at h
  rcases RouteDel_cases (autoRoute contVeth ipc) k with ⟨e, hd⟩ | ⟨hx, hd⟩
  · rw [hd] at h
    cases h
  · rw [hd] at h
    simp only [addRoutes, Step.bind_apply] at h
    rcases RouteAdd_cases (gatewayRoute contVeth ipc)
        ((k.setRoute (autoRoute contVeth ipc).key none).record
          (Event.RouteDel (autoRoute contVeth ipc).key)) with ⟨e, ha⟩ | ⟨hfree, ha⟩
    · rw [ha] at h
      cases h
    · rw [ha] at h
      simp only [addRoutes, Step.bind_apply] at h
      rcases RouteAdd_cases (subnetRoute contVeth ipc)
          ((((k.setRoute (autoRoute contVeth ipc).key none).record
            (Event.RouteDel (autoRoute contVeth ipc).key)).setRoute
              (gatewayRoute contVeth ipc).key (some (gatewayRoute contVeth ipc))).record
            (Event.RouteAdd (gatewayRoute contVeth ipc))) with ⟨e, hb⟩ | ⟨hfree2, hb⟩
      · rw [hb] at h
        cases h
      · rw [hb] at h
        simp only [Step.ret] at h
        have hne : (gatewayRoute contVeth ipc).key ≠ (subnetRoute contVeth ipc).key := by
          intro heq
          simp [heq] at hfree2
        have hgone : k.routes (gatewayRoute contVeth ipc).key = none := by
          simpa [hkey, hne] using hfree
        refine ⟨hx, hne, hgone, ?_⟩
        cases h
        rfl


/-- The first turn of the loop of `setupContainerVeth` and the turns after
it. -/
theorem replaceAutoRoutes_cons_ok (fmt : Fmt) (contVeth : NetInterface) (ipc : IPConfig)
    (rest : List IPConfig) (k k1 : Kernel)
    (h : replaceAutoRoutes fmt contVeth (ipc :: rest) k = (some (.ok ()), k1)) :
    ∃ km, replaceAutoRoute fmt contVeth ipc k = (some (.ok ()), km) ∧
      replaceAutoRoutes fmt contVeth rest km = (some (.ok ()), k1) := by
  unfold replaceAutoRoutes at h
  obtain ⟨a, k2, h1, h2⟩ := Step.bind_ok h
  exact ⟨k2, h1, h2⟩

/-- The turns of the loop of `setupContainerVeth` for the first addresses of a
list and the turns for the addresses after them. -/
theorem replaceAutoRoutes_append_ok (fmt : Fmt) (contVeth : NetInterface) :
    ∀ (pre post : List IPConfig) (k k1 : Kernel),
      replaceAutoRoutes fmt contVeth (pre ++ post) k = (some (.ok ()), k1) →
      ∃ km, replaceAutoRoutes fmt contVeth pre k = (some (.ok ()), km) ∧
        replaceAutoRoutes fmt contVeth post km = (some (.ok ()), k1)
  | [], post, k, k1, h => ⟨k, rfl, h⟩
  | p :: pre, post, k, k1, h => by
    rw [List.cons_append] at h
    obtain ⟨kp, hp, hrest⟩ := replaceAutoRoutes_cons_ok fmt contVeth p _ k k1 h
    obtain ⟨km, hpre, hpost⟩ := replaceAutoRoutes_append_ok fmt contVeth pre post kp k1 hrest
    refine ⟨km, ?_, hpost⟩
    unfold replaceAutoRoutes
    rw [Step.bind_of_ok hp]
    exact hpre

/-- The routes after one successful turn of the loop of `setupContainerVeth`:
the two routes of the address, and every route of another key as before. -/
theorem replaceAutoRoute_routes (fmt : Fmt) (contVeth : NetInterface) (ipc : IPConfig)
    (k k1 : Kernel)
    (h : replaceAutoRoute fmt contVeth ipc k = (some (.ok ()), k1)) :
    k1.routes (gatewayRoute contVeth ipc).key = some (gatewayRoute contVeth ipc) ∧
    k1.routes (subnetRoute contVeth ipc).key = some (subnetRoute contVeth ipc) ∧
    (∀ key, key ≠ (gatewayRoute contVeth ipc).key → key ≠ (subnetRoute contVeth ipc).key →
      k1.routes key = k.routes key) ∧
    k1.log = k.log ++ [Event.RouteDel (subnetRoute contVeth ipc).key,
      Event.RouteAdd (gatewayRoute contVeth ipc), Event.RouteAdd (subnetRoute contVeth ipc)] := by
  obtain ⟨-, hne, -, hstate⟩ := replaceAutoRoute_ok fmt contVeth ipc k k1 h
  have hkey : (autoRoute contVeth ipc).key = (subnetRoute contVeth ipc).key := rfl
  refine ⟨?_, ?_, ?_, ?_⟩
  · rw [hstate]
    simp only [Kernel.record_routes, Kernel.setRoute_routes, if_neg hne, if_true]
  · rw [hstate]
    simp only [Kernel.record_routes, Kernel.setRoute_routes, if_true]
  · intro key h1 h2
    rw [hstate]
    simp only [Kernel.record_routes, Kernel.setRoute_routes, if_neg h1, if_neg h2, hkey]
  · rw [hstate]
    simp only [Kernel.record_log, Kernel.setRoute_log, hkey, List.append_assoc,
      List.singleton_append, List.cons_append, List.nil_append]

/-- A route stays through a successful turn of the loop for an address of
another subnet: the turn deletes the route of the key of its subnet only, and
adds routes under keys that are free. -/
theorem replaceAutoRoute_keeps (fmt : Fmt) (contVeth : NetInterface) (ipc : IPConfig)
    (k k1 : Kernel) (key : RouteKey) (r : Route)
    (h : replaceAutoRoute fmt contVeth ipc k = (some (.ok ()), k1))
    (hkey : key ≠ (subnetRoute contVeth ipc).key) (hr : k.routes key = some r) :
    k1.routes key = some r := by
  obtain ⟨-, -, hfree, -⟩ := replaceAutoRoute_ok fmt contVeth ipc k k1 h
  have hgw : key ≠ (gatewayRoute contVeth ipc).key := by
    intro heq
    rw [heq, hfree] at hr
    cases hr
  rw [(replaceAutoRoute_routes fmt contVeth ipc k k1 h).2.2.1 key hgw hkey]
  exact hr

/-- A route stays through the successful turns of the loop for addresses of
other subnets. -/
theorem replaceAutoRoutes_keeps (fmt : Fmt) (contVeth : NetInterface) (key : RouteKey)
    (r : Route) :
    ∀ (post : List IPConfig) (k k1 : Kernel),
      replaceAutoRoutes fmt contVeth post k = (some (.ok ()), k1) →
      (∀ q ∈ post, key ≠ (subnetRoute contVeth q).key) → k.routes key = some r →
      k1.routes key = some r
  | [], k, k1, h, _, hr => by
    simp only [replaceAutoRoutes, Step.ret] at h
    cases h
    exact hr
  | p :: post, k, k1, h, hkeys, hr => by
    obtain ⟨kp, hp, hrest⟩ := replaceAutoRoutes_cons_ok fmt contVeth p post k k1 h
    exact replaceAutoRoutes_keeps fmt contVeth key r post kp k1 hrest
      (fun q hq => hkeys q (List.mem_cons_of_mem _ hq))
      (replaceAutoRoute_keeps fmt contVeth p k kp key r hp
        (hkeys p (List.mem_cons_self _ _)) hr)

/-- The route to a subnet after the successful turns of the loop for later
addresses: the route to the subnet of the last address of that subnet, through
the gateway of that address. -/
theorem replaceAutoRoutes_subnet (fmt : Fmt) (contVeth : NetInterface) :
    ∀ (post : List IPConfig) (q0 : IPConfig) (k k1 : Kernel),
      replaceAutoRoutes fmt contVeth post k = (some (.ok ()), k1) →
      k.routes (subnetRoute contVeth q0).key = some (subnetRoute contVeth q0) →
      ∃ q ∈ q0 :: post, (subnetRoute contVeth q).key = (subnetRoute contVeth q0).key ∧
        k1.routes (subnetRoute contVeth q0).key = some (subnetRoute contVeth q)
  | [], q0, k, k1, h, hr => by
    simp only [replaceAutoRoutes, Step.ret] at h
    cases h
    exact ⟨q0, List.mem_cons_self _ _, rfl, hr⟩
  | p :: post, q0, k, k1, h, hr => by
    obtain ⟨kp, hp, hrest⟩ := replaceAutoRoutes_cons_ok fmt contVeth p post k k1 h
    by_cases hsame : (subnetRoute contVeth p).key = (subnetRoute contVeth q0).key
    · obtain ⟨q, hq, hqkey, hfinal⟩ := replaceAutoRoutes_subnet fmt contVeth post p kp k1 hrest
        (replaceAutoRoute_routes fmt contVeth p k kp hp).2.1
      refine ⟨q, List.mem_cons_of_mem _ hq, hqkey.trans hsame, ?_⟩
      rw [← hsame]
      exact hfinal
    · have hkept := replaceAutoRoute_keeps fmt contVeth p k kp _ _ hp (Ne.symm hsame) hr
      obtain ⟨q, hq, hqkey, hfinal⟩ :=
        replaceAutoRoutes_subnet fmt contVeth post q0 kp k1 hrest hkept
      refine ⟨q, ?_, hqkey, hfinal⟩
      rcases List.mem_cons.1 hq with rfl | hq
      · exact List.mem_cons_self _ _
      · exact List.mem_cons_of_mem _ (List.mem_cons_of_mem _ hq)

/-- The changes of routes that the successful turns of the loop make, in
their order: for each address, the deletion of the route to its subnet and the
addition of its two routes. -/
theorem replaceAutoRoutes_log (fmt : Fmt) (contVeth : NetInterface) :
    ∀ (ips : List IPConfig) (k k1 : Kernel),
      replaceAutoRoutes fmt contVeth ips k = (some (.ok ()), k1) →
      k1.log = k.log ++ (ips.map (fun ipc =>
        [Event.RouteDel (subnetRoute contVeth ipc).key,
          Event.RouteAdd (gatewayRoute contVeth ipc),
          Event.RouteAdd (subnetRoute contVeth ipc)])).flatten
  | [], k, k1, h => by
    simp only [replaceAutoRoutes, Step.ret] at h
    cases h
    simp
  | p :: rest, k, k1, h => by
    obtain ⟨kp, hp, hrest⟩ := replaceAutoRoutes_cons_ok fmt contVeth p rest k k1 h
    rw [replaceAutoRoutes_log fmt contVeth rest kp k1 hrest,
      (replaceAutoRoute_routes fmt contVeth p k kp hp).2.2.2]
    simp

/-- C20, as amended: for each IPAM address a/m with gateway g of the result,
`pre` and `post` being the addresses before it and after it, a successful
`setupContainerVeth` of egress-v4 has, in the turn of its loop for a/m,
deleted the route to the subnet of a/m that was there and added exactly two
routes on the new link: a link-scope host route to g (/32 for IPv4, /128 for
IPv6) and a route to the subnet of a/m through g, of universe scope. The
second is not a default route: its destination is the subnet of a/m. Every
other route is as it was before the turn, and the changes of routes of the
whole call are these three, for each address in its order. At the end a route
to the subnet of a/m is there: the one through the gateway of the last address
of that subnet. When no later address has for its subnet the subnet of a/m or
the host route of g, the two routes of a/m are there at the end. -/
theorem container_routes (fmt : Fmt) (lib : VethLib) (netns ifName : String) (mtu : Int)
    (pr : Result) (pre : List IPConfig) (ipc : IPConfig) (post : List IPConfig)
    (k k1 : Kernel) (res : Interface × Interface × Result)
    (hips : pr.IPs = pre ++ ipc :: post)
    (h : setupContainerVeth fmt lib netns ifName mtu pr k = (some (.ok res), k1)) :
    ∃ (veths : NetInterface × NetInterface) (ka kb : Kernel) (link : Link) (km kn : Kernel),
      lib.SetupVeth ifName mtu k = (some (.ok veths), ka) ∧
      (∃ pr1, lib.ConfigureIface ifName pr1 ka = (some (.ok ()), kb)) ∧
      kb.links.find? (fun l => l.Name == ifName) = some link ∧
      replaceAutoRoutes fmt link.toInterface
        (pre.map (fun q => { q with Interface := some 1 })) kb = (some (.ok ()), km) ∧
      replaceAutoRoute fmt link.toInterface ipc km = (some (.ok ()), kn) ∧
      replaceAutoRoutes fmt link.toInterface
        (post.map (fun q => { q with Interface := some 1 })) kn = (some (.ok ()), k1) ∧
      (∃ x, km.routes (subnetRoute link.toInterface ipc).key = some x ∧
        (link.Index ≠ 0 → x.LinkIndex = link.Index)) ∧
      kn.routes (gatewayRoute link.toInterface ipc).key =
        some { LinkIndex := link.Index,
               Dst := some { IP := ipc.Gateway,
                             Mask := if To4 ipc.Address.IP ≠ [] then CIDRMask 32 32
                                     else CIDRMask 128 128 },
               Scope := Scope.LINK, Src := ipc.Address.IP } ∧
      kn.routes (subnetRoute link.toInterface ipc).key =
        some { LinkIndex := link.Index,
               Dst := some { IP := IP.Mask ipc.Address.IP ipc.Address.Mask,
                             Mask := ipc.Address.Mask },
               Scope := Scope.UNIVERSE, Gw := ipc.Gateway, Src := ipc.Address.IP } ∧
      (∀ key, key ≠ (gatewayRoute link.toInterface ipc).key →
        key ≠ (subnetRoute link.toInterface ipc).key → kn.routes key = km.routes key) ∧
      kn.log = km.log ++ [Event.RouteDel (subnetRoute link.toInterface ipc).key,
        Event.RouteAdd (gatewayRoute link.toInterface ipc),
        Event.RouteAdd (subnetRoute link.toInterface ipc)] ∧
      k1.log = kb.log ++ (pr.IPs.map (fun q =>
        [Event.RouteDel (subnetRoute link.toInterface q).key,
          Event.RouteAdd (gatewayRoute link.toInterface q),
          Event.RouteAdd (subnetRoute link.toInterface q)])).flatten ∧
      (∃ q ∈ ipc :: post,
        (subnetRoute link.toInterface q).key = (subnetRoute link.toInterface ipc).key ∧
        k1.routes (subnetRoute link.toInterface ipc).key =
          some (subnetRoute link.toInterface q)) ∧
      ((∀ q ∈ post,
          (subnetRoute link.toInterface q).key ≠ (gatewayRoute link.toInterface ipc).key ∧
          (subnetRoute link.toInterface q).key ≠ (subnetRoute link.toInterface ipc).key) →
        k1.routes (gatewayRoute link.toInterface ipc).key =
          some (gatewayRoute link.toInterface ipc) ∧
        k1.routes (subnetRoute link.toInterface ipc).key =
          some (subnetRoute link.toInterface ipc)) := by
  unfold setupContainerVeth at h
  obtain ⟨veths, ka, hveth, h⟩ := Step.bind_ok h
  obtain ⟨u, kb, hconf, h⟩ := Step.bind_ok h
  obtain ⟨contVeth, kc, hlink, h⟩ := Step.bind_ok h
  obtain ⟨u2, kd, hroutes, h⟩ := Step.bind_ok h
  simp only [Step.ret] at h
  cases h
  have hl : ∃ link, kb.links.find? (fun l => l.Name == ifName) = some link ∧
      contVeth = link.toInterface ∧ kc = kb := by
    unfold InterfaceByName at hlink
    split at hlink
    · rename_i l hl
      cases hlink
      exact ⟨l, hl, rfl, rfl⟩
    · cases hlink
  obtain ⟨link, hfind, rfl, rfl⟩ := hl
  have hlog := replaceAutoRoutes_log fmt link.toInterface _ kc k1 hroutes
  rw [hips] at hroutes
  simp only [List.map_append, List.map_cons] at hroutes
  obtain ⟨km, hpre, hrest⟩ := replaceAutoRoutes_append_ok fmt link.toInterface _ _ kc k1 hroutes
  obtain ⟨kn, hturn, hpost⟩ := replaceAutoRoutes_cons_ok fmt link.toInterface _ _ km k1 hrest
  have hturn1 : replaceAutoRoute fmt link.toInterface ipc km = (some (.ok ()), kn) := hturn
  obtain ⟨⟨x, hx, hmatch⟩, hne, hfree, -⟩ := replaceAutoRoute_ok fmt _ _ _ _ hturn1
  obtain ⟨hgw, hsub, hframe, hturnlog⟩ := replaceAutoRoute_routes fmt _ _ _ _ hturn1
  refine ⟨veths, ka, kc, link, km, kn, hveth, ⟨_, hconf⟩, hfind, hpre, hturn1, hpost, ?_, hgw,
    hsub, hframe, hturnlog, ?_, ?_, ?_⟩
  · refine ⟨x, hx, ?_⟩
    intro hidx
    have hm : (link.Index == 0 || x.LinkIndex == link.Index) = true := by
      simp only [Route.matches, Bool.and_eq_true] at hmatch
      exact hmatch.1.1.1
    simpa [hidx] using hm
  · rw [hlog, List.map_map]
    rfl
  · obtain ⟨q, hq, hqkey, hfinal⟩ :=
      replaceAutoRoutes_subnet fmt link.toInterface _ ipc kn k1 hpost hsub
    rcases List.mem_cons.1 hq with rfl | hq
    · exact ⟨q, List.mem_cons_self _ _, hqkey, hfinal⟩
    · obtain ⟨q1, hq1, rfl⟩ := List.mem_map.1 hq
      exact ⟨q1, List.mem_cons_of_mem _ hq1, hqkey, hfinal⟩
  · intro hother
    have hkeys : ∀ key, (∀ q ∈ post, (subnetRoute link.toInterface q).key ≠ key) →
        ∀ q ∈ post.map (fun q => { q with Interface := some 1 }),
          key ≠ (subnetRoute link.toInterface q).key := by
      intro key hk q hq
      obtain ⟨q1, hq1, rfl⟩ := List.mem_map.1 hq
      exact Ne.symm (hk q1 hq1)
    exact ⟨replaceAutoRoutes_keeps fmt link.toInterface _ _ _ kn k1 hpost
        (hkeys _ (fun q hq => (hother q hq).1)) hgw,
      replaceAutoRoutes_keeps fmt link.toInterface _ _ _ kn k1 hpost
        (hkeys _ (fun q hq => (hother q hq).2)) hsub⟩

end EgressV4

namespace IMDSPtp

open IMDSIpam

/-- The witness of C12: the subnet 10.0.1.0/24 has the gateway 10.0.1.1. -/
theorem gateway_ipv4_witness :
    24 ≤ 32 ∧
    gatewayIPv4 { IP := [10, 0, 1, 0], Mask := CIDRMask 24 32 } = .ok [10, 0, 1, 1] ∧
    ∃ gw, gatewayIPv4 { IP := [10, 0, 1, 0], Mask := CIDRMask 24 32 } = .ok gw ∧
      ipToNat gw = ipToNat (IP.Mask [10, 0, 1, 0] (CIDRMask 24 32)) + 1 ∧
      IPNet.Contains { IP := [10, 0, 1, 0], Mask := CIDRMask 24 32 } gw = true :=
  ⟨by decide, by decide, (gateway_ipv4 10 0 1 0 24 (by decide)).2.1 (by decide)⟩

/-- The witness of C18: a kernel that learns its router with the third query. -/
theorem pollGateway_first_witness :
    pollGateway "eth1" raAnswers 2 0 = none ∧
    pollGateway "eth1" raAnswers 3 0
      = some (.ok [0xfe, 0x80, 0, 0, 0, 0, 0, 0, 0, 0, 0, 0, 0, 0, 0, 1]) :=
  ⟨(pollGateway_first "eth1" raAnswers 2
      (fun m hm => ⟨[], by simp [raAnswers, hm], rfl⟩)).1 2 (Nat.le_refl 2),
    ((pollGateway_first "eth1" raAnswers 2
      (fun m hm => ⟨[], by simp [raAnswers, hm], rfl⟩)).2 3 (by decide)).2 []
      { LinkIndex := 3, Dst := none,
        Gw := [0xfe, 0x80, 0, 0, 0, 0, 0, 0, 0, 0, 0, 0, 0, 0, 0, 1] } [] rfl
      (fun x hx => absurd hx (List.not_mem_nil x)) (by decide)⟩

/-- C16: three paths of `cmdAdd` of imds-ptp return an error after the call of
IPAM has succeeded and make no call of `ExecDel`: the result of IPAM without an
address, the failure of `ip.EnableForward`, and the failure of
`types.PrintResult`. On each of them the variable `err` that the deferred
function tests is `nil`. The failure of `setupHostEni`, for one, is followed by
`ExecDel`. -/
theorem cmdAdd_skips_ExecDel :
    cmdAdd { numIPs := 0 } "/var/run/netns/pod"
      = (some (Error.Errorf "IPAM plugin returned missing IP config"), [IPAMCall.ExecAdd]) ∧
    cmdAdd { EnableForward := some (Error.System "read-only file system") } "/var/run/netns/pod"
      = (some (Error.Errorf "could not enable IP forwarding: read-only file system"),
          [IPAMCall.ExecAdd]) ∧
    cmdAdd { PrintResult := some (Error.System "broken pipe") } "/var/run/netns/pod"
      = (some (Error.System "broken pipe"), [IPAMCall.ExecAdd]) ∧
    cmdAdd { setupHostEni := some (Error.Errorf "failed to find ENI for 10.0.1.9/24") }
        "/var/run/netns/pod"
      = (some (Error.Errorf "failed to find ENI for 10.0.1.9/24"),
          [IPAMCall.ExecAdd, IPAMCall.ExecDel]) := by
  decide

end IMDSPtp

namespace EgressV4

open IMDSIpam IMDSPtp

/-- C17: four paths of `cmdAdd` of egress-v4 return an error after the call of
IPAM has succeeded and make no call of `ExecDel`: the result of IPAM without an
address, the failure of `ip.EnableForward`, the failure of `snat4`, and the
failure of `types.PrintResult`. On each of them the variable `err` that the
deferred function tests is `nil`. The failure of `setupHostVeth`, for one, is
followed by `ExecDel`. -/
theorem egress_cmdAdd_skips_ExecDel :
    ((cmdAdd { exampleAddEnv with NewResultFromResult := .ok {} } "c1"
        "/var/run/netns/pod").1 = some (Error.Errorf "IPAM plugin returned zero IPs") ∧
      Call.ExecDel "host-local" ∉
        (cmdAdd { exampleAddEnv with NewResultFromResult := .ok {} } "c1"
          "/var/run/netns/pod").2) ∧
    ((cmdAdd { exampleAddEnv with EnableForward := some (Error.System "read-only file system") }
        "c1" "/var/run/netns/pod").1
        = some (Error.Errorf "could not enable IP forwarding: read-only file system") ∧
      Call.ExecDel "host-local" ∉
        (cmdAdd { exampleAddEnv with
                  EnableForward := some (Error.System "read-only file system") }
          "c1" "/var/run/netns/pod").2) ∧
    ((cmdAdd { exampleAddEnv with
               snat4 := fun _ _ _ _ => some (Error.System "resource temporarily unavailable") }
        "c1" "/var/run/netns/pod").1 = some (Error.System "resource temporarily unavailable") ∧
      Call.ExecDel "host-local" ∉
        (cmdAdd { exampleAddEnv with
                  snat4 := fun _ _ _ _ => some (Error.System "resource temporarily unavailable") }
          "c1" "/var/run/netns/pod").2) ∧
    ((cmdAdd { exampleAddEnv with PrintResult := fun _ _ => some (Error.System "broken pipe") }
        "c1" "/var/run/netns/pod").1 = some (Error.System "broken pipe") ∧
      Call.ExecDel "host-local" ∉
        (cmdAdd { exampleAddEnv with
                  PrintResult := fun _ _ => some (Error.System "broken pipe") }
          "c1" "/var/run/netns/pod").2) ∧
    ((cmdAdd { exampleAddEnv with setupHostVeth := some (Error.System "no such device") }
        "c1" "/var/run/netns/pod").1 = some (Error.System "no such device") ∧
      Call.ExecDel "host-local" ∈
        (cmdAdd { exampleAddEnv with setupHostVeth := some (Error.System "no such device") }
          "c1" "/var/run/netns/pod").2) := by
  decide

/-- C20, the claim as stated, fails: after `setupContainerVeth` for the address
192.0.2.10/24 with the gateway 192.0.2.1, the link of the container has a route
whose destination is the subnet 192.0.2.0/24, through the gateway, and the
kernel has no default route. -/
theorem container_subnet_route_remains :
    (setupContainerVeth plainFmt exampleVethLib "/var/run/netns/pod" "nat0" 1500 scenarioResult
      emptyKernel).1.isSome = true ∧
    (setupContainerVeth plainFmt exampleVethLib "/var/run/netns/pod" "nat0" 1500 scenarioResult
      emptyKernel).2.routes { Table := RT_TABLE_MAIN, Dst := some ([192, 0, 2, 0], 24) }
      = some { LinkIndex := 2,
               Dst := some { IP := [192, 0, 2, 0], Mask := [255, 255, 255, 0] },
               Scope := Scope.UNIVERSE, Gw := IPv4 192 0 2 1, Src := IPv4 192 0 2 10 } ∧
    (setupContainerVeth plainFmt exampleVethLib "/var/run/netns/pod" "nat0" 1500 scenarioResult
      emptyKernel).2.routes { Table := RT_TABLE_MAIN, Dst := some ([0, 0, 0, 0], 0) } = none ∧
    (setupContainerVeth plainFmt exampleVethLib "/var/run/netns/pod" "nat0" 1500 scenarioResult
      emptyKernel).2.routes { Table := RT_TABLE_MAIN, Dst := none } = none := by
  decide

/-- The witness of C20: the address 192.0.2.10/24 with the gateway 192.0.2.1,
alone, and followed by the address 192.0.2.11/24 with the gateway 192.0.2.2,
after which the route to 192.0.2.0/24 is the one through 192.0.2.2. -/
theorem container_routes_witness :
    scenarioResult.IPs = [] ++ firstAddress :: [] ∧
    twoAddressResult.IPs = [] ++ firstAddress :: [secondAddress] ∧
    (∃ link : Link,
      (setupContainerVeth plainFmt exampleVethLib "/var/run/netns/pod" "nat0" 1500
        scenarioResult emptyKernel).2.routes (gatewayRoute link.toInterface firstAddress).key
        = some (gatewayRoute link.toInterface firstAddress) ∧
      (setupContainerVeth plainFmt exampleVethLib "/var/run/netns/pod" "nat0" 1500
        scenarioResult emptyKernel).2.routes (subnetRoute link.toInterface firstAddress).key
        = some (subnetRoute link.toInterface firstAddress)) ∧
    (∃ link : Link, ∃ q ∈ [firstAddress, secondAddress],
      (setupContainerVeth plainFmt exampleVethLib "/var/run/netns/pod" "nat0" 1500
        twoAddressResult emptyKernel).2.routes (subnetRoute link.toInterface firstAddress).key
        = some (subnetRoute link.toInterface q)) ∧
    (setupContainerVeth plainFmt exampleVethLib "/var/run/netns/pod" "nat0" 1500
      twoAddressResult emptyKernel).2.routes
        { Table := RT_TABLE_MAIN, Dst := some ([192, 0, 2, 0], 24) }
      = some { LinkIndex := 2,
               Dst := some { IP := [192, 0, 2, 0], Mask := [255, 255, 255, 0] },
               Scope := Scope.UNIVERSE, Gw := IPv4 192 0 2 2, Src := IPv4 192 0 2 11 } := by
  refine ⟨by decide, by decide, ?_, ?_, by decide⟩
  · obtain ⟨_, _, _, link, _, _, -, -, -, -, -, -, -, -, -, -, -, -, -, hfinal⟩ :=
      container_routes plainFmt exampleVethLib "/var/run/netns/pod" "nat0" 1500 scenarioResult
        [] firstAddress [] emptyKernel
        (setupContainerVeth plainFmt exampleVethLib "/var/run/netns/pod" "nat0" 1500
          scenarioResult emptyKernel).2
        ({ Name := "veth5e1f3a9c", Mac := "16:2a:9c:01:3b:07" },
         { Name := "nat0", Mac := "16:2a:9c:01:3b:02", Sandbox := "/var/run/netns/pod" },
         { Interfaces := [{ Name := "veth5e1f3a9c", Mac := "16:2a:9c:01:3b:07" },
                          { Name := "nat0", Mac := "16:2a:9c:01:3b:02",
                            Sandbox := "/var/run/netns/pod" }],
           IPs := [{ firstAddress with Interface := some 1 }] })
        (by decide) (Prod.ext (by decide) rfl)
    exact ⟨link, hfinal (fun q hq => absurd hq (List.not_mem_nil q))⟩
  · obtain ⟨_, _, _, link, _, _, -, -, -, -, -, -, -, -, -, -, -, -, ⟨q, hq, -, hsub⟩, -⟩ :=
      container_routes plainFmt exampleVethLib "/var/run/netns/pod" "nat0" 1500
        twoAddressResult [] firstAddress [secondAddress] emptyKernel
        (setupContainerVeth plainFmt exampleVethLib "/var/run/netns/pod" "nat0" 1500
          twoAddressResult emptyKernel).2
        ({ Name := "veth5e1f3a9c", Mac := "16:2a:9c:01:3b:07" },
         { Name := "nat0", Mac := "16:2a:9c:01:3b:02", Sandbox := "/var/run/netns/pod" },
         { Interfaces := [{ Name := "veth5e1f3a9c", Mac := "16:2a:9c:01:3b:07" },
                          { Name := "nat0", Mac := "16:2a:9c:01:3b:02",
                            Sandbox := "/var/run/netns/pod" }],
           IPs := [{ firstAddress with Interface := some 1 },
                   { secondAddress with Interface := some 1 }] })
        (by decide) (Prod.ext (by decide) rfl)
    exact ⟨link, q, hq, hsub⟩

end EgressV4

namespace EgressV4

open IMDSIpam IMDSPtp

/-! ## ADD of the egress NAT plugin: what it prints -/

theorem deferredDel_none (ipamType : String) (ret : Option Error) (calls : List Call) :
    deferredDel ipamType none ret calls = (ret, calls) :=
  rfl

/-- The interfaces that a successful `setupContainerVeth` leaves in the result:
the host end and the container end of the new pair, the latter in the
namespace of the call. -/
theorem setupContainerVeth_interfaces (fmt : Fmt) (lib : VethLib) (netns ifName : String)
    (mtu : Int) (pr : Result) (k k1 : Kernel) (res : Interface × Interface × Result)
    (h : setupContainerVeth fmt lib netns ifName mtu pr k = (some (.ok res), k1)) :
    res.2.2.Interfaces = [res.1, res.2.1] ∧ res.2.1.Sandbox = netns ∧
    ∃ (veths : NetInterface × NetInterface) (ka : Kernel),
      lib.SetupVeth ifName mtu k = (some (.ok veths), ka) ∧
      res.1 = { Name := veths.1.Name, Mac := veths.1.HardwareAddr } ∧
      res.2.1 = { Name := veths.2.Name, Mac := veths.2.HardwareAddr, Sandbox := netns } := by
  unfold setupContainerVeth at h
  obtain ⟨veths, ka, hveth, h⟩ := Step.bind_ok h
  obtain ⟨u, kb, hconf, h⟩ := Step.bind_ok h
  obtain ⟨contVeth, kc, hlink, h⟩ := Step.bind_ok h
  obtain ⟨u2, kd, hroutes, h⟩ := Step.bind_ok h
  simp only [Step.ret] at h
  cases h
  exact ⟨rfl, rfl, veths, ka, hveth, rfl, rfl⟩

theorem getLast_snoc {α : Type} (l : List α) (x : α) : (l ++ [x]).getLast? = some x := by
  simp

/-- The end of a successful `cmdAdd`: the last call prints the previous result
with the interfaces of the IPAM result after its own. -/
theorem finish_ok (env : AddEnv) (conf : NetConf) (containerID : String)
    (result tmpResult : Result) (calls : List Call)
    (h : (cmdAdd.finish env conf containerID result tmpResult calls).1 = none) :
    (cmdAdd.finish env conf containerID result tmpResult calls).2.getLast? =
      some (Call.PrintResult
        { result with Interfaces := result.Interfaces ++ tmpResult.Interfaces }
        conf.CNIVersion) := by
  unfold cmdAdd.finish at h ⊢
  cases hs : conf.SnatIP with
  | none =>
    simp only [deferredDel_none, getLast_snoc]
  | some snatIP =>
    simp only [hs] at h
    simp only []
    rcases hl : snatLoop env snatIP (env.chain conf.Name containerID)
      (env.comment conf.Name containerID) tmpResult.IPs calls with ⟨ret, calls1⟩
    rw [hl] at h
    cases ret with
    | some e => cases h
    | none =>
      simp only [deferredDel_none, getLast_snoc]

/-- C21: for every successful ADD of egress-v4, the last call prints a result
whose addresses, routes, DNS settings and version are those of the previous
result, and whose interfaces are those of the previous result followed by the
interfaces of the new link: none when the previous result has an IPv4 address
(no link is made), otherwise the host end and the container end of the pair
that `setupContainerVeth` made. The address that IPAM allocated is in the
result of IPAM, which is not printed. -/
theorem printed_result (fmt : Fmt) (lib : VethLib) (env : AddEnv) (containerID netns : String)
    (conf : NetConf) (prev result : Result)
    (hconf : env.loadConf = .ok conf) (hprev : conf.PrevResult = some prev)
    (hres : env.GetResult prev = .ok result)
    (hveth : ∀ pr hi pr1, env.setupContainerVeth pr = .ok (hi, pr1) →
      ∃ ci k k1, setupContainerVeth fmt lib netns conf.IfName conf.MTU pr k
        = (some (.ok (hi, ci, pr1)), k1))
    (hok : (cmdAdd env containerID netns).1 = none) :
    ∃ (printed : Result) (new : List Interface),
      (cmdAdd env containerID netns).2.getLast?
        = some (Call.PrintResult printed conf.CNIVersion) ∧
      printed.IPs = result.IPs ∧ printed.Routes = result.Routes ∧ printed.DNS = result.DNS ∧
      printed.CNIVersion = result.CNIVersion ∧
      printed.Interfaces = result.Interfaces ++ new ∧
      ((result.IPs.any (fun ipc => To4 ipc.Address.IP ≠ []) = true ∧ new = []) ∨
        (result.IPs.any (fun ipc => To4 ipc.Address.IP ≠ []) = false ∧
          ∃ tmp hi ci, env.NewResultFromResult = .ok tmp ∧ tmp.IPs ≠ [] ∧
            new = [hi, ci] ∧ ci.Sandbox = netns)) := by
  unfold cmdAdd at hok ⊢
  simp only [hconf, hprev, hres] at hok ⊢
  by_cases h4 : result.IPs.any (fun ipc => To4 ipc.Address.IP ≠ []) = true
  · rw [if_pos h4]
    exact ⟨result, [], rfl, rfl, rfl, rfl, rfl, (List.append_nil _).symm, Or.inl ⟨h4, rfl⟩⟩
  · rw [if_neg h4] at hok ⊢
    have h4f : result.IPs.any (fun ipc => To4 ipc.Address.IP ≠ []) = false := by
      simpa using h4
    cases hadd : env.ExecAdd with
    | some e =>
      rw [hadd] at hok
      cases hok
    | none =>
      simp only [hadd] at hok ⊢
      unfold cmdAdd.afterIPAM at hok ⊢
      cases hnew : env.NewResultFromResult with
      | error e =>
        rw [hnew] at hok
        cases hok
      | ok tmp =>
        simp only [hnew] at hok ⊢
        by_cases hlen : tmp.IPs.length = 0
        · rw [if_pos hlen] at hok
          cases hok
        · rw [if_neg hlen] at hok ⊢
          cases hfw : env.EnableForward with
          | some e =>
            rw [hfw] at hok
            cases hok
          | none =>
            simp only [hfw] at hok ⊢
            cases hns : env.GetNS with
            | some e =>
              rw [hns] at hok
              cases hok
            | none =>
              simp only [hns] at hok ⊢
              cases hcv : env.setupContainerVeth tmp with
              | error e =>
                rw [hcv] at hok
                cases hok
              | ok pair =>
                obtain ⟨hi, pr1⟩ := pair
                simp only [hcv] at hok ⊢
                cases hhv : env.setupHostVeth with
                | some e =>
                  rw [hhv] at hok
                  cases hok
                | none =>
                  simp only [hhv] at hok ⊢
                  obtain ⟨ci, k, k1, hrun⟩ := hveth tmp hi pr1 hcv
                  obtain ⟨hifs, hsb, -⟩ := setupContainerVeth_interfaces fmt lib netns
                    conf.IfName conf.MTU tmp k k1 (hi, ci, pr1) hrun
                  refine ⟨_, [hi, ci], finish_ok env conf containerID result pr1 _ hok, rfl,
                    rfl, rfl, rfl, ?_, Or.inr ⟨h4f, tmp, hi, ci, rfl, ?_, rfl, hsb⟩⟩
                  · show result.Interfaces ++ pr1.Interfaces = _
                    rw [hifs]
                  · intro h
                    exact hlen (by rw [h]; rfl)

/-- The witness of C21: a previous result with the address 2001:db8:1::100 and
an allocated address 192.0.2.10. -/
theorem printed_result_witness :
    (cmdAdd chainedAddEnv "dummy" "/var/run/netns/pod").1 = none ∧
    ∃ (printed : Result) (new : List Interface),
      (cmdAdd chainedAddEnv "dummy" "/var/run/netns/pod").2.getLast?
        = some (Call.PrintResult printed chainedConf.CNIVersion) ∧
      printed.IPs = examplePrev.IPs ∧ printed.Routes = examplePrev.Routes ∧
      printed.DNS = examplePrev.DNS ∧ printed.CNIVersion = examplePrev.CNIVersion ∧
      printed.Interfaces = examplePrev.Interfaces ++ new ∧
      ((examplePrev.IPs.any (fun ipc => To4 ipc.Address.IP ≠ []) = true ∧ new = []) ∨
        (examplePrev.IPs.any (fun ipc => To4 ipc.Address.IP ≠ []) = false ∧
          ∃ tmp hi ci, chainedAddEnv.NewResultFromResult = .ok tmp ∧ tmp.IPs ≠ [] ∧
            new = [hi, ci] ∧ ci.Sandbox = "/var/run/netns/pod")) :=
  ⟨by decide,
    printed_result plainFmt exampleVethLib chainedAddEnv "dummy" "/var/run/netns/pod"
      chainedConf examplePrev examplePrev rfl rfl rfl
      (by
        intro pr hi pr1 h
        simp only [chainedAddEnv] at h
        rcases hrun : setupContainerVeth plainFmt exampleVethLib "/var/run/netns/pod" "mynat0"
          1600 pr emptyKernel with ⟨o, k1⟩
        rw [hrun] at h
        rcases o with _ | res | e | msg
        · cases h
        · simp only [] at h
          injection h with h
          injection h with h1 h2
          subst h1
          subst h2
          exact ⟨res.2.1, emptyKernel, k1, hrun⟩
        · cases h
        · cases h)
      (by decide)⟩

/-- C22: when the previous result has an IPv4 address, ADD of egress-v4 makes
one call, the printing of the previous result as it is, and returns what the
printing returns: no call of IPAM, and none of the calls that change links,
routes or iptables. -/
theorem add_with_v4_prints (env : AddEnv) (containerID netns : String) (conf : NetConf)
    (prev result : Result)
    (hconf : env.loadConf = .ok conf) (hprev : conf.PrevResult = some prev)
    (hres : env.GetResult prev = .ok result)
    (h4 : result.IPs.any (fun ipc => To4 ipc.Address.IP ≠ []) = true) :
    cmdAdd env containerID netns =
      (env.PrintResult result conf.CNIVersion, [Call.PrintResult result conf.CNIVersion]) := by
  unfold cmdAdd
  simp only [hconf, hprev, hres, h4, if_true]

/-- The witness of C22: the previous result 192.0.2.27/24. -/
theorem add_with_v4_prints_witness :
    cmdAdd { exampleAddEnv with
             loadConf := .ok { chainedConf with PrevResult := some v4Prev } }
        "dummy" "/var/run/netns/pod" =
      (none, [Call.PrintResult v4Prev "0.4.0"]) :=
  add_with_v4_prints
    { exampleAddEnv with loadConf := .ok { chainedConf with PrevResult := some v4Prev } }
    "dummy" "/var/run/netns/pod" { chainedConf with PrevResult := some v4Prev } v4Prev v4Prev
    rfl rfl rfl (by decide)

/-- C23: with a configuration that has no previous result, ADD and CHECK of
egress-v4 return the error `must be called as a chained plugin` and make no
call: not of IPAM, and none that changes links, routes or iptables. -/
theorem not_chained (envA : AddEnv) (envC : CheckEnv) (containerID netns : String)
    (confA confC : NetConf)
    (hA : envA.loadConf = .ok confA) (hAp : confA.PrevResult = none)
    (hC : envC.loadConf = .ok confC) (hCp : confC.PrevResult = none) :
    cmdAdd envA containerID netns
      = (some (Error.Errorf "must be called as a chained plugin"), []) ∧
    cmdCheck envC containerID
      = (some (Error.Errorf "must be called as a chained plugin"), []) := by
  unfold cmdAdd cmdCheck
  simp only [hA, hAp, hC, hCp, and_self]

/-- The witness of C23: the configuration of the network `mynet` without a
previous result. -/
theorem not_chained_witness :
    cmdAdd { exampleAddEnv with loadConf := .ok { Name := "mynet" } } "dummy"
        "/var/run/netns/pod"
      = (some (Error.Errorf "must be called as a chained plugin"), []) ∧
    cmdCheck { failingCheckEnv with loadConf := .ok { Name := "mynet" } } "dummy"
      = (some (Error.Errorf "must be called as a chained plugin"), []) :=
  not_chained { exampleAddEnv with loadConf := .ok { Name := "mynet" } }
    { failingCheckEnv with loadConf := .ok { Name := "mynet" } } "dummy" "/var/run/netns/pod"
    { Name := "mynet" } { Name := "mynet" } rfl rfl rfl rfl

end EgressV4

namespace EgressV4

open IMDSIpam IMDSPtp

/-! ## CHECK and DEL of the egress NAT plugin -/

/-- When every check of an IPv4 address passes, the loop of `cmdCheck` checks
each IPv4 address once, in the order of the list, and returns no error. -/
theorem checkLoop_pass (env : CheckEnv) (snatIP : IP) (chain comment : String) :
    ∀ (ips : List IPConfig) (calls : List CheckCall),
      (∀ ipc ∈ ips, To4 ipc.Address.IP ≠ [] →
        env.snat4Check snatIP ipc.Address.IP chain comment = none) →
      checkLoop env snatIP chain comment ips calls =
        (none, calls ++ (ips.filter (fun ipc => To4 ipc.Address.IP ≠ [])).map
          (fun ipc => CheckCall.snat4Check snatIP ipc.Address.IP chain comment))
  | [], calls, _ => by simp [checkLoop]
  | ipc :: rest, calls, h => by
    have hrest : ∀ i ∈ rest, To4 i.Address.IP ≠ [] →
        env.snat4Check snatIP i.Address.IP chain comment = none :=
      fun i hi => h i (List.mem_cons_of_mem _ hi)
    unfold checkLoop
    by_cases h4 : To4 ipc.Address.IP ≠ []
    · rw [if_pos h4, h ipc (List.mem_cons_self _ _) h4]
      simp only []
      rw [checkLoop_pass env snatIP chain comment rest _ hrest]
      simp [List.filter_cons, h4]
    · rw [if_neg h4, checkLoop_pass env snatIP chain comment rest _ hrest]
      simp [List.filter_cons, h4]

/-- The loop of `cmdCheck` ends at the first check that fails, with the error
of that check. -/
theorem checkLoop_fail (env : CheckEnv) (snatIP : IP) (chain comment : String) :
    ∀ (pre : List IPConfig) (ipc : IPConfig) (post : List IPConfig) (e : Error)
      (calls : List CheckCall),
      (∀ i ∈ pre, To4 i.Address.IP ≠ [] →
        env.snat4Check snatIP i.Address.IP chain comment = none) →
      To4 ipc.Address.IP ≠ [] →
      env.snat4Check snatIP ipc.Address.IP chain comment = some e →
      checkLoop env snatIP chain comment (pre ++ ipc :: post) calls =
        (some e, calls ++ (pre.filter (fun i => To4 i.Address.IP ≠ [])).map
            (fun i => CheckCall.snat4Check snatIP i.Address.IP chain comment)
          ++ [CheckCall.snat4Check snatIP ipc.Address.IP chain comment])
  | [], ipc, post, e, calls, _, h4, he => by
    simp only [List.nil_append, List.filter_nil, List.map_nil, List.append_nil]
    unfold checkLoop
    rw [if_pos h4, he]
  | p :: pre, ipc, post, e, calls, h, h4, he => by
    have hrest : ∀ i ∈ pre, To4 i.Address.IP ≠ [] →
        env.snat4Check snatIP i.Address.IP chain comment = none :=
      fun i hi => h i (List.mem_cons_of_mem _ hi)
    rw [List.cons_append]
    unfold checkLoop
    by_cases hp : To4 p.Address.IP ≠ []
    · rw [if_pos hp, h p (List.mem_cons_self _ _) hp]
      simp only []
      rw [checkLoop_fail env snatIP chain comment pre ipc post e _ hrest h4 he]
      simp [List.filter_cons, hp]
    · rw [if_neg hp, checkLoop_fail env snatIP chain comment pre ipc post e _ hrest h4 he]
      simp [List.filter_cons, hp]

/-- The loop of `cmdCheck` returns no error only when the check of every IPv4
address passes. -/
theorem checkLoop_none (env : CheckEnv) (snatIP : IP) (chain comment : String) :
    ∀ (ips : List IPConfig) (calls : List CheckCall),
      (checkLoop env snatIP chain comment ips calls).1 = none →
      ∀ ipc ∈ ips, To4 ipc.Address.IP ≠ [] →
        env.snat4Check snatIP ipc.Address.IP chain comment = none
  | [], _, _ => fun _ h => absurd h (List.not_mem_nil _)
  | p :: rest, calls, hok => by
    unfold checkLoop at hok
    intro ipc hmem h4
    by_cases hp : To4 p.Address.IP ≠ []
    · rw [if_pos hp] at hok
      cases hc : env.snat4Check snatIP p.Address.IP chain comment with
      | some e =>
        rw [hc] at hok
        cases hok
      | none =>
        rw [hc] at hok
        rcases List.mem_cons.1 hmem with rfl | hin
        · exact hc
        · exact checkLoop_none env snatIP chain comment rest _ hok ipc hin h4
    · rw [if_neg hp] at hok
      rcases List.mem_cons.1 hmem with rfl | hin
      · exact absurd h4 hp
      · exact checkLoop_none env snatIP chain comment rest _ hok ipc hin h4

/-- A list without an address that has a 4-byte form has no IPv4 address to
check. -/
theorem filter_v4_of_any_false (ips : List IPConfig)
    (h : ips.any (fun ipc => To4 ipc.Address.IP ≠ []) = false) :
    ips.filter (fun ipc => To4 ipc.Address.IP ≠ []) = [] := by
  rw [List.filter_eq_nil_iff]
  intro ipc hmem
  rw [List.any_eq_false] at h
  exact h ipc hmem

/-- A successful loop of `cmdDel` has called `snat4Del` for every address, in
the order of the list, each call on the host as the call before left it. -/
theorem delLoop_ok (env : DelEnv) (chain comment : String) :
    ∀ (ipnets : List IPNet) (host : Kernel) (calls : List DelCall),
      (delLoop env chain comment ipnets host calls).1 = none →
      delLoop env chain comment ipnets host calls =
        (none, ipnets.foldl (fun h ipn => (env.snat4Del ipn.IP chain comment h).2) host,
          calls ++ ipnets.map (fun ipn => DelCall.snat4Del ipn.IP chain comment))
  | [], host, calls, _ => by simp [delLoop]
  | ipn :: rest, host, calls, hok => by
    unfold delLoop at hok ⊢
    rcases hd : env.snat4Del ipn.IP chain comment host with ⟨o, host1⟩
    rw [hd] at hok
    cases o with
    | some e => cases hok
    | none =>
      simp only [] at hok ⊢
      rw [delLoop_ok env chain comment rest host1 _ hok]
      simp [List.foldl_cons, hd]

/-- C25: with `snatIP` configured, CHECK of egress-v4 checks the SNAT rule of
the IPv4 addresses of the previous result, with the chain and the comment made
from the name of the network and the container id. When every check passes it
returns no error after one check for each IPv4 address, in the order of the
list. When a check fails, it returns the error of the first check that fails,
after the checks up to that one. It returns no error only when the check of
every IPv4 address passes, and an address without a 4-byte form is never
checked. -/
theorem check_every_v4 (env : CheckEnv) (containerID : String) (conf : NetConf)
    (prev prevResult : Result) (snatIP : IP)
    (hconf : env.loadConf = .ok conf) (hprev : conf.PrevResult = some prev)
    (hres : env.GetResult prev = .ok prevResult) (hsnat : conf.SnatIP = some snatIP) :
    ((∀ ipc ∈ prevResult.IPs, To4 ipc.Address.IP ≠ [] →
        env.snat4Check snatIP ipc.Address.IP (env.chain conf.Name containerID)
          (env.comment conf.Name containerID) = none) →
      cmdCheck env containerID =
        (none, (prevResult.IPs.filter (fun ipc => To4 ipc.Address.IP ≠ [])).map
          (fun ipc => CheckCall.snat4Check snatIP ipc.Address.IP
            (env.chain conf.Name containerID) (env.comment conf.Name containerID)))) ∧
    (∀ (pre : List IPConfig) (ipc : IPConfig) (post : List IPConfig) (e : Error),
      prevResult.IPs = pre ++ ipc :: post →
      (∀ i ∈ pre, To4 i.Address.IP ≠ [] →
        env.snat4Check snatIP i.Address.IP (env.chain conf.Name containerID)
          (env.comment conf.Name containerID) = none) →
      To4 ipc.Address.IP ≠ [] →
      env.snat4Check snatIP ipc.Address.IP (env.chain conf.Name containerID)
        (env.comment conf.Name containerID) = some e →
      cmdCheck env containerID =
        (some e, (pre.filter (fun i => To4 i.Address.IP ≠ [])).map
            (fun i => CheckCall.snat4Check snatIP i.Address.IP
              (env.chain conf.Name containerID) (env.comment conf.Name containerID))
          ++ [CheckCall.snat4Check snatIP ipc.Address.IP
              (env.chain conf.Name containerID) (env.comment conf.Name containerID)])) ∧
    ((cmdCheck env containerID).1 = none →
      ∀ ipc ∈ prevResult.IPs, To4 ipc.Address.IP ≠ [] →
        env.snat4Check snatIP ipc.Address.IP (env.chain conf.Name containerID)
          (env.comment conf.Name containerID) = none) := by
  unfold cmdCheck
  simp only [hconf, hprev, hres, hsnat]
  refine ⟨?_, ?_, ?_⟩
  · intro h
    rw [checkLoop_pass env snatIP _ _ prevResult.IPs [] h, List.nil_append]
  · intro pre ipc post e hsplit hpre h4 he
    rw [hsplit, checkLoop_fail env snatIP _ _ pre ipc post e [] hpre h4 he, List.nil_append]
  · intro hok
    exact checkLoop_none env snatIP _ _ prevResult.IPs [] hok

/-- The witness of C25: the previous result 192.0.2.27/24 and a check that
fails. -/
theorem check_every_v4_witness :
    cmdCheck { failingCheckEnv with
               loadConf := .ok { chainedConf with PrevResult := some v4Prev } } "dummy" =
      (some (Error.Errorf "rule not found"),
        [CheckCall.snat4Check (IPv4 198 51 100 10) (IPv4 192 0 2 27) "CNI-E4-mynet-dummy"
          "name: mynet id: dummy"]) :=
  (check_every_v4
    { failingCheckEnv with loadConf := .ok { chainedConf with PrevResult := some v4Prev } }
    "dummy" { chainedConf with PrevResult := some v4Prev } v4Prev v4Prev (IPv4 198 51 100 10)
    rfl rfl rfl rfl).2.1 []
      { Address := { IP := IPv4 192 0 2 27, Mask := CIDRMask 24 32 }, Gateway := [] } []
      (Error.Errorf "rule not found") rfl
      (fun i hi => absurd hi (List.not_mem_nil i)) (by decide) rfl

/-- C30: when ADD of egress-v4 calls IPAM for a previous result, that result
has no IPv4 address, and CHECK with the same previous result makes no check of
an SNAT rule and returns no error, whatever the checks would answer. -/
theorem check_after_add (envA : AddEnv) (envC : CheckEnv) (containerID netns : String)
    (confA confC : NetConf) (prev result : Result)
    (hA : envA.loadConf = .ok confA) (hAp : confA.PrevResult = some prev)
    (hAr : envA.GetResult prev = .ok result)
    (hC : envC.loadConf = .ok confC) (hCp : confC.PrevResult = some prev)
    (hCr : envC.GetResult prev = .ok result)
    (hadd : Call.ExecAdd confA.IPAMType ∈ (cmdAdd envA containerID netns).2) :
    result.IPs.any (fun ipc => To4 ipc.Address.IP ≠ []) = false ∧
    cmdCheck envC containerID = (none, []) := by
  have hany : result.IPs.any (fun ipc => To4 ipc.Address.IP ≠ []) = false := by
    by_contra hne
    have h4 : result.IPs.any (fun ipc => To4 ipc.Address.IP ≠ []) = true := by
      simpa using hne
    unfold cmdAdd at hadd
    simp only [hA, hAp, hAr, h4, if_true, List.mem_singleton] at hadd
    cases hadd
  refine ⟨hany, ?_⟩
  unfold cmdCheck
  simp only [hC, hCp, hCr]
  cases hs : confC.SnatIP with
  | none => rfl
  | some snatIP =>
    simp only []
    rw [checkLoop_pass envC snatIP _ _ result.IPs [] ?_, filter_v4_of_any_false _ hany]
    · rfl
    · intro ipc hmem h4
      rw [List.any_eq_false] at hany
      exact absurd (by simpa using h4) (hany ipc hmem)

/-- The witness of C30: the ADD of the example, and a CHECK in which every
check of a rule would fail. -/
theorem check_after_add_witness :
    Call.ExecAdd "host-local" ∈ (cmdAdd chainedAddEnv "dummy" "/var/run/netns/pod").2 ∧
    examplePrev.IPs.any (fun ipc => To4 ipc.Address.IP ≠ []) = false ∧
    cmdCheck failingCheckEnv "dummy" = (none, []) :=
  ⟨by decide,
    check_after_add chainedAddEnv failingCheckEnv "dummy" "/var/run/netns/pod" chainedConf
      chainedConf examplePrev examplePrev rfl rfl rfl rfl rfl rfl (by decide)⟩

/-- C24, the example against it: the link `mynat0` is no longer in the
namespace of the pod when DEL runs, on a host that has the SNAT rule of the
pod. DEL returns no error, makes no call of `snat4Del`, and the host has the
jump to the chain of the pod and the rule of that chain as before. -/
theorem del_after_link_gone :
    emptyKernel.links = [] ∧
    (cmdDel exampleDelEnv "dummy" "/var/run/netns/pod" emptyKernel natHost).1 = none ∧
    (cmdDel exampleDelEnv "dummy" "/var/run/netns/pod" emptyKernel natHost).2.2.2 =
      [DelCall.ExecDel "host-local",
        DelCall.DelLinkByNameAddr "/var/run/netns/pod" "mynat0"] ∧
    (cmdDel exampleDelEnv "dummy" "/var/run/netns/pod" emptyKernel natHost).2.2.1.iptables =
      natHost.iptables ∧
    natHost.iptables.map (fun e => e.Chain) = ["POSTROUTING", "CNI-E4-mynet-dummy"] := by
  decide

/-- C24, amended: when DEL of egress-v4 with a namespace and `snatIP`
configured returns no error, IPAM has released the address, the namespace has
opened, and `DelLinkByNameAddr` has run once on the namespace of the pod for
the interface of the configuration, returning no error or
`ErrLinkNotFound`. `snat4Del` has then run on the host once for each address
that the deletion of the link returned, with the chain made from the name of
the network and the container id, and nothing else has changed the host:
when the deletion of the link returns no address, as for a link that is
already gone, the host is as before. -/
theorem del_calls (env : DelEnv) (containerID netns : String) (pod host : Kernel)
    (conf : NetConf) (snatIP : IP)
    (hconf : env.loadConf = .ok conf) (hsnat : conf.SnatIP = some snatIP)
    (hns : netns ≠ "") (hok : (cmdDel env containerID netns pod host).1 = none) :
    env.ExecDel = none ∧ env.WithNetNSPath = none ∧
    ∃ (ipnets : List IPNet) (err : Option Error) (pod1 : Kernel),
      env.DelLinkByNameAddr conf.IfName pod = ((ipnets, err), pod1) ∧
      (err = none ∨ err = some ErrLinkNotFound) ∧
      cmdDel env containerID netns pod host =
        (none, pod1,
          ipnets.foldl (fun h ipn =>
            (env.snat4Del ipn.IP (env.chain conf.Name containerID)
              (env.comment conf.Name containerID) h).2) host,
          [DelCall.ExecDel conf.IPAMType, DelCall.DelLinkByNameAddr netns conf.IfName] ++
            ipnets.map (fun ipn => DelCall.snat4Del ipn.IP (env.chain conf.Name containerID)
              (env.comment conf.Name containerID))) ∧
      (ipnets = [] → (cmdDel env containerID netns pod host).2.2.1 = host) := by
  unfold cmdDel at hok ⊢
  simp only [hconf] at hok ⊢
  cases hdel : env.ExecDel with
  | some e =>
    rw [hdel] at hok
    cases hok
  | none =>
    simp only [hdel] at hok ⊢
    unfold cmdDel.delLink at hok ⊢
    rw [if_pos hns] at hok ⊢
    cases hw : env.WithNetNSPath with
    | some e =>
      rw [hw] at hok
      cases hok
    | none =>
      simp only [hw] at hok ⊢
      rcases hd : env.DelLinkByNameAddr conf.IfName pod with ⟨⟨ipnets, err⟩, pod1⟩
      rw [hd] at hok
      refine ⟨trivial, trivial, ipnets, err, pod1, rfl, ?_⟩
      cases err with
      | none =>
        simp only [hsnat] at hok ⊢
        have hloop := delLoop_ok env (env.chain conf.Name containerID)
          (env.comment conf.Name containerID) ipnets host
          ([DelCall.ExecDel conf.IPAMType] ++ [DelCall.DelLinkByNameAddr netns conf.IfName]) hok
        rw [hloop]
        refine ⟨by simp, rfl, ?_⟩
        intro hnil
        rw [hnil]
        rfl
      | some e =>
        simp only [] at hok ⊢
        by_cases he : e = ErrLinkNotFound
        · rw [if_pos he] at hok ⊢
          simp only [hsnat] at hok ⊢
          have hloop := delLoop_ok env (env.chain conf.Name containerID)
            (env.comment conf.Name containerID) ipnets host
            ([DelCall.ExecDel conf.IPAMType] ++ [DelCall.DelLinkByNameAddr netns conf.IfName])
            hok
          rw [hloop]
          refine ⟨by simp [he], rfl, ?_⟩
          intro hnil
          rw [hnil]
          rfl
        · rw [if_neg he] at hok
          cases hok

/-- The witness of C24, amended: the link `mynat0` with the address 192.0.2.10
is in the namespace of the pod, and the host has the SNAT rule of the pod. -/
theorem del_calls_witness :
    (cmdDel exampleDelEnv "dummy" "/var/run/netns/pod" natPod natHost).1 = none ∧
    (cmdDel exampleDelEnv "dummy" "/var/run/netns/pod" natPod natHost).2.2.2 =
      [DelCall.ExecDel "host-local", DelCall.DelLinkByNameAddr "/var/run/netns/pod" "mynat0",
        DelCall.snat4Del (IPv4 192 0 2 10) "CNI-E4-mynet-dummy" "name: mynet id: dummy"] ∧
    exampleDelEnv.ExecDel = none ∧ exampleDelEnv.WithNetNSPath = none ∧
    ∃ (ipnets : List IPNet) (err : Option Error) (pod1 : Kernel),
      exampleDelEnv.DelLinkByNameAddr chainedConf.IfName natPod = ((ipnets, err), pod1) ∧
      (err = none ∨ err = some ErrLinkNotFound) ∧
      cmdDel exampleDelEnv "dummy" "/var/run/netns/pod" natPod natHost =
        (none, pod1,
          ipnets.foldl (fun h ipn =>
            (exampleDelEnv.snat4Del ipn.IP (exampleDelEnv.chain chainedConf.Name "dummy")
              (exampleDelEnv.comment chainedConf.Name "dummy") h).2) natHost,
          [DelCall.ExecDel chainedConf.IPAMType,
            DelCall.DelLinkByNameAddr "/var/run/netns/pod" chainedConf.IfName] ++
            ipnets.map (fun ipn => DelCall.snat4Del ipn.IP
              (exampleDelEnv.chain chainedConf.Name "dummy")
              (exampleDelEnv.comment chainedConf.Name "dummy"))) ∧
      (ipnets = [] →
        (cmdDel exampleDelEnv "dummy" "/var/run/netns/pod" natPod natHost).2.2.1 = natHost) :=
  ⟨by decide, by decide,
    del_calls exampleDelEnv "dummy" "/var/run/netns/pod" natPod natHost chainedConf
      (IPv4 198 51 100 10) rfl rfl (by decide) (by decide)⟩

end EgressV4

namespace JsonTmpl

open IMDSIpam

/-! ## The template tool -/

/-- A text without the separator is not cut. -/
theorem cutFirst_eq_none (sep : Char) :
    ∀ (l : List Char), cutFirst sep l = none ↔ sep ∉ l
  | [] => by simp [cutFirst]
  | c :: cs => by
    unfold cutFirst
    by_cases hc : c = sep
    · simp [hc]
    · rw [if_neg hc]
      have ih := cutFirst_eq_none sep cs
      cases hcut : cutFirst sep cs with
      | none =>
        have := ih.1 hcut
        simp [this, Ne.symm hc]
      | some p =>
        have : ¬ sep ∉ cs := fun h => by rw [ih.2 h] at hcut; cases hcut
        simp only [reduceCtorEq, false_iff, List.mem_cons, not_or, not_and, not_not]
        intro _
        exact not_not.1 this

/-- The cut of a text is at its first separator: the text before it has no
separator. -/
theorem cutFirst_eq_some (sep : Char) :
    ∀ (l before after : List Char),
      cutFirst sep l = some (before, after) ↔ (l = before ++ sep :: after ∧ sep ∉ before)
  | [], before, after => by simp [cutFirst]
  | c :: cs, before, after => by
    unfold cutFirst
    by_cases hc : c = sep
    · rw [if_pos hc]
      subst hc
      constructor
      · intro h
        injection h with h
        injection h with h1 h2
        subst h1
        subst h2
        simp
      · rintro ⟨h, hnot⟩
        cases before with
        | nil =>
          simp only [List.nil_append, List.cons.injEq, true_and] at h
          rw [h]
        | cons b bs =>
          simp only [List.cons_append, List.cons.injEq] at h
          exact absurd (by rw [h.1]; exact List.mem_cons_self _ _) hnot
    · rw [if_neg hc]
      cases hcut : cutFirst sep cs with
      | none =>
        have hno := (cutFirst_eq_none sep cs).1 hcut
        simp only [reduceCtorEq, false_iff, not_and, not_not]
        intro h
        cases before with
        | nil =>
          simp only [List.nil_append, List.cons.injEq] at h
          exact absurd h.1 hc
        | cons b bs =>
          simp only [List.cons_append, List.cons.injEq] at h
          exact absurd (by rw [h.2]; simp) hno
      | some p =>
        obtain ⟨b0, a0⟩ := p
        have ih := (cutFirst_eq_some sep cs b0 a0).1 hcut
        simp only [Option.some.injEq, Prod.mk.injEq]
        constructor
        · rintro ⟨h1, h2⟩
          subst h1
          subst h2
          refine ⟨by rw [ih.1]; simp, ?_⟩
          simp only [List.mem_cons, not_or]
          exact ⟨Ne.symm hc, ih.2⟩
        · rintro ⟨h, hnot⟩
          cases before with
          | nil =>
            simp only [List.nil_append, List.cons.injEq] at h
            exact absurd h.1 hc
          | cons b bs =>
            simp only [List.cons_append, List.cons.injEq] at h
            have hbs : sep ∉ bs := fun hm => hnot (List.mem_cons_of_mem _ hm)
            have := (cutFirst_eq_some sep cs bs after).2 ⟨h.2, hbs⟩
            rw [hcut] at this
            injection this with this
            injection this with h1 h2
            exact ⟨by rw [h.1, h1], h2⟩

/-- An entry is `key=value`, with a key that has no `=`, exactly when its cut
at the first `=` is the key and the value. -/
theorem entry_iff_cut (e key value : String) :
    (e = key ++ "=" ++ value ∧ '=' ∉ key.data) ↔
      cutFirst '=' e.data = some (key.data, value.data) := by
  rw [cutFirst_eq_some, String.ext_iff]
  simp only [String.data_append]
  constructor
  · rintro ⟨h, hk⟩
    exact ⟨by rw [h]; simp, hk⟩
  · rintro ⟨h, hk⟩
    exact ⟨by rw [h]; simp, hk⟩

/-- One pass of the loop of `EnvironMap`: the value of a key after an entry is
the value of the entry when the entry is for that key, and the value before
the entry otherwise. -/
theorem step_apply (result : StringMap) (e key value : String) :
    EnvironMap.entry result e key = some value ↔
      ((e = key ++ "=" ++ value ∧ '=' ∉ key.data) ∨
        ((∀ w, ¬ (e = key ++ "=" ++ w ∧ '=' ∉ key.data)) ∧ result key = some value)) := by
  simp only [entry_iff_cut]
  unfold EnvironMap.entry SplitN2
  cases hcut : cutFirst '=' e.data with
  | none => simp
  | some p =>
    obtain ⟨b, a⟩ := p
    simp only [StringMap.set, Option.some.injEq, Prod.mk.injEq]
    by_cases hk : key = String.mk b
    · subst hk
      simp only [if_true, Option.some.injEq, true_and]
      constructor
      · intro h
        left
        rw [← h]
      · rintro (h | ⟨h, _⟩)
        · exact String.ext h
        · exact absurd rfl (h (String.mk a))
    · rw [if_neg hk]
      have hne : ¬ b = key.data := fun h => hk (String.ext h.symm)
      simp [hne]

/-- The value of a key after a loop over entries that sets, for each entry of
a key, the value of that entry: the value of the last entry of the key, or the
value before the loop when no entry is of the key. -/
theorem foldl_last_entry {Q : String → String → String → Prop}
    (f : StringMap → String → StringMap)
    (hf : ∀ m e key v, f m e key = some v ↔ (Q e key v ∨ ((∀ w, ¬ Q e key w) ∧ m key = some v)))
    (key v : String) :
    ∀ (env : List String) (init : StringMap),
      env.foldl f init key = some v ↔
        ((∃ pre e post, env = pre ++ e :: post ∧ Q e key v ∧ ∀ x ∈ post, ∀ w, ¬ Q x key w) ∨
          ((∀ x ∈ env, ∀ w, ¬ Q x key w) ∧ init key = some v))
  | [], init => by simp
  | e :: rest, init => by
    rw [List.foldl_cons, foldl_last_entry f hf key v rest (f init e), hf]
    constructor
    · rintro (⟨pre, x, post, hsplit, hq, hpost⟩ | ⟨hrest, hq | ⟨hno, hinit⟩⟩)
      · exact Or.inl ⟨e :: pre, x, post, by rw [hsplit]; rfl, hq, hpost⟩
      · exact Or.inl ⟨[], e, rest, rfl, hq, hrest⟩
      · refine Or.inr ⟨?_, hinit⟩
        intro x hx
        rcases List.mem_cons.1 hx with rfl | hx
        · exact hno
        · exact hrest x hx
    · rintro (⟨pre, x, post, hsplit, hq, hpost⟩ | ⟨hall, hinit⟩)
      · cases pre with
        | nil =>
          simp only [List.nil_append, List.cons.injEq] at hsplit
          obtain ⟨h1, h2⟩ := hsplit
          subst h1
          subst h2
          exact Or.inr ⟨hpost, Or.inl hq⟩
        | cons p pre =>
          simp only [List.cons_append, List.cons.injEq] at hsplit
          exact Or.inl ⟨pre, x, post, hsplit.2, hq, hpost⟩
      · exact Or.inr ⟨fun x hx => hall x (List.mem_cons_of_mem _ hx),
          Or.inr ⟨hall e (List.mem_cons_self _ _), hinit⟩⟩

/-- A key is not in the map after the loop exactly when no entry is of the key
and the key was not in the map before. -/
theorem foldl_no_entry {Q : String → String → String → Prop}
    (f : StringMap → String → StringMap)
    (hf : ∀ m e key v, f m e key = some v ↔ (Q e key v ∨ ((∀ w, ¬ Q e key w) ∧ m key = some v)))
    (key : String) :
    ∀ (env : List String) (init : StringMap),
      env.foldl f init key = none ↔ ((∀ x ∈ env, ∀ w, ¬ Q x key w) ∧ init key = none)
  | [], init => by simp
  | e :: rest, init => by
    rw [List.foldl_cons, foldl_no_entry f hf key rest (f init e)]
    have hstep : f init e key = none ↔ ((∀ w, ¬ Q e key w) ∧ init key = none) := by
      constructor
      · intro hnone
        have hq : ∀ w, ¬ Q e key w := fun w hq => by
          have := (hf init e key w).2 (Or.inl hq)
          rw [hnone] at this
          cases this
        refine ⟨hq, ?_⟩
        cases hi : init key with
        | none => rfl
        | some v =>
          have := (hf init e key v).2 (Or.inr ⟨hq, hi⟩)
          rw [hnone] at this
          cases this
      · rintro ⟨hq, hi⟩
        cases hfe : f init e key with
        | none => rfl
        | some v =>
          rcases (hf init e key v).1 hfe with h | ⟨_, h⟩
          · exact absurd h (hq v)
          · rw [hi] at h
            cases h
    rw [hstep]
    constructor
    · rintro ⟨hrest, he, hi⟩
      refine ⟨?_, hi⟩
      intro x hx
      rcases List.mem_cons.1 hx with rfl | hx
      · exact he
      · exact hrest x hx
    · rintro ⟨hall, hi⟩
      exact ⟨fun x hx => hall x (List.mem_cons_of_mem _ hx), hall e (List.mem_cons_self _ _), hi⟩

/-- C26: for every list of strings and every key, `EnvironMap` maps the key to
a value exactly when the list has an entry `key=value` in which the key is the
text before the first `=` (the key has no `=`; the value is all of the rest,
which may be empty and may have further `=`), and no later entry is of the
same key. A key of which the list has no entry is not in the map, so that an
entry without `=` gives no key. The list `a=foo`, `b=`, `c` and the empty
string gives the map of `a` to `foo` and `b` to the empty string. -/
theorem EnvironMap_last_entry (env : List String) (key : String) :
    (∀ value, EnvironMap env key = some value ↔
      ∃ pre post, env = pre ++ (key ++ "=" ++ value) :: post ∧ '=' ∉ key.data ∧
        ∀ e ∈ post, ∀ w, e ≠ key ++ "=" ++ w) ∧
    (EnvironMap env key = none ↔
      ('=' ∈ key.data ∨ ∀ e ∈ env, ∀ w, e ≠ key ++ "=" ++ w)) ∧
    (EnvironMap ["a=foo", "b=", "c", ""] key =
      if key = "b" then some "" else if key = "a" then some "foo" else none) := by
  have hmain : ∀ value, EnvironMap env key = some value ↔
      ∃ pre post, env = pre ++ (key ++ "=" ++ value) :: post ∧ '=' ∉ key.data ∧
        ∀ e ∈ post, ∀ w, e ≠ key ++ "=" ++ w := by
    intro value
    unfold EnvironMap
    rw [foldl_last_entry _ step_apply key value env (fun _ => none)]
    constructor
    · rintro (⟨pre, e, post, hsplit, ⟨he, hk⟩, hpost⟩ | ⟨_, h⟩)
      · refine ⟨pre, post, by rw [hsplit, he], hk, ?_⟩
        intro x hx w hxw
        exact hpost x hx w ⟨hxw, hk⟩
      · cases h
    · rintro ⟨pre, post, hsplit, hk, hpost⟩
      exact Or.inl ⟨pre, _, post, hsplit, ⟨rfl, hk⟩, fun x hx w hq => hpost x hx w hq.1⟩
  refine ⟨hmain, ?_, ?_⟩
  · unfold EnvironMap
    rw [foldl_no_entry _ step_apply key env (fun _ => none)]
    constructor
    · rintro ⟨hall, _⟩
      by_cases hk : '=' ∈ key.data
      · exact Or.inl hk
      · exact Or.inr (fun e he w hew => hall e he w ⟨hew, hk⟩)
    · rintro (hk | hall)
      · exact ⟨fun _ _ _ hq => hq.2 hk, rfl⟩
      · exact ⟨fun e he w hq => hall e he w hq.1, rfl⟩
  · unfold EnvironMap
    rfl

end JsonTmpl

namespace JsonTmpl

open IMDSIpam

/-- C27: `iMDS.Metadata` returns an error exactly when its arguments are not
one string, and then no value. For one string, a path, it returns no error
and a value: the empty string when the error of the fetch is one that
`metadata.IsNotFound` accepts, and otherwise the text that the fetch returned,
whatever the error of the fetch. -/
theorem Metadata_error_iff (i : iMDS) :
    (∀ args, (i.Metadata args).2 ≠ none ↔ ¬ ∃ path, args = [JSON.string path]) ∧
    (∀ args, (i.Metadata args).2 ≠ none → (i.Metadata args).1 = none) ∧
    (∀ path, i.Metadata [JSON.string path] =
      (some (JSON.string (if i.IsNotFound (i.GetMetadataWithContext path).2 then ""
        else (i.GetMetadataWithContext path).1)), none)) ∧
    (i.Metadata [] = (none, some (Error.Errorf "expected single argument, got 0"))) ∧
    (i.Metadata [JSON.number "7"] = (none, some (Error.Errorf "expected string, got float64")))
    := by
  refine ⟨?_, ?_, ?_, rfl, rfl⟩
  · intro args
    unfold iMDS.Metadata
    split
    · rename_i arg
      cases arg <;> simp
      split <;> simp
    · rename_i hne
      simp only [ne_eq, reduceCtorEq, not_false_eq_true, true_iff]
      rintro ⟨path, rfl⟩
      exact hne _ rfl
  · intro args
    unfold iMDS.Metadata
    split
    · rename_i arg
      cases arg <;> simp
      split <;> simp
    · simp
  · intro path
    unfold iMDS.Metadata
    simp only []
    split <;> rfl

end JsonTmpl

namespace IMDSIpam

/-- The first row of a key is at the index that `ReleaseID` finds. -/
theorem findIdx_first (p : StoreRow → Bool) :
    ∀ (pre : List StoreRow) (row : StoreRow) (post : List StoreRow),
      (∀ r ∈ pre, p r = false) → p row = true →
      (pre ++ row :: post).findIdx? p = some pre.length
  | [], row, post, _, hrow => by simp [List.findIdx?_cons, hrow]
  | x :: pre, row, post, hpre, hrow => by
    have hx : p x = false := hpre x (List.mem_cons_self _ _)
    have ih := findIdx_first p pre row post (fun r hr => hpre r (List.mem_cons_of_mem _ hr)) hrow
    simp [List.findIdx?_cons, hx, ih]

/-- A list in which some element passes a test splits at the first such
element. -/
theorem split_first (p : StoreRow → Bool) :
    ∀ (l : List StoreRow), (∃ r ∈ l, p r = true) →
      ∃ pre row post, l = pre ++ row :: post ∧ (∀ r ∈ pre, p r = false) ∧ p row = true
  | [], h => by
    obtain ⟨r, hr, _⟩ := h
    cases hr
  | x :: rest, h => by
    by_cases hx : p x = true
    · exact ⟨[], x, rest, rfl, fun r hr => absurd hr (List.not_mem_nil r), hx⟩
    · have hrest : ∃ r ∈ rest, p r = true := by
        obtain ⟨r, hr, hp⟩ := h
        rcases List.mem_cons.1 hr with rfl | hr
        · exact absurd hp hx
        · exact ⟨r, hr, hp⟩
      obtain ⟨pre, row, post, hsplit, hpre, hrow⟩ := split_first p rest hrest
      refine ⟨x :: pre, row, post, by rw [hsplit]; rfl, ?_, hrow⟩
      intro r hr
      rcases List.mem_cons.1 hr with rfl | hr
      · simpa using hx
      · exact hpre r hr

/-- The slice after the row at the end of `pre` is overwritten with the last
row and the last slot is dropped. -/
theorem set_take_split (pre : List StoreRow) (row : StoreRow) :
    ∀ (post : List StoreRow),
      (pre ++ row :: post)[(pre ++ row :: post).length - 1]? =
          some ((post.getLast?).getD row) ∧
        ((pre ++ row :: post).set pre.length ((post.getLast?).getD row)).take
            ((pre ++ row :: post).length - 1) =
          (match post.getLast? with
            | none => pre
            | some last => pre ++ last :: post.dropLast) := by
  intro post
  rcases List.eq_nil_or_concat post with rfl | ⟨init, last, rfl⟩
  · simp
  · rw [List.concat_eq_append]
    have hg : (init ++ [last]).getLast? = some last := EgressV4.getLast_snoc init last
    have hl : (pre ++ row :: (init ++ [last])).getLast? = some last := by
      rw [show pre ++ row :: (init ++ [last]) = (pre ++ row :: init) ++ [last] by simp]
      exact EgressV4.getLast_snoc _ last
    refine ⟨?_, ?_⟩
    · rw [← List.getLast?_eq_getElem?, hl, hg]
      rfl
    · rw [hg]
      simp [List.take_append_eq_append_take]

/-- C28: `Store.ReleaseID(id, ifname)` on every store. Either no row is of
`(id, ifname)` and the store is as it was; or the rows are `pre`, a first row
of `(id, ifname)`, and `post`, and afterwards the rows are `pre`, then the
last row of `post` in the freed slot, then the rest of `post` (just `pre`
when the row was the last one): one row fewer, the first row of the key, each
other row kept once and as it was, and the other fields of the store
untouched. -/
theorem ReleaseID_first_row (s : Store) (id ifname : String) :
    ((∀ row ∈ s.data, ¬ (row.ID = id ∧ row.IfName = ifname)) ∧ s.ReleaseID id ifname = s) ∨
    (∃ pre row post, s.data = pre ++ row :: post ∧
      (∀ r ∈ pre, ¬ (r.ID = id ∧ r.IfName = ifname)) ∧ (row.ID = id ∧ row.IfName = ifname) ∧
      s.ReleaseID id ifname =
        { s with
          data := match post.getLast? with
            | none => pre
            | some last => pre ++ last :: post.dropLast } ∧
      (s.ReleaseID id ifname).data.Perm (pre ++ post) ∧
      (s.ReleaseID id ifname).data.length + 1 = s.data.length) := by
  by_cases hex : ∃ r ∈ s.data, (r.ID == id && r.IfName == ifname) = true
  · right
    obtain ⟨pre, row, post, hsplit, hpre, hrow⟩ :=
      split_first (fun r => r.ID == id && r.IfName == ifname) s.data hex
    have hidx := findIdx_first (fun r => r.ID == id && r.IfName == ifname) pre row post hpre hrow
    obtain ⟨hlast, htake⟩ := set_take_split pre row post
    have heq : s.ReleaseID id ifname =
        { s with
          data := match post.getLast? with
            | none => pre
            | some last => pre ++ last :: post.dropLast } := by
      unfold Store.ReleaseID
      rw [hsplit, hidx]
      simp only [hlast, htake]
    refine ⟨pre, row, post, hsplit, ?_, by simpa using hrow, heq, ?_, ?_⟩
    · intro r hr hkey
      have := hpre r hr
      simp [hkey.1, hkey.2] at this
    · rw [heq]
      show (match post.getLast? with
        | none => pre
        | some last => pre ++ last :: post.dropLast).Perm (pre ++ post)
      rcases List.eq_nil_or_concat post with rfl | ⟨init, last, rfl⟩
      · simp
      · rw [List.concat_eq_append]
        have hg : (init ++ [last]).getLast? = some last := EgressV4.getLast_snoc init last
        simp only [hg, List.dropLast_concat]
        exact List.Perm.append_left pre
          (List.perm_append_comm : ([last] ++ init).Perm (init ++ [last]))
    · rw [heq, hsplit]
      show (match post.getLast? with
        | none => pre
        | some last => pre ++ last :: post.dropLast).length + 1 = _
      rcases List.eq_nil_or_concat post with rfl | ⟨init, last, rfl⟩
      · simp
      · rw [List.concat_eq_append]
        have hg : (init ++ [last]).getLast? = some last := EgressV4.getLast_snoc init last
        simp only [hg, List.dropLast_concat]
        simp
        omega
  · left
    have hno : ∀ row ∈ s.data, ¬ (row.ID = id ∧ row.IfName = ifname) := by
      intro row hrow hkey
      exact hex ⟨row, hrow, by simp [hkey.1, hkey.2]⟩
    refine ⟨hno, ?_⟩
    unfold Store.ReleaseID
    have : s.data.findIdx? (fun row => row.ID == id && row.IfName == ifname) = none := by
      rw [List.findIdx?_eq_none_iff]
      intro x hx
      by_contra h
      exact hex ⟨x, hx, by simpa using h⟩
    rw [this]

/-- C29, a snapshot on which `Get` does not return: one ENI whose address list
is empty, for IPv4 and for IPv6. The statement `ips = ips[1:]` panics with
`slice bounds out of range [1:0]`, and the store is as it was. -/
theorem Get_panics_on_empty_list :
    IMDSAllocator.Get emptyListClient dottedString (constRand 0) (NewStore "/var/lib/cni/net")
        "c1" "eth0" "4" =
      (Outcome.panic "slice bounds out of range [1:0]", NewStore "/var/lib/cni/net") ∧
    IMDSAllocator.Get emptyListClient dottedString (constRand 0) (NewStore "/var/lib/cni/net")
        "c1" "eth0" "6" =
      (Outcome.panic "slice bounds out of range [1:0]", NewStore "/var/lib/cni/net") := by
  decide

end IMDSIpam
